import Mathlib

/-!
# Trainer suite of `cnn` (src/cnn/training.cc, src/cnn/model.h)

A shallow embedding of the host (non-CUDA) code path of the optimizers.

* `cnn::real` is an arbitrary linearly ordered field `α`; rounding is not modelled.
  The C library `sqrt` is a parameter `sqrt : α → α` of every definition that calls it.
* A `Tensor` is its flat coefficient buffer; Eigen coefficient-wise operations are
  `List.map` and `List.zipWith`.
* `std::unordered_map<unsigned, Tensor>` is the list of its entries in iteration order;
  its keys are pairwise distinct, which theorems assume where they need it.
* A range-`for` with a running counter `pi` is `forEachIdx`; the loop over the entries
  of `grads` is a left fold.
-/

namespace cnn

/-! ## Tensors and the Eigen operations used by training.cc -/

/-- Flat coefficient buffer of a `Tensor`. -/
abbrev Tensor (α : Type) := List α

section Ops
variable {α : Type} [LinearOrderedField α]

/-- Eigen `a + b`. -/
def tadd (a b : Tensor α) : Tensor α := List.zipWith (fun x y => x + y) a b

/-- Eigen `a - b`. -/
def tsub (a b : Tensor α) : Tensor α := List.zipWith (fun x y => x - y) a b

/-- Eigen `c * a` for a scalar `c`. -/
def smul (c : α) (a : Tensor α) : Tensor α := a.map (fun x => c * x)

/-- Eigen `a / c` for a scalar `c`. -/
def sdiv (a : Tensor α) (c : α) : Tensor α := a.map (fun x => x / c)

/-- Eigen unary minus. -/
def tneg (a : Tensor α) : Tensor α := a.map (fun x => -x)

/-- Eigen `a.cwiseProduct(b)`. -/
def cwiseProduct (a b : Tensor α) : Tensor α := List.zipWith (fun x y => x * y) a b

/-- Eigen `a.cwiseQuotient(b)`. -/
def cwiseQuotient (a b : Tensor α) : Tensor α := List.zipWith (fun x y => x / y) a b

/-- Eigen `a.cwiseSqrt()` (also `a.array().sqrt()`). -/
def cwiseSqrt (sqrt : α → α) (a : Tensor α) : Tensor α := a.map sqrt

/-- Eigen `a.array() + c` for a scalar `c`. -/
def arrayAdd (a : Tensor α) (c : α) : Tensor α := a.map (fun x => x + c)

/-- Eigen `a.squaredNorm()`. -/
def squaredNorm (a : Tensor α) : α := (a.map (fun x => x * x)).sum

end Ops

/-! ## Parameter model (src/cnn/model.h) -/

/-- Dense parameters: `dim`, `values`, `g` (the `name` is diagnostic only). -/
structure Parameters (α : Type) where
  dim : List Nat
  values : Tensor α
  g : Tensor α

/-- Sparse parameters: `dim`, the table `values`, and the map `grads` of the touched rows.
`values_for_non_zero_grads` is only read in the CUDA path. -/
structure LookupParameters (α : Type) where
  dim : List Nat
  values : List (Tensor α)
  grads : List (Nat × Tensor α)

/-- The lists `params` and `lookup_params` of a `Model`. -/
structure Model (α : Type) where
  params : List (Parameters α)
  lookup_params : List (LookupParameters α)

instance {α : Type} : Inhabited (Parameters α) := ⟨⟨[], [], []⟩⟩
instance {α : Type} : Inhabited (LookupParameters α) := ⟨⟨[], [], []⟩⟩

section ModelOps
variable {α : Type} [LinearOrderedField α]

/-- The expression `p->grads[i]` for a key `i` of the map. -/
def LookupParameters.grad (p : LookupParameters α) (i : Nat) : Tensor α :=
  (p.grads.lookup i).getD []

/-- The keys of `grads`, in iteration order. -/
def LookupParameters.touched (p : LookupParameters α) : List Nat :=
  p.grads.map Prod.fst

/-- Modelled from the spec: `Parameters::clear` (model.cc is not among the sources)
zeroes the gradient accumulator `g`. -/
def Parameters.clear (p : Parameters α) : Parameters α :=
  { p with g := p.g.map (fun _ => 0) }

/-- Modelled from the spec: `LookupParameters::clear` (model.cc is not among the sources)
empties the map `grads` and leaves the table `values` alone. -/
def LookupParameters.clear (p : LookupParameters α) : LookupParameters α :=
  { p with grads := [] }

/-- Modelled from the spec: `Model::gradient_l2_norm` (model.cc is not among the sources),
the square root of the sum of the squared norms of every dense gradient and of every
entry of every `grads` map. -/
def Model.gradient_l2_norm (sqrt : α → α) (m : Model α) : α :=
  sqrt ((m.params.map (fun p => squaredNorm p.g)).sum
    + (m.lookup_params.map (fun p => (p.grads.map (fun g => squaredNorm g.2)).sum)).sum)

/-- Modelled from the spec: `g_simple_clipping` (model.cc is not among the sources) bounds
the magnitude of every gradient coefficient by `threshold`. -/
def g_simple_clipping (threshold : α) (g : Tensor α) : Tensor α :=
  g.map (fun x => if x > threshold then threshold else if x < -threshold then -threshold else x)

/-- Modelled from the spec: `Model::simple_gradient_clipping` (model.cc is not among the
sources) applies `g_simple_clipping` to every dense gradient and every `grads` entry. -/
def Model.simple_gradient_clipping (m : Model α) (threshold : α) : Model α :=
  { params := m.params.map (fun p => { p with g := g_simple_clipping threshold p.g })
    lookup_params := m.lookup_params.map (fun p =>
      { p with grads := p.grads.map (fun g => (g.1, g_simple_clipping threshold g.2)) }) }

/-- The state that a `clear()` on every parameter of `m` leaves in `r`: the lists of `r`
are, position for position, results of `clear()` on as many dense parameters and tables
as `m` has, and every gradient of `r` is the one that `clear()` leaves on the parameter
of `m` at the same position. -/
def Model.gradients_cleared (m r : Model α) : Prop :=
  (∃ qs : List (Parameters α), qs.length = m.params.length ∧
    r.params = qs.map Parameters.clear) ∧
  (∃ ls : List (LookupParameters α), ls.length = m.lookup_params.length ∧
    r.lookup_params = ls.map LookupParameters.clear) ∧
  r.params.map Parameters.g = m.params.map (fun p => p.clear.g) ∧
  r.lookup_params.map LookupParameters.grads = m.lookup_params.map (fun p => p.clear.grads)

end ModelOps

/-! ## Loops -/

/-- The loop `for (auto x : xs) { body; pi++; }` with a running counter `pi` and a
state `s` that the body reads and writes; the body may also rewrite `*x`. -/
def forEachIdx {β σ : Type} (body : Nat → β → σ → β × σ) : List β → Nat → σ → List β × σ
  | [], _, s => ([], s)
  | x :: xs, pi, s =>
    let r := body pi x s
    let rs := forEachIdx body xs (pi + 1) r.2
    (r.1 :: rs.1, rs.2)

/-! ## Trainer base class (src/cnn/training.cc, lines 24-51) -/

/-- The two values of `clipping_type`; training.cc names `simple_clipping` only. -/
inductive ClippingType where
  | simple_clipping
  | norm_clipping
  deriving DecidableEq, Repr

/-- The members of `Trainer` that training.cc reads and writes (training.h is not among
the sources). The counters `clips` and `updates` only ever take `++`; they are natural
numbers here. -/
structure Trainer (α : Type) where
  eta : α
  lambda : α
  clipping_enabled : Bool
  clipping_type : ClippingType
  clip_threshold : α
  clips : Nat
  updates : Nat

section Clip
variable {α : Type} [LinearOrderedField α]

/-- The function `Trainer::clip_gradients(samples)`: returns `gscale`, the trainer (its
`clips` counter) and the model (its gradients, rewritten in the simple-clipping mode). -/
def Trainer.clip_gradients (sqrt : α → α) (tr : Trainer α) (m : Model α) (samples : α) :
    α × Trainer α × Model α :=
  if tr.clipping_enabled then
    if tr.clipping_type = ClippingType.simple_clipping then
      (1, tr, m.simple_gradient_clipping (tr.clip_threshold * samples))
    else
      let gg := m.gradient_l2_norm sqrt
      if gg > tr.clip_threshold * samples then
        ((tr.clip_threshold * samples) / gg, { tr with clips := tr.clips + 1 }, m)
      else (1, tr, m)
  else (1, tr, m)

/-- The function `Trainer::clip_gradients(samples, pre_compued_grd_norm)`: returns
`gscale` and the trainer (its `clips` counter). -/
def Trainer.clip_gradients_pre (tr : Trainer α) (samples pre_compued_grd_norm : α) :
    α × Trainer α :=
  if tr.clipping_enabled then
    let gg := pre_compued_grd_norm
    if gg > tr.clip_threshold * samples then
      ((tr.clip_threshold * samples) / gg, { tr with clips := tr.clips + 1 })
    else (1, tr)
  else (1, tr)

/-- The gradient that the loops of an `update` read in place of an accumulated gradient
`g` once `clip_gradients(samples)` has run: `simple_gradient_clipping` has rewritten it
in the simple-clipping mode, and it is `g` itself otherwise. -/
def Trainer.clipped (tr : Trainer α) (samples : α) (g : Tensor α) : Tensor α :=
  if tr.clipping_enabled = true ∧ tr.clipping_type = ClippingType.simple_clipping then
    g_simple_clipping (tr.clip_threshold * samples) g
  else g

end Clip

/-! ## SimpleSGDTrainer (training.cc, lines 53-109) -/

section SGD
variable {α : Type} [LinearOrderedField α]

/-- Body of the dense loop of `SimpleSGDTrainer::update` (lines 65-68). -/
def SimpleSGDTrainer.dense_body (eta lambda scale gscale nutt_scale : α)
    (p : Parameters α) : Parameters α :=
  let reg := smul lambda p.values
  let values := tsub p.values (tadd (smul (nutt_scale * (eta * scale * gscale)) p.g) reg)
  ({ p with values := values }).clear

/-- Body of the loop over `p->grads` of `SimpleSGDTrainer::update` (lines 85, 94-95). -/
def SimpleSGDTrainer.row_body (eta lambda scale gscale nutt_scale : α)
    (p : LookupParameters α) (values : List (Tensor α)) (i : Nat) : List (Tensor α) :=
  let reg := smul lambda (values.getD i [])
  values.set i (tsub (values.getD i [])
    (tadd (smul (eta * scale * gscale * nutt_scale) (p.grad i)) reg))

/-- Body of the loop over `lookup_params` of `SimpleSGDTrainer::update` (lines 83-99). -/
def SimpleSGDTrainer.lookup_body (eta lambda scale gscale nutt_scale : α)
    (p : LookupParameters α) : LookupParameters α :=
  let values := p.grads.foldl
    (fun values g => SimpleSGDTrainer.row_body eta lambda scale gscale nutt_scale p values g.1)
    p.values
  ({ p with values := values }).clear

/-- The function `SimpleSGDTrainer::update(lookup_params, params, samples, scale)` on the
lists of the trainer's model (the two-argument `update` passes exactly these). -/
def SimpleSGDTrainer.update (sqrt : α → α) (tr : Trainer α) (m : Model α) (samples scale : α) :
    Trainer α × Model α :=
  let c := tr.clip_gradients sqrt m samples
  let gscale := c.1
  let nutt_scale := 1 / samples
  let params := c.2.2.params.map
    (SimpleSGDTrainer.dense_body tr.eta tr.lambda scale gscale nutt_scale)
  let lookup_params := c.2.2.lookup_params.map
    (SimpleSGDTrainer.lookup_body tr.eta tr.lambda scale gscale nutt_scale)
  ({ c.2.1 with updates := c.2.1.updates + 1 },
   { params := params, lookup_params := lookup_params })

end SGD

/-! ## Shadow state (training.cc uses `AllocateShadowParameters` and
`AllocateShadowLookupParameters`; their file is not among the sources) -/

/-- The struct `ShadowParameters`: one tensor `h`. -/
structure ShadowParameters (α : Type) where
  h : Tensor α

/-- The struct `ShadowLookupParameters`: one tensor per row, `h`. -/
structure ShadowLookupParameters (α : Type) where
  h : List (Tensor α)

instance {α : Type} : Inhabited (ShadowParameters α) := ⟨⟨[]⟩⟩
instance {α : Type} : Inhabited (ShadowLookupParameters α) := ⟨⟨[]⟩⟩

section Shadow
variable {α : Type} [LinearOrderedField α]

/-- Modelled from the spec: `AllocateShadowParameters` (its file is not among the sources)
gives one zero tensor of the shape of each dense parameter. -/
def AllocateShadowParameters (m : Model α) : List (ShadowParameters α) :=
  m.params.map (fun p => ⟨p.values.map (fun _ => 0)⟩)

/-- Modelled from the spec: `AllocateShadowLookupParameters` (its file is not among the
sources) gives, for each lookup table, one zero tensor of the shape of each row. -/
def AllocateShadowLookupParameters (m : Model α) : List (ShadowLookupParameters α) :=
  m.lookup_params.map (fun p => ⟨p.values.map (fun r => r.map (fun _ => 0))⟩)

end Shadow

/-! ## MomentumSGDTrainer (training.cc, lines 111-160) -/

/-- The class `MomentumSGDTrainer`: the base members, `momentum` and the lazily allocated velocity. -/
structure MomentumSGDTrainer (α : Type) extends Trainer α where
  momentum : α
  velocity_allocated : Bool
  vp : List (ShadowParameters α)
  vlp : List (ShadowLookupParameters α)

section Momentum
variable {α : Type} [LinearOrderedField α]

/-- Modelled from the spec: the constructor of `MomentumSGDTrainer` (training.h is not
among the sources) leaves the shadow state unallocated, `velocity_allocated` false and no
velocity yet. -/
def MomentumSGDTrainer.init (base : Trainer α) (momentum : α) : MomentumSGDTrainer α :=
  { toTrainer := base, momentum := momentum, velocity_allocated := false, vp := [], vlp := [] }

/-- Body of the dense loop of `MomentumSGDTrainer::update` (lines 124-136). -/
def MomentumSGDTrainer.dense_body (eta lambda momentum scale gscale nutt_scale : α)
    (pi : Nat) (p : Parameters α) (vp : List (ShadowParameters α)) :
    Parameters α × List (ShadowParameters α) :=
  let v := (vp.getD pi default).h
  let reg := smul lambda p.values
  let v := tsub (smul momentum v) (smul (eta * scale * gscale * nutt_scale) p.g)
  let values := tadd p.values (tsub v reg)
  (({ p with values := values }).clear, vp.set pi ⟨v⟩)

/-- Body of the loop over `p->grads` of `MomentumSGDTrainer::update` (lines 142, 151-154). -/
def MomentumSGDTrainer.row_body (eta lambda momentum scale gscale nutt_scale : α)
    (p : LookupParameters α) (s : List (Tensor α) × List (Tensor α)) (i : Nat) :
    List (Tensor α) × List (Tensor α) :=
  let v := s.2.getD i []
  let reg := smul lambda (s.1.getD i [])
  let v := tsub (smul momentum v) (smul (eta * scale * gscale * nutt_scale) (p.grad i))
  (s.1.set i (tadd (s.1.getD i []) (tsub v reg)), s.2.set i v)

/-- Body of the loop over the lookup tables of `MomentumSGDTrainer::update`
(lines 139-158); the state is `(values, vx)`. -/
def MomentumSGDTrainer.lookup_body (eta lambda momentum scale gscale nutt_scale : α)
    (pi : Nat) (p : LookupParameters α) (vlp : List (ShadowLookupParameters α)) :
    LookupParameters α × List (ShadowLookupParameters α) :=
  let vx := (vlp.getD pi default).h
  let r := p.grads.foldl
    (fun s g => MomentumSGDTrainer.row_body eta lambda momentum scale gscale nutt_scale p s g.1)
    (p.values, vx)
  (({ p with values := r.1 }).clear, vlp.set pi ⟨r.2⟩)

/-- The lazy allocation at the head of `MomentumSGDTrainer::update` (lines 114-118). -/
def MomentumSGDTrainer.allocate (tr : MomentumSGDTrainer α) (m : Model α) :
    MomentumSGDTrainer α :=
  if !tr.velocity_allocated then
    { tr with vp := AllocateShadowParameters m, vlp := AllocateShadowLookupParameters m,
              velocity_allocated := true }
  else tr

/-- The function `MomentumSGDTrainer::update(nutt, scale)`. -/
def MomentumSGDTrainer.update (sqrt : α → α) (tr : MomentumSGDTrainer α) (m : Model α)
    (nutt scale : α) : MomentumSGDTrainer α × Model α :=
  let tr := tr.allocate m
  let c := tr.toTrainer.clip_gradients sqrt m nutt
  let gscale := c.1
  let nutt_scale := 1 / nutt
  let d := forEachIdx
    (MomentumSGDTrainer.dense_body tr.eta tr.lambda tr.momentum scale gscale nutt_scale)
    c.2.2.params 0 tr.vp
  let l := forEachIdx
    (MomentumSGDTrainer.lookup_body tr.eta tr.lambda tr.momentum scale gscale nutt_scale)
    c.2.2.lookup_params 0 tr.vlp
  ({ tr with toTrainer := { c.2.1 with updates := c.2.1.updates + 1 }, vp := d.2, vlp := l.2 },
   { params := d.1, lookup_params := l.1 })

end Momentum

/-! ## AdagradTrainer (training.cc, lines 162-198) -/

/-- The class `AdagradTrainer`: the base members, `epsilon` and the lazily allocated accumulator. -/
structure AdagradTrainer (α : Type) extends Trainer α where
  epsilon : α
  shadow_params_allocated : Bool
  vp : List (ShadowParameters α)
  vlp : List (ShadowLookupParameters α)

section Adagrad
variable {α : Type} [LinearOrderedField α]

/-- Body of the dense loop of `AdagradTrainer::update` (lines 173-179). The expressions
`reg`, `g2` and `delta` are unevaluated Eigen expressions: `delta` reads `v` when
`values` is assigned, after `(*v) += g2`. -/
def AdagradTrainer.dense_body (sqrt : α → α) (eta lambda epsilon scale gscale : α)
    (pi : Nat) (p : Parameters α) (vp : List (ShadowParameters α)) :
    Parameters α × List (ShadowParameters α) :=
  let v := (vp.getD pi default).h
  let reg := smul lambda p.values
  let g2 := cwiseProduct p.g p.g
  let v := tadd v g2
  let delta := smul (-(eta * scale * gscale))
    (cwiseQuotient p.g (cwiseSqrt sqrt (arrayAdd v epsilon)))
  let values := tadd p.values (tsub delta reg)
  (({ p with values := values }).clear, vp.set pi ⟨v⟩)

/-- Body of the loop over `p->grads` of `AdagradTrainer::update` (lines 186-192). -/
def AdagradTrainer.row_body (sqrt : α → α) (eta lambda epsilon scale gscale : α)
    (p : LookupParameters α) (s : List (Tensor α) × List (Tensor α)) (i : Nat) :
    List (Tensor α) × List (Tensor α) :=
  let v := s.2.getD i []
  let reg := smul lambda (s.1.getD i [])
  let g2 := cwiseProduct (p.grad i) (p.grad i)
  let v := tadd v g2
  let delta := smul (-(eta * scale * gscale))
    (cwiseQuotient (p.grad i) (cwiseSqrt sqrt (arrayAdd v epsilon)))
  (s.1.set i (tadd (s.1.getD i []) (tsub delta reg)), s.2.set i v)

/-- Body of the loop over the lookup tables of `AdagradTrainer::update` (lines 183-195);
the state is `(values, vx)`. -/
def AdagradTrainer.lookup_body (sqrt : α → α) (eta lambda epsilon scale gscale : α)
    (pi : Nat) (p : LookupParameters α) (vlp : List (ShadowLookupParameters α)) :
    LookupParameters α × List (ShadowLookupParameters α) :=
  let vx := (vlp.getD pi default).h
  let r := p.grads.foldl
    (fun s g => AdagradTrainer.row_body sqrt eta lambda epsilon scale gscale p s g.1)
    (p.values, vx)
  (({ p with values := r.1 }).clear, vlp.set pi ⟨r.2⟩)

/-- The lazy allocation at the head of `AdagradTrainer::update` (lines 164-168). -/
def AdagradTrainer.allocate (tr : AdagradTrainer α) (m : Model α) : AdagradTrainer α :=
  if !tr.shadow_params_allocated then
    { tr with vp := AllocateShadowParameters m, vlp := AllocateShadowLookupParameters m,
              shadow_params_allocated := true }
  else tr

/-- The function `AdagradTrainer::update(nsamples, scale)`. -/
def AdagradTrainer.update (sqrt : α → α) (tr : AdagradTrainer α) (m : Model α)
    (nsamples scale : α) : AdagradTrainer α × Model α :=
  let tr := tr.allocate m
  let c := tr.toTrainer.clip_gradients sqrt m nsamples
  let gscale := c.1
  let d := forEachIdx
    (AdagradTrainer.dense_body sqrt tr.eta tr.lambda tr.epsilon scale gscale)
    c.2.2.params 0 tr.vp
  let l := forEachIdx
    (AdagradTrainer.lookup_body sqrt tr.eta tr.lambda tr.epsilon scale gscale)
    c.2.2.lookup_params 0 tr.vlp
  ({ tr with toTrainer := { c.2.1 with updates := c.2.1.updates + 1 }, vp := d.2, vlp := l.2 },
   { params := d.1, lookup_params := l.1 })

end Adagrad

/-! ## AdadeltaTrainer (training.cc, lines 200-272) -/

/-- The class `AdadeltaTrainer`: the base members, `epsilon`, `rho` and the lazily allocated
averages `hg`, `hlg` (squared gradient) and `hd`, `hld` (squared update). -/
structure AdadeltaTrainer (α : Type) extends Trainer α where
  epsilon : α
  rho : α
  shadow_params_allocated : Bool
  hg : List (ShadowParameters α)
  hlg : List (ShadowLookupParameters α)
  hd : List (ShadowParameters α)
  hld : List (ShadowLookupParameters α)

section Adadelta
variable {α : Type} [LinearOrderedField α]

/-- The Eigen expression that lines 239-241 (261-263) bind to `delta`:
`num.cwiseQuotient(den)` with `num = -g.cwiseProduct(sqrt(hdv + epsilon))` and
`den = sqrt(hgv + epsilon)`. It is declared `auto`, so it is an expression template
that holds the maps of `hdv` and `hgv` and is evaluated at each use, from the
coefficients `hdv` and `hgv` hold at that moment. -/
def AdadeltaTrainer.delta (sqrt : α → α) (epsilon : α) (g hdv hgv : Tensor α) : Tensor α :=
  let num := tneg (cwiseProduct g (cwiseSqrt sqrt (arrayAdd hdv epsilon)))
  let den := cwiseSqrt sqrt (arrayAdd hgv epsilon)
  cwiseQuotient num den

/-- The three assignments of one Adadelta step (lines 238, 243, 244 and 260, 265, 266)
on `(values, hgv, hdv)`, with `g` the scaled gradient. Line 243 evaluates `delta` from
the `hdv` of before the step while it overwrites `hdv`; line 244 evaluates `delta` once
more, from the `hdv` that line 243 stored. -/
def AdadeltaTrainer.step (sqrt : α → α) (lambda epsilon rho : α)
    (g values hgv hdv : Tensor α) : Tensor α × Tensor α × Tensor α :=
  let reg := smul lambda values
  let g2 := cwiseProduct g g
  let hgv := tadd (smul rho hgv) (smul (1 - rho) g2)
  let d2 := cwiseProduct (AdadeltaTrainer.delta sqrt epsilon g hdv hgv)
    (AdadeltaTrainer.delta sqrt epsilon g hdv hgv)
  let hdv := tadd (smul rho hdv) (smul (1 - rho) d2)
  let values := tadd values (tsub (AdadeltaTrainer.delta sqrt epsilon g hdv hgv) reg)
  (values, hgv, hdv)

/-- Body of the dense loop of `AdadeltaTrainer::update` (lines 233-246); the state is
`(hg, hd)`. -/
def AdadeltaTrainer.dense_body (sqrt : α → α) (lambda epsilon rho scale gscale nutt_scale : α)
    (pi : Nat) (p : Parameters α) (s : List (ShadowParameters α) × List (ShadowParameters α)) :
    Parameters α × List (ShadowParameters α) × List (ShadowParameters α) :=
  let g := smul (scale * gscale * nutt_scale) p.g
  let hgv := (s.1.getD pi default).h
  let hdv := (s.2.getD pi default).h
  let r := AdadeltaTrainer.step sqrt lambda epsilon rho g p.values hgv hdv
  (({ p with values := r.1 }).clear, s.1.set pi ⟨r.2.1⟩, s.2.set pi ⟨r.2.2⟩)

/-- Body of the loop over `p->grads` of `AdadeltaTrainer::update` (lines 254-266); the
state is `(values, hgvx, hdvx)`. -/
def AdadeltaTrainer.row_body (sqrt : α → α) (lambda epsilon rho scale gscale nutt_scale : α)
    (p : LookupParameters α) (s : List (Tensor α) × List (Tensor α) × List (Tensor α))
    (i : Nat) : List (Tensor α) × List (Tensor α) × List (Tensor α) :=
  let hgv := s.2.1.getD i []
  let hdv := s.2.2.getD i []
  let g := smul (scale * gscale * nutt_scale) (p.grad i)
  let r := AdadeltaTrainer.step sqrt lambda epsilon rho g (s.1.getD i []) hgv hdv
  (s.1.set i r.1, s.2.1.set i r.2.1, s.2.2.set i r.2.2)

/-- Body of the loop over the lookup tables of `AdadeltaTrainer::update` (lines 250-270);
the state is `(hlg, hld)`. -/
def AdadeltaTrainer.lookup_body (sqrt : α → α)
    (lambda epsilon rho scale gscale nutt_scale : α) (pi : Nat) (p : LookupParameters α)
    (s : List (ShadowLookupParameters α) × List (ShadowLookupParameters α)) :
    LookupParameters α × List (ShadowLookupParameters α) × List (ShadowLookupParameters α) :=
  let hgvx := (s.1.getD pi default).h
  let hdvx := (s.2.getD pi default).h
  let r := p.grads.foldl
    (fun st q =>
      AdadeltaTrainer.row_body sqrt lambda epsilon rho scale gscale nutt_scale p st q.1)
    (p.values, hgvx, hdvx)
  (({ p with values := r.1 }).clear, s.1.set pi ⟨r.2.1⟩, s.2.set pi ⟨r.2.2⟩)

/-- The lazy allocation at the head of `AdadeltaTrainer::update` (lines 202-227). -/
def AdadeltaTrainer.allocate (tr : AdadeltaTrainer α) (m : Model α) : AdadeltaTrainer α :=
  if !tr.shadow_params_allocated then
    { tr with hg := AllocateShadowParameters m, hlg := AllocateShadowLookupParameters m,
              hd := AllocateShadowParameters m, hld := AllocateShadowLookupParameters m,
              shadow_params_allocated := true }
  else tr

/-- The function `AdadeltaTrainer::update(nutt, scale)`. -/
def AdadeltaTrainer.update (sqrt : α → α) (tr : AdadeltaTrainer α) (m : Model α)
    (nutt scale : α) : AdadeltaTrainer α × Model α :=
  let tr := tr.allocate m
  let c := tr.toTrainer.clip_gradients sqrt m nutt
  let gscale := c.1
  let nutt_scale := 1 / nutt
  let d := forEachIdx
    (AdadeltaTrainer.dense_body sqrt tr.lambda tr.epsilon tr.rho scale gscale nutt_scale)
    c.2.2.params 0 (tr.hg, tr.hd)
  let l := forEachIdx
    (AdadeltaTrainer.lookup_body sqrt tr.lambda tr.epsilon tr.rho scale gscale nutt_scale)
    c.2.2.lookup_params 0 (tr.hlg, tr.hld)
  ({ tr with toTrainer := { c.2.1 with updates := c.2.1.updates + 1 },
             hg := d.2.1, hd := d.2.2, hlg := l.2.1, hld := l.2.2 },
   { params := d.1, lookup_params := l.1 })

end Adadelta

/-! ## RmsPropTrainer (training.cc, lines 274-428) -/

/-- How a call that can fail ends: it returns, it throws, or it stores through a null
pointer (undefined behaviour). -/
inductive Outcome (β : Type) where
  | returned (b : β)
  | thrown (what : String)
  | null_store

/-- The class `RmsPropTrainer`: the base members, `epsilon`, `rho` and the lazily sized scalars
`hg` (one per dense parameter) and `hlg` (one per row of each lookup table). -/
structure RmsPropTrainer (α : Type) extends Trainer α where
  epsilon : α
  rho : α
  shadow_params_allocated : Bool
  hg : List α
  hlg : List (List α)

section RmsProp
variable {α : Type} [LinearOrderedField α]

/-- The function `RmsPropTrainer::compute_gradient_norm(plist, vpgrd_norm, llist,
vl_grd_norm)`, host path (lines 274-356). `v_norm_allocated` says whether `malloc` returned a buffer, and
`GPU_ALLOC_HOST_MEM_SIZE` is the macro of that name (its header is not among the
sources). When `malloc` returns null the code prints a message, builds a `runtime_error`
that it does not throw, and goes on to the stores `*(v_norm + pi) = g2`. The result is
`(vpgrd_norm, vl_grd_norm)`. -/
def RmsPropTrainer.compute_gradient_norm (v_norm_allocated : Bool)
    (GPU_ALLOC_HOST_MEM_SIZE : Nat) (plist : List (Parameters α))
    (llist : List (LookupParameters α)) : Outcome (List α × List α) :=
  let i_mdl_size0 := plist.length
  let i_mdl_size1 := (llist.map (fun p => p.grads.length)).sum
  let i_mdl_total_size := i_mdl_size0 + i_mdl_size1
  let v_norm := plist.map (fun p => squaredNorm p.g)
    ++ (llist.map (fun p => p.grads.map (fun g => squaredNorm (p.grad g.1)))).flatten
  if !v_norm_allocated && 0 < v_norm.length then Outcome.null_store
  else if i_mdl_total_size > GPU_ALLOC_HOST_MEM_SIZE then
    Outcome.thrown "out of memory for p_host_memory"
  else
    Outcome.returned ((List.range i_mdl_size0).map (fun i => v_norm.getD i 0),
      (List.range i_mdl_size1).map (fun i => v_norm.getD (i + i_mdl_size0) 0))

/-- Body of the dense loop of `RmsPropTrainer::update` (lines 389-399). -/
def RmsPropTrainer.dense_body (sqrt : α → α) (eta lambda epsilon rho scale gscale : α)
    (pi : Nat) (p : Parameters α) (hg : List α) : Parameters α × List α :=
  let d2 := hg.getD pi 0
  let reg := smul lambda p.values
  let g2 := squaredNorm p.g
  let d2 := rho * d2 + (1 - rho) * g2
  let values := tsub p.values
    (tadd (smul (eta * scale * gscale / sqrt (d2 + epsilon)) p.g) reg)
  (({ p with values := values }).clear, hg.set pi d2)

/-- Body of the loop over `p->grads` of `RmsPropTrainer::update` (lines 407-408,
417-420); the state is `(values, hlgx)`. The counter `li` is not read in the host path. -/
def RmsPropTrainer.row_body (sqrt : α → α) (eta lambda epsilon rho scale gscale : α)
    (p : LookupParameters α) (s : List (Tensor α) × List α) (i : Nat) :
    List (Tensor α) × List α :=
  let d2 := s.2.getD i 0
  let reg := smul lambda (s.1.getD i [])
  let g2 := squaredNorm (p.grad i)
  let d2 := rho * d2 + (1 - rho) * g2
  (s.1.set i (tsub (s.1.getD i [])
      (tadd (smul (eta * scale * gscale / sqrt (d2 + epsilon)) (p.grad i)) reg)),
   s.2.set i d2)

/-- Body of the loop over the lookup tables of `RmsPropTrainer::update` (lines 404-426). -/
def RmsPropTrainer.lookup_body (sqrt : α → α) (eta lambda epsilon rho scale gscale : α)
    (pi : Nat) (p : LookupParameters α) (hlg : List (List α)) :
    LookupParameters α × List (List α) :=
  let hlgx := hlg.getD pi []
  let r := p.grads.foldl
    (fun s g => RmsPropTrainer.row_body sqrt eta lambda epsilon rho scale gscale p s g.1)
    (p.values, hlgx)
  (({ p with values := r.1 }).clear, hlg.set pi r.2)

/-- The lazy sizing at the head of `RmsPropTrainer::update` (lines 361-371): `resize`
value-initialises the new scalars to zero. The length `p->size()` of `hlg[pi]` is
defined in model.cc (not among the sources); it is taken to be the number of rows, the
only slots that the loops address. -/
def RmsPropTrainer.allocate (tr : RmsPropTrainer α) (m : Model α) : RmsPropTrainer α :=
  if !tr.shadow_params_allocated then
    { tr with hg := m.params.map (fun _ => 0),
              hlg := m.lookup_params.map (fun p => p.values.map (fun _ => 0)),
              shadow_params_allocated := true }
  else tr

/-- Lines 378-427 of `RmsPropTrainer::update`: what the call does with the norms
`vpgrd_norm`, `vlgrd_norm` that `compute_gradient_norm` returned, on the trainer as the
lazy sizing left it. -/
def RmsPropTrainer.update_from (sqrt : α → α) (tr : RmsPropTrainer α) (m : Model α)
    (nutt scale : α) (vpgrd_norm vlgrd_norm : List α) : RmsPropTrainer α × Model α :=
  let gg := sqrt (vlgrd_norm.foldl (fun gg p => gg + p)
    (vpgrd_norm.foldl (fun gg p => gg + p) 0))
  let c := tr.toTrainer.clip_gradients_pre nutt gg
  let gscale := c.1
  let d := forEachIdx
    (RmsPropTrainer.dense_body sqrt tr.eta tr.lambda tr.epsilon tr.rho scale gscale)
    m.params 0 tr.hg
  let l := forEachIdx
    (RmsPropTrainer.lookup_body sqrt tr.eta tr.lambda tr.epsilon tr.rho scale gscale)
    m.lookup_params 0 tr.hlg
  ({ tr with toTrainer := { c.2 with updates := c.2.updates + 1 }, hg := d.2, hlg := l.2 },
   { params := d.1, lookup_params := l.1 })

/-- The function `RmsPropTrainer::update(nutt, scale)`: the lazy sizing,
`compute_gradient_norm`, and lines 378-427 if that call returns. -/
def RmsPropTrainer.update (sqrt : α → α) (v_norm_allocated : Bool)
    (GPU_ALLOC_HOST_MEM_SIZE : Nat) (tr : RmsPropTrainer α) (m : Model α)
    (nutt scale : α) : Outcome (RmsPropTrainer α × Model α) :=
  match RmsPropTrainer.compute_gradient_norm v_norm_allocated GPU_ALLOC_HOST_MEM_SIZE
      m.params m.lookup_params with
  | Outcome.null_store => Outcome.null_store
  | Outcome.thrown what => Outcome.thrown what
  | Outcome.returned (vpgrd_norm, vlgrd_norm) =>
    Outcome.returned
      (RmsPropTrainer.update_from sqrt (tr.allocate m) m nutt scale vpgrd_norm vlgrd_norm)

end RmsProp

/-! ## AdamTrainer (training.cc, lines 692-749) -/

/-- The class `AdamTrainer`: the base members, `beta_1`, `beta_2`, `eps` and the lazily allocated
moments `m`, `lm`, `v`, `lv`. The step count `t` is not a member: it is a `static`
local of `update`, shared by every call and every trainer. -/
structure AdamTrainer (α : Type) extends Trainer α where
  beta_1 : α
  beta_2 : α
  eps : α
  shadow_params_allocated : Bool
  m : List (ShadowParameters α)
  lm : List (ShadowLookupParameters α)
  v : List (ShadowParameters α)
  lv : List (ShadowLookupParameters α)

section Adam
variable {α : Type} [LinearOrderedField α]

/-- The assignments of one Adam step (lines 711-720 and 735-743) on `(values, m_t, v_t)`;
`m_t` and `v_t` are Eigen maps of the shadow tensors, so assigning them stores into the
shadow state, and `mhat`, `vhat`, `delta` are evaluated after both stores. -/
def AdamTrainer.step (sqrt : α → α) (eta lambda beta_1 beta_2 eps : α) (t : Nat)
    (g_t values m_t v_t : Tensor α) : Tensor α × Tensor α × Tensor α :=
  let reg := smul lambda values
  let m_t := tadd (smul beta_1 m_t) (smul (1 - beta_1) g_t)
  let g2 := cwiseProduct g_t g_t
  let v_t := tadd (smul beta_2 v_t) (smul (1 - beta_2) g2)
  let s1 := 1 - beta_1 ^ t
  let s2 := 1 - beta_2 ^ t
  let mhat := sdiv m_t s1
  let vhat := sdiv v_t s2
  let delta := cwiseQuotient (smul (-eta) mhat) (arrayAdd (cwiseSqrt sqrt vhat) eps)
  (tadd values (tsub delta reg), m_t, v_t)

/-- Body of the dense loop of `AdamTrainer::update` (lines 707-722); the state is
`(t, m, v)` and `++t` is the first statement of the body (`t` is `unsigned`). -/
def AdamTrainer.dense_body (sqrt : α → α)
    (eta lambda beta_1 beta_2 eps scale gscale nutt_scale : α) (pi : Nat) (p : Parameters α)
    (s : Nat × List (ShadowParameters α) × List (ShadowParameters α)) :
    Parameters α × Nat × List (ShadowParameters α) × List (ShadowParameters α) :=
  let t := (s.1 + 1) % 4294967296
  let g_t := smul (scale * gscale * nutt_scale) p.g
  let m_t := (s.2.1.getD pi default).h
  let v_t := (s.2.2.getD pi default).h
  let r := AdamTrainer.step sqrt eta lambda beta_1 beta_2 eps t g_t p.values m_t v_t
  (({ p with values := r.1 }).clear, t, s.2.1.set pi ⟨r.2.1⟩, s.2.2.set pi ⟨r.2.2⟩)

/-- Body of the loop over `p->grads` of `AdamTrainer::update` (lines 730-743); the state
is `(values, vm, vv)` and `t` is read, not incremented. -/
def AdamTrainer.row_body (sqrt : α → α)
    (eta lambda beta_1 beta_2 eps scale gscale nutt_scale : α) (t : Nat)
    (p : LookupParameters α) (s : List (Tensor α) × List (Tensor α) × List (Tensor α))
    (i : Nat) : List (Tensor α) × List (Tensor α) × List (Tensor α) :=
  let m_t := s.2.1.getD i []
  let v_t := s.2.2.getD i []
  let g_t := smul (scale * gscale * nutt_scale) (p.grad i)
  let r := AdamTrainer.step sqrt eta lambda beta_1 beta_2 eps t g_t (s.1.getD i []) m_t v_t
  (s.1.set i r.1, s.2.1.set i r.2.1, s.2.2.set i r.2.2)

/-- Body of the loop over the lookup tables of `AdamTrainer::update` (lines 726-747);
the state is `(lm, lv)`. -/
def AdamTrainer.lookup_body (sqrt : α → α)
    (eta lambda beta_1 beta_2 eps scale gscale nutt_scale : α) (t : Nat) (pi : Nat)
    (p : LookupParameters α)
    (s : List (ShadowLookupParameters α) × List (ShadowLookupParameters α)) :
    LookupParameters α × List (ShadowLookupParameters α) × List (ShadowLookupParameters α) :=
  let vm := (s.1.getD pi default).h
  let vv := (s.2.getD pi default).h
  let r := p.grads.foldl
    (fun st g =>
      AdamTrainer.row_body sqrt eta lambda beta_1 beta_2 eps scale gscale nutt_scale t p st g.1)
    (p.values, vm, vv)
  (({ p with values := r.1 }).clear, s.1.set pi ⟨r.2.1⟩, s.2.set pi ⟨r.2.2⟩)

/-- The lazy allocation at the head of `AdamTrainer::update` (lines 694-700). -/
def AdamTrainer.allocate (tr : AdamTrainer α) (model : Model α) : AdamTrainer α :=
  if !tr.shadow_params_allocated then
    { tr with m := AllocateShadowParameters model, lm := AllocateShadowLookupParameters model,
              v := AllocateShadowParameters model, lv := AllocateShadowLookupParameters model,
              shadow_params_allocated := true }
  else tr

/-- The function `AdamTrainer::update(nutt, scale)`. The static `t` goes in and comes out;
`clip_samples` is the default argument that the call `clip_gradients()` takes from the
declaration in training.h (not among the sources). -/
def AdamTrainer.update (sqrt : α → α) (clip_samples : α) (tr : AdamTrainer α) (t : Nat)
    (model : Model α) (nutt scale : α) : AdamTrainer α × Nat × Model α :=
  let tr := tr.allocate model
  let c := tr.toTrainer.clip_gradients sqrt model clip_samples
  let gscale := c.1
  let nutt_scale := 1 / nutt
  let d := forEachIdx
    (AdamTrainer.dense_body sqrt tr.eta tr.lambda tr.beta_1 tr.beta_2 tr.eps scale gscale
      nutt_scale)
    c.2.2.params 0 (t, tr.m, tr.v)
  let t := d.2.1
  let l := forEachIdx
    (AdamTrainer.lookup_body sqrt tr.eta tr.lambda tr.beta_1 tr.beta_2 tr.eps scale gscale
      nutt_scale t)
    c.2.2.lookup_params 0 (tr.lm, tr.lv)
  ({ tr with toTrainer := { c.2.1 with updates := c.2.1.updates + 1 },
             m := d.2.2.1, v := d.2.2.2, lm := l.2.1, lv := l.2.2 },
   t, { params := d.1, lookup_params := l.1 })

end Adam

/-! ## RmsPropWithMomentumTrainer (training.cc, lines 430-518) -/

/-- The class `RmsPropWithMomentumTrainer`: the base members, `epsilon`, `rho`, `momentum`,
the lazily sized scalars `hg`, `hlg` and the lazily allocated velocities `vp`, `vlp`. -/
structure RmsPropWithMomentumTrainer (α : Type) extends Trainer α where
  epsilon : α
  rho : α
  momentum : α
  shadow_params_allocated : Bool
  hg : List α
  hlg : List (List α)
  vp : List (ShadowParameters α)
  vlp : List (ShadowLookupParameters α)

section RmsPropWithMomentum
variable {α : Type} [LinearOrderedField α]

/-- The assignments of one step (lines 473-479 and 506-510) on `(values, d2, v)` for the
gradient `G` and the squared norm `g2` read from `vpgrd_norm` or `vlgrd_norm`. -/
def RmsPropWithMomentumTrainer.step (sqrt : α → α)
    (eta lambda epsilon rho momentum scale gscale : α) (G : Tensor α) (g2 : α)
    (values : Tensor α) (d2 : α) (v : Tensor α) : Tensor α × α × Tensor α :=
  let reg := smul lambda values
  let d2 := rho * d2 + (1 - rho) * g2
  let v := tsub (smul momentum v) (smul (eta * scale * gscale / sqrt (d2 + epsilon)) G)
  (tadd values (tsub v reg), d2, v)

/-- Body of the dense loop of `RmsPropWithMomentumTrainer::update` (lines 467-483); the
state is `(hg, vp)`. -/
def RmsPropWithMomentumTrainer.dense_body (sqrt : α → α)
    (eta lambda epsilon rho momentum scale gscale : α) (vpgrd_norm : List α)
    (pi : Nat) (p : Parameters α) (s : List α × List (ShadowParameters α)) :
    Parameters α × List α × List (ShadowParameters α) :=
  let d2 := s.1.getD pi 0
  let v := (s.2.getD pi default).h
  let g2 := vpgrd_norm.getD pi 0
  let r := RmsPropWithMomentumTrainer.step sqrt eta lambda epsilon rho momentum scale gscale
    p.g g2 p.values d2 v
  (({ p with values := r.1 }).clear, s.1.set pi r.2.1, s.2.set pi ⟨r.2.2⟩)

/-- Body of the loop over `p->grads` of `RmsPropWithMomentumTrainer::update`
(lines 491-493, 506-512); the state is `(values, hlgx, vx, li)`. -/
def RmsPropWithMomentumTrainer.row_body (sqrt : α → α)
    (eta lambda epsilon rho momentum scale gscale : α) (vlgrd_norm : List α)
    (p : LookupParameters α) (s : List (Tensor α) × List α × List (Tensor α) × Nat)
    (i : Nat) : List (Tensor α) × List α × List (Tensor α) × Nat :=
  let v := s.2.2.1.getD i []
  let d2 := s.2.1.getD i 0
  let g2 := vlgrd_norm.getD s.2.2.2 0
  let r := RmsPropWithMomentumTrainer.step sqrt eta lambda epsilon rho momentum scale gscale
    (p.grad i) g2 (s.1.getD i []) d2 v
  (s.1.set i r.1, s.2.1.set i r.2.1, s.2.2.1.set i r.2.2, s.2.2.2 + 1)

/-- Body of the loop over the lookup tables of `RmsPropWithMomentumTrainer::update`
(lines 487-515); the state is `(li, hlg, vlp)`. -/
def RmsPropWithMomentumTrainer.lookup_body (sqrt : α → α)
    (eta lambda epsilon rho momentum scale gscale : α) (vlgrd_norm : List α)
    (pi : Nat) (p : LookupParameters α)
    (s : Nat × List (List α) × List (ShadowLookupParameters α)) :
    LookupParameters α × Nat × List (List α) × List (ShadowLookupParameters α) :=
  let hlgx := s.2.1.getD pi []
  let vx := (s.2.2.getD pi default).h
  let r := p.grads.foldl
    (fun st g => RmsPropWithMomentumTrainer.row_body sqrt eta lambda epsilon rho momentum
      scale gscale vlgrd_norm p st g.1)
    (p.values, hlgx, vx, s.1)
  (({ p with values := r.1 }).clear, r.2.2.2, s.2.1.set pi r.2.1, s.2.2.set pi ⟨r.2.2.1⟩)

/-- The lazy allocation at the head of `RmsPropWithMomentumTrainer::update`
(lines 433-446); the length `p->size()` of `hlg[pi]` is taken as in
`RmsPropTrainer.allocate`. -/
def RmsPropWithMomentumTrainer.allocate (tr : RmsPropWithMomentumTrainer α) (m : Model α) :
    RmsPropWithMomentumTrainer α :=
  if !tr.shadow_params_allocated then
    { tr with hg := m.params.map (fun _ => 0),
              hlg := m.lookup_params.map (fun p => p.values.map (fun _ => 0)),
              vp := AllocateShadowParameters m, vlp := AllocateShadowLookupParameters m,
              shadow_params_allocated := true }
  else tr

/-- Lines 453-517 of `RmsPropWithMomentumTrainer::update`: what the call does with the
norms `vpgrd_norm`, `vlgrd_norm` that `compute_gradient_norm` returned, on the trainer as
the lazy allocation left it. -/
def RmsPropWithMomentumTrainer.update_from (sqrt : α → α)
    (tr : RmsPropWithMomentumTrainer α) (m : Model α) (nutt scale : α)
    (vpgrd_norm vlgrd_norm : List α) : RmsPropWithMomentumTrainer α × Model α :=
  let gg := sqrt (vlgrd_norm.foldl (fun gg p => gg + p)
    (vpgrd_norm.foldl (fun gg p => gg + p) 0))
  let c := tr.toTrainer.clip_gradients_pre nutt gg
  let gscale := c.1
  let d := forEachIdx
    (RmsPropWithMomentumTrainer.dense_body sqrt tr.eta tr.lambda tr.epsilon tr.rho
      tr.momentum scale gscale vpgrd_norm)
    m.params 0 (tr.hg, tr.vp)
  let l := forEachIdx
    (RmsPropWithMomentumTrainer.lookup_body sqrt tr.eta tr.lambda tr.epsilon tr.rho
      tr.momentum scale gscale vlgrd_norm)
    m.lookup_params 0 (0, tr.hlg, tr.vlp)
  ({ tr with toTrainer := { c.2 with updates := c.2.updates + 1 },
             hg := d.2.1, vp := d.2.2, hlg := l.2.2.1, vlp := l.2.2.2 },
   { params := d.1, lookup_params := l.1 })

/-- The function `RmsPropWithMomentumTrainer::update(nutt, scale)`: the lazy allocation,
`compute_gradient_norm` (the four-argument function of `RmsPropTrainer`), and lines
453-517 if that call returns. -/
def RmsPropWithMomentumTrainer.update (sqrt : α → α) (v_norm_allocated : Bool)
    (GPU_ALLOC_HOST_MEM_SIZE : Nat) (tr : RmsPropWithMomentumTrainer α) (m : Model α)
    (nutt scale : α) : Outcome (RmsPropWithMomentumTrainer α × Model α) :=
  match RmsPropTrainer.compute_gradient_norm v_norm_allocated GPU_ALLOC_HOST_MEM_SIZE
      m.params m.lookup_params with
  | Outcome.null_store => Outcome.null_store
  | Outcome.thrown what => Outcome.thrown what
  | Outcome.returned (vpgrd_norm, vlgrd_norm) =>
    Outcome.returned
      (RmsPropWithMomentumTrainer.update_from sqrt (tr.allocate m) m nutt scale
        vpgrd_norm vlgrd_norm)

/-- Following the claim that each touched row is updated from its own gradient: the body
of the loop over `p->grads` with the squared norm of `p->grads[i]` in the place of
`vlgrd_norm[li]`; the state is `(values, hlgx, vx)`. -/
def RmsPropWithMomentumTrainer.row_body_own (sqrt : α → α)
    (eta lambda epsilon rho momentum scale gscale : α)
    (p : LookupParameters α) (s : List (Tensor α) × List α × List (Tensor α))
    (i : Nat) : List (Tensor α) × List α × List (Tensor α) :=
  (s.1.set i (RmsPropWithMomentumTrainer.step sqrt eta lambda epsilon rho momentum scale
      gscale (p.grad i) (squaredNorm (p.grad i)) (s.1.getD i []) (s.2.1.getD i 0)
      (s.2.2.getD i [])).1,
   s.2.1.set i (RmsPropWithMomentumTrainer.step sqrt eta lambda epsilon rho momentum scale
      gscale (p.grad i) (squaredNorm (p.grad i)) (s.1.getD i []) (s.2.1.getD i 0)
      (s.2.2.getD i [])).2.1,
   s.2.2.set i (RmsPropWithMomentumTrainer.step sqrt eta lambda epsilon rho momentum scale
      gscale (p.grad i) (squaredNorm (p.grad i)) (s.1.getD i []) (s.2.1.getD i 0)
      (s.2.2.getD i [])).2.2)

/-- Following the claim that each touched row is updated from its own gradient: the body
of the loop over the lookup tables built on `row_body_own`; the state is `(hlg, vlp)`. -/
def RmsPropWithMomentumTrainer.lookup_body_own (sqrt : α → α)
    (eta lambda epsilon rho momentum scale gscale : α)
    (pi : Nat) (p : LookupParameters α)
    (s : List (List α) × List (ShadowLookupParameters α)) :
    LookupParameters α × List (List α) × List (ShadowLookupParameters α) :=
  (({ p with values := (p.grads.foldl
      (fun st (g : Nat × Tensor α) => RmsPropWithMomentumTrainer.row_body_own sqrt eta lambda epsilon rho
        momentum scale gscale p st g.1)
      (p.values, s.1.getD pi [], (s.2.getD pi default).h)).1 }).clear,
   s.1.set pi (p.grads.foldl
      (fun st (g : Nat × Tensor α) => RmsPropWithMomentumTrainer.row_body_own sqrt eta lambda epsilon rho
        momentum scale gscale p st g.1)
      (p.values, s.1.getD pi [], (s.2.getD pi default).h)).2.1,
   s.2.set pi ⟨(p.grads.foldl
      (fun st (g : Nat × Tensor α) => RmsPropWithMomentumTrainer.row_body_own sqrt eta lambda epsilon rho
        momentum scale gscale p st g.1)
      (p.values, s.1.getD pi [], (s.2.getD pi default).h)).2.2⟩)

end RmsPropWithMomentum

/-! ## RmsPropWithMomentumTrainerGPU, host path (training.cc, lines 519-690) -/

/-- The class `RmsPropWithMomentumTrainerGPU`: the base members, `epsilon`, `rho`,
`momentum`, the lazily allocated arrays `hg` (one scalar per dense parameter) and `hlg`
(one array per lookup table) and the lazily allocated velocities `vp`, `vlp`. -/
structure RmsPropWithMomentumTrainerGPU (α : Type) extends Trainer α where
  epsilon : α
  rho : α
  momentum : α
  shadow_params_allocated : Bool
  hg : List α
  hlg : List (List α)
  vp : List (ShadowParameters α)
  vlp : List (ShadowLookupParameters α)

section RmsPropWithMomentumGPU
variable {α : Type} [LinearOrderedField α]

/-- The function `RmsPropWithMomentumTrainerGPU::compute_gradient_norm` (lines 520-549),
host path: the arrays `ptr_gnorm` and `ptr_gnorm_lookup` that it fills. -/
def RmsPropWithMomentumTrainerGPU.compute_gradient_norm (plist : List (Parameters α))
    (llist : List (LookupParameters α)) : List α × List α :=
  (plist.map (fun p => squaredNorm p.g),
   (llist.map (fun p => p.grads.map (fun g => squaredNorm (p.grad g.1)))).flatten)

/-- The lazy allocation at the head of `RmsPropWithMomentumTrainerGPU::update`
(lines 554-578), host path: `hg` and every `hlg[pi]` are set to zero by `memset`; the
length `p->size()` of `hlg[pi]` is taken as in `RmsPropTrainer.allocate`. -/
def RmsPropWithMomentumTrainerGPU.allocate (tr : RmsPropWithMomentumTrainerGPU α)
    (m : Model α) : RmsPropWithMomentumTrainerGPU α :=
  if !tr.shadow_params_allocated then
    { tr with hg := m.params.map (fun _ => 0),
              hlg := m.lookup_params.map (fun p => p.values.map (fun _ => 0)),
              vp := AllocateShadowParameters m, vlp := AllocateShadowLookupParameters m,
              shadow_params_allocated := true }
  else tr

/-- Lines 580-609 of `RmsPropWithMomentumTrainerGPU::update`, host path: the two arrays
of squared norms, their sum `gg` taken by the two index loops, and the call
`clip_gradients(nutt, gg)`. The result is `(gscale, trainer base, vpgrd_each_norm,
vlgrd_each_norm)`; the arena `glb_temp_working_mem` is taken to hand out the two arrays. -/
def RmsPropWithMomentumTrainerGPU.clip (sqrt : α → α) (tr : RmsPropWithMomentumTrainerGPU α)
    (m : Model α) (nutt : α) : α × Trainer α × List α × List α :=
  let sz_vpgrd_norm := m.params.length
  let sz_vlgrd_norm := (m.lookup_params.map (fun p => p.grads.length)).sum
  let n := RmsPropWithMomentumTrainerGPU.compute_gradient_norm m.params m.lookup_params
  let gg := (List.range sz_vpgrd_norm).foldl (fun gg kk => gg + n.1.getD kk 0) 0
  let gg := (List.range sz_vlgrd_norm).foldl (fun gg kk => gg + n.2.getD kk 0) gg
  let gg := sqrt gg
  let c := tr.toTrainer.clip_gradients_pre nutt gg
  (c.1, c.2, n.1, n.2)

/-- Body of the dense loop of `RmsPropWithMomentumTrainerGPU::update` (lines 621-644),
host path; the state is `(hg, vp)`. -/
def RmsPropWithMomentumTrainerGPU.dense_body (sqrt : α → α)
    (eta lambda epsilon rho momentum scale gscale : α) (vpgrd_each_norm : List α)
    (pi : Nat) (p : Parameters α) (s : List α × List (ShadowParameters α)) :
    Parameters α × List α × List (ShadowParameters α) :=
  let v := (s.2.getD pi default).h
  let reg := smul lambda p.values
  let g2 := vpgrd_each_norm.getD pi 0
  let hg_pi := rho * s.1.getD pi 0 + (1 - rho) * g2
  let v := tsub (smul momentum v) (smul (eta * scale * gscale / sqrt (hg_pi + epsilon)) p.g)
  let values := tadd p.values (tsub v reg)
  (({ p with values := values }).clear, s.1.set pi hg_pi, s.2.set pi ⟨v⟩)

/-- Body of the loop over `p->grads` of `RmsPropWithMomentumTrainerGPU::update`
(lines 652-679), host path; the state is `(values, hlgx, vx, li)`. -/
def RmsPropWithMomentumTrainerGPU.row_body (sqrt : α → α)
    (eta lambda epsilon rho momentum scale gscale : α) (vlgrd_each_norm : List α)
    (p : LookupParameters α) (s : List (Tensor α) × List α × List (Tensor α) × Nat)
    (i : Nat) : List (Tensor α) × List α × List (Tensor α) × Nat :=
  let v := s.2.2.1.getD i []
  let reg := smul lambda (s.1.getD i [])
  let g2 := vlgrd_each_norm.getD s.2.2.2 0
  let d2 := rho * s.2.1.getD i 0 + (1 - rho) * g2
  let v := tsub (smul momentum v) (smul (eta * scale * gscale / sqrt (d2 + epsilon)) (p.grad i))
  (s.1.set i (tadd (s.1.getD i []) (tsub v reg)), s.2.1.set i d2, s.2.2.1.set i v,
   s.2.2.2 + 1)

/-- Body of the loop over the lookup tables of `RmsPropWithMomentumTrainerGPU::update`
(lines 648-683), host path; the state is `(li, hlg, vlp)`. -/
def RmsPropWithMomentumTrainerGPU.lookup_body (sqrt : α → α)
    (eta lambda epsilon rho momentum scale gscale : α) (vlgrd_each_norm : List α)
    (pi : Nat) (p : LookupParameters α)
    (s : Nat × List (List α) × List (ShadowLookupParameters α)) :
    LookupParameters α × Nat × List (List α) × List (ShadowLookupParameters α) :=
  let vx := (s.2.2.getD pi default).h
  let hlgx := s.2.1.getD pi []
  let r := p.grads.foldl
    (fun st g => RmsPropWithMomentumTrainerGPU.row_body sqrt eta lambda epsilon rho momentum
      scale gscale vlgrd_each_norm p st g.1)
    (p.values, hlgx, vx, s.1)
  (({ p with values := r.1 }).clear, r.2.2.2, s.2.1.set pi r.2.1, s.2.2.set pi ⟨r.2.2.1⟩)

/-- The function `RmsPropWithMomentumTrainerGPU::update(nutt, scale)`, host path. -/
def RmsPropWithMomentumTrainerGPU.update (sqrt : α → α)
    (tr : RmsPropWithMomentumTrainerGPU α) (m : Model α) (nutt scale : α) :
    RmsPropWithMomentumTrainerGPU α × Model α :=
  let tr := tr.allocate m
  let c := RmsPropWithMomentumTrainerGPU.clip sqrt tr m nutt
  let gscale := c.1
  let d := forEachIdx
    (RmsPropWithMomentumTrainerGPU.dense_body sqrt tr.eta tr.lambda tr.epsilon tr.rho
      tr.momentum scale gscale c.2.2.1)
    m.params 0 (tr.hg, tr.vp)
  let l := forEachIdx
    (RmsPropWithMomentumTrainerGPU.lookup_body sqrt tr.eta tr.lambda tr.epsilon tr.rho
      tr.momentum scale gscale c.2.2.2)
    m.lookup_params 0 (0, tr.hlg, tr.vlp)
  ({ tr with toTrainer := { c.2.1 with updates := c.2.1.updates + 1 },
             hg := d.2.1, vp := d.2.2, hlg := l.2.2.1, vlp := l.2.2.2 },
   { params := d.1, lookup_params := l.1 })

end RmsPropWithMomentumGPU

/-! ## Persistence (src/cnn/model.h, lines 63-66, 103-126, 162-187) -/

/-- One object of a boost archive: what one `ar & x` writes or reads, for `x` an `int`,
a `Dim` or a `Tensor`. -/
inductive ArchiveItem (α : Type) where
  | int (n : Int)
  | dim (d : List Nat)
  | tensor (t : Tensor α)

/-- How a load ends when it does not return: by a failed `assert` (the build has no
`NDEBUG`), or by the exception of the archive when the next object is missing or is of
another type. -/
inductive LoadError where
  | assertion_failed
  | archive_exception
  deriving DecidableEq, Repr

section Persistence
variable {α : Type}

/-- The conversion `(int) v.size()` of a `size_t` to a 32-bit two's-complement `int`. -/
def int_of_size (n : Nat) : Int := ((n : Int) + 2147483648) % 4294967296 - 2147483648

/-- The read `ar & n` of an `int`. -/
def read_int : List (ArchiveItem α) → Except LoadError (Int × List (ArchiveItem α))
  | ArchiveItem.int n :: rest => Except.ok (n, rest)
  | _ => Except.error LoadError.archive_exception

/-- Modelled from the spec: the read `ar & dim` of a `Dim` (dim.h is not among the
sources) replaces the shape by the stored one. -/
def read_dim : List (ArchiveItem α) → Except LoadError (List Nat × List (ArchiveItem α))
  | ArchiveItem.dim d :: rest => Except.ok (d, rest)
  | _ => Except.error LoadError.archive_exception

/-- Modelled from the spec: the read `ar & t` of a `Tensor` (tensor.h is not among the
sources) replaces the tensor by the stored raw values. -/
def read_tensor : List (ArchiveItem α) → Except LoadError (Tensor α × List (ArchiveItem α))
  | ArchiveItem.tensor t :: rest => Except.ok (t, rest)
  | _ => Except.error LoadError.archive_exception

/-- The loop `for (i = 0; i < xs.size(); ++i) ar & xs[i]` on an input archive: every
element is read in turn into the existing object; the first failure ends the load. -/
def load_each {β : Type}
    (f : β → List (ArchiveItem α) → Except LoadError (β × List (ArchiveItem α))) :
    List β → List (ArchiveItem α) → Except LoadError (List β × List (ArchiveItem α))
  | [], ar => Except.ok ([], ar)
  | x :: xs, ar =>
    match f x ar with
    | Except.error e => Except.error e
    | Except.ok (y, ar1) =>
      match load_each f xs ar1 with
      | Except.error e => Except.error e
      | Except.ok (ys, ar2) => Except.ok (y :: ys, ar2)

/-- The function `Parameters::serialize` (lines 63-66) on an output archive. -/
def Parameters.serialize_save (p : Parameters α) : List (ArchiveItem α) :=
  [ArchiveItem.dim p.dim, ArchiveItem.tensor p.values]

/-- The function `Parameters::serialize` (lines 63-66) on an input archive. -/
def Parameters.serialize_load (p : Parameters α) (ar : List (ArchiveItem α)) :
    Except LoadError (Parameters α × List (ArchiveItem α)) :=
  match read_dim ar with
  | Except.error e => Except.error e
  | Except.ok (dim, ar1) =>
    match read_tensor ar1 with
    | Except.error e => Except.error e
    | Except.ok (values, ar2) => Except.ok ({ p with dim := dim, values := values }, ar2)

/-- The function `LookupParameters::save` (lines 104-112). -/
def LookupParameters.save (p : LookupParameters α) : List (ArchiveItem α) :=
  ArchiveItem.dim p.dim :: ArchiveItem.int (int_of_size p.values.length) ::
    p.values.map ArchiveItem.tensor

/-- The function `LookupParameters::load` (lines 114-126). -/
def LookupParameters.load (p : LookupParameters α) (ar : List (ArchiveItem α)) :
    Except LoadError (LookupParameters α × List (ArchiveItem α)) :=
  match read_dim ar with
  | Except.error e => Except.error e
  | Except.ok (dim, ar1) =>
    match read_int ar1 with
    | Except.error e => Except.error e
    | Except.ok (nv, ar2) =>
      if nv = int_of_size p.values.length then
        match load_each (fun _ a => read_tensor a) p.values ar2 with
        | Except.error e => Except.error e
        | Except.ok (values, ar3) => Except.ok ({ p with dim := dim, values := values }, ar3)
      else Except.error LoadError.assertion_failed

/-- The function `Model::save` (lines 163-172). -/
def Model.save (m : Model α) : List (ArchiveItem α) :=
  ArchiveItem.int (int_of_size m.params.length) ::
    ArchiveItem.int (int_of_size m.lookup_params.length) ::
    (m.params.flatMap Parameters.serialize_save ++ m.lookup_params.flatMap LookupParameters.save)

/-- The function `Model::load` (lines 174-187). The list `all_params` that it rebuilds
is the concatenation of the two lists of the model. -/
def Model.load (m : Model α) (ar : List (ArchiveItem α)) :
    Except LoadError (Model α × List (ArchiveItem α)) :=
  match read_int ar with
  | Except.error e => Except.error e
  | Except.ok (np, ar1) =>
    match read_int ar1 with
    | Except.error e => Except.error e
    | Except.ok (nlp, ar2) =>
      if np = int_of_size m.params.length then
        if nlp = int_of_size m.lookup_params.length then
          match load_each Parameters.serialize_load m.params ar2 with
          | Except.error e => Except.error e
          | Except.ok (params, ar3) =>
            match load_each LookupParameters.load m.lookup_params ar3 with
            | Except.error e => Except.error e
            | Except.ok (lookup_params, ar4) =>
              Except.ok ({ params := params, lookup_params := lookup_params }, ar4)
        else Except.error LoadError.assertion_failed
      else Except.error LoadError.assertion_failed

end Persistence

/-! ## Expressions and the list builders (src/cnn/expr.h, lines 8-15, 117-154) -/

/-- The operator classes that expr.h passes to `detail::f`. -/
inductive NodeType where
  | LogSumExp
  | Sum
  | Max
  | Average
  | ConcatenateColumns
  | Concatenate
  | AffineTransform
  deriving DecidableEq, Repr

/-- A node of a graph: its operator, the indices of its inputs and the shape of its
value. -/
structure Node where
  f : NodeType
  args : List Nat
  dim : List Nat
  deriving DecidableEq, Repr

/-- The ordered list of nodes that a `ComputationGraph` owns. -/
structure ComputationGraph where
  nodes : List Node
  deriving DecidableEq, Repr

/-- The struct `Expression` (lines 8-15): the graph pointer `pg`, an address, and the node
index `i`. -/
structure Expression where
  pg : Nat
  i : Nat
  deriving DecidableEq, Repr

/-- How a graph-building call ends when it does not return: the operator rejects the
shapes of its inputs, or the call dereferences `begin()` of an empty sequence. -/
inductive GraphError where
  | dimension_mismatch
  | invalid_dereference
  deriving DecidableEq, Repr

instance : Inhabited Node := ⟨⟨NodeType.Sum, [], []⟩⟩

/-- Modelled from the spec: `ComputationGraph::add_function<F>(input_indices)` (cnn.h is
not among the sources) appends a new node of the operator `F` with the given input
indices and returns the index of the new node; it fails with a dimension mismatch when
the shape contract of the operator, `dim_forward` (nodes.h is not among the sources),
rejects the shapes of the inputs. -/
def ComputationGraph.add_function (dim_forward : NodeType → List (List Nat) → Option (List Nat))
    (g : ComputationGraph) (F : NodeType) (xis : List Nat) :
    Except GraphError (Nat × ComputationGraph) :=
  match dim_forward F (xis.map (fun i => (g.nodes.getD i default).dim)) with
  | none => Except.error GraphError.dimension_mismatch
  | some d => Except.ok (g.nodes.length, { nodes := g.nodes ++ [⟨F, xis, d⟩] })

/-- The function `detail::f<F>(xs)` (lines 118-125) on the memory `heap` of graphs: the
graph is the one of the first expression, `xis` collects the indices in order, and the
result is the expression of the node that `add_function` returns. -/
def detail.f (dim_forward : NodeType → List (List Nat) → Option (List Nat)) (F : NodeType)
    (xs : List Expression) (heap : Nat → ComputationGraph) :
    Except GraphError (Expression × (Nat → ComputationGraph)) :=
  match xs with
  | [] => Except.error GraphError.invalid_dereference
  | x :: _ =>
    let pg := x.pg
    let xis := xs.map (fun xi => xi.i)
    match (heap pg).add_function dim_forward F xis with
    | Except.error e => Except.error e
    | Except.ok r => Except.ok (⟨pg, r.1⟩, Function.update heap pg r.2)

/-- The builder `logsumexp(xs)` (line 129). -/
def logsumexp (dim_forward : NodeType → List (List Nat) → Option (List Nat))
    (xs : List Expression) (heap : Nat → ComputationGraph) :=
  detail.f dim_forward NodeType.LogSumExp xs heap

/-- The builder `sum(xs)` (line 133). -/
def sum (dim_forward : NodeType → List (List Nat) → Option (List Nat))
    (xs : List Expression) (heap : Nat → ComputationGraph) :=
  detail.f dim_forward NodeType.Sum xs heap

/-- The builder `max(xs)` (line 137). -/
def max (dim_forward : NodeType → List (List Nat) → Option (List Nat))
    (xs : List Expression) (heap : Nat → ComputationGraph) :=
  detail.f dim_forward NodeType.Max xs heap

/-- The builder `average(xs)` (line 141). -/
def average (dim_forward : NodeType → List (List Nat) → Option (List Nat))
    (xs : List Expression) (heap : Nat → ComputationGraph) :=
  detail.f dim_forward NodeType.Average xs heap

/-- The builder `concatenate_cols(xs)` (line 145). -/
def concatenate_cols (dim_forward : NodeType → List (List Nat) → Option (List Nat))
    (xs : List Expression) (heap : Nat → ComputationGraph) :=
  detail.f dim_forward NodeType.ConcatenateColumns xs heap

/-- The builder `concatenate(xs)` (line 149). -/
def concatenate (dim_forward : NodeType → List (List Nat) → Option (List Nat))
    (xs : List Expression) (heap : Nat → ComputationGraph) :=
  detail.f dim_forward NodeType.Concatenate xs heap

/-- The builder `affine_transform(xs)` (line 153). -/
def affine_transform (dim_forward : NodeType → List (List Nat) → Option (List Nat))
    (xs : List Expression) (heap : Nat → ComputationGraph) :=
  detail.f dim_forward NodeType.AffineTransform xs heap

/-! ## AWI::decode (src/ext/dialogue/attention_with_intention.h, lines 625-683) -/

section Decode
variable {α : Type} [LinearOrderedField α]

/-- The conversion of an `int` to `unsigned` (32 bits), as in `w = eos_sym`. -/
def unsigned_of_int (x : Int) : Nat := (x % 4294967296).toNat

/-- The conversion of an `unsigned` to `int` (32 bits, two's complement), as in
`target.push_back(w)`. -/
def int_of_unsigned (w : Nat) : Int := ((w : Int) + 2147483648) % 4294967296 - 2147483648

/-- The loop `for (x = 1; x < dist.size(); ++x) if (dist[x] > pr_w) { w = x; pr_w = dist[x]; }`
of lines 659-664 on the cells of `dist` from index `x` on; the state is `(w, pr_w)`. -/
def AWI.decode_argmax_loop : List α → Nat → Nat × α → Nat × α
  | [], _, s => s
  | d :: ds, x, s => AWI.decode_argmax_loop ds (x + 1) (if d > s.2 then (x, d) else s)

/-- Lines 656-664: `w = 0`, `pr_w = dist[w]`, then the loop; the result is `w`. The read
`dist[0]` of an empty vector is undefined; here it reads 0. -/
def AWI.decode_argmax (dist : List α) : Nat :=
  (AWI.decode_argmax_loop dist.tail 1 (0, dist.headD 0)).1

/-- The loop `while (target.back() != eos_sym)` of `AWI::decode` (lines 650-675) with a
bound `fuel` on the number of tests of its condition; it gives `none` when the bound is
reached. The state is `(target, t)`; `t` is an `int` that the theorems show to stay below
103. The network (`decoder_step`, `softmax`, `incremental_forward`) is the parameter
`ydist`, which gives the distribution `dist` from the tokens fed so far. -/
def AWI.decode_loop (eos_sym : Int) (ydist : List Int → List α) :
    Nat → List Int → Nat → Option (List Int × Nat)
  | 0, _, _ => none
  | fuel + 1, target, t =>
    if target.getLastD 0 = eos_sym then some (target, t)
    else
      let dist := ydist target
      let w := AWI.decode_argmax dist
      let w := if t > 100 then unsigned_of_int eos_sym else w
      AWI.decode_loop eos_sym ydist fuel (target ++ [int_of_unsigned w]) (t + 1)

/-- The function `AWI::decode`: `target` starts as `[sos_sym]` and `t` as 0; the result is
`target` together with the final `t`, the number of decoder steps taken. The symbols
`sos_sym` and `eos_sym` are what `tdict.Convert` returns for the start and the end
symbol. -/
def AWI.decode (sos_sym eos_sym : Int) (ydist : List Int → List α) (fuel : Nat) :
    Option (List Int × Nat) :=
  AWI.decode_loop eos_sym ydist fuel [sos_sym] 0

end Decode

/-! ## AWI::build_graph (src/ext/dialogue/attention_with_intention.h, lines 551-620) -/

/-- What the target loops of `AWI::build_graph` write. `errs` holds one entry
`(i, t, osent[i][t + 1])` for each `pick(i_ydist, osent[i][t + 1])` pushed for sentence
`i` at step `t` (the third component is `none` for a read past the end of the sentence);
`v_decoder_context[i]` is `some t` once the decoder state of step `t` is stored for
sentence `i`; `context_writes` lists the assignments `v_decoder_context[i] = v_t` in the
order in which they are executed, as `(i, t)`; `decoder_inputs` lists the vectors `vobs`
passed to `decoder_step`, one per step. -/
structure AWI.BuildState where
  errs : List (Nat × Nat × Option Int)
  tgt_words : Nat
  v_decoder_context : List (Option Nat)
  context_writes : List (Nat × Nat)
  decoder_inputs : List (List Int)

/-- The value `n - 1` of a `size_t`, as in `osent[i].size() - 1` (64 bits, wraps at 0). -/
def size_minus_one (n : Nat) : Nat := (n + 18446744073709551615) % 18446744073709551616

/-- Body of the loop `for (i = 0; i < nutt; i++)` of `AWI::build_graph` (lines 585-608)
at step `t`. -/
def AWI.build_graph_sentence (osent : List (List Int)) (t : Nat) (s : AWI.BuildState)
    (i : Nat) : AWI.BuildState :=
  if t < size_minus_one (osent.getD i []).length then
    { s with errs := s.errs ++ [(i, t, (osent.getD i [])[t + 1]?)], tgt_words := s.tgt_words + 1 }
  else if t = size_minus_one (osent.getD i []).length then
    { s with v_decoder_context := s.v_decoder_context.set i (some t), context_writes := s.context_writes ++ [(i, t)] }
  else s

/-- Body of the loop `for (t = 0; t < oslen; ++t)` of `AWI::build_graph` (lines 572-609):
`vobs` takes `p[t]` from every sentence that has a token at `t` and `-1` from the others,
then the loop over the sentences runs. -/
def AWI.build_graph_step (osent : List (List Int)) (s : AWI.BuildState) (t : Nat) :
    AWI.BuildState :=
  let vobs := osent.map (fun p => if t < p.length then p.getD t 0 else -1)
  (List.range osent.length).foldl (AWI.build_graph_sentence osent t)
    { s with decoder_inputs := s.decoder_inputs ++ [vobs] }

/-- The target loops of `AWI::build_graph` (lines 562-609) on the batch `osent`, from the
value `tgt_words` of the counter: `oslen` is the largest sentence length, and
`v_decoder_context` is cleared and resized to `nutt` entries first. -/
def AWI.build_graph (osent : List (List Int)) (tgt_words : Nat) : AWI.BuildState :=
  let nutt := osent.length
  let oslen := osent.foldl (fun oslen p => if oslen < p.length then p.length else oslen) 0
  (List.range oslen).foldl (AWI.build_graph_step osent)
    { errs := [], tgt_words := tgt_words, v_decoder_context := List.replicate nutt none,
      context_writes := [], decoder_inputs := [] }

/-! ## The quadratic scenario for SGD -/

section Quadratic
variable {α : Type} [LinearOrderedField α]

/-- The loss of the scenario, `L(θ) = 1/2 * |θ - θ*|^2`, for the optimum `θs`. -/
def quadratic_loss (θs θ : Tensor α) : α := 1 / 2 * squaredNorm (tsub θ θs)

/-- The model of the scenario at the point `θ` once the gradient is computed: one dense
parameter of value `θ` whose accumulated gradient is `G = θ - θ*`, no lookup table. -/
def quadratic_model (θs θ : Tensor α) : Model α :=
  { params := [⟨[θ.length], θ, tsub θ θs⟩], lookup_params := [] }

/-- One step of the scenario from the trainer and the point `s`: the gradient is computed
at the point, then `SimpleSGDTrainer::update` runs with batch size 1 and scale 1; the
new point is the value of the parameter. -/
def quadratic_step (sqrt : α → α) (θs : Tensor α) (s : Trainer α × Tensor α) :
    Trainer α × Tensor α :=
  let r := SimpleSGDTrainer.update sqrt s.1 (quadratic_model θs s.2) 1 1
  (r.1, (r.2.params.getD 0 default).values)

/-- The trainer and the point after `K` steps of the scenario. -/
def quadratic_run (sqrt : α → α) (θs : Tensor α) : Nat → Trainer α × Tensor α →
    Trainer α × Tensor α
  | 0, s => s
  | K + 1, s => quadratic_step sqrt θs (quadratic_run sqrt θs K s)

end Quadratic

/-! ## Concrete inputs -/

section Inputs
variable (α : Type) [LinearOrderedField α]

/-- A trainer with `eta = 1`, `lambda = 0`, threshold 1 and the given clipping switches. -/
def input_trainer (clipping_enabled : Bool) (clipping_type : ClippingType) : Trainer α :=
  { eta := 1, lambda := 0, clipping_enabled := clipping_enabled,
    clipping_type := clipping_type, clip_threshold := 1, clips := 0, updates := 0 }

/-- A model with one dense parameter, value `(0, 0)` and gradient `(3, 4)`, and one lookup
table of three rows whose row 1 has the gradient `(2)`. -/
def input_model : Model α :=
  { params := [⟨[2], [0, 0], [3, 4]⟩]
    lookup_params := [⟨[1], [[5], [6], [7]], [(1, [2])]⟩] }

/-- A momentum trainer without clipping, `momentum = 1/2`, whose velocity is allocated:
`(1, 1)` for the dense parameter of `input_model` and `(1)` for row 1 of its table. -/
def input_momentum_trainer : MomentumSGDTrainer α :=
  { toTrainer := input_trainer α false ClippingType.norm_clipping
    momentum := 1 / 2
    velocity_allocated := true
    vp := [⟨[1, 1]⟩]
    vlp := [⟨[[0], [1], [0]]⟩] }

/-- An Adagrad trainer without clipping, `epsilon = 1`, whose accumulator is allocated:
`(6, 8)` for the dense parameter of `input_model` and `(4)` for row 1 of its table. -/
def input_adagrad_trainer : AdagradTrainer α :=
  { toTrainer := input_trainer α false ClippingType.norm_clipping
    epsilon := 1
    shadow_params_allocated := true
    vp := [⟨[6, 8]⟩]
    vlp := [⟨[[0], [4], [0]]⟩] }

/-- An RMSProp trainer without clipping, `epsilon = 0`, `rho = 9/25`, before its first
update. -/
def input_rmsprop_trainer : RmsPropTrainer α :=
  { toTrainer := input_trainer α false ClippingType.norm_clipping
    epsilon := 0
    rho := 9 / 25
    shadow_params_allocated := false
    hg := []
    hlg := [] }

/-- An Adam trainer without clipping, `beta_1 = beta_2 = 1/2`, `eps = 1`, before its
first update. -/
def input_adam_trainer : AdamTrainer α :=
  { toTrainer := input_trainer α false ClippingType.norm_clipping
    beta_1 := 1 / 2
    beta_2 := 1 / 2
    eps := 1
    shadow_params_allocated := false
    m := []
    lm := []
    v := []
    lv := [] }

/-- A model with two dense parameters and no lookup table. -/
def input_model_two_dense : Model α :=
  { params := [⟨[1], [0], [1]⟩, ⟨[1], [0], [1]⟩]
    lookup_params := [] }

/-- An Adadelta trainer without clipping, `epsilon = 1/100`, `rho = 19/25`, before its
first update. -/
def input_adadelta_trainer : AdadeltaTrainer α :=
  { toTrainer := input_trainer α false ClippingType.norm_clipping
    epsilon := 1 / 100
    rho := 19 / 25
    shadow_params_allocated := false
    hg := []
    hlg := []
    hd := []
    hld := [] }

/-- A model with one dense parameter, value `(0)` and gradient `(g)`, and no lookup
table. -/
def input_model_one_dense (g : α) : Model α :=
  { params := [⟨[1], [0], [g]⟩]
    lookup_params := [] }

/-- An Adagrad trainer without clipping, `epsilon = 1`, whose accumulator for the
parameter of `input_model_one_dense` is `(104)`. -/
def input_adagrad_trainer_one_dense : AdagradTrainer α :=
  { toTrainer := input_trainer α false ClippingType.norm_clipping
    epsilon := 1
    shadow_params_allocated := true
    vp := [⟨[104]⟩]
    vlp := [] }

/-- An RMSProp trainer without clipping, `epsilon = 1/4`, `rho = 1/2`, whose scalar for
the parameter of `input_model_one_dense` is `8`. -/
def input_rmsprop_trainer_one_dense : RmsPropTrainer α :=
  { toTrainer := input_trainer α false ClippingType.norm_clipping
    epsilon := 1 / 4
    rho := 1 / 2
    shadow_params_allocated := true
    hg := [8]
    hlg := [] }

/-- An RMSProp-with-momentum trainer without clipping, `epsilon = 0`, `rho = 9/25`,
`momentum = 1/2`, whose shadow state is allocated for `input_model`: scalars 0,
velocity `(1, 1)` for the dense parameter and `(1)` for row 1 of the table. -/
def input_rmsmom_trainer : RmsPropWithMomentumTrainer α :=
  { toTrainer := input_trainer α false ClippingType.norm_clipping
    epsilon := 0
    rho := 9 / 25
    momentum := 1 / 2
    shadow_params_allocated := true
    hg := [0]
    hlg := [[0, 0, 0]]
    vp := [⟨[1, 1]⟩]
    vlp := [⟨[[0], [1], [0]]⟩] }

/-- A model with the counts, row count and shapes of `input_model` and other values. -/
def input_saved_model : Model α :=
  { params := [⟨[2], [8, 9], [0, 0]⟩]
    lookup_params := [⟨[1], [[1], [2], [3]], []⟩] }

/-- A model with the counts and row count of `input_model` and other shapes: a dense
parameter of three coefficients, a table of three rows of two. -/
def input_saved_model_other_shape : Model α :=
  { params := [⟨[3], [1, 2, 3], []⟩]
    lookup_params := [⟨[2], [[1, 1], [2, 2], [3, 3]], []⟩] }

/-- A model with the counts of `input_model` whose table has two rows. -/
def input_saved_model_two_rows : Model α :=
  { params := [⟨[2], [8, 9], [0, 0]⟩]
    lookup_params := [⟨[1], [[1], [2]], []⟩] }

/-- A model with no dense parameter and the table of `input_model`. -/
def input_model_lookup_only : Model α :=
  { params := []
    lookup_params := [⟨[1], [[5], [6], [7]], [(1, [2])]⟩] }

/-- The trainer `input_momentum_trainer` with `momentum = 0`; its velocity is allocated
and not zero. -/
def input_momentum_trainer_zero : MomentumSGDTrainer α :=
  { toTrainer := input_trainer α false ClippingType.norm_clipping
    momentum := 0
    velocity_allocated := true
    vp := [⟨[1, 1]⟩]
    vlp := [⟨[[0], [1], [0]]⟩] }

/-- The GPU trainer with the members and the shadow state of `input_rmsmom_trainer`. -/
def input_rmsmom_trainer_gpu : RmsPropWithMomentumTrainerGPU α :=
  { toTrainer := input_trainer α false ClippingType.norm_clipping
    epsilon := 0
    rho := 9 / 25
    momentum := 1 / 2
    shadow_params_allocated := true
    hg := [0]
    hlg := [[0, 0, 0]]
    vp := [⟨[1, 1]⟩]
    vlp := [⟨[[0], [1], [0]]⟩] }

/-- An RMSProp trainer without clipping with the negative learning rate `eta = -1`,
`lambda = 0`, `epsilon = 9`, `rho = 0`, whose scalar for the parameter of
`input_model_one_dense` is `0`. -/
def input_rmsprop_trainer_negative_eta : RmsPropTrainer α :=
  { toTrainer := { eta := -1, lambda := 0, clipping_enabled := false,
                   clipping_type := ClippingType.norm_clipping, clip_threshold := 1,
                   clips := 0, updates := 0 }
    epsilon := 9
    rho := 0
    shadow_params_allocated := true
    hg := [0]
    hlg := [] }

/-- The trainer `input_adagrad_trainer` with the learning rate `eta = 0`. -/
def input_adagrad_trainer_eta_zero : AdagradTrainer α :=
  { toTrainer := { eta := 0, lambda := 0, clipping_enabled := false,
                   clipping_type := ClippingType.norm_clipping, clip_threshold := 1,
                   clips := 0, updates := 0 }
    epsilon := 1
    shadow_params_allocated := true
    vp := [⟨[6, 8]⟩]
    vlp := [⟨[[0], [4], [0]]⟩] }

end Inputs

/-! ## Loop lemmas -/

/-- What `forEachIdx` does to the element at position `k` and to the slot `pi + k` of the
state, for a body that reads and writes only the slot of its own counter. -/
theorem forEachIdx_spec {β σ ρ : Type} (body : Nat → β → σ → β × σ) (get : Nat → σ → ρ)
    (fx : Nat → β → ρ → β) (fs : Nat → β → ρ → ρ) (Inv : Nat → σ → Prop)
    (hInv : ∀ k x s, Inv k s → Inv (k + 1) (body k x s).2)
    (hx : ∀ k x s, Inv k s → (body k x s).1 = fx k x (get k s))
    (hs : ∀ k x s, Inv k s → get k (body k x s).2 = fs k x (get k s))
    (ho : ∀ k j x s, Inv k s → j ≠ k → get j (body k x s).2 = get j s) :
    ∀ (xs : List β) (pi : Nat) (s : σ), Inv pi s →
      Inv (pi + xs.length) (forEachIdx body xs pi s).2 ∧
      (∀ k x, xs[k]? = some x →
        (forEachIdx body xs pi s).1[k]? = some (fx (pi + k) x (get (pi + k) s)) ∧
        get (pi + k) (forEachIdx body xs pi s).2 = fs (pi + k) x (get (pi + k) s)) ∧
      (∀ j, j < pi ∨ pi + xs.length ≤ j → get j (forEachIdx body xs pi s).2 = get j s) := by
  intro xs
  induction xs with
  | nil =>
    intro pi s hI
    refine ⟨by simpa [forEachIdx] using hI, ?_, ?_⟩
    · intro k x hk; simp at hk
    · intro j _; simp [forEachIdx]
  | cons y ys ih =>
    intro pi s hI
    obtain ⟨h1, h2, h3⟩ := ih (pi + 1) (body pi y s).2 (hInv pi y s hI)
    refine ⟨?_, ?_, ?_⟩
    · have : pi + (y :: ys).length = pi + 1 + ys.length := by simp; omega
      rw [this]; simpa [forEachIdx] using h1
    · intro k x hk
      cases k with
      | zero =>
        simp at hk; subst hk
        refine ⟨by simp [forEachIdx, hx pi y s hI], ?_⟩
        have := h3 pi (Or.inl (Nat.lt_succ_self pi))
        simp only [forEachIdx, Nat.add_zero]
        rw [this, hs pi y s hI]
      | succ k =>
        simp at hk
        obtain ⟨a, b⟩ := h2 k x hk
        have e : pi + (k + 1) = pi + 1 + k := by omega
        have hne : pi + 1 + k ≠ pi := by omega
        rw [e]
        simp only [forEachIdx, List.getElem?_cons_succ]
        rw [a, b, ho pi (pi + 1 + k) y s hI hne]
        exact ⟨rfl, rfl⟩
    · intro j hj
      simp only [forEachIdx]
      have hj' : j < pi + 1 ∨ pi + 1 + ys.length ≤ j := by
        rcases hj with h | h
        · left; omega
        · right; simp at h; omega
      rw [h3 j hj']
      apply ho pi j y s hI
      rcases hj with h | h
      · omega
      · simp at h; omega

/-- The loop `forEachIdx` keeps the number of elements. -/
theorem forEachIdx_length {β σ : Type} (body : Nat → β → σ → β × σ) :
    ∀ (xs : List β) (pi : Nat) (s : σ), (forEachIdx body xs pi s).1.length = xs.length := by
  intro xs
  induction xs with
  | nil => intro pi s; simp [forEachIdx]
  | cons y ys ih => intro pi s; simp [forEachIdx, ih]

/-- A fold over distinct keys whose body reads and writes only the slot of its key
rewrites the slot of each key once and leaves every other slot alone. -/
theorem foldl_keys_spec {σ ρ : Type} (body : σ → Nat → σ) (get : Nat → σ → ρ)
    (f : Nat → ρ → ρ)
    (hs : ∀ s k, get k (body s k) = f k (get k s))
    (ho : ∀ s k j, j ≠ k → get j (body s k) = get j s) :
    ∀ (keys : List Nat), keys.Nodup → ∀ s j,
      get j (keys.foldl body s) = if j ∈ keys then f j (get j s) else get j s := by
  intro keys
  induction keys with
  | nil => intro _ s j; simp
  | cons k ks ih =>
    intro hnd s j
    rw [List.nodup_cons] at hnd
    simp only [List.foldl_cons]
    rw [ih hnd.2]
    by_cases hjk : j = k
    · subst hjk
      simp [hnd.1, hs]
    · have : j ∈ k :: ks ↔ j ∈ ks := by simp [hjk]
      simp only [this, ho s k j hjk]

/-- A fold whose body writes only the slot of its key leaves the slots of all other
indices alone, and keeps whatever every step keeps. -/
theorem foldl_keys_other {σ ρ : Type} (body : σ → Nat → σ) (get : Nat → σ → ρ)
    (ho : ∀ s k j, j ≠ k → get j (body s k) = get j s) :
    ∀ (keys : List Nat) s j, j ∉ keys → get j (keys.foldl body s) = get j s := by
  intro keys
  induction keys with
  | nil => intro s j _; simp
  | cons k ks ih =>
    intro s j hj
    simp only [List.mem_cons, not_or] at hj
    simp only [List.foldl_cons]
    rw [ih _ j hj.2, ho s k j hj.1]

/-- A fold keeps every quantity that each step keeps. -/
theorem foldl_keeps {σ κ ρ : Type} (body : σ → κ → σ) (q : σ → ρ)
    (hq : ∀ s k, q (body s k) = q s) :
    ∀ (keys : List κ) s, q (keys.foldl body s) = q s := by
  intro keys
  induction keys with
  | nil => intro s; simp
  | cons k ks ih => intro s; simp only [List.foldl_cons]; rw [ih, hq]

/-- In a map with distinct keys, `grads[i]` is the tensor stored with the key `i`. -/
theorem lookup_of_mem {β : Type} : ∀ (l : List (Nat × β)), (l.map Prod.fst).Nodup →
    ∀ i G, (i, G) ∈ l → l.lookup i = some G := by
  intro l
  induction l with
  | nil => intro _ i G h; simp at h
  | cons a as ih =>
    intro hnd i G h
    obtain ⟨k, v⟩ := a
    simp only [List.map_cons, List.nodup_cons] at hnd
    rcases List.mem_cons.1 h with h1 | h2
    · cases h1; simp [List.lookup]
    · have hk : i ≠ k := by
        intro e
        exact hnd.1 (List.mem_map.2 ⟨(i, G), h2, e⟩)
      have : (i == k) = false := by simpa using hk
      simp [List.lookup, this, ih hnd.2 i G h2]

/-- Reading slot `i` after writing slot `i`. -/
theorem getElem?_set_same {β : Type} (l : List β) (i : Nat) (x : β) :
    (l.set i x)[i]? = (l[i]?).map (fun _ => x) := by
  rw [List.getElem?_set]
  by_cases h : i < l.length
  · simp [h]
  · simp [h, List.getElem?_eq_none (Nat.le_of_not_lt h)]

/-- Reading slot `j` after writing another slot `i`. -/
theorem getElem?_set_other {β : Type} (l : List β) (i j : Nat) (x : β) (h : j ≠ i) :
    (l.set i x)[j]? = l[j]? := by
  rw [List.getElem?_set]
  simp [Ne.symm h]

/-! ## Tensor algebra -/

section Algebra
variable {α : Type} [LinearOrderedField α]

/-- The SGD assignment `θ -= a·G + λ·θ` is `θ - b·G - λ·θ` for `a = b`. -/
theorem tsub_tadd_smul (a b lam : α) (h : a = b) : ∀ (θ G : Tensor α),
    tsub θ (tadd (smul a G) (smul lam θ)) = tsub (tsub θ (smul b G)) (smul lam θ) := by
  subst h
  intro θ
  induction θ with
  | nil => intro G; simp [tsub, tadd, smul]
  | cons x xs ih =>
    intro G
    cases G with
    | nil => simp [tsub, tadd, smul]
    | cons y ys =>
      have := ih ys
      simp only [tsub, tadd, smul, List.map_cons, List.zipWith_cons_cons] at this ⊢
      rw [this]
      congr 1
      ring

end Algebra

/-! ## The clipping pre-step -/

section ClipLemmas
variable {α : Type} [LinearOrderedField α]

/-- Without simple clipping, the loops read the accumulated gradient itself. -/
theorem Trainer.clipped_eq_self (tr : Trainer α) (samples : α) (g : Tensor α)
    (h : ¬ (tr.clipping_enabled = true ∧ tr.clipping_type = ClippingType.simple_clipping)) :
    tr.clipped samples g = g := by
  simp [Trainer.clipped, h]

/-- The model that `clip_gradients(samples)` leaves: every gradient `g` has become
`clipped samples g`, and nothing else has changed. -/
theorem Trainer.clip_gradients_model (sqrt : α → α) (tr : Trainer α) (m : Model α)
    (samples : α) :
    (tr.clip_gradients sqrt m samples).2.2 =
      { params := m.params.map (fun p => { p with g := tr.clipped samples p.g })
        lookup_params := m.lookup_params.map (fun p =>
          { p with grads := p.grads.map (fun g => (g.1, tr.clipped samples g.2)) }) } := by
  have e1 : ∀ l : List (Parameters α), l.map (fun p => { p with g := p.g }) = l := by
    intro l; induction l with
    | nil => rfl
    | cons a as ih => simp
  have e2 : ∀ l : List (Nat × Tensor α), l.map (fun g => (g.1, g.2)) = l := by
    intro l; induction l with
    | nil => rfl
    | cons a as ih => simp
  have e3 : ∀ l : List (LookupParameters α),
      l.map (fun p => { p with grads := p.grads.map (fun g => (g.1, g.2)) }) = l := by
    intro l; induction l with
    | nil => rfl
    | cons a as ih => simp
  unfold Trainer.clip_gradients Trainer.clipped
  by_cases hen : tr.clipping_enabled = true
  · by_cases hty : tr.clipping_type = ClippingType.simple_clipping
    · simp [hen, hty, Model.simple_gradient_clipping]
    · simp only [hen, hty, if_true, if_false, and_false]
      split <;> simp
  · simp [hen]

/-- The trainer that `clip_gradients(samples)` leaves differs in `clips` at most. -/
theorem Trainer.clip_gradients_trainer (sqrt : α → α) (tr : Trainer α) (m : Model α)
    (samples : α) :
    (tr.clip_gradients sqrt m samples).2.1 =
      { tr with clips := (tr.clip_gradients sqrt m samples).2.1.clips } := by
  unfold Trainer.clip_gradients
  cases tr
  dsimp only
  split_ifs <;> rfl

/-- The tensor `grads[i]` of a table whose gradients went through the clipping pre-step. -/
theorem grad_clipped (tr : Trainer α) (samples : α) (p : LookupParameters α)
    (hnd : p.touched.Nodup) (i : Nat) (G : Tensor α) (hG : (i, G) ∈ p.grads) :
    LookupParameters.grad
      { p with grads := p.grads.map (fun g => (g.1, tr.clipped samples g.2)) } i
      = tr.clipped samples G := by
  unfold LookupParameters.grad
  have hmem : (i, tr.clipped samples G) ∈ p.grads.map (fun g => (g.1, tr.clipped samples g.2)) :=
    List.mem_map.2 ⟨(i, G), hG, rfl⟩
  have hnd' : ((p.grads.map (fun g => (g.1, tr.clipped samples g.2))).map Prod.fst).Nodup := by
    simpa [LookupParameters.touched, List.map_map, Function.comp_def] using hnd
  simp [lookup_of_mem _ hnd' i _ hmem]

/-- A table after the clipping pre-step: the same keys and rows, and at each key the
gradient that the loops read. -/
theorem clipped_table (tr : Trainer α) (samples : α) (p : LookupParameters α)
    (hnd : p.touched.Nodup) (i : Nat) (G : Tensor α) (hG : (i, G) ∈ p.grads) :
    (LookupParameters.touched
      { p with grads := p.grads.map (fun g => (g.1, tr.clipped samples g.2)) }).Nodup ∧
    i ∈ LookupParameters.touched
      { p with grads := p.grads.map (fun g => (g.1, tr.clipped samples g.2)) } ∧
    LookupParameters.values
      { p with grads := p.grads.map (fun g => (g.1, tr.clipped samples g.2)) } = p.values ∧
    LookupParameters.grad
      { p with grads := p.grads.map (fun g => (g.1, tr.clipped samples g.2)) } i
      = tr.clipped samples G := by
  have hi : i ∈ p.touched := List.mem_map.2 ⟨(i, G), hG, rfl⟩
  refine ⟨?_, ?_, rfl, grad_clipped tr samples p hnd i G hG⟩
  · simpa [LookupParameters.touched, List.map_map, Function.comp_def] using hnd
  · simpa [LookupParameters.touched, List.map_map, Function.comp_def] using hi

end ClipLemmas
/-! ## SimpleSGDTrainer -/

section SGDLemmas
variable {α : Type} [LinearOrderedField α]

/-- Rewriting a slot with a function of its own content. -/
theorem getElem?_set_getD {β : Type} (l : List β) (i : Nat) (d : β) (F : β → β) :
    (l.set i (F (l.getD i d)))[i]? = (l[i]?).map F := by
  rw [getElem?_set_same, List.getD_eq_getElem?_getD]
  cases l[i]? <;> simp

/-- The rows of a table after the loop over `grads` of `SimpleSGDTrainer::update`. -/
theorem SimpleSGDTrainer.sgd_rows_after (eta lambda scale gscale nutt_scale : α)
    (p : LookupParameters α) (hnd : p.touched.Nodup) (j : Nat) :
    (p.grads.foldl
      (fun values g => SimpleSGDTrainer.row_body eta lambda scale gscale nutt_scale p values g.1)
      p.values)[j]? =
    if j ∈ p.touched then
      (p.values[j]?).map (fun θ =>
        tsub θ (tadd (smul (eta * scale * gscale * nutt_scale) (p.grad j)) (smul lambda θ)))
    else p.values[j]? := by
  have h := foldl_keys_spec
    (fun values i => SimpleSGDTrainer.row_body eta lambda scale gscale nutt_scale p values i)
    (fun i (vs : List (Tensor α)) => vs[i]?)
    (fun i o => o.map (fun θ =>
        tsub θ (tadd (smul (eta * scale * gscale * nutt_scale) (p.grad i)) (smul lambda θ))))
    (by
      intro s k
      exact getElem?_set_getD s k [] (fun θ =>
        tsub θ (tadd (smul (eta * scale * gscale * nutt_scale) (p.grad k)) (smul lambda θ))))
    (by
      intro s k j hjk
      exact getElem?_set_other s k j _ hjk)
    p.touched hnd p.values j
  simpa [LookupParameters.touched, List.foldl_map] using h

/-- The rows that the loop over `grads` of `SimpleSGDTrainer::update` does not visit. -/
theorem SimpleSGDTrainer.sgd_rows_untouched (eta lambda scale gscale nutt_scale : α)
    (p : LookupParameters α) (j : Nat) (hj : j ∉ p.touched) :
    (p.grads.foldl
      (fun values g => SimpleSGDTrainer.row_body eta lambda scale gscale nutt_scale p values g.1)
      p.values)[j]? = p.values[j]? := by
  have h := foldl_keys_other
    (fun values i => SimpleSGDTrainer.row_body eta lambda scale gscale nutt_scale p values i)
    (fun i (vs : List (Tensor α)) => vs[i]?)
    (by
      intro s k j hjk
      exact getElem?_set_other s k j _ hjk)
    p.touched p.values j hj
  simpa [LookupParameters.touched, List.foldl_map] using h

/-- The loop over `grads` of `SimpleSGDTrainer::update` keeps the number of rows. -/
theorem SimpleSGDTrainer.sgd_rows_length (eta lambda scale gscale nutt_scale : α)
    (p : LookupParameters α) :
    (p.grads.foldl
      (fun values g => SimpleSGDTrainer.row_body eta lambda scale gscale nutt_scale p values g.1)
      p.values).length = p.values.length :=
  foldl_keeps
    (fun values (g : Nat × Tensor α) =>
      SimpleSGDTrainer.row_body eta lambda scale gscale nutt_scale p values g.1)
    List.length (by intro s k; simp [SimpleSGDTrainer.row_body]) p.grads p.values

end SGDLemmas

section SGDClaims
variable {α : Type} [LinearOrderedField α]

/-- C1 (as amended): `SimpleSGDTrainer::update(batch_size, scale)` with `batch_size > 0`
replaces the value θ of every dense parameter, and of every lookup row with an entry in
`grads`, by `θ - (eta*scale*gscale/batch_size)*G - lambda*θ`, where `gscale` is the one
factor returned by `clip_gradients(batch_size)` and `G` is the gradient left by that
pre-step: the accumulated gradient of before the call unless simple clipping is
enabled, in which case it is that gradient passed through `simple_gradient_clipping`. -/
theorem SimpleSGDTrainer.update_rule (sqrt : α → α) (tr : Trainer α) (m : Model α)
    (samples scale : α) (hs : 0 < samples) :
    (∀ (pi : Nat) (p : Parameters α), m.params[pi]? = some p →
      ((SimpleSGDTrainer.update sqrt tr m samples scale).2.params[pi]?).map Parameters.values
        = some (tsub (tsub p.values
            (smul (tr.eta * scale * (tr.clip_gradients sqrt m samples).1 / samples)
              (tr.clipped samples p.g)))
            (smul tr.lambda p.values))) ∧
    (∀ (li : Nat) (p : LookupParameters α), m.lookup_params[li]? = some p → p.touched.Nodup →
      ∀ (i : Nat) (G θ : Tensor α), (i, G) ∈ p.grads → p.values[i]? = some θ →
      ((SimpleSGDTrainer.update sqrt tr m samples scale).2.lookup_params[li]?).bind
          (fun q : LookupParameters α => q.values[i]?)
        = some (tsub (tsub θ
            (smul (tr.eta * scale * (tr.clip_gradients sqrt m samples).1 / samples)
              (tr.clipped samples G)))
            (smul tr.lambda θ))) ∧
    (¬ (tr.clipping_enabled = true ∧ tr.clipping_type = ClippingType.simple_clipping) →
      ∀ g, tr.clipped samples g = g) := by
  have hne : samples ≠ 0 := ne_of_gt hs
  refine ⟨?_, ?_, fun h g => Trainer.clipped_eq_self tr samples g h⟩
  · intro pi p hp
    simp only [SimpleSGDTrainer.update, Trainer.clip_gradients_model, List.getElem?_map, hp,
      Option.map_some', SimpleSGDTrainer.dense_body, Parameters.clear]
    rw [tsub_tadd_smul]
    field_simp
  · intro li p hp hnd i G θ hG hθ
    have hi : i ∈ p.touched := List.mem_map.2 ⟨(i, G), hG, rfl⟩
    have hnd' : (LookupParameters.touched
        { p with grads := p.grads.map (fun g => (g.1, tr.clipped samples g.2)) }).Nodup := by
      simpa [LookupParameters.touched, List.map_map, Function.comp_def] using hnd
    have hi' : i ∈ LookupParameters.touched
        { p with grads := p.grads.map (fun g => (g.1, tr.clipped samples g.2)) } := by
      simpa [LookupParameters.touched, List.map_map, Function.comp_def] using hi
    simp only [SimpleSGDTrainer.update, Trainer.clip_gradients_model, List.getElem?_map, hp,
      Option.map_some', Option.some_bind, SimpleSGDTrainer.lookup_body,
      LookupParameters.clear]
    rw [SimpleSGDTrainer.sgd_rows_after _ _ _ _ _ _ hnd', if_pos hi']
    simp only [hθ, Option.map_some', grad_clipped tr samples p hnd i G hG]
    rw [tsub_tadd_smul]
    field_simp

end SGDClaims
/-- C1, witness: the rule at a trainer without clipping, on the dense parameter and on
the touched row 1 of the input model, with `batch_size = 2`. -/
theorem SimpleSGDTrainer.update_rule_witness :
    ((SimpleSGDTrainer.update Real.sqrt (input_trainer ℝ false ClippingType.norm_clipping)
        (input_model ℝ) 2 1).2.params[0]?).map (@Parameters.values ℝ)
      = some [-(3 / 2), -2] ∧
    ((SimpleSGDTrainer.update Real.sqrt (input_trainer ℝ false ClippingType.norm_clipping)
        (input_model ℝ) 2 1).2.lookup_params[0]?).bind
          (fun q : LookupParameters ℝ => q.values[1]?) = some [5] := by
  have h := SimpleSGDTrainer.update_rule Real.sqrt
    (input_trainer ℝ false ClippingType.norm_clipping) (input_model ℝ) 2 1 (by norm_num)
  refine ⟨(h.1 0 ⟨[2], [0, 0], [3, 4]⟩ rfl).trans ?_,
    (h.2.1 0 ⟨[1], [[5], [6], [7]], [(1, [2])]⟩ rfl
      (by simp [LookupParameters.touched]) 1 [2] [6] (by simp) rfl).trans ?_⟩
  · simp [Trainer.clipped, Trainer.clip_gradients, input_trainer, tsub, smul]
    norm_num
  · simp [Trainer.clipped, Trainer.clip_gradients, input_trainer, tsub, smul]
    norm_num

/-- C1, counterexample: with simple clipping enabled (threshold 1, `batch_size = 1`) the
dense parameter with value `(0, 0)` and accumulated gradient `(3, 4)` is not replaced by
`θ - (eta*scale*gscale/batch_size)*G - lambda*θ` for `G` the gradient of before the call. -/
theorem SimpleSGDTrainer.update_rule_fails_for_raw_gradient :
    ¬ (∀ (pi : Nat) (p : Parameters ℝ), (input_model ℝ).params[pi]? = some p →
      ((SimpleSGDTrainer.update Real.sqrt (input_trainer ℝ true ClippingType.simple_clipping)
        (input_model ℝ) 1 1).2.params[pi]?).map Parameters.values
        = some (tsub (tsub p.values
            (smul ((input_trainer ℝ true ClippingType.simple_clipping).eta * 1 *
                ((input_trainer ℝ true ClippingType.simple_clipping).clip_gradients
                  Real.sqrt (input_model ℝ) 1).1 / 1) p.g))
            (smul (input_trainer ℝ true ClippingType.simple_clipping).lambda p.values))) := by
  intro h
  have h0 := h 0 ⟨[2], [0, 0], [3, 4]⟩ rfl
  simp [SimpleSGDTrainer.update, SimpleSGDTrainer.dense_body, Trainer.clip_gradients,
    Model.simple_gradient_clipping, g_simple_clipping, input_trainer, input_model,
    Parameters.clear, tsub, tadd, smul] at h0
/-! ## Trainer::clip_gradients -/

section ClipClaims
variable {α : Type} [LinearOrderedField α]

/-- C2: for `clip_threshold > 0` and `batch_size > 0`, with norm clipping enabled,
whenever the global gradient norm `gg` exceeds `clip_threshold*batch_size` the returned
factor satisfies `gscale*gg = clip_threshold*batch_size`, for the overload that takes
the norm from the model and for the overload that takes a pre-computed norm. -/
theorem Trainer.clip_gradients_rescales_to_threshold (sqrt : α → α) (tr : Trainer α)
    (m : Model α) (samples pre_compued_grd_norm : α)
    (hct : 0 < tr.clip_threshold) (hs : 0 < samples)
    (hen : tr.clipping_enabled = true)
    (hty : tr.clipping_type ≠ ClippingType.simple_clipping) :
    (m.gradient_l2_norm sqrt > tr.clip_threshold * samples →
      (tr.clip_gradients sqrt m samples).1 * m.gradient_l2_norm sqrt
        = tr.clip_threshold * samples) ∧
    (pre_compued_grd_norm > tr.clip_threshold * samples →
      (tr.clip_gradients_pre samples pre_compued_grd_norm).1 * pre_compued_grd_norm
        = tr.clip_threshold * samples) := by
  have hpos : 0 < tr.clip_threshold * samples := mul_pos hct hs
  constructor
  · intro hgt
    have hne : m.gradient_l2_norm sqrt ≠ 0 := ne_of_gt (lt_trans hpos hgt)
    simp only [Trainer.clip_gradients, hen, hty, if_true, if_false, hgt]
    field_simp
  · intro hgt
    have hne : pre_compued_grd_norm ≠ 0 := ne_of_gt (lt_trans hpos hgt)
    simp only [Trainer.clip_gradients_pre, hen, if_true, hgt]
    field_simp

/-- C3 (as amended): `clip_gradients` returns exactly 1 and leaves `clips` unchanged if
clipping is disabled or the norm is at most `clip_threshold*samples`; `clips` grows by
exactly 1 if clipping is enabled and the norm exceeds `clip_threshold*samples`, in the
overload with a pre-computed norm always and in the overload that asks the model when
the clipping type is not `simple_clipping`; with simple clipping that overload returns 1
and leaves `clips` unchanged whatever the norm. -/
theorem Trainer.clip_gradients_counts_clips (sqrt : α → α) (tr : Trainer α) (m : Model α)
    (samples pre_compued_grd_norm : α) :
    ((tr.clipping_enabled = false ∨ m.gradient_l2_norm sqrt ≤ tr.clip_threshold * samples) →
      (tr.clip_gradients sqrt m samples).1 = 1 ∧
      (tr.clip_gradients sqrt m samples).2.1.clips = tr.clips) ∧
    ((tr.clipping_enabled = false ∨ pre_compued_grd_norm ≤ tr.clip_threshold * samples) →
      (tr.clip_gradients_pre samples pre_compued_grd_norm).1 = 1 ∧
      (tr.clip_gradients_pre samples pre_compued_grd_norm).2.clips = tr.clips) ∧
    ((tr.clipping_enabled = true ∧ tr.clipping_type ≠ ClippingType.simple_clipping ∧
        m.gradient_l2_norm sqrt > tr.clip_threshold * samples) →
      (tr.clip_gradients sqrt m samples).2.1.clips = tr.clips + 1) ∧
    ((tr.clipping_enabled = true ∧ pre_compued_grd_norm > tr.clip_threshold * samples) →
      (tr.clip_gradients_pre samples pre_compued_grd_norm).2.clips = tr.clips + 1) ∧
    ((tr.clipping_enabled = true ∧ tr.clipping_type = ClippingType.simple_clipping) →
      (tr.clip_gradients sqrt m samples).1 = 1 ∧
      (tr.clip_gradients sqrt m samples).2.1.clips = tr.clips) := by
  refine ⟨?_, ?_, ?_, ?_, ?_⟩
  · rintro (h | h)
    · simp [Trainer.clip_gradients, h]
    · have hn : ¬ (m.gradient_l2_norm sqrt > tr.clip_threshold * samples) := not_lt.2 h
      unfold Trainer.clip_gradients
      split_ifs <;> simp [hn]
  · rintro (h | h)
    · simp [Trainer.clip_gradients_pre, h]
    · have hn : ¬ (pre_compued_grd_norm > tr.clip_threshold * samples) := not_lt.2 h
      unfold Trainer.clip_gradients_pre
      split_ifs <;> simp [hn]
  · rintro ⟨hen, hty, hgt⟩
    simp [Trainer.clip_gradients, hen, hty, hgt]
  · rintro ⟨hen, hgt⟩
    simp [Trainer.clip_gradients_pre, hen, hgt]
  · rintro ⟨hen, hty⟩
    simp [Trainer.clip_gradients, hen, hty]

end ClipClaims

/-- The global gradient norm of the input model is 29: the squares of 3, 4 and 2 sum
to 29. -/
theorem input_model_norm : (input_model ℝ).gradient_l2_norm Real.sqrt = Real.sqrt 29 := by
  simp [Model.gradient_l2_norm, input_model, squaredNorm]
  norm_num

/-- The norm of the input model exceeds the threshold 1. -/
theorem input_model_norm_gt : (input_model ℝ).gradient_l2_norm Real.sqrt > 1 := by
  rw [input_model_norm]
  have h : Real.sqrt 1 < Real.sqrt 29 := Real.sqrt_lt_sqrt (by norm_num) (by norm_num)
  simpa using h

/-- C2, witness: norm clipping with threshold 1 and `batch_size = 1` on the input model
(norm `sqrt 29`) and on the pre-computed norm 5. -/
theorem Trainer.clip_gradients_rescales_to_threshold_witness :
    ((input_trainer ℝ true ClippingType.norm_clipping).clip_gradients Real.sqrt
        (input_model ℝ) 1).1 * (input_model ℝ).gradient_l2_norm Real.sqrt = 1 * 1 ∧
    ((input_trainer ℝ true ClippingType.norm_clipping).clip_gradients_pre 1 5).1 * 5
      = 1 * 1 := by
  have h := Trainer.clip_gradients_rescales_to_threshold Real.sqrt
    (input_trainer ℝ true ClippingType.norm_clipping) (input_model ℝ) 1 5
    (by simp [input_trainer]) (by norm_num) rfl (by simp [input_trainer])
  exact ⟨h.1 (by simpa [input_trainer] using input_model_norm_gt),
    h.2 (by simp [input_trainer])⟩

/-- C3, witness: the five cases at concrete trainers, on the input model (norm above the
threshold 1) and on the pre-computed norms 1/2 and 5. -/
theorem Trainer.clip_gradients_counts_clips_witness :
    ((input_trainer ℝ false ClippingType.norm_clipping).clip_gradients Real.sqrt
        (input_model ℝ) 1).2.1.clips = 0 ∧
    ((input_trainer ℝ true ClippingType.norm_clipping).clip_gradients_pre 1 (1 / 2)).1 = 1 ∧
    ((input_trainer ℝ true ClippingType.norm_clipping).clip_gradients Real.sqrt
        (input_model ℝ) 1).2.1.clips = 0 + 1 ∧
    ((input_trainer ℝ true ClippingType.norm_clipping).clip_gradients_pre 1 5).2.clips
      = 0 + 1 ∧
    ((input_trainer ℝ true ClippingType.simple_clipping).clip_gradients Real.sqrt
        (input_model ℝ) 1).1 = 1 :=
  ⟨((Trainer.clip_gradients_counts_clips Real.sqrt
      (input_trainer ℝ false ClippingType.norm_clipping) (input_model ℝ) 1 5).1
      (Or.inl rfl)).2,
   ((Trainer.clip_gradients_counts_clips Real.sqrt
      (input_trainer ℝ true ClippingType.norm_clipping) (input_model ℝ) 1 (1 / 2)).2.1
      (Or.inr (by simp [input_trainer]; norm_num))).1,
   (Trainer.clip_gradients_counts_clips Real.sqrt
      (input_trainer ℝ true ClippingType.norm_clipping) (input_model ℝ) 1 5).2.2.1
      ⟨rfl, by simp [input_trainer], by simpa [input_trainer] using input_model_norm_gt⟩,
   (Trainer.clip_gradients_counts_clips Real.sqrt
      (input_trainer ℝ true ClippingType.norm_clipping) (input_model ℝ) 1 5).2.2.2.1
      ⟨rfl, by simp [input_trainer]⟩,
   ((Trainer.clip_gradients_counts_clips Real.sqrt
      (input_trainer ℝ true ClippingType.simple_clipping) (input_model ℝ) 1 5).2.2.2.2
      ⟨rfl, rfl⟩).1⟩

/-- C3, counterexample: clipping is enabled (simple clipping, threshold 1, `samples = 1`)
and the global gradient norm of the input model exceeds `clip_threshold*samples`, yet
`clip_gradients(samples)` does not increase `clips`. -/
theorem Trainer.clip_gradients_simple_mode_counts_nothing :
    ¬ (((input_trainer ℝ true ClippingType.simple_clipping).clipping_enabled = true ∧
        (input_model ℝ).gradient_l2_norm Real.sqrt
          > (input_trainer ℝ true ClippingType.simple_clipping).clip_threshold * 1) →
      ((input_trainer ℝ true ClippingType.simple_clipping).clip_gradients Real.sqrt
          (input_model ℝ) 1).2.1.clips
        = (input_trainer ℝ true ClippingType.simple_clipping).clips + 1) := by
  intro h
  have h1 := h ⟨rfl, by simpa [input_trainer] using input_model_norm_gt⟩
  simp [Trainer.clip_gradients, input_trainer] at h1
section SGDIsolation
variable {α : Type} [LinearOrderedField α]

/-- C4: sparse update isolation. After `SimpleSGDTrainer::update`, for every lookup table
and the set of rows with an entry in `grads`, every row outside that set has the value
it had before the call (so only rows of the set may differ), the table has as many rows
as before, and its `grads` map is empty. -/
theorem SimpleSGDTrainer.update_sparse_isolation (sqrt : α → α) (tr : Trainer α)
    (m : Model α) (samples scale : α) :
    (SimpleSGDTrainer.update sqrt tr m samples scale).2.lookup_params.length
      = m.lookup_params.length ∧
    ∀ (li : Nat) (p : LookupParameters α), m.lookup_params[li]? = some p →
      ∃ q : LookupParameters α,
        (SimpleSGDTrainer.update sqrt tr m samples scale).2.lookup_params[li]? = some q ∧
        q.grads = [] ∧ q.values.length = p.values.length ∧
        ∀ i : Nat, i ∉ p.touched → q.values[i]? = p.values[i]? := by
  refine ⟨by simp [SimpleSGDTrainer.update, Trainer.clip_gradients_model], ?_⟩
  intro li p hp
  have hq : (SimpleSGDTrainer.update sqrt tr m samples scale).2.lookup_params[li]? = some
      (SimpleSGDTrainer.lookup_body tr.eta tr.lambda scale
        (tr.clip_gradients sqrt m samples).1 (1 / samples)
        { p with grads := p.grads.map (fun g => (g.1, tr.clipped samples g.2)) }) := by
    simp only [SimpleSGDTrainer.update, Trainer.clip_gradients_model, List.getElem?_map, hp,
      Option.map_some']
  refine ⟨_, hq, ?_, ?_, ?_⟩
  · simp [SimpleSGDTrainer.lookup_body, LookupParameters.clear]
  · simp only [SimpleSGDTrainer.lookup_body, LookupParameters.clear]
    rw [SimpleSGDTrainer.sgd_rows_length]
  · intro i hi
    simp only [SimpleSGDTrainer.lookup_body, LookupParameters.clear]
    rw [SimpleSGDTrainer.sgd_rows_untouched]
    simpa [LookupParameters.touched, List.map_map, Function.comp_def] using hi

end SGDIsolation

/-- C4, witness: in the input model row 1 of the table is touched; after an update with
norm clipping the table still has its three rows, rows 0 and 2 are the rows of before,
and `grads` is empty. -/
theorem SimpleSGDTrainer.update_sparse_isolation_witness :
    ∃ q : LookupParameters ℝ,
      (SimpleSGDTrainer.update Real.sqrt (input_trainer ℝ true ClippingType.norm_clipping)
        (input_model ℝ) 1 1).2.lookup_params[0]? = some q ∧
      q.grads = [] ∧ q.values.length = 3 ∧ q.values[0]? = some [5] ∧
      q.values[2]? = some [7] := by
  obtain ⟨q, h1, h2, h3, h4⟩ := (SimpleSGDTrainer.update_sparse_isolation Real.sqrt
    (input_trainer ℝ true ClippingType.norm_clipping) (input_model ℝ) 1 1).2 0
    ⟨[1], [[5], [6], [7]], [(1, [2])]⟩ rfl
  exact ⟨q, h1, h2, h3, h4 0 (by simp [LookupParameters.touched]),
    h4 2 (by simp [LookupParameters.touched])⟩
/-! ## Loops over parameters with shadow slots -/

section ShadowLoops

/-- A loop with counter `pi` whose body rewrites its element and slot `pi` of one shadow
list, both from the element and that slot. -/
theorem forEachIdx_slot {β γ : Type} (F : β → γ → β) (H : β → γ → γ) (d : γ)
    (body : Nat → β → List γ → β × List γ)
    (hb : ∀ k x s, body k x s = (F x (s.getD k d), s.set k (H x (s.getD k d))))
    (xs : List β) (s : List γ) :
    (∀ (k : Nat) (x : β) (v : γ), xs[k]? = some x → s[k]? = some v →
      (forEachIdx body xs 0 s).1[k]? = some (F x v) ∧
      (forEachIdx body xs 0 s).2[k]? = some (H x v)) ∧
    (∀ k : Nat, xs.length ≤ k → (forEachIdx body xs 0 s).2[k]? = s[k]?) := by
  have h := forEachIdx_spec body (fun k (s : List γ) => s[k]?)
    (fun _ x o => F x (o.getD d)) (fun _ x o => o.map (fun _ => H x (o.getD d)))
    (fun _ _ => True) (fun _ _ _ _ => trivial)
    (by intro k x s _; simp [hb, List.getD_eq_getElem?_getD])
    (by intro k x s _; simp [hb, getElem?_set_same, List.getD_eq_getElem?_getD])
    (by intro k j x s _ hj; simp [hb, getElem?_set_other _ _ _ _ hj])
    xs 0 s trivial
  refine ⟨?_, ?_⟩
  · intro k x v hx hv
    have := h.2.1 k x hx
    simpa [hv] using this
  · intro k hk
    have := h.2.2 k (Or.inr (by simpa using hk))
    simpa using this

/-- A loop with counter `pi` whose body rewrites its element and slot `pi` of two shadow
lists, all from the element and those two slots. -/
theorem forEachIdx_slot2 {β γ δ : Type} (F : β → γ → δ → β) (H1 : β → γ → δ → γ)
    (H2 : β → γ → δ → δ) (d1 : γ) (d2 : δ)
    (body : Nat → β → List γ × List δ → β × List γ × List δ)
    (hb : ∀ k x s, body k x s =
      (F x (s.1.getD k d1) (s.2.getD k d2),
       s.1.set k (H1 x (s.1.getD k d1) (s.2.getD k d2)),
       s.2.set k (H2 x (s.1.getD k d1) (s.2.getD k d2))))
    (xs : List β) (s : List γ × List δ) :
    ∀ (k : Nat) (x : β) (v : γ) (w : δ), xs[k]? = some x → s.1[k]? = some v →
      s.2[k]? = some w →
      (forEachIdx body xs 0 s).1[k]? = some (F x v w) ∧
      (forEachIdx body xs 0 s).2.1[k]? = some (H1 x v w) ∧
      (forEachIdx body xs 0 s).2.2[k]? = some (H2 x v w) := by
  have h := forEachIdx_spec body (fun k (s : List γ × List δ) => (s.1[k]?, s.2[k]?))
    (fun _ x o => F x (o.1.getD d1) (o.2.getD d2))
    (fun _ x o => (o.1.map (fun _ => H1 x (o.1.getD d1) (o.2.getD d2)),
      o.2.map (fun _ => H2 x (o.1.getD d1) (o.2.getD d2))))
    (fun _ _ => True) (fun _ _ _ _ => trivial)
    (by intro k x s _; simp [hb, List.getD_eq_getElem?_getD])
    (by intro k x s _; simp [hb, getElem?_set_same, List.getD_eq_getElem?_getD])
    (by intro k j x s _ hj; simp [hb, getElem?_set_other _ _ _ _ hj])
    xs 0 s trivial
  intro k x v w hx hv hw
  have := h.2.1 k x hx
  simpa [hv, hw, Prod.ext_iff] using this

/-- The loop over the keys of `grads` when the body rewrites row `i` of the table and
slot `i` of one shadow list, both from that row and that slot. -/
theorem foldl_rows {β γ : Type} (F : Nat → β → γ → β) (H : Nat → β → γ → γ) (d0 : β)
    (d : γ) (body : List β × List γ → Nat → List β × List γ)
    (hb : ∀ s i, body s i =
      (s.1.set i (F i (s.1.getD i d0) (s.2.getD i d)),
       s.2.set i (H i (s.1.getD i d0) (s.2.getD i d))))
    (keys : List Nat) (hnd : keys.Nodup) (s : List β × List γ) :
    ∀ (i : Nat) (θ : β) (v : γ), i ∈ keys → s.1[i]? = some θ → s.2[i]? = some v →
      (keys.foldl body s).1[i]? = some (F i θ v) ∧
      (keys.foldl body s).2[i]? = some (H i θ v) := by
  have h := foldl_keys_spec body (fun i (s : List β × List γ) => (s.1[i]?, s.2[i]?))
    (fun i o => (o.1.map (fun _ => F i (o.1.getD d0) (o.2.getD d)),
      o.2.map (fun _ => H i (o.1.getD d0) (o.2.getD d))))
    (by intro s k; simp [hb, getElem?_set_same, List.getD_eq_getElem?_getD])
    (by intro s k j hj; simp [hb, getElem?_set_other _ _ _ _ hj])
    keys hnd s
  intro i θ v hi hθ hv
  have := h i
  simpa [hi, hθ, hv, Prod.ext_iff] using this

/-- The loop over the keys of `grads` when the body rewrites row `i` of the table and
slot `i` of two shadow lists, all from that row and those slots. -/
theorem foldl_rows2 {β γ δ : Type} (F : Nat → β → γ → δ → β) (H1 : Nat → β → γ → δ → γ)
    (H2 : Nat → β → γ → δ → δ) (d0 : β) (d1 : γ) (d2 : δ)
    (body : List β × List γ × List δ → Nat → List β × List γ × List δ)
    (hb : ∀ s i, body s i =
      (s.1.set i (F i (s.1.getD i d0) (s.2.1.getD i d1) (s.2.2.getD i d2)),
       s.2.1.set i (H1 i (s.1.getD i d0) (s.2.1.getD i d1) (s.2.2.getD i d2)),
       s.2.2.set i (H2 i (s.1.getD i d0) (s.2.1.getD i d1) (s.2.2.getD i d2))))
    (keys : List Nat) (hnd : keys.Nodup) (s : List β × List γ × List δ) :
    ∀ (i : Nat) (θ : β) (v : γ) (w : δ), i ∈ keys → s.1[i]? = some θ →
      s.2.1[i]? = some v → s.2.2[i]? = some w →
      (keys.foldl body s).1[i]? = some (F i θ v w) ∧
      (keys.foldl body s).2.1[i]? = some (H1 i θ v w) ∧
      (keys.foldl body s).2.2[i]? = some (H2 i θ v w) := by
  have h := foldl_keys_spec body
    (fun i (s : List β × List γ × List δ) => (s.1[i]?, s.2.1[i]?, s.2.2[i]?))
    (fun i o => (o.1.map (fun _ => F i (o.1.getD d0) (o.2.1.getD d1) (o.2.2.getD d2)),
      o.2.1.map (fun _ => H1 i (o.1.getD d0) (o.2.1.getD d1) (o.2.2.getD d2)),
      o.2.2.map (fun _ => H2 i (o.1.getD d0) (o.2.1.getD d1) (o.2.2.getD d2))))
    (by intro s k; simp [hb, getElem?_set_same, List.getD_eq_getElem?_getD])
    (by intro s k j hj; simp [hb, getElem?_set_other _ _ _ _ hj])
    keys hnd s
  intro i θ v w hi hθ hv hw
  have := h i
  simpa [hi, hθ, hv, hw, Prod.ext_iff] using this

end ShadowLoops
/-! ## More tensor algebra -/

section Algebra2
variable {α : Type} [LinearOrderedField α]

/-- Scaling twice is scaling by the product. -/
theorem smul_smul_eq (a b c : α) (h : a * b = c) (G : Tensor α) :
    smul a (smul b G) = smul c G := by
  subst h
  simp [smul, mul_assoc]

/-- The assignment `θ += V - λ·θ` is `θ + V - λ·θ`. -/
theorem tadd_tsub_smul (lam : α) : ∀ (θ V : Tensor α),
    tadd θ (tsub V (smul lam θ)) = tsub (tadd θ V) (smul lam θ) := by
  intro θ
  induction θ with
  | nil => intro V; simp [tsub, tadd, smul]
  | cons x xs ih =>
    intro V
    cases V with
    | nil => simp [tsub, tadd, smul]
    | cons y ys =>
      have := ih ys
      simp only [tsub, tadd, smul, List.map_cons, List.zipWith_cons_cons] at this ⊢
      rw [this]
      congr 1
      ring

end Algebra2

/-! ## MomentumSGDTrainer -/

section MomentumClaims
variable {α : Type} [LinearOrderedField α]

/-- The lazy allocation leaves the base members and `momentum` alone. -/
theorem MomentumSGDTrainer.momentum_allocate_base (tr : MomentumSGDTrainer α) (m : Model α) :
    (tr.allocate m).toTrainer = tr.toTrainer ∧ (tr.allocate m).momentum = tr.momentum := by
  unfold MomentumSGDTrainer.allocate
  split <;> simp

/-- The rows of a table and of its velocity after the loop over `grads` of
`MomentumSGDTrainer::update`. -/
theorem MomentumSGDTrainer.momentum_rows_after (eta lambda momentum scale gscale nutt_scale : α)
    (q : LookupParameters α) (hnd : q.touched.Nodup) (vx : List (Tensor α))
    (i : Nat) (θ v : Tensor α) (hi : i ∈ q.touched) (hθ : q.values[i]? = some θ)
    (hv : vx[i]? = some v) :
    (q.grads.foldl
      (fun s g => MomentumSGDTrainer.row_body eta lambda momentum scale gscale nutt_scale q s g.1)
      (q.values, vx)).1[i]?
      = some (tadd θ (tsub (tsub (smul momentum v)
          (smul (eta * scale * gscale * nutt_scale) (q.grad i))) (smul lambda θ))) ∧
    (q.grads.foldl
      (fun s g => MomentumSGDTrainer.row_body eta lambda momentum scale gscale nutt_scale q s g.1)
      (q.values, vx)).2[i]?
      = some (tsub (smul momentum v) (smul (eta * scale * gscale * nutt_scale) (q.grad i))) := by
  have h := foldl_rows
    (fun (i : Nat) (θ v : Tensor α) => tadd θ (tsub (tsub (smul momentum v)
      (smul (eta * scale * gscale * nutt_scale) (q.grad i))) (smul lambda θ)))
    (fun (i : Nat) (_ v : Tensor α) => tsub (smul momentum v)
      (smul (eta * scale * gscale * nutt_scale) (q.grad i)))
    [] []
    (fun s i => MomentumSGDTrainer.row_body eta lambda momentum scale gscale nutt_scale q s i)
    (by intro s i; rfl)
    q.touched hnd (q.values, vx) i θ v hi hθ hv
  simpa only [LookupParameters.touched, List.foldl_map] using h

/-- C7: `MomentumSGDTrainer::update` applies, to every dense parameter and to every
touched lookup row `i` with that row's own velocity slot `i`, with
`g = scale*gscale*G/batch_size` (`G` the gradient that `clip_gradients` leaves, the
accumulated gradient itself unless simple clipping is enabled):
`v' = momentum*v - eta*g`, then `θ' = θ + v' - lambda*θ` with the decay taken from the
value of before the step; the stored velocity becomes `v'`. The velocity `v` is the
slot as the lazy allocation at the head of the call leaves it. -/
theorem MomentumSGDTrainer.update_momentum_rule (sqrt : α → α) (tr : MomentumSGDTrainer α)
    (m : Model α) (nutt scale : α) (hs : 0 < nutt) :
    (∀ (pi : Nat) (p : Parameters α) (v : ShadowParameters α),
      m.params[pi]? = some p → (tr.allocate m).vp[pi]? = some v →
      ((MomentumSGDTrainer.update sqrt tr m nutt scale).2.params[pi]?).map Parameters.values
        = some (tsub (tadd p.values
            (tsub (smul tr.momentum v.h) (smul tr.eta
              (smul (scale * (tr.toTrainer.clip_gradients sqrt m nutt).1 / nutt)
                (tr.clipped nutt p.g)))))
            (smul tr.lambda p.values)) ∧
      ((MomentumSGDTrainer.update sqrt tr m nutt scale).1.vp[pi]?).map ShadowParameters.h
        = some (tsub (smul tr.momentum v.h) (smul tr.eta
              (smul (scale * (tr.toTrainer.clip_gradients sqrt m nutt).1 / nutt)
                (tr.clipped nutt p.g))))) ∧
    (∀ (li : Nat) (p : LookupParameters α) (vx : ShadowLookupParameters α),
      m.lookup_params[li]? = some p → (tr.allocate m).vlp[li]? = some vx →
      p.touched.Nodup →
      ∀ (i : Nat) (G θ v : Tensor α), (i, G) ∈ p.grads → p.values[i]? = some θ →
        vx.h[i]? = some v →
      ((MomentumSGDTrainer.update sqrt tr m nutt scale).2.lookup_params[li]?).bind
          (fun q : LookupParameters α => q.values[i]?)
        = some (tsub (tadd θ
            (tsub (smul tr.momentum v) (smul tr.eta
              (smul (scale * (tr.toTrainer.clip_gradients sqrt m nutt).1 / nutt)
                (tr.clipped nutt G)))))
            (smul tr.lambda θ)) ∧
      ((MomentumSGDTrainer.update sqrt tr m nutt scale).1.vlp[li]?).bind
          (fun q : ShadowLookupParameters α => q.h[i]?)
        = some (tsub (smul tr.momentum v) (smul tr.eta
              (smul (scale * (tr.toTrainer.clip_gradients sqrt m nutt).1 / nutt)
                (tr.clipped nutt G))))) ∧
    (¬ (tr.clipping_enabled = true ∧ tr.clipping_type = ClippingType.simple_clipping) →
      ∀ g : Tensor α, tr.clipped nutt g = g) := by
  have hne : nutt ≠ 0 := ne_of_gt hs
  obtain ⟨hb1, hb2⟩ := MomentumSGDTrainer.momentum_allocate_base tr m
  have hc : ∀ G : Tensor α,
      smul (tr.eta * scale * (tr.toTrainer.clip_gradients sqrt m nutt).1 * (1 / nutt)) G
        = smul tr.eta (smul (scale * (tr.toTrainer.clip_gradients sqrt m nutt).1 / nutt) G) := by
    intro G
    rw [smul_smul_eq]
    field_simp
    ring
  refine ⟨?_, ?_, fun h g => Trainer.clipped_eq_self tr.toTrainer nutt g h⟩
  · intro pi p v hp hv
    have hp' : (tr.toTrainer.clip_gradients sqrt m nutt).2.2.params[pi]?
        = some { p with g := tr.clipped nutt p.g } := by
      simp [Trainer.clip_gradients_model, hp]
    have h := (forEachIdx_slot
      (fun (p : Parameters α) (v : ShadowParameters α) =>
        ({ p with values := tadd p.values (tsub (tsub (smul tr.momentum v.h)
          (smul (tr.eta * scale * (tr.toTrainer.clip_gradients sqrt m nutt).1 * (1 / nutt)) p.g))
          (smul tr.lambda p.values)) }).clear)
      (fun (p : Parameters α) (v : ShadowParameters α) =>
        (⟨tsub (smul tr.momentum v.h)
          (smul (tr.eta * scale * (tr.toTrainer.clip_gradients sqrt m nutt).1 * (1 / nutt)) p.g)⟩ :
          ShadowParameters α))
      default
      (MomentumSGDTrainer.dense_body tr.eta tr.lambda tr.momentum scale
        (tr.toTrainer.clip_gradients sqrt m nutt).1 (1 / nutt))
      (by intro k x s; rfl)
      (tr.toTrainer.clip_gradients sqrt m nutt).2.2.params (tr.allocate m).vp).1
      pi _ v hp' hv
    simp only [MomentumSGDTrainer.update, hb1, hb2]
    rw [h.1, h.2]
    simp only [Option.map_some', Parameters.clear, hc, tadd_tsub_smul]
    exact ⟨trivial, trivial⟩
  · intro li p vx hp hvx hnd i G θ v hG hθ hv
    obtain ⟨hq1, hq2, hq3, hq4⟩ := clipped_table tr.toTrainer nutt p hnd i G hG
    have hp' : (tr.toTrainer.clip_gradients sqrt m nutt).2.2.lookup_params[li]?
        = some { p with grads := p.grads.map (fun g => (g.1, tr.clipped nutt g.2)) } := by
      simp [Trainer.clip_gradients_model, hp]
    have h := (forEachIdx_slot
      (fun (p : LookupParameters α) (vx : ShadowLookupParameters α) =>
        ({ p with values := (p.grads.foldl
          (fun s (g : Nat × Tensor α) =>
            MomentumSGDTrainer.row_body tr.eta tr.lambda tr.momentum scale
              (tr.toTrainer.clip_gradients sqrt m nutt).1 (1 / nutt) p s g.1)
          (p.values, vx.h)).1 }).clear)
      (fun (p : LookupParameters α) (vx : ShadowLookupParameters α) =>
        (⟨(p.grads.foldl
          (fun s (g : Nat × Tensor α) =>
            MomentumSGDTrainer.row_body tr.eta tr.lambda tr.momentum scale
              (tr.toTrainer.clip_gradients sqrt m nutt).1 (1 / nutt) p s g.1)
          (p.values, vx.h)).2⟩ : ShadowLookupParameters α))
      default
      (MomentumSGDTrainer.lookup_body tr.eta tr.lambda tr.momentum scale
        (tr.toTrainer.clip_gradients sqrt m nutt).1 (1 / nutt))
      (by intro k x s; rfl)
      (tr.toTrainer.clip_gradients sqrt m nutt).2.2.lookup_params (tr.allocate m).vlp).1
      li _ vx hp' hvx
    have hr := MomentumSGDTrainer.momentum_rows_after tr.eta tr.lambda tr.momentum scale
      (tr.toTrainer.clip_gradients sqrt m nutt).1 (1 / nutt) _ hq1 vx.h i θ v hq2 hθ hv
    simp only [MomentumSGDTrainer.update, hb1, hb2]
    rw [h.1, h.2]
    refine ⟨hr.1.trans ?_, hr.2.trans ?_⟩
    · rw [hq4, hc, tadd_tsub_smul]
    · rw [hq4, hc]

end MomentumClaims
/-- C7, witness: one update of `input_momentum_trainer` on the input model with
`batch_size = 1`: the dense velocity `(1, 1)` becomes `(1/2 - 3, 1/2 - 4)` and is added to
the value `(0, 0)`; row 1 of the table moves from `(6)` by its new velocity `(1/2 - 2)`. -/
theorem MomentumSGDTrainer.update_momentum_rule_witness :
    (((MomentumSGDTrainer.update Real.sqrt (input_momentum_trainer ℝ) (input_model ℝ)
        1 1).2.params[0]?).map (@Parameters.values ℝ) = some [-(5 / 2), -(7 / 2)] ∧
     ((MomentumSGDTrainer.update Real.sqrt (input_momentum_trainer ℝ) (input_model ℝ)
        1 1).1.vp[0]?).map (@ShadowParameters.h ℝ) = some [-(5 / 2), -(7 / 2)]) ∧
    (((MomentumSGDTrainer.update Real.sqrt (input_momentum_trainer ℝ) (input_model ℝ)
        1 1).2.lookup_params[0]?).bind (fun q : LookupParameters ℝ => q.values[1]?)
        = (some [9 / 2] : Option (Tensor ℝ)) ∧
     ((MomentumSGDTrainer.update Real.sqrt (input_momentum_trainer ℝ) (input_model ℝ)
        1 1).1.vlp[0]?).bind (fun q : ShadowLookupParameters ℝ => q.h[1]?)
        = (some [-(3 / 2)] : Option (Tensor ℝ))) := by
  have h := MomentumSGDTrainer.update_momentum_rule Real.sqrt (input_momentum_trainer ℝ)
    (input_model ℝ) 1 1 (by norm_num)
  have h1 := h.1 0 ⟨[2], [0, 0], [3, 4]⟩ ⟨[1, 1]⟩ rfl rfl
  have h2 := h.2.1 0 ⟨[1], [[5], [6], [7]], [(1, [2])]⟩ ⟨[[0], [1], [0]]⟩ rfl rfl
    (by simp [LookupParameters.touched]) 1 [2] [6] [1] (by simp) rfl rfl
  refine ⟨⟨h1.1.trans ?_, h1.2.trans ?_⟩, ⟨h2.1.trans ?_, h2.2.trans ?_⟩⟩ <;>
  · simp [Trainer.clipped, Trainer.clip_gradients, input_momentum_trainer, input_trainer,
      tsub, tadd, smul]
    norm_num
/-! ## AdagradTrainer -/

section AdagradClaims
variable {α : Type} [LinearOrderedField α]

/-- The assignment `θ += (-c)·Q - λ·θ` is `θ - c·Q - λ·θ`. -/
theorem tadd_tsub_smul_neg (c lam : α) : ∀ (θ Q : Tensor α),
    tadd θ (tsub (smul (-c) Q) (smul lam θ)) = tsub (tsub θ (smul c Q)) (smul lam θ) := by
  intro θ
  induction θ with
  | nil => intro Q; simp [tsub, tadd, smul]
  | cons x xs ih =>
    intro Q
    cases Q with
    | nil => simp [tsub, tadd, smul]
    | cons y ys =>
      have := ih ys
      simp only [tsub, tadd, smul, List.map_cons, List.zipWith_cons_cons] at this ⊢
      rw [this]
      congr 1
      ring

/-- The lazy allocation leaves the base members and `epsilon` alone. -/
theorem AdagradTrainer.adagrad_allocate_base (tr : AdagradTrainer α) (m : Model α) :
    (tr.allocate m).toTrainer = tr.toTrainer ∧ (tr.allocate m).epsilon = tr.epsilon := by
  unfold AdagradTrainer.allocate
  split <;> simp

/-- The rows of a table and of its accumulator after the loop over `grads` of
`AdagradTrainer::update`. -/
theorem AdagradTrainer.adagrad_rows_after (sqrt : α → α) (eta lambda epsilon scale gscale : α)
    (q : LookupParameters α) (hnd : q.touched.Nodup) (vx : List (Tensor α))
    (i : Nat) (θ v : Tensor α) (hi : i ∈ q.touched) (hθ : q.values[i]? = some θ)
    (hv : vx[i]? = some v) :
    (q.grads.foldl
      (fun s g => AdagradTrainer.row_body sqrt eta lambda epsilon scale gscale q s g.1)
      (q.values, vx)).1[i]?
      = some (tadd θ (tsub (smul (-(eta * scale * gscale))
          (cwiseQuotient (q.grad i)
            (cwiseSqrt sqrt (arrayAdd (tadd v (cwiseProduct (q.grad i) (q.grad i))) epsilon))))
          (smul lambda θ))) ∧
    (q.grads.foldl
      (fun s g => AdagradTrainer.row_body sqrt eta lambda epsilon scale gscale q s g.1)
      (q.values, vx)).2[i]?
      = some (tadd v (cwiseProduct (q.grad i) (q.grad i))) := by
  have h := foldl_rows
    (fun (i : Nat) (θ v : Tensor α) => tadd θ (tsub (smul (-(eta * scale * gscale))
          (cwiseQuotient (q.grad i)
            (cwiseSqrt sqrt (arrayAdd (tadd v (cwiseProduct (q.grad i) (q.grad i))) epsilon))))
          (smul lambda θ)))
    (fun (i : Nat) (_ v : Tensor α) => tadd v (cwiseProduct (q.grad i) (q.grad i)))
    [] []
    (fun s i => AdagradTrainer.row_body sqrt eta lambda epsilon scale gscale q s i)
    (by intro s i; rfl)
    q.touched hnd (q.values, vx) i θ v hi hθ hv
  simpa only [LookupParameters.touched, List.foldl_map] using h

/-- C8 (as amended): `AdagradTrainer::update(batch_size, scale)` applies to every dense
parameter and every touched lookup row the rule `v' = v + G^2` (componentwise),
`θ' = θ - eta*scale*gscale*G/sqrt(v' + epsilon) - lambda*θ`, where `G` is the accumulated
gradient as `clip_gradients(batch_size)` leaves it: it is not divided by `batch_size`,
and `scale` and the clip factor multiply the step without entering `v'`. The accumulator
`v` is the slot as the lazy allocation at the head of the call leaves it, and `v'` is
stored back into it. -/
theorem AdagradTrainer.update_adagrad_rule (sqrt : α → α) (tr : AdagradTrainer α)
    (m : Model α) (nsamples scale : α) :
    (∀ (pi : Nat) (p : Parameters α) (v : ShadowParameters α),
      m.params[pi]? = some p → (tr.allocate m).vp[pi]? = some v →
      ((AdagradTrainer.update sqrt tr m nsamples scale).2.params[pi]?).map Parameters.values
        = some (tsub (tsub p.values
            (smul (tr.eta * scale * (tr.toTrainer.clip_gradients sqrt m nsamples).1)
              (cwiseQuotient (tr.clipped nsamples p.g)
                (cwiseSqrt sqrt (arrayAdd
                  (tadd v.h (cwiseProduct (tr.clipped nsamples p.g) (tr.clipped nsamples p.g)))
                  tr.epsilon)))))
            (smul tr.lambda p.values)) ∧
      ((AdagradTrainer.update sqrt tr m nsamples scale).1.vp[pi]?).map ShadowParameters.h
        = some (tadd v.h
            (cwiseProduct (tr.clipped nsamples p.g) (tr.clipped nsamples p.g)))) ∧
    (∀ (li : Nat) (p : LookupParameters α) (vx : ShadowLookupParameters α),
      m.lookup_params[li]? = some p → (tr.allocate m).vlp[li]? = some vx →
      p.touched.Nodup →
      ∀ (i : Nat) (G θ v : Tensor α), (i, G) ∈ p.grads → p.values[i]? = some θ →
        vx.h[i]? = some v →
      ((AdagradTrainer.update sqrt tr m nsamples scale).2.lookup_params[li]?).bind
          (fun q : LookupParameters α => q.values[i]?)
        = some (tsub (tsub θ
            (smul (tr.eta * scale * (tr.toTrainer.clip_gradients sqrt m nsamples).1)
              (cwiseQuotient (tr.clipped nsamples G)
                (cwiseSqrt sqrt (arrayAdd
                  (tadd v (cwiseProduct (tr.clipped nsamples G) (tr.clipped nsamples G)))
                  tr.epsilon)))))
            (smul tr.lambda θ)) ∧
      ((AdagradTrainer.update sqrt tr m nsamples scale).1.vlp[li]?).bind
          (fun q : ShadowLookupParameters α => q.h[i]?)
        = some (tadd v (cwiseProduct (tr.clipped nsamples G) (tr.clipped nsamples G)))) ∧
    (¬ (tr.clipping_enabled = true ∧ tr.clipping_type = ClippingType.simple_clipping) →
      ∀ g : Tensor α, tr.clipped nsamples g = g) := by
  obtain ⟨hb1, hb2⟩ := AdagradTrainer.adagrad_allocate_base tr m
  refine ⟨?_, ?_, fun h g => Trainer.clipped_eq_self tr.toTrainer nsamples g h⟩
  · intro pi p v hp hv
    have hp' : (tr.toTrainer.clip_gradients sqrt m nsamples).2.2.params[pi]?
        = some { p with g := tr.clipped nsamples p.g } := by
      simp [Trainer.clip_gradients_model, hp]
    have h := (forEachIdx_slot
      (fun (p : Parameters α) (v : ShadowParameters α) =>
        ({ p with values := tadd p.values (tsub
          (smul (-(tr.eta * scale * (tr.toTrainer.clip_gradients sqrt m nsamples).1))
            (cwiseQuotient p.g
              (cwiseSqrt sqrt (arrayAdd (tadd v.h (cwiseProduct p.g p.g)) tr.epsilon))))
          (smul tr.lambda p.values)) }).clear)
      (fun (p : Parameters α) (v : ShadowParameters α) =>
        (⟨tadd v.h (cwiseProduct p.g p.g)⟩ : ShadowParameters α))
      default
      (AdagradTrainer.dense_body sqrt tr.eta tr.lambda tr.epsilon scale
        (tr.toTrainer.clip_gradients sqrt m nsamples).1)
      (by intro k x s; rfl)
      (tr.toTrainer.clip_gradients sqrt m nsamples).2.2.params (tr.allocate m).vp).1
      pi _ v hp' hv
    simp only [AdagradTrainer.update, hb1, hb2]
    rw [h.1, h.2]
    simp only [Option.map_some', Parameters.clear, tadd_tsub_smul_neg]
    exact ⟨trivial, trivial⟩
  · intro li p vx hp hvx hnd i G θ v hG hθ hv
    obtain ⟨hq1, hq2, hq3, hq4⟩ := clipped_table tr.toTrainer nsamples p hnd i G hG
    have hp' : (tr.toTrainer.clip_gradients sqrt m nsamples).2.2.lookup_params[li]?
        = some { p with grads := p.grads.map (fun g => (g.1, tr.clipped nsamples g.2)) } := by
      simp [Trainer.clip_gradients_model, hp]
    have h := (forEachIdx_slot
      (fun (p : LookupParameters α) (vx : ShadowLookupParameters α) =>
        ({ p with values := (p.grads.foldl
          (fun s (g : Nat × Tensor α) =>
            AdagradTrainer.row_body sqrt tr.eta tr.lambda tr.epsilon scale
              (tr.toTrainer.clip_gradients sqrt m nsamples).1 p s g.1)
          (p.values, vx.h)).1 }).clear)
      (fun (p : LookupParameters α) (vx : ShadowLookupParameters α) =>
        (⟨(p.grads.foldl
          (fun s (g : Nat × Tensor α) =>
            AdagradTrainer.row_body sqrt tr.eta tr.lambda tr.epsilon scale
              (tr.toTrainer.clip_gradients sqrt m nsamples).1 p s g.1)
          (p.values, vx.h)).2⟩ : ShadowLookupParameters α))
      default
      (AdagradTrainer.lookup_body sqrt tr.eta tr.lambda tr.epsilon scale
        (tr.toTrainer.clip_gradients sqrt m nsamples).1)
      (by intro k x s; rfl)
      (tr.toTrainer.clip_gradients sqrt m nsamples).2.2.lookup_params (tr.allocate m).vlp).1
      li _ vx hp' hvx
    have hr := AdagradTrainer.adagrad_rows_after sqrt tr.eta tr.lambda tr.epsilon scale
      (tr.toTrainer.clip_gradients sqrt m nsamples).1 _ hq1 vx.h i θ v hq2 hθ hv
    simp only [AdagradTrainer.update, hb1, hb2]
    rw [h.1, h.2]
    refine ⟨hr.1.trans ?_, hr.2.trans ?_⟩
    · rw [hq4, tadd_tsub_smul_neg]
    · rw [hq4]

end AdagradClaims

/-- The square roots that the concrete inputs need. -/
theorem sqrt_values : Real.sqrt 9 = 3 ∧ Real.sqrt 16 = 4 ∧ Real.sqrt 25 = 5 := by
  refine ⟨?_, ?_, ?_⟩
  · rw [show (9 : ℝ) = 3 ^ 2 by norm_num]; exact Real.sqrt_sq (by norm_num)
  · rw [show (16 : ℝ) = 4 ^ 2 by norm_num]; exact Real.sqrt_sq (by norm_num)
  · rw [show (25 : ℝ) = 5 ^ 2 by norm_num]; exact Real.sqrt_sq (by norm_num)

/-- C8, witness: one update of `input_adagrad_trainer` on the input model with
`batch_size = 2`: the dense accumulator `(6, 8)` becomes `(6 + 9, 8 + 16)` and the value
`(0, 0)` moves by `-(3/4, 4/5)`; row 1 moves from `(6)` by `-2/3`, its accumulator from
`(4)` to `(8)`. -/
theorem AdagradTrainer.update_adagrad_rule_witness :
    (((AdagradTrainer.update Real.sqrt (input_adagrad_trainer ℝ) (input_model ℝ)
        2 1).2.params[0]?).map (@Parameters.values ℝ)
        = (some [-(3 / 4), -(4 / 5)] : Option (Tensor ℝ)) ∧
     ((AdagradTrainer.update Real.sqrt (input_adagrad_trainer ℝ) (input_model ℝ)
        2 1).1.vp[0]?).map (@ShadowParameters.h ℝ)
        = (some [15, 24] : Option (Tensor ℝ))) ∧
    (((AdagradTrainer.update Real.sqrt (input_adagrad_trainer ℝ) (input_model ℝ)
        2 1).2.lookup_params[0]?).bind (fun q : LookupParameters ℝ => q.values[1]?)
        = (some [16 / 3] : Option (Tensor ℝ)) ∧
     ((AdagradTrainer.update Real.sqrt (input_adagrad_trainer ℝ) (input_model ℝ)
        2 1).1.vlp[0]?).bind (fun q : ShadowLookupParameters ℝ => q.h[1]?)
        = (some [8] : Option (Tensor ℝ))) := by
  have h := AdagradTrainer.update_adagrad_rule Real.sqrt (input_adagrad_trainer ℝ)
    (input_model ℝ) 2 1
  have h1 := h.1 0 ⟨[2], [0, 0], [3, 4]⟩ ⟨[6, 8]⟩ rfl rfl
  have h2 := h.2.1 0 ⟨[1], [[5], [6], [7]], [(1, [2])]⟩ ⟨[[0], [4], [0]]⟩ rfl rfl
    (by simp [LookupParameters.touched]) 1 [2] [6] [4] (by simp) rfl rfl
  obtain ⟨s9, s16, s25⟩ := sqrt_values
  refine ⟨⟨h1.1.trans ?_, h1.2.trans ?_⟩, ⟨h2.1.trans ?_, h2.2.trans ?_⟩⟩ <;>
  · simp [Trainer.clipped, Trainer.clip_gradients, input_adagrad_trainer, input_trainer,
      tsub, tadd, smul, cwiseQuotient, cwiseProduct, cwiseSqrt, arrayAdd]
    norm_num [s9, s16, s25]

/-- More square roots that the concrete inputs need. -/
theorem sqrt_values_more : Real.sqrt 121 = 11 ∧ Real.sqrt 169 = 13 ∧
    Real.sqrt (25 / 4) = 5 / 2 ∧ Real.sqrt (49 / 4) = 7 / 2 := by
  refine ⟨?_, ?_, ?_, ?_⟩
  · rw [show (121 : ℝ) = 11 ^ 2 by norm_num]; exact Real.sqrt_sq (by norm_num)
  · rw [show (169 : ℝ) = 13 ^ 2 by norm_num]; exact Real.sqrt_sq (by norm_num)
  · rw [show (25 / 4 : ℝ) = (5 / 2) ^ 2 by norm_num]; exact Real.sqrt_sq (by norm_num)
  · rw [show (49 / 4 : ℝ) = (7 / 2) ^ 2 by norm_num]; exact Real.sqrt_sq (by norm_num)

/-- C8, counterexample: `batch_size = 2`, `scale = 1`, no clipping (`gscale = 1`),
`eta = 1`, `lambda = 0`, `epsilon = 1`, a dense parameter of value `(0)` with accumulated
gradient `G = (8)` and accumulator `v = (104)`. The code stores `v' = 104 + 64` and moves
the value to `-8/13`; for the per-example gradient `g = scale*gscale*G/batch_size = (4)`
the claim gives `v' = 104 + 16` and the value `-4/11`. -/
theorem AdagradTrainer.adagrad_update_ignores_batch_size :
    ¬ (((AdagradTrainer.update Real.sqrt (input_adagrad_trainer_one_dense ℝ)
          (input_model_one_dense ℝ 8) 2 1).2.params[0]?).map (@Parameters.values ℝ)
        = some (tsub (tsub [0]
            (smul (input_adagrad_trainer_one_dense ℝ).eta
              (cwiseQuotient (smul (1 * 1 / 2) [8])
                (cwiseSqrt Real.sqrt (arrayAdd
                  (tadd [104] (cwiseProduct (smul (1 * 1 / 2) [8]) (smul (1 * 1 / 2) [8])))
                  (input_adagrad_trainer_one_dense ℝ).epsilon)))))
            (smul (input_adagrad_trainer_one_dense ℝ).lambda [0]))) := by
  obtain ⟨s121, s169, _, _⟩ := sqrt_values_more
  have e1 : (104 + 8 * 8 + 1 : ℝ) = 169 := by norm_num
  have e2 : (104 + 2⁻¹ * 8 * (2⁻¹ * 8) + 1 : ℝ) = 121 := by norm_num
  simp [AdagradTrainer.update, AdagradTrainer.allocate, AdagradTrainer.dense_body,
    forEachIdx, Trainer.clip_gradients, input_adagrad_trainer_one_dense, input_trainer,
    input_model_one_dense, Parameters.clear, tadd, tsub, cwiseProduct, cwiseQuotient,
    cwiseSqrt, arrayAdd, smul, e1, e2, s121, s169]
  norm_num
/-! ## RmsPropTrainer -/

section RmsPropClaims
variable {α : Type} [LinearOrderedField α]

/-- The lazy sizing leaves the base members, `epsilon` and `rho` alone. -/
theorem RmsPropTrainer.rmsprop_allocate_base (tr : RmsPropTrainer α) (m : Model α) :
    (tr.allocate m).toTrainer = tr.toTrainer ∧ (tr.allocate m).epsilon = tr.epsilon ∧
    (tr.allocate m).rho = tr.rho := by
  unfold RmsPropTrainer.allocate
  split <;> simp

/-- With a buffer and within `GPU_ALLOC_HOST_MEM_SIZE`, `compute_gradient_norm` returns. -/
theorem RmsPropTrainer.compute_gradient_norm_returns (GPU_ALLOC_HOST_MEM_SIZE : Nat)
    (plist : List (Parameters α)) (llist : List (LookupParameters α))
    (hsize : plist.length + (llist.map (fun p => p.grads.length)).sum
      ≤ GPU_ALLOC_HOST_MEM_SIZE) :
    ∃ r, RmsPropTrainer.compute_gradient_norm true GPU_ALLOC_HOST_MEM_SIZE plist llist
      = Outcome.returned r := by
  unfold RmsPropTrainer.compute_gradient_norm
  simp only [Bool.not_true, Bool.false_and, Bool.false_eq_true, if_false]
  rw [if_neg (Nat.not_lt.2 hsize)]
  exact ⟨_, rfl⟩

/-- The rows of a table and of its scalars `d2` after the loop over `grads` of
`RmsPropTrainer::update`. -/
theorem RmsPropTrainer.rmsprop_rows_after (sqrt : α → α) (eta lambda epsilon rho scale gscale : α)
    (q : LookupParameters α) (hnd : q.touched.Nodup) (hlgx : List α)
    (i : Nat) (θ : Tensor α) (d2 : α) (hi : i ∈ q.touched) (hθ : q.values[i]? = some θ)
    (hd : hlgx[i]? = some d2) :
    (q.grads.foldl
      (fun s g => RmsPropTrainer.row_body sqrt eta lambda epsilon rho scale gscale q s g.1)
      (q.values, hlgx)).1[i]?
      = some (tsub θ (tadd (smul (eta * scale * gscale
          / sqrt (rho * d2 + (1 - rho) * squaredNorm (q.grad i) + epsilon)) (q.grad i))
          (smul lambda θ))) ∧
    (q.grads.foldl
      (fun s g => RmsPropTrainer.row_body sqrt eta lambda epsilon rho scale gscale q s g.1)
      (q.values, hlgx)).2[i]?
      = some (rho * d2 + (1 - rho) * squaredNorm (q.grad i)) := by
  have h := foldl_rows
    (fun (i : Nat) (θ : Tensor α) (d2 : α) => tsub θ (tadd (smul (eta * scale * gscale
          / sqrt (rho * d2 + (1 - rho) * squaredNorm (q.grad i) + epsilon)) (q.grad i))
          (smul lambda θ)))
    (fun (i : Nat) (_ : Tensor α) (d2 : α) => rho * d2 + (1 - rho) * squaredNorm (q.grad i))
    [] 0
    (fun s i => RmsPropTrainer.row_body sqrt eta lambda epsilon rho scale gscale q s i)
    (by intro s i; rfl)
    q.touched hnd (q.values, hlgx) i θ d2 hi hθ hd
  simpa only [LookupParameters.touched, List.foldl_map] using h

/-- What lines 378-427 of `RmsPropTrainer::update` do to every dense parameter and every
touched lookup row, for the norms `vpgrd_norm`, `vlgrd_norm` handed to them. -/
theorem RmsPropTrainer.rmsprop_update_from_rule (sqrt : α → α)
    (tr : RmsPropTrainer α) (m : Model α) (nutt scale : α) (vpgrd_norm vlgrd_norm : List α) :
    (∀ (pi : Nat) (p : Parameters α) (d2 : α),
        m.params[pi]? = some p → (tr.allocate m).hg[pi]? = some d2 →
        ((RmsPropTrainer.update_from sqrt (tr.allocate m) m nutt scale vpgrd_norm
            vlgrd_norm).2.params[pi]?).map Parameters.values
          = some (tsub (tsub p.values
              (smul (tr.eta * scale * (tr.toTrainer.clip_gradients_pre nutt
                  (sqrt (vlgrd_norm.foldl (fun gg x => gg + x)
                    (vpgrd_norm.foldl (fun gg x => gg + x) 0)))).1
                / sqrt (tr.rho * d2 + (1 - tr.rho) * squaredNorm p.g + tr.epsilon)) p.g))
              (smul tr.lambda p.values)) ∧
        (RmsPropTrainer.update_from sqrt (tr.allocate m) m nutt scale vpgrd_norm
            vlgrd_norm).1.hg[pi]? = some (tr.rho * d2 + (1 - tr.rho) * squaredNorm p.g)) ∧
      (∀ (li : Nat) (p : LookupParameters α) (hlgx : List α),
        m.lookup_params[li]? = some p → (tr.allocate m).hlg[li]? = some hlgx →
        p.touched.Nodup →
        ∀ (i : Nat) (G θ : Tensor α) (d2 : α), (i, G) ∈ p.grads → p.values[i]? = some θ →
          hlgx[i]? = some d2 →
        ((RmsPropTrainer.update_from sqrt (tr.allocate m) m nutt scale vpgrd_norm
            vlgrd_norm).2.lookup_params[li]?).bind (fun q : LookupParameters α => q.values[i]?)
          = some (tsub (tsub θ
              (smul (tr.eta * scale * (tr.toTrainer.clip_gradients_pre nutt
                  (sqrt (vlgrd_norm.foldl (fun gg x => gg + x)
                    (vpgrd_norm.foldl (fun gg x => gg + x) 0)))).1
                / sqrt (tr.rho * d2 + (1 - tr.rho) * squaredNorm G + tr.epsilon)) G))
              (smul tr.lambda θ)) ∧
        ((RmsPropTrainer.update_from sqrt (tr.allocate m) m nutt scale vpgrd_norm
            vlgrd_norm).1.hlg[li]?).bind (fun q : List α => q[i]?)
          = some (tr.rho * d2 + (1 - tr.rho) * squaredNorm G)) := by
  obtain ⟨hb1, hb2, hb3⟩ := RmsPropTrainer.rmsprop_allocate_base tr m
  refine ⟨?_, ?_⟩
  · intro pi p d2 hp hd
    have h := (forEachIdx_slot
      (fun (p : Parameters α) (d2 : α) =>
        ({ p with values := tsub p.values (tadd
          (smul (tr.eta * scale * (tr.toTrainer.clip_gradients_pre nutt
              (sqrt (vlgrd_norm.foldl (fun gg x => gg + x) (vpgrd_norm.foldl (fun gg x => gg + x) 0)))).1
            / sqrt (tr.rho * d2 + (1 - tr.rho) * squaredNorm p.g + tr.epsilon)) p.g)
          (smul tr.lambda p.values)) }).clear)
      (fun (p : Parameters α) (d2 : α) => tr.rho * d2 + (1 - tr.rho) * squaredNorm p.g)
      0
      (RmsPropTrainer.dense_body sqrt tr.eta tr.lambda tr.epsilon tr.rho scale
        (tr.toTrainer.clip_gradients_pre nutt
          (sqrt (vlgrd_norm.foldl (fun gg x => gg + x) (vpgrd_norm.foldl (fun gg x => gg + x) 0)))).1)
      (by intro k x s; rfl)
      m.params (tr.allocate m).hg).1
      pi _ d2 hp hd
    simp only [RmsPropTrainer.update_from, hb1, hb2, hb3]
    rw [h.1, h.2]
    simp only [Option.map_some', Parameters.clear, tsub_tadd_smul _ _ _ rfl]
    exact ⟨trivial, trivial⟩
  · intro li p hlgx hp hx hnd i G θ d2 hG hθ hd
    have hi : i ∈ p.touched := List.mem_map.2 ⟨(i, G), hG, rfl⟩
    have hg : p.grad i = G := by
      simp [LookupParameters.grad, lookup_of_mem p.grads hnd i G hG]
    have h := (forEachIdx_slot
      (fun (p : LookupParameters α) (hlgx : List α) =>
        ({ p with values := (p.grads.foldl
          (fun s (g : Nat × Tensor α) =>
            RmsPropTrainer.row_body sqrt tr.eta tr.lambda tr.epsilon tr.rho scale
              (tr.toTrainer.clip_gradients_pre nutt
                (sqrt (vlgrd_norm.foldl (fun gg x => gg + x) (vpgrd_norm.foldl (fun gg x => gg + x) 0)))).1
              p s g.1)
          (p.values, hlgx)).1 }).clear)
      (fun (p : LookupParameters α) (hlgx : List α) =>
        (p.grads.foldl
          (fun s (g : Nat × Tensor α) =>
            RmsPropTrainer.row_body sqrt tr.eta tr.lambda tr.epsilon tr.rho scale
              (tr.toTrainer.clip_gradients_pre nutt
                (sqrt (vlgrd_norm.foldl (fun gg x => gg + x) (vpgrd_norm.foldl (fun gg x => gg + x) 0)))).1
              p s g.1)
          (p.values, hlgx)).2)
      []
      (RmsPropTrainer.lookup_body sqrt tr.eta tr.lambda tr.epsilon tr.rho scale
        (tr.toTrainer.clip_gradients_pre nutt
          (sqrt (vlgrd_norm.foldl (fun gg x => gg + x) (vpgrd_norm.foldl (fun gg x => gg + x) 0)))).1)
      (by intro k x s; rfl)
      m.lookup_params (tr.allocate m).hlg).1
      li _ hlgx hp hx
    have hr := RmsPropTrainer.rmsprop_rows_after sqrt tr.eta tr.lambda tr.epsilon tr.rho scale
      (tr.toTrainer.clip_gradients_pre nutt
        (sqrt (vlgrd_norm.foldl (fun gg x => gg + x) (vpgrd_norm.foldl (fun gg x => gg + x) 0)))).1
      p hnd hlgx i θ d2 hi hθ hd
    simp only [RmsPropTrainer.update_from, hb1, hb2, hb3]
    rw [h.1, h.2]
    refine ⟨hr.1.trans ?_, hr.2.trans ?_⟩
    · rw [hg, tsub_tadd_smul _ _ _ rfl]
    · rw [hg]

/-- C10 (as amended): when its scratch buffer is allocated and the number of gradients is
within `GPU_ALLOC_HOST_MEM_SIZE`, `RmsPropTrainer::update(batch_size, scale)` returns and
has applied to every dense parameter and every touched lookup row, with one scalar `d2`
per parameter (row): `d2' = rho*d2 + (1-rho)*|G|^2` and
`θ' = θ - (eta*scale*gscale/sqrt(d2' + epsilon))*G - lambda*θ`, where `G` is the
accumulated gradient itself, not divided by `batch_size`, `|G|^2` is its squared L2 norm
and `gscale` is the factor that `clip_gradients(batch_size, gg)` returns for the norm
`gg` summed from the result of `compute_gradient_norm`; `scale` and `gscale` multiply the
step without entering `d2'`. The scalar `d2` is the slot as the lazy sizing at the head
of the call leaves it, and `d2'` is stored back into it. -/
theorem RmsPropTrainer.update_rmsprop_rule (sqrt : α → α) (GPU_ALLOC_HOST_MEM_SIZE : Nat)
    (tr : RmsPropTrainer α) (m : Model α) (nutt scale : α)
    (hsize : m.params.length + (m.lookup_params.map (fun p => p.grads.length)).sum
      ≤ GPU_ALLOC_HOST_MEM_SIZE) :
    ∃ (vpgrd_norm vlgrd_norm : List α) (r : RmsPropTrainer α × Model α),
      RmsPropTrainer.compute_gradient_norm true GPU_ALLOC_HOST_MEM_SIZE m.params
        m.lookup_params = Outcome.returned (vpgrd_norm, vlgrd_norm) ∧
      RmsPropTrainer.update sqrt true GPU_ALLOC_HOST_MEM_SIZE tr m nutt scale
        = Outcome.returned r ∧
      (∀ (pi : Nat) (p : Parameters α) (d2 : α),
        m.params[pi]? = some p → (tr.allocate m).hg[pi]? = some d2 →
        (r.2.params[pi]?).map Parameters.values
          = some (tsub (tsub p.values
              (smul (tr.eta * scale * (tr.toTrainer.clip_gradients_pre nutt
                  (sqrt (vlgrd_norm.foldl (fun gg x => gg + x)
                    (vpgrd_norm.foldl (fun gg x => gg + x) 0)))).1
                / sqrt (tr.rho * d2 + (1 - tr.rho) * squaredNorm p.g + tr.epsilon)) p.g))
              (smul tr.lambda p.values)) ∧
        r.1.hg[pi]? = some (tr.rho * d2 + (1 - tr.rho) * squaredNorm p.g)) ∧
      (∀ (li : Nat) (p : LookupParameters α) (hlgx : List α),
        m.lookup_params[li]? = some p → (tr.allocate m).hlg[li]? = some hlgx →
        p.touched.Nodup →
        ∀ (i : Nat) (G θ : Tensor α) (d2 : α), (i, G) ∈ p.grads → p.values[i]? = some θ →
          hlgx[i]? = some d2 →
        (r.2.lookup_params[li]?).bind (fun q : LookupParameters α => q.values[i]?)
          = some (tsub (tsub θ
              (smul (tr.eta * scale * (tr.toTrainer.clip_gradients_pre nutt
                  (sqrt (vlgrd_norm.foldl (fun gg x => gg + x)
                    (vpgrd_norm.foldl (fun gg x => gg + x) 0)))).1
                / sqrt (tr.rho * d2 + (1 - tr.rho) * squaredNorm G + tr.epsilon)) G))
              (smul tr.lambda θ)) ∧
        (r.1.hlg[li]?).bind (fun q : List α => q[i]?)
          = some (tr.rho * d2 + (1 - tr.rho) * squaredNorm G)) := by
  obtain ⟨⟨vp, vl⟩, hcg⟩ := RmsPropTrainer.compute_gradient_norm_returns
    GPU_ALLOC_HOST_MEM_SIZE m.params m.lookup_params hsize
  refine ⟨vp, vl,
    RmsPropTrainer.update_from sqrt (tr.allocate m) m nutt scale vp vl, hcg, ?_,
    RmsPropTrainer.rmsprop_update_from_rule sqrt tr m nutt scale vp vl⟩
  simp only [RmsPropTrainer.update, hcg]

end RmsPropClaims
/-- A square root that the RMSProp input needs. -/
theorem sqrt_64_25 : Real.sqrt (64 / 25) = 8 / 5 := by
  rw [show (64 / 25 : ℝ) = (8 / 5) ^ 2 by norm_num]; exact Real.sqrt_sq (by norm_num)

/-- C10, witness: the first update of `input_rmsprop_trainer` on the input model with
`batch_size = 2` returns; the dense scalar becomes `(16/25)*25 = 16` and the value
`(0, 0)` moves by `-(3, 4)/4`; row 1 gets `d2' = (16/25)*4` and moves from `(6)` by
`-2/(8/5)`. -/
theorem RmsPropTrainer.update_rmsprop_rule_witness :
    ∃ r : RmsPropTrainer ℝ × Model ℝ,
      RmsPropTrainer.update Real.sqrt true 1024 (input_rmsprop_trainer ℝ) (input_model ℝ) 2 1
        = Outcome.returned r ∧
      (r.2.params[0]?).map (@Parameters.values ℝ)
        = (some [-(3 / 4), -1] : Option (Tensor ℝ)) ∧
      r.1.hg[0]? = some 16 ∧
      (r.2.lookup_params[0]?).bind (fun q : LookupParameters ℝ => q.values[1]?)
        = (some [19 / 4] : Option (Tensor ℝ)) ∧
      (r.1.hlg[0]?).bind (fun q : List ℝ => q[1]?) = some (64 / 25) := by
  obtain ⟨vp, vl, r, _, h2, h3, h4⟩ := RmsPropTrainer.update_rmsprop_rule Real.sqrt 1024
    (input_rmsprop_trainer ℝ) (input_model ℝ) 2 1 (by simp [input_model])
  have hd := h3 0 ⟨[2], [0, 0], [3, 4]⟩ 0 rfl rfl
  have hl := h4 0 ⟨[1], [[5], [6], [7]], [(1, [2])]⟩ [0, 0, 0] rfl rfl
    (by simp [LookupParameters.touched]) 1 [2] [6] 0 (by simp) rfl rfl
  obtain ⟨s9, s16, s25⟩ := sqrt_values
  refine ⟨r, h2, hd.1.trans ?_, hd.2.trans ?_, hl.1.trans ?_, hl.2.trans ?_⟩ <;>
  · simp [Trainer.clip_gradients_pre, input_rmsprop_trainer, input_trainer,
      tsub, smul, squaredNorm]
    norm_num [s16, s25, sqrt_64_25]

/-- C10, counterexample: `batch_size = 2`, `scale = 1`, no clipping (`gscale = 1`),
`eta = 1`, `lambda = 0`, `rho = 1/2`, `epsilon = 1/4`, a dense parameter of value `(0)`
with accumulated gradient `G = (4)` and scalar `d2 = 8`. The code stores
`d2' = 4 + 16/2` and moves the value to `-4/(7/2)`; for the per-example gradient
`g = scale*gscale*G/batch_size = (2)` the claim gives `d2' = 4 + 4/2` and the value
`-2/(5/2)`. -/
theorem RmsPropTrainer.rmsprop_update_ignores_batch_size :
    ¬ (∀ r : RmsPropTrainer ℝ × Model ℝ,
      RmsPropTrainer.update Real.sqrt true 1024 (input_rmsprop_trainer_one_dense ℝ)
        (input_model_one_dense ℝ 4) 2 1 = Outcome.returned r →
      (r.2.params[0]?).map (@Parameters.values ℝ)
        = some (tsub (tsub [0]
            (smul ((input_rmsprop_trainer_one_dense ℝ).eta
                / Real.sqrt ((input_rmsprop_trainer_one_dense ℝ).rho * 8
                    + (1 - (input_rmsprop_trainer_one_dense ℝ).rho)
                      * squaredNorm (smul (1 * 1 / 2) [4])
                    + (input_rmsprop_trainer_one_dense ℝ).epsilon))
              (smul (1 * 1 / 2) [4])))
            (smul (input_rmsprop_trainer_one_dense ℝ).lambda [0]))) := by
  intro h
  obtain ⟨_, _, s25, s49⟩ := sqrt_values_more
  obtain ⟨⟨vp, vl⟩, hcg⟩ := @RmsPropTrainer.compute_gradient_norm_returns ℝ _ 1024
    (input_model_one_dense ℝ 4).params (input_model_one_dense ℝ 4).lookup_params
    (by simp [input_model_one_dense])
  have h1 := h (RmsPropTrainer.update_from Real.sqrt
    ((input_rmsprop_trainer_one_dense ℝ).allocate (input_model_one_dense ℝ 4))
    (input_model_one_dense ℝ 4) 2 1 vp vl) (by simp only [RmsPropTrainer.update, hcg])
  have e1 : (2⁻¹ * 8 + (1 - 2⁻¹) * (4 * 4) + 4⁻¹ : ℝ) = 49 / 4 := by norm_num
  have e2 : (2⁻¹ * 8 + (1 - 2⁻¹) * (2⁻¹ * 4 * (2⁻¹ * 4)) + 4⁻¹ : ℝ) = 25 / 4 := by norm_num
  simp [RmsPropTrainer.update_from, RmsPropTrainer.allocate, RmsPropTrainer.dense_body,
    forEachIdx, Trainer.clip_gradients_pre, input_rmsprop_trainer_one_dense, input_trainer,
    input_model_one_dense, Parameters.clear, tadd, tsub, smul, squaredNorm, e1, e2, s25,
    s49] at h1
  norm_num at h1
/-! ## AdamTrainer -/

section AdamLemmas
variable {α : Type} [LinearOrderedField α]

/-- A loop whose body first increments an `unsigned` counter and then rewrites its
element and slot `pi` of two shadow lists from the element, those slots and the counter:
the element at position `k` sees the counter `t + k + 1`, wrapped to 32 bits. -/
theorem forEachIdx_counter_slot2 {β γ δ : Type} (F : Nat → β → γ → δ → β)
    (H1 : Nat → β → γ → δ → γ) (H2 : Nat → β → γ → δ → δ) (d1 : γ) (d2 : δ)
    (body : Nat → β → Nat × List γ × List δ → β × Nat × List γ × List δ)
    (hb : ∀ k x s, body k x s =
      (F ((s.1 + 1) % 4294967296) x (s.2.1.getD k d1) (s.2.2.getD k d2),
       (s.1 + 1) % 4294967296,
       s.2.1.set k (H1 ((s.1 + 1) % 4294967296) x (s.2.1.getD k d1) (s.2.2.getD k d2)),
       s.2.2.set k (H2 ((s.1 + 1) % 4294967296) x (s.2.1.getD k d1) (s.2.2.getD k d2))))
    (xs : List β) (s : Nat × List γ × List δ) :
    ((xs = [] ∧ (forEachIdx body xs 0 s).2.1 = s.1) ∨
      (xs ≠ [] ∧ (forEachIdx body xs 0 s).2.1 = (s.1 + xs.length) % 4294967296)) ∧
    ∀ (k : Nat) (x : β) (v : γ) (w : δ), xs[k]? = some x → s.2.1[k]? = some v →
      s.2.2[k]? = some w →
      (forEachIdx body xs 0 s).1[k]? = some (F ((s.1 + k + 1) % 4294967296) x v w) ∧
      (forEachIdx body xs 0 s).2.2.1[k]? = some (H1 ((s.1 + k + 1) % 4294967296) x v w) ∧
      (forEachIdx body xs 0 s).2.2.2[k]? = some (H2 ((s.1 + k + 1) % 4294967296) x v w) := by
  have h := forEachIdx_spec body
    (fun k (s : Nat × List γ × List δ) => (s.2.1[k]?, s.2.2[k]?))
    (fun k x o => F ((s.1 + k + 1) % 4294967296) x (o.1.getD d1) (o.2.getD d2))
    (fun k x o =>
      (o.1.map (fun _ => H1 ((s.1 + k + 1) % 4294967296) x (o.1.getD d1) (o.2.getD d2)),
       o.2.map (fun _ => H2 ((s.1 + k + 1) % 4294967296) x (o.1.getD d1) (o.2.getD d2))))
    (fun k st => (k = 0 ∧ st.1 = s.1) ∨ (0 < k ∧ st.1 = (s.1 + k) % 4294967296))
    (by
      intro k x st hI
      right
      refine ⟨Nat.succ_pos k, ?_⟩
      simp only [hb]
      rcases hI with ⟨h0, h1⟩ | ⟨_, h1⟩
      · subst h0; rw [h1]
      · rw [h1]; omega)
    (by
      intro k x st hI
      have ht : (st.1 + 1) % 4294967296 = (s.1 + k + 1) % 4294967296 := by
        rcases hI with ⟨h0, h1⟩ | ⟨_, h1⟩
        · subst h0; rw [h1]
        · rw [h1]; omega
      simp [hb, ht, List.getD_eq_getElem?_getD])
    (by
      intro k x st hI
      have ht : (st.1 + 1) % 4294967296 = (s.1 + k + 1) % 4294967296 := by
        rcases hI with ⟨h0, h1⟩ | ⟨_, h1⟩
        · subst h0; rw [h1]
        · rw [h1]; omega
      simp [hb, ht, getElem?_set_same, List.getD_eq_getElem?_getD])
    (by intro k j x st _ hj; simp [hb, getElem?_set_other _ _ _ _ hj])
    xs 0 s (Or.inl ⟨rfl, rfl⟩)
  refine ⟨?_, ?_⟩
  · rcases h.1 with ⟨h0, h1⟩ | ⟨h0, h1⟩
    · left
      refine ⟨?_, h1⟩
      have : xs.length = 0 := by omega
      exact List.length_eq_zero.1 this
    · right
      refine ⟨?_, by simpa using h1⟩
      intro hx
      subst hx
      simp at h0
  · intro k x v w hx hv hw
    have := h.2.1 k x hx
    simpa [hv, hw, Prod.ext_iff] using this

/-- The assignment `θ += ((-e)·M)/D - λ·θ` is `θ - (e·M)/D - λ·θ`. -/
theorem tadd_tsub_cwiseQuotient_neg (e lam : α) : ∀ (θ M D : Tensor α),
    tadd θ (tsub (cwiseQuotient (smul (-e) M) D) (smul lam θ))
      = tsub (tsub θ (cwiseQuotient (smul e M) D)) (smul lam θ) := by
  intro θ
  induction θ with
  | nil => intro M D; simp [tsub, tadd, smul, cwiseQuotient]
  | cons x xs ih =>
    intro M D
    cases M with
    | nil => simp [tsub, tadd, smul, cwiseQuotient]
    | cons y ys =>
      cases D with
      | nil => simp [tsub, tadd, smul, cwiseQuotient]
      | cons z zs =>
        have := ih ys zs
        simp only [tsub, tadd, smul, cwiseQuotient, List.map_cons,
          List.zipWith_cons_cons] at this ⊢
        rw [this]
        congr 1
        ring

/-- The lazy allocation leaves the base members and the hyper-parameters alone. -/
theorem AdamTrainer.adam_allocate_base (tr : AdamTrainer α) (model : Model α) :
    (tr.allocate model).toTrainer = tr.toTrainer ∧ (tr.allocate model).beta_1 = tr.beta_1 ∧
    (tr.allocate model).beta_2 = tr.beta_2 ∧ (tr.allocate model).eps = tr.eps := by
  unfold AdamTrainer.allocate
  split <;> simp

end AdamLemmas
section AdamClaims
variable {α : Type} [LinearOrderedField α]

/-- The rows of a table and of its two moments after the loop over `grads` of
`AdamTrainer::update`. -/
theorem AdamTrainer.adam_rows_after (sqrt : α → α)
    (eta lambda beta_1 beta_2 eps scale gscale nutt_scale : α) (t : Nat)
    (q : LookupParameters α) (hnd : q.touched.Nodup) (vm vv : List (Tensor α))
    (i : Nat) (θ m_t v_t : Tensor α) (hi : i ∈ q.touched) (hθ : q.values[i]? = some θ)
    (hm : vm[i]? = some m_t) (hv : vv[i]? = some v_t) :
    (q.grads.foldl
      (fun s g => AdamTrainer.row_body sqrt eta lambda beta_1 beta_2 eps scale gscale
        nutt_scale t q s g.1) (q.values, vm, vv)).1[i]?
      = some (AdamTrainer.step sqrt eta lambda beta_1 beta_2 eps t
          (smul (scale * gscale * nutt_scale) (q.grad i)) θ m_t v_t).1 ∧
    (q.grads.foldl
      (fun s g => AdamTrainer.row_body sqrt eta lambda beta_1 beta_2 eps scale gscale
        nutt_scale t q s g.1) (q.values, vm, vv)).2.1[i]?
      = some (AdamTrainer.step sqrt eta lambda beta_1 beta_2 eps t
          (smul (scale * gscale * nutt_scale) (q.grad i)) θ m_t v_t).2.1 ∧
    (q.grads.foldl
      (fun s g => AdamTrainer.row_body sqrt eta lambda beta_1 beta_2 eps scale gscale
        nutt_scale t q s g.1) (q.values, vm, vv)).2.2[i]?
      = some (AdamTrainer.step sqrt eta lambda beta_1 beta_2 eps t
          (smul (scale * gscale * nutt_scale) (q.grad i)) θ m_t v_t).2.2 := by
  have h := foldl_rows2
    (fun (i : Nat) (θ m_t v_t : Tensor α) =>
      (AdamTrainer.step sqrt eta lambda beta_1 beta_2 eps t
          (smul (scale * gscale * nutt_scale) (q.grad i)) θ m_t v_t).1)
    (fun (i : Nat) (θ m_t v_t : Tensor α) =>
      (AdamTrainer.step sqrt eta lambda beta_1 beta_2 eps t
          (smul (scale * gscale * nutt_scale) (q.grad i)) θ m_t v_t).2.1)
    (fun (i : Nat) (θ m_t v_t : Tensor α) =>
      (AdamTrainer.step sqrt eta lambda beta_1 beta_2 eps t
          (smul (scale * gscale * nutt_scale) (q.grad i)) θ m_t v_t).2.2)
    [] [] []
    (fun s i => AdamTrainer.row_body sqrt eta lambda beta_1 beta_2 eps scale gscale
        nutt_scale t q s i)
    (by intro s i; rfl)
    q.touched hnd (q.values, vm, vv) i θ m_t v_t hi hθ hm hv
  simpa only [LookupParameters.touched, List.foldl_map] using h

/-- One Adam step in the form of the update rule. -/
theorem AdamTrainer.step_eq (sqrt : α → α) (eta lambda beta_1 beta_2 eps : α) (t : Nat)
    (g θ m_t v_t : Tensor α) :
    AdamTrainer.step sqrt eta lambda beta_1 beta_2 eps t g θ m_t v_t =
      (tsub (tsub θ (cwiseQuotient
          (smul eta (sdiv (tadd (smul beta_1 m_t) (smul (1 - beta_1) g)) (1 - beta_1 ^ t)))
          (arrayAdd (cwiseSqrt sqrt
            (sdiv (tadd (smul beta_2 v_t) (smul (1 - beta_2) (cwiseProduct g g)))
              (1 - beta_2 ^ t))) eps)))
        (smul lambda θ),
       tadd (smul beta_1 m_t) (smul (1 - beta_1) g),
       tadd (smul beta_2 v_t) (smul (1 - beta_2) (cwiseProduct g g))) := by
  simp only [AdamTrainer.step, tadd_tsub_cwiseQuotient_neg]

/-- C5: `AdamTrainer::update` applies, to every dense parameter and every touched lookup
row, with `g = scale*gscale*G/batch_size` (`G` the gradient that `clip_gradients` leaves,
the accumulated gradient itself unless simple clipping is enabled) and `t` the step count
used for it: `m' = beta_1*m + (1-beta_1)*g`,
`v' = beta_2*v + (1-beta_2)*g^2` (componentwise),
`θ' = θ - eta*(m'/(1-beta_1^t))/(sqrt(v'/(1-beta_2^t)) + eps) - lambda*θ`, and `m'`, `v'`
are stored back into the shadow slots of that parameter (row). The step count used for
the dense parameter at position `pi` is the static `t` of before the call plus `pi + 1`
(32-bit wrap); the one used for every lookup row is the static `t` of after the call. -/
theorem AdamTrainer.update_adam_rule (sqrt : α → α) (clip_samples : α) (tr : AdamTrainer α)
    (t : Nat) (model : Model α) (nutt scale : α) (hs : 0 < nutt) :
    (∀ (pi : Nat) (p : Parameters α) (m_t v_t : ShadowParameters α),
      model.params[pi]? = some p → (tr.allocate model).m[pi]? = some m_t →
      (tr.allocate model).v[pi]? = some v_t →
      let r := AdamTrainer.update sqrt clip_samples tr t model nutt scale
      let T := (t + pi + 1) % 4294967296
      let g := smul (scale * (tr.toTrainer.clip_gradients sqrt model clip_samples).1 / nutt)
        (tr.clipped clip_samples p.g)
      let m' := tadd (smul tr.beta_1 m_t.h) (smul (1 - tr.beta_1) g)
      let v' := tadd (smul tr.beta_2 v_t.h) (smul (1 - tr.beta_2) (cwiseProduct g g))
      (r.2.2.params[pi]?).map Parameters.values
        = some (tsub (tsub p.values (cwiseQuotient
            (smul tr.eta (sdiv m' (1 - tr.beta_1 ^ T)))
            (arrayAdd (cwiseSqrt sqrt (sdiv v' (1 - tr.beta_2 ^ T))) tr.eps)))
            (smul tr.lambda p.values)) ∧
      (r.1.m[pi]?).map ShadowParameters.h = some m' ∧
      (r.1.v[pi]?).map ShadowParameters.h = some v') ∧
    (∀ (li : Nat) (p : LookupParameters α) (vm vv : ShadowLookupParameters α),
      model.lookup_params[li]? = some p → (tr.allocate model).lm[li]? = some vm →
      (tr.allocate model).lv[li]? = some vv → p.touched.Nodup →
      ∀ (i : Nat) (G θ m_t v_t : Tensor α), (i, G) ∈ p.grads → p.values[i]? = some θ →
        vm.h[i]? = some m_t → vv.h[i]? = some v_t →
      let r := AdamTrainer.update sqrt clip_samples tr t model nutt scale
      let T := r.2.1
      let g := smul (scale * (tr.toTrainer.clip_gradients sqrt model clip_samples).1 / nutt)
        (tr.clipped clip_samples G)
      let m' := tadd (smul tr.beta_1 m_t) (smul (1 - tr.beta_1) g)
      let v' := tadd (smul tr.beta_2 v_t) (smul (1 - tr.beta_2) (cwiseProduct g g))
      (r.2.2.lookup_params[li]?).bind (fun q : LookupParameters α => q.values[i]?)
        = some (tsub (tsub θ (cwiseQuotient
            (smul tr.eta (sdiv m' (1 - tr.beta_1 ^ T)))
            (arrayAdd (cwiseSqrt sqrt (sdiv v' (1 - tr.beta_2 ^ T))) tr.eps)))
            (smul tr.lambda θ)) ∧
      (r.1.lm[li]?).bind (fun q : ShadowLookupParameters α => q.h[i]?) = some m' ∧
      (r.1.lv[li]?).bind (fun q : ShadowLookupParameters α => q.h[i]?) = some v') ∧
    (¬ (tr.clipping_enabled = true ∧ tr.clipping_type = ClippingType.simple_clipping) →
      ∀ g : Tensor α, tr.clipped clip_samples g = g) := by
  have hne : nutt ≠ 0 := ne_of_gt hs
  obtain ⟨hb1, hb2, hb3, hb4⟩ := AdamTrainer.adam_allocate_base tr model
  have hc : scale * (tr.toTrainer.clip_gradients sqrt model clip_samples).1 * (1 / nutt)
      = scale * (tr.toTrainer.clip_gradients sqrt model clip_samples).1 / nutt := by
    field_simp
  refine ⟨?_, ?_, fun h g => Trainer.clipped_eq_self tr.toTrainer clip_samples g h⟩
  · intro pi p m_t v_t hp hm hv
    have hp' : (tr.toTrainer.clip_gradients sqrt model clip_samples).2.2.params[pi]?
        = some { p with g := tr.clipped clip_samples p.g } := by
      simp [Trainer.clip_gradients_model, hp]
    have h := (forEachIdx_counter_slot2
      (fun (T : Nat) (p : Parameters α) (m_t v_t : ShadowParameters α) =>
        ({ p with values := (AdamTrainer.step sqrt tr.eta tr.lambda tr.beta_1 tr.beta_2 tr.eps T
          (smul (scale * (tr.toTrainer.clip_gradients sqrt model clip_samples).1 * (1 / nutt))
            p.g) p.values m_t.h v_t.h).1 }).clear)
      (fun (T : Nat) (p : Parameters α) (m_t v_t : ShadowParameters α) =>
        (⟨(AdamTrainer.step sqrt tr.eta tr.lambda tr.beta_1 tr.beta_2 tr.eps T
          (smul (scale * (tr.toTrainer.clip_gradients sqrt model clip_samples).1 * (1 / nutt))
            p.g) p.values m_t.h v_t.h).2.1⟩ : ShadowParameters α))
      (fun (T : Nat) (p : Parameters α) (m_t v_t : ShadowParameters α) =>
        (⟨(AdamTrainer.step sqrt tr.eta tr.lambda tr.beta_1 tr.beta_2 tr.eps T
          (smul (scale * (tr.toTrainer.clip_gradients sqrt model clip_samples).1 * (1 / nutt))
            p.g) p.values m_t.h v_t.h).2.2⟩ : ShadowParameters α))
      default default
      (AdamTrainer.dense_body sqrt tr.eta tr.lambda tr.beta_1 tr.beta_2 tr.eps scale
        (tr.toTrainer.clip_gradients sqrt model clip_samples).1 (1 / nutt))
      (by intro k x s; rfl)
      (tr.toTrainer.clip_gradients sqrt model clip_samples).2.2.params
      (t, (tr.allocate model).m, (tr.allocate model).v)).2
      pi _ m_t v_t hp' hm hv
    simp only [AdamTrainer.update, hb1, hb2, hb3, hb4]
    rw [h.1, h.2.1, h.2.2]
    simp only [Option.map_some', Parameters.clear, AdamTrainer.step_eq, hc]
    exact ⟨trivial, trivial, trivial⟩
  · intro li p vm vv hp hvm hvv hnd i G θ m_t v_t hG hθ hm hv
    obtain ⟨hq1, hq2, hq3, hq4⟩ := clipped_table tr.toTrainer clip_samples p hnd i G hG
    have hp' : (tr.toTrainer.clip_gradients sqrt model clip_samples).2.2.lookup_params[li]?
        = some { p with grads := p.grads.map (fun g => (g.1, tr.clipped clip_samples g.2)) } := by
      simp [Trainer.clip_gradients_model, hp]
    have h := forEachIdx_slot2
      (fun (p : LookupParameters α) (vm vv : ShadowLookupParameters α) =>
        ({ p with values := (p.grads.foldl
          (fun s (g : Nat × Tensor α) =>
            AdamTrainer.row_body sqrt tr.eta tr.lambda tr.beta_1 tr.beta_2 tr.eps scale
              (tr.toTrainer.clip_gradients sqrt model clip_samples).1 (1 / nutt)
              (AdamTrainer.update sqrt clip_samples tr t model nutt scale).2.1 p s g.1)
          (p.values, vm.h, vv.h)).1 }).clear)
      (fun (p : LookupParameters α) (vm vv : ShadowLookupParameters α) =>
        (⟨(p.grads.foldl
          (fun s (g : Nat × Tensor α) =>
            AdamTrainer.row_body sqrt tr.eta tr.lambda tr.beta_1 tr.beta_2 tr.eps scale
              (tr.toTrainer.clip_gradients sqrt model clip_samples).1 (1 / nutt)
              (AdamTrainer.update sqrt clip_samples tr t model nutt scale).2.1 p s g.1)
          (p.values, vm.h, vv.h)).2.1⟩ : ShadowLookupParameters α))
      (fun (p : LookupParameters α) (vm vv : ShadowLookupParameters α) =>
        (⟨(p.grads.foldl
          (fun s (g : Nat × Tensor α) =>
            AdamTrainer.row_body sqrt tr.eta tr.lambda tr.beta_1 tr.beta_2 tr.eps scale
              (tr.toTrainer.clip_gradients sqrt model clip_samples).1 (1 / nutt)
              (AdamTrainer.update sqrt clip_samples tr t model nutt scale).2.1 p s g.1)
          (p.values, vm.h, vv.h)).2.2⟩ : ShadowLookupParameters α))
      default default
      (AdamTrainer.lookup_body sqrt tr.eta tr.lambda tr.beta_1 tr.beta_2 tr.eps scale
        (tr.toTrainer.clip_gradients sqrt model clip_samples).1 (1 / nutt)
        (AdamTrainer.update sqrt clip_samples tr t model nutt scale).2.1)
      (by intro k x s; rfl)
      (tr.toTrainer.clip_gradients sqrt model clip_samples).2.2.lookup_params
      ((tr.allocate model).lm, (tr.allocate model).lv)
      li _ vm vv hp' hvm hvv
    have hr := AdamTrainer.adam_rows_after sqrt tr.eta tr.lambda tr.beta_1 tr.beta_2 tr.eps scale
      (tr.toTrainer.clip_gradients sqrt model clip_samples).1 (1 / nutt)
      (AdamTrainer.update sqrt clip_samples tr t model nutt scale).2.1
      _ hq1 vm.h vv.h i θ m_t v_t hq2 hθ hm hv
    simp only [AdamTrainer.update, hb1, hb2, hb3, hb4] at h hr ⊢
    rw [h.1, h.2.1, h.2.2]
    refine ⟨hr.1.trans ?_, hr.2.1.trans ?_, hr.2.2.trans ?_⟩ <;>
    · rw [hq4, AdamTrainer.step_eq, hc]

end AdamClaims
section AdamCounter
variable {α : Type} [LinearOrderedField α]

/-- A loop whose body increments an `unsigned` counter once has added the number of
its elements to the counter (32-bit wrap). -/
theorem forEachIdx_counter {β σ : Type} (body : Nat → β → Nat × σ → β × Nat × σ)
    (hb : ∀ k x s, (body k x s).2.1 = (s.1 + 1) % 4294967296) :
    ∀ (xs : List β) (pi : Nat) (s : Nat × σ),
      (forEachIdx body xs pi s).2.1
        = if xs.length = 0 then s.1 else (s.1 + xs.length) % 4294967296 := by
  intro xs
  induction xs with
  | nil => intro pi s; simp [forEachIdx]
  | cons y ys ih =>
    intro pi s
    simp only [forEachIdx, ih, hb, List.length_cons]
    by_cases hys : ys.length = 0
    · simp [hys]
    · simp only [hys, if_false, Nat.succ_ne_zero]
      omega

/-- The static step count `t` of `AdamTrainer::update` grows in one call by the number of
dense parameters of the model (32-bit wrap), and it does not move when the model has no
dense parameter. -/
theorem AdamTrainer.update_step_count (sqrt : α → α) (clip_samples : α)
    (tr : AdamTrainer α) (t : Nat) (model : Model α) (nutt scale : α) :
    (AdamTrainer.update sqrt clip_samples tr t model nutt scale).2.1
      = if model.params.length = 0 then t
        else (t + model.params.length) % 4294967296 := by
  have h := forEachIdx_counter
    (AdamTrainer.dense_body sqrt (tr.allocate model).eta (tr.allocate model).lambda
      (tr.allocate model).beta_1 (tr.allocate model).beta_2 (tr.allocate model).eps scale
      ((tr.allocate model).toTrainer.clip_gradients sqrt model clip_samples).1 (1 / nutt))
    (by intro k x s; rfl)
    ((tr.allocate model).toTrainer.clip_gradients sqrt model clip_samples).2.2.params 0
    (t, (tr.allocate model).m, (tr.allocate model).v)
  have hl : ((tr.allocate model).toTrainer.clip_gradients sqrt model clip_samples).2.2.params.length
      = model.params.length := by
    rw [Trainer.clip_gradients_model]; simp
  simp only [AdamTrainer.update]
  rw [h, hl]

end AdamCounter

/-- A square root that the Adam input needs. -/
theorem sqrt_4 : Real.sqrt 4 = 2 := by
  rw [show (4 : ℝ) = 2 ^ 2 by norm_num]; exact Real.sqrt_sq (by norm_num)

/-- C5, witness: the first update of `input_adam_trainer` on the input model with
`batch_size = 1`, from the static `t = 0`: the dense parameter is corrected with `t = 1`,
its moments become `(3/2, 2)` and `(9/2, 8)` and its value `(0, 0)` moves by
`-(3/4, 4/5)`; row 1 is corrected with the `t = 1` of after the dense loop and moves from
`(6)` by `-2/3`. -/
theorem AdamTrainer.update_adam_rule_witness :
    (((AdamTrainer.update Real.sqrt 1 (input_adam_trainer ℝ) 0 (input_model ℝ)
        1 1).2.2.params[0]?).map (@Parameters.values ℝ)
        = (some [-(3 / 4), -(4 / 5)] : Option (Tensor ℝ)) ∧
     ((AdamTrainer.update Real.sqrt 1 (input_adam_trainer ℝ) 0 (input_model ℝ)
        1 1).1.m[0]?).map (@ShadowParameters.h ℝ)
        = (some [3 / 2, 2] : Option (Tensor ℝ)) ∧
     ((AdamTrainer.update Real.sqrt 1 (input_adam_trainer ℝ) 0 (input_model ℝ)
        1 1).1.v[0]?).map (@ShadowParameters.h ℝ)
        = (some [9 / 2, 8] : Option (Tensor ℝ))) ∧
    (((AdamTrainer.update Real.sqrt 1 (input_adam_trainer ℝ) 0 (input_model ℝ)
        1 1).2.2.lookup_params[0]?).bind (fun q : LookupParameters ℝ => q.values[1]?)
        = (some [16 / 3] : Option (Tensor ℝ)) ∧
     ((AdamTrainer.update Real.sqrt 1 (input_adam_trainer ℝ) 0 (input_model ℝ)
        1 1).1.lm[0]?).bind (fun q : ShadowLookupParameters ℝ => q.h[1]?)
        = (some [1] : Option (Tensor ℝ)) ∧
     ((AdamTrainer.update Real.sqrt 1 (input_adam_trainer ℝ) 0 (input_model ℝ)
        1 1).1.lv[0]?).bind (fun q : ShadowLookupParameters ℝ => q.h[1]?)
        = (some [2] : Option (Tensor ℝ))) := by
  have h := AdamTrainer.update_adam_rule Real.sqrt 1 (input_adam_trainer ℝ) 0 (input_model ℝ)
    1 1 (by norm_num)
  have h1 := h.1 0 ⟨[2], [0, 0], [3, 4]⟩ ⟨[0, 0]⟩ ⟨[0, 0]⟩ rfl rfl rfl
  have h2 := h.2.1 0 ⟨[1], [[5], [6], [7]], [(1, [2])]⟩ ⟨[[0], [0], [0]]⟩ ⟨[[0], [0], [0]]⟩
    rfl rfl rfl (by simp [LookupParameters.touched]) 1 [2] [6] [0] [0] (by simp) rfl rfl rfl
  have ht : (AdamTrainer.update Real.sqrt 1 (input_adam_trainer ℝ) 0 (input_model ℝ)
      1 1).2.1 = 1 := by
    rw [AdamTrainer.update_step_count]; simp [input_model]
  obtain ⟨s9, s16, s25⟩ := sqrt_values
  simp only [ht] at h2
  refine ⟨⟨h1.1.trans ?_, h1.2.1.trans ?_, h1.2.2.trans ?_⟩,
    ⟨h2.1.trans ?_, h2.2.1.trans ?_, h2.2.2.trans ?_⟩⟩ <;>
  · simp [Trainer.clipped, Trainer.clip_gradients, input_adam_trainer, input_trainer,
      tsub, tadd, smul, sdiv, cwiseQuotient, cwiseProduct, cwiseSqrt, arrayAdd]
    norm_num [s9, s16, sqrt_4]

/-- C6, at the failing input: the static step count `t` is not the number of updates. One
update of a model with two dense parameters from `t = 0` leaves `t = 2`, and the second
update leaves `t = 4`. -/
theorem AdamTrainer.update_step_count_two_dense :
    (AdamTrainer.update Real.sqrt 1 (input_adam_trainer ℝ) 0 (input_model_two_dense ℝ)
      1 1).2.1 = 2 ∧
    (AdamTrainer.update Real.sqrt 1
      (AdamTrainer.update Real.sqrt 1 (input_adam_trainer ℝ) 0 (input_model_two_dense ℝ)
        1 1).1
      (AdamTrainer.update Real.sqrt 1 (input_adam_trainer ℝ) 0 (input_model_two_dense ℝ)
        1 1).2.1
      (input_model_two_dense ℝ) 1 1).2.1 = 4 := by
  simp [AdamTrainer.update_step_count, input_model_two_dense]
/-! ## AdadeltaTrainer -/

/-- The square roots that the Adadelta input needs. -/
theorem sqrt_adadelta : Real.sqrt (1 / 100) = 1 / 10 ∧ Real.sqrt (1 / 4) = 1 / 2 ∧
    Real.sqrt (49 / 2500) = 7 / 50 := by
  refine ⟨?_, ?_, ?_⟩
  · rw [show (1 / 100 : ℝ) = (1 / 10) ^ 2 by norm_num]; exact Real.sqrt_sq (by norm_num)
  · rw [show (1 / 4 : ℝ) = (1 / 2) ^ 2 by norm_num]; exact Real.sqrt_sq (by norm_num)
  · rw [show (49 / 2500 : ℝ) = (7 / 50) ^ 2 by norm_num]; exact Real.sqrt_sq (by norm_num)

/-- C9, at the failing input: the first update of `input_adadelta_trainer` on the model
with value `(0)` and gradient `(1)`, `batch_size = 1`, `scale = 1`. The decayed squared
gradient becomes `hg' = 6/25`; the `Δ` computed from the `hd = 0` of before the step is
`-1/5`, and its square is what `hd' = (6/25)*(1/25)` accumulates; but the value moves to
`-7/25`, which is `θ + Δ₂` for the `Δ₂ = -7/25` recomputed from `hd'`, and not
`θ + Δ - lambda*θ = -1/5`. -/
theorem AdadeltaTrainer.update_adds_recomputed_delta :
    ((AdadeltaTrainer.update Real.sqrt (input_adadelta_trainer ℝ) (input_model_one_dense ℝ 1)
        1 1).1.hg[0]?).map (@ShadowParameters.h ℝ) = (some [6 / 25] : Option (Tensor ℝ)) ∧
    AdadeltaTrainer.delta Real.sqrt (1 / 100) [1] [0] [6 / 25] = [-(1 / 5)] ∧
    ((AdadeltaTrainer.update Real.sqrt (input_adadelta_trainer ℝ) (input_model_one_dense ℝ 1)
        1 1).1.hd[0]?).map (@ShadowParameters.h ℝ)
      = (some [6 / 25 * (1 / 25)] : Option (Tensor ℝ)) ∧
    AdadeltaTrainer.delta Real.sqrt (1 / 100) [1] [6 / 25 * (1 / 25)] [6 / 25]
      = [-(7 / 25)] ∧
    ((AdadeltaTrainer.update Real.sqrt (input_adadelta_trainer ℝ) (input_model_one_dense ℝ 1)
        1 1).2.params[0]?).map (@Parameters.values ℝ)
      = (some [-(7 / 25)] : Option (Tensor ℝ)) ∧
    ((AdadeltaTrainer.update Real.sqrt (input_adadelta_trainer ℝ) (input_model_one_dense ℝ 1)
        1 1).2.params[0]?).map (@Parameters.values ℝ)
      ≠ some (tsub (tadd [0] (AdadeltaTrainer.delta Real.sqrt (1 / 100) [1] [0] [6 / 25]))
          (smul (input_adadelta_trainer ℝ).lambda [0])) := by
  obtain ⟨s1, s2, s3⟩ := sqrt_adadelta
  have e1 : (6 / 25 + 1 / 100 : ℝ) = 1 / 4 := by norm_num
  have e2 : (6 / 25 * (1 / 25) + 1 / 100 : ℝ) = 49 / 2500 := by norm_num
  have hd1 : AdadeltaTrainer.delta Real.sqrt (1 / 100) [1] [0] [6 / 25] = [-(1 / 5)] := by
    simp only [AdadeltaTrainer.delta, cwiseQuotient, tneg, cwiseProduct, cwiseSqrt, arrayAdd,
      List.map_cons, List.map_nil, List.zipWith_cons_cons, List.zipWith_nil_left, zero_add,
      e1, s1, s2]
    norm_num
  have hd2 : AdadeltaTrainer.delta Real.sqrt (1 / 100) [1] [6 / 25 * (1 / 25)] [6 / 25]
      = [-(7 / 25)] := by
    simp only [AdadeltaTrainer.delta, cwiseQuotient, tneg, cwiseProduct, cwiseSqrt, arrayAdd,
      List.map_cons, List.map_nil, List.zipWith_cons_cons, List.zipWith_nil_left,
      e1, e2, s2, s3]
    norm_num
  have hg : (tadd (smul (19 / 25 : ℝ) [0]) (smul (1 - 19 / 25) (cwiseProduct [1] [1])))
      = [6 / 25] := by
    simp [tadd, smul, cwiseProduct]; norm_num
  have hstep : AdadeltaTrainer.step Real.sqrt 0 (1 / 100) (19 / 25) [1] [0] [0] [0]
      = ([-(7 / 25)], [6 / 25], [6 / 25 * (1 / 25)]) := by
    have hh : tadd (smul (19 / 25 : ℝ) [0]) (smul (1 - 19 / 25)
        (cwiseProduct [-(1 / 5)] [-(1 / 5)])) = [6 / 25 * (1 / 25)] := by
      simp [tadd, smul, cwiseProduct]; norm_num
    simp only [AdadeltaTrainer.step, hg, hd1, hh, hd2]
    simp [tadd, tsub, smul]
  have hstep' := hstep
  simp only [one_div] at hstep'
  have hupd : AdadeltaTrainer.update Real.sqrt (input_adadelta_trainer ℝ)
      (input_model_one_dense ℝ 1) 1 1
      = ({ input_adadelta_trainer ℝ with
            toTrainer := { input_trainer ℝ false ClippingType.norm_clipping with updates := 1 }
            shadow_params_allocated := true
            hg := [⟨[6 / 25]⟩], hd := [⟨[6 / 25 * (1 / 25)]⟩] },
         { params := [⟨[1], [-(7 / 25)], [0]⟩], lookup_params := [] }) := by
    simp [AdadeltaTrainer.update, AdadeltaTrainer.allocate, AllocateShadowParameters,
      AllocateShadowLookupParameters, AdadeltaTrainer.dense_body, forEachIdx,
      Trainer.clip_gradients, input_adadelta_trainer, input_trainer, input_model_one_dense,
      smul, hstep', Parameters.clear]
  rw [hupd, hd1, hd2]
  refine ⟨rfl, rfl, rfl, rfl, rfl, ?_⟩
  simp [tadd, tsub, smul, input_adadelta_trainer, input_trainer]
  norm_num
/-! ## compute_gradient_norm and the global norm -/

section GradNorm
variable {α : Type} [LinearOrderedField α]

/-- Copying the first `A.length` cells of the buffer `A ++ B` gives `A`. -/
theorem range_map_getD_left (A B : List α) :
    (List.range A.length).map (fun i => (A ++ B).getD i 0) = A := by
  apply List.ext_getElem
  · simp
  · intro n h1 h2
    simp only [List.getElem_map, List.getElem_range]
    rw [List.getD_append _ _ _ _ h2, List.getD_eq_getElem _ _ h2]

/-- Copying the `B.length` cells after the first `A.length` of the buffer `A ++ B`
gives `B`. -/
theorem range_map_getD_right (A B : List α) :
    (List.range B.length).map (fun i => (A ++ B).getD (i + A.length) 0) = B := by
  apply List.ext_getElem
  · simp
  · intro n h1 h2
    simp only [List.getElem_map, List.getElem_range]
    rw [List.getD_append_right _ _ _ _ (Nat.le_add_left _ _), Nat.add_sub_cancel,
      List.getD_eq_getElem _ _ h2]

/-- The accumulation loop `for (auto& p : xs) gg += p`. -/
theorem foldl_add_eq_sum (xs : List α) : ∀ a : α,
    xs.foldl (fun gg p => gg + p) a = a + xs.sum := by
  induction xs with
  | nil => intro a; simp
  | cons x xs ih => intro a; simp [ih, add_assoc]

/-- The norms that `compute_gradient_norm` hands back when it returns: one squared norm
per dense parameter, in the order of `plist`, and one per entry of each `grads` map, in
the order of `llist` and of the entries. -/
theorem RmsPropTrainer.compute_gradient_norm_eq (v_norm_allocated : Bool)
    (GPU_ALLOC_HOST_MEM_SIZE : Nat) (plist : List (Parameters α))
    (llist : List (LookupParameters α)) (vp vl : List α)
    (h : RmsPropTrainer.compute_gradient_norm v_norm_allocated GPU_ALLOC_HOST_MEM_SIZE
      plist llist = Outcome.returned (vp, vl)) :
    vp = plist.map (fun p => squaredNorm p.g) ∧
    vl = (llist.map (fun p => p.grads.map (fun g => squaredNorm (p.grad g.1)))).flatten := by
  unfold RmsPropTrainer.compute_gradient_norm at h
  have hl1 : plist.length = (plist.map (fun p => squaredNorm p.g)).length := by simp
  have hl2 : (llist.map (fun p => p.grads.length)).sum
      = ((llist.map (fun p => p.grads.map (fun g => squaredNorm (p.grad g.1)))).flatten).length := by
    rw [List.length_flatten, List.map_map]
    congr 1
    apply List.map_congr_left
    intro p _
    simp
  simp only at h
  split_ifs at h with h1 h2
  simp only [Outcome.returned.injEq, Prod.mk.injEq] at h
  obtain ⟨ha, hb⟩ := h
  constructor
  · rw [← ha]
    conv_lhs => rw [hl1]
    exact range_map_getD_left _ _
  · rw [← hb]
    conv_lhs => rw [hl2, hl1]
    exact range_map_getD_right _ _

/-- The squared norms of the entries of a map with distinct keys, read through
`grads[i]`, are the squared norms of the stored tensors. -/
theorem grads_norms_own (p : LookupParameters α) (hnd : p.touched.Nodup) :
    p.grads.map (fun g => squaredNorm (p.grad g.1)) = p.grads.map (fun g => squaredNorm g.2) := by
  apply List.map_congr_left
  intro g hg
  have : p.grads.lookup g.1 = some g.2 := lookup_of_mem p.grads hnd g.1 g.2 (by simpa using hg)
  simp [LookupParameters.grad, this]

/-- The norm that lines 378-383 of `RmsPropTrainer::update` (453-458 of
`RmsPropWithMomentumTrainer::update`) sum up from the result of `compute_gradient_norm`
is the global gradient norm of the model. -/
theorem RmsPropTrainer.summed_norm_eq (sqrt : α → α) (v_norm_allocated : Bool)
    (GPU_ALLOC_HOST_MEM_SIZE : Nat) (m : Model α) (vp vl : List α)
    (hnd : ∀ p ∈ m.lookup_params, p.touched.Nodup)
    (h : RmsPropTrainer.compute_gradient_norm v_norm_allocated GPU_ALLOC_HOST_MEM_SIZE
      m.params m.lookup_params = Outcome.returned (vp, vl)) :
    sqrt (vl.foldl (fun gg p => gg + p) (vp.foldl (fun gg p => gg + p) 0))
      = m.gradient_l2_norm sqrt := by
  obtain ⟨h1, h2⟩ := RmsPropTrainer.compute_gradient_norm_eq v_norm_allocated
    GPU_ALLOC_HOST_MEM_SIZE m.params m.lookup_params vp vl h
  rw [foldl_add_eq_sum, foldl_add_eq_sum, zero_add, h1, h2, List.sum_flatten, List.map_map]
  unfold Model.gradient_l2_norm
  congr 3
  apply List.map_congr_left
  intro p hp
  simp only [Function.comp_apply]
  rw [grads_norms_own p (hnd p hp)]

end GradNorm
section GlobalNormClaim
variable {α : Type} [LinearOrderedField α]

/-- C13: with a scratch buffer and within `GPU_ALLOC_HOST_MEM_SIZE`,
`compute_gradient_norm` returns; and whenever it returns `(vpgrd_norm, vlgrd_norm)` for
a model whose `grads` maps have distinct keys, `vpgrd_norm` holds exactly one squared
norm per dense parameter (that of its gradient), `vlgrd_norm` exactly one per entry of
every `grads` map (that of the row's gradient, rows without an entry contribute
nothing), and the norm that `RmsPropTrainer::update` sums from them and passes to
`clip_gradients` is the global norm `Model::gradient_l2_norm` of the spec: the square
root of the sum of all those squared norms. -/
theorem RmsPropTrainer.update_passes_global_norm (sqrt : α → α)
    (GPU_ALLOC_HOST_MEM_SIZE : Nat) (tr : RmsPropTrainer α) (m : Model α) (nutt scale : α)
    (hnd : ∀ p ∈ m.lookup_params, p.touched.Nodup) :
    (m.params.length + (m.lookup_params.map (fun p => p.grads.length)).sum
        ≤ GPU_ALLOC_HOST_MEM_SIZE →
      ∃ r, RmsPropTrainer.compute_gradient_norm true GPU_ALLOC_HOST_MEM_SIZE m.params
        m.lookup_params = Outcome.returned r) ∧
    ∀ (v_norm_allocated : Bool) (vpgrd_norm vlgrd_norm : List α),
      RmsPropTrainer.compute_gradient_norm v_norm_allocated GPU_ALLOC_HOST_MEM_SIZE m.params
        m.lookup_params = Outcome.returned (vpgrd_norm, vlgrd_norm) →
      vpgrd_norm = m.params.map (fun p => squaredNorm p.g) ∧
      vlgrd_norm = (m.lookup_params.map
        (fun p => p.grads.map (fun g => squaredNorm g.2))).flatten ∧
      vpgrd_norm.length = m.params.length ∧
      vlgrd_norm.length = (m.lookup_params.map (fun p => p.grads.length)).sum ∧
      sqrt (vlgrd_norm.foldl (fun gg p => gg + p) (vpgrd_norm.foldl (fun gg p => gg + p) 0))
        = m.gradient_l2_norm sqrt ∧
      RmsPropTrainer.update sqrt v_norm_allocated GPU_ALLOC_HOST_MEM_SIZE tr m nutt scale
        = Outcome.returned
            (RmsPropTrainer.update_from sqrt (tr.allocate m) m nutt scale vpgrd_norm
              vlgrd_norm) ∧
      (RmsPropTrainer.update_from sqrt (tr.allocate m) m nutt scale vpgrd_norm
          vlgrd_norm).1.toTrainer
        = { (tr.toTrainer.clip_gradients_pre nutt (m.gradient_l2_norm sqrt)).2 with
            updates := (tr.toTrainer.clip_gradients_pre nutt
              (m.gradient_l2_norm sqrt)).2.updates + 1 } := by
  refine ⟨fun hsize => RmsPropTrainer.compute_gradient_norm_returns
    GPU_ALLOC_HOST_MEM_SIZE m.params m.lookup_params hsize, ?_⟩
  intro a vp vl h
  obtain ⟨h1, h2⟩ := RmsPropTrainer.compute_gradient_norm_eq a GPU_ALLOC_HOST_MEM_SIZE
    m.params m.lookup_params vp vl h
  have hsum := RmsPropTrainer.summed_norm_eq sqrt a GPU_ALLOC_HOST_MEM_SIZE m vp vl hnd h
  have h2' : vl = (m.lookup_params.map
      (fun p => p.grads.map (fun g => squaredNorm g.2))).flatten := by
    rw [h2]
    congr 1
    apply List.map_congr_left
    intro p hp
    exact grads_norms_own p (hnd p hp)
  refine ⟨h1, h2', by simp [h1], ?_, hsum, by simp only [RmsPropTrainer.update, h], ?_⟩
  · rw [h2', List.length_flatten, List.map_map]
    congr 1
    apply List.map_congr_left
    intro p _
    simp
  · simp only [RmsPropTrainer.update_from, hsum,
      (RmsPropTrainer.rmsprop_allocate_base tr m).1]

end GlobalNormClaim

/-- C13, witness: on the input model (dense gradient `(3, 4)`, row 1 with gradient `(2)`)
`compute_gradient_norm` returns `[25]` and `[4]`, and the norm summed from them is the
global norm `sqrt 29`. -/
theorem RmsPropTrainer.update_passes_global_norm_witness :
    ∃ vpgrd_norm vlgrd_norm : List ℝ,
      RmsPropTrainer.compute_gradient_norm true 1024 (input_model ℝ).params
        (input_model ℝ).lookup_params = Outcome.returned (vpgrd_norm, vlgrd_norm) ∧
      vpgrd_norm = [25] ∧ vlgrd_norm = [4] ∧
      Real.sqrt (vlgrd_norm.foldl (fun gg p => gg + p)
        (vpgrd_norm.foldl (fun gg p => gg + p) 0)) = Real.sqrt 29 := by
  have h := RmsPropTrainer.update_passes_global_norm Real.sqrt 1024
    (input_rmsprop_trainer ℝ) (input_model ℝ) 2 1
    (by simp [input_model, LookupParameters.touched])
  obtain ⟨⟨vp, vl⟩, hr⟩ := h.1 (by simp [input_model])
  obtain ⟨h1, h2, _, _, h5, _, _⟩ := h.2 true vp vl hr
  refine ⟨vp, vl, hr, ?_, ?_, h5.trans input_model_norm⟩
  · rw [h1]; simp [input_model, squaredNorm]; norm_num
  · rw [h2]; simp [input_model, squaredNorm]; norm_num
/-! ## RmsPropWithMomentumTrainer -/

section RmsMomLemmas
variable {α : Type} [LinearOrderedField α]

/-- A loop with counter `pi` whose body rewrites its element and slot `pi` of two shadow
lists, all from the counter, the element and those two slots. -/
theorem forEachIdx_islot2 {β γ δ : Type} (F : Nat → β → γ → δ → β)
    (H1 : Nat → β → γ → δ → γ) (H2 : Nat → β → γ → δ → δ) (d1 : γ) (d2 : δ)
    (body : Nat → β → List γ × List δ → β × List γ × List δ)
    (hb : ∀ k x s, body k x s =
      (F k x (s.1.getD k d1) (s.2.getD k d2),
       s.1.set k (H1 k x (s.1.getD k d1) (s.2.getD k d2)),
       s.2.set k (H2 k x (s.1.getD k d1) (s.2.getD k d2))))
    (xs : List β) (s : List γ × List δ) :
    ∀ (k : Nat) (x : β) (v : γ) (w : δ), xs[k]? = some x → s.1[k]? = some v →
      s.2[k]? = some w →
      (forEachIdx body xs 0 s).1[k]? = some (F k x v w) ∧
      (forEachIdx body xs 0 s).2.1[k]? = some (H1 k x v w) ∧
      (forEachIdx body xs 0 s).2.2[k]? = some (H2 k x v w) := by
  have h := forEachIdx_spec body (fun k (s : List γ × List δ) => (s.1[k]?, s.2[k]?))
    (fun k x o => F k x (o.1.getD d1) (o.2.getD d2))
    (fun k x o => (o.1.map (fun _ => H1 k x (o.1.getD d1) (o.2.getD d2)),
      o.2.map (fun _ => H2 k x (o.1.getD d1) (o.2.getD d2))))
    (fun _ _ => True) (fun _ _ _ _ => trivial)
    (by intro k x s _; simp [hb, List.getD_eq_getElem?_getD])
    (by intro k x s _; simp [hb, getElem?_set_same, List.getD_eq_getElem?_getD])
    (by intro k j x s _ hj; simp [hb, getElem?_set_other _ _ _ _ hj])
    xs 0 s trivial
  intro k x v w hx hv hw
  have := h.2.1 k x hx
  simpa [hv, hw, Prod.ext_iff] using this

/-- The lazy allocation leaves the base members and the hyper-parameters alone. -/
theorem RmsPropWithMomentumTrainer.rmsmom_allocate_base
    (tr : RmsPropWithMomentumTrainer α) (m : Model α) :
    (tr.allocate m).toTrainer = tr.toTrainer ∧ (tr.allocate m).epsilon = tr.epsilon ∧
    (tr.allocate m).rho = tr.rho ∧ (tr.allocate m).momentum = tr.momentum := by
  unfold RmsPropWithMomentumTrainer.allocate
  split <;> simp

/-- A call of `RmsPropWithMomentumTrainer::update` that returns has run lines 453-517 on
the norms that `compute_gradient_norm` returned. -/
theorem RmsPropWithMomentumTrainer.rmsmom_update_returned (sqrt : α → α)
    (v_norm_allocated : Bool) (GPU_ALLOC_HOST_MEM_SIZE : Nat)
    (tr : RmsPropWithMomentumTrainer α) (m : Model α) (nutt scale : α)
    (r : RmsPropWithMomentumTrainer α × Model α)
    (h : RmsPropWithMomentumTrainer.update sqrt v_norm_allocated GPU_ALLOC_HOST_MEM_SIZE
      tr m nutt scale = Outcome.returned r) :
    ∃ vp vl, RmsPropTrainer.compute_gradient_norm v_norm_allocated GPU_ALLOC_HOST_MEM_SIZE
        m.params m.lookup_params = Outcome.returned (vp, vl) ∧
      r = RmsPropWithMomentumTrainer.update_from sqrt (tr.allocate m) m nutt scale vp vl := by
  unfold RmsPropWithMomentumTrainer.update at h
  cases hc : RmsPropTrainer.compute_gradient_norm v_norm_allocated GPU_ALLOC_HOST_MEM_SIZE
      m.params m.lookup_params with
  | null_store => rw [hc] at h; simp at h
  | thrown w => rw [hc] at h; simp at h
  | returned b =>
    obtain ⟨vp, vl⟩ := b
    rw [hc] at h
    simp only [Outcome.returned.injEq] at h
    exact ⟨vp, vl, rfl, h.symm⟩

/-- With a buffer and within `GPU_ALLOC_HOST_MEM_SIZE`, the call
`RmsPropWithMomentumTrainer::update` returns. -/
theorem RmsPropWithMomentumTrainer.rmsmom_update_returns (sqrt : α → α)
    (GPU_ALLOC_HOST_MEM_SIZE : Nat) (tr : RmsPropWithMomentumTrainer α) (m : Model α)
    (nutt scale : α)
    (hsize : m.params.length + (m.lookup_params.map (fun p => p.grads.length)).sum
      ≤ GPU_ALLOC_HOST_MEM_SIZE) :
    ∃ r, RmsPropWithMomentumTrainer.update sqrt true GPU_ALLOC_HOST_MEM_SIZE tr m nutt scale
      = Outcome.returned r := by
  obtain ⟨⟨vp, vl⟩, hcg⟩ := RmsPropTrainer.compute_gradient_norm_returns
    GPU_ALLOC_HOST_MEM_SIZE m.params m.lookup_params hsize
  exact ⟨RmsPropWithMomentumTrainer.update_from sqrt (tr.allocate m) m nutt scale vp vl,
    by simp only [RmsPropWithMomentumTrainer.update, hcg]⟩

end RmsMomLemmas

section RmsMomDense
variable {α : Type} [LinearOrderedField α]

/-- C11: with a scratch buffer and within `GPU_ALLOC_HOST_MEM_SIZE` the call
`RmsPropWithMomentumTrainer::update` returns, and whenever it returns it has applied to
every dense parameter with accumulated gradient `G`:
`d2' = rho*d2 + (1-rho)*|G|^2`, `v' = momentum*v - (eta*scale*gscale/sqrt(d2'+epsilon))*G`,
`θ' = θ + v' - lambda*θ`, with `d2'` and `v'` stored in that parameter's shadow slots
and `gscale` the factor of `clip_gradients` for the global norm of all gradients of before
the step. The slots `d2`, `v` are those that the lazy allocation at the head of the call
leaves, and the `grads` maps have distinct keys. -/
theorem RmsPropWithMomentumTrainer.update_dense_rule (sqrt : α → α)
    (GPU_ALLOC_HOST_MEM_SIZE : Nat) (tr : RmsPropWithMomentumTrainer α) (m : Model α)
    (nutt scale : α) (hnd : ∀ p ∈ m.lookup_params, p.touched.Nodup) :
    (m.params.length + (m.lookup_params.map (fun p => p.grads.length)).sum
        ≤ GPU_ALLOC_HOST_MEM_SIZE →
      ∃ r, RmsPropWithMomentumTrainer.update sqrt true GPU_ALLOC_HOST_MEM_SIZE tr m nutt
        scale = Outcome.returned r) ∧
    ∀ (v_norm_allocated : Bool) (r : RmsPropWithMomentumTrainer α × Model α),
      RmsPropWithMomentumTrainer.update sqrt v_norm_allocated GPU_ALLOC_HOST_MEM_SIZE tr m
        nutt scale = Outcome.returned r →
      ∀ (pi : Nat) (p : Parameters α) (d2 : α) (v : ShadowParameters α),
        m.params[pi]? = some p → (tr.allocate m).hg[pi]? = some d2 →
        (tr.allocate m).vp[pi]? = some v →
        let gscale := (tr.toTrainer.clip_gradients_pre nutt (m.gradient_l2_norm sqrt)).1
        let d2' := tr.rho * d2 + (1 - tr.rho) * squaredNorm p.g
        let v' := tsub (smul tr.momentum v.h)
          (smul (tr.eta * scale * gscale / sqrt (d2' + tr.epsilon)) p.g)
        (r.2.params[pi]?).map Parameters.values
          = some (tsub (tadd p.values v') (smul tr.lambda p.values)) ∧
        r.1.hg[pi]? = some d2' ∧
        (r.1.vp[pi]?).map ShadowParameters.h = some v' := by
  refine ⟨RmsPropWithMomentumTrainer.rmsmom_update_returns sqrt GPU_ALLOC_HOST_MEM_SIZE tr m
    nutt scale, ?_⟩
  intro a r hr pi p d2 v hp hd hv
  obtain ⟨vp, vl, hcg, rfl⟩ := RmsPropWithMomentumTrainer.rmsmom_update_returned sqrt a
    GPU_ALLOC_HOST_MEM_SIZE tr m nutt scale r hr
  obtain ⟨hb1, hb2, hb3, hb4⟩ := RmsPropWithMomentumTrainer.rmsmom_allocate_base tr m
  have hsum := RmsPropTrainer.summed_norm_eq sqrt a GPU_ALLOC_HOST_MEM_SIZE m vp vl hnd hcg
  have hvp : vp.getD pi 0 = squaredNorm p.g := by
    rw [(RmsPropTrainer.compute_gradient_norm_eq a GPU_ALLOC_HOST_MEM_SIZE m.params
      m.lookup_params vp vl hcg).1, List.getD_eq_getElem?_getD, List.getElem?_map, hp]
    rfl
  have h := forEachIdx_islot2
    (fun (k : Nat) (p : Parameters α) (d2 : α) (v : ShadowParameters α) =>
      ({ p with values := (RmsPropWithMomentumTrainer.step sqrt tr.eta tr.lambda tr.epsilon
        tr.rho tr.momentum scale
        (tr.toTrainer.clip_gradients_pre nutt (m.gradient_l2_norm sqrt)).1
        p.g (vp.getD k 0) p.values d2 v.h).1 }).clear)
    (fun (k : Nat) (p : Parameters α) (d2 : α) (v : ShadowParameters α) =>
      (RmsPropWithMomentumTrainer.step sqrt tr.eta tr.lambda tr.epsilon
        tr.rho tr.momentum scale
        (tr.toTrainer.clip_gradients_pre nutt (m.gradient_l2_norm sqrt)).1
        p.g (vp.getD k 0) p.values d2 v.h).2.1)
    (fun (k : Nat) (p : Parameters α) (d2 : α) (v : ShadowParameters α) =>
      (⟨(RmsPropWithMomentumTrainer.step sqrt tr.eta tr.lambda tr.epsilon
        tr.rho tr.momentum scale
        (tr.toTrainer.clip_gradients_pre nutt (m.gradient_l2_norm sqrt)).1
        p.g (vp.getD k 0) p.values d2 v.h).2.2⟩ : ShadowParameters α))
    0 default
    (RmsPropWithMomentumTrainer.dense_body sqrt tr.eta tr.lambda tr.epsilon tr.rho
      tr.momentum scale (tr.toTrainer.clip_gradients_pre nutt (m.gradient_l2_norm sqrt)).1 vp)
    (by intro k x s; rfl)
    m.params ((tr.allocate m).hg, (tr.allocate m).vp) pi p d2 v hp hd hv
  simp only [RmsPropWithMomentumTrainer.update_from, hb1, hb2, hb3, hb4, hsum]
  rw [h.1, h.2.1, h.2.2]
  simp only [Option.map_some', Parameters.clear, RmsPropWithMomentumTrainer.step, hvp,
    tadd_tsub_smul]
  exact ⟨trivial, trivial, trivial⟩

end RmsMomDense
section RmsMomRows
variable {α : Type} [LinearOrderedField α]

/-- The loop over the keys of `grads` when the body writes only row `i` and slot `i` of
two shadow lists: the rows and slots of all other indices stay as they are. -/
theorem foldl_rows2_other {β γ δ : Type}
    (body : List β × List γ × List δ → Nat → List β × List γ × List δ)
    (X : List β × List γ × List δ → Nat → β) (Y : List β × List γ × List δ → Nat → γ)
    (Z : List β × List γ × List δ → Nat → δ)
    (hb : ∀ s i, body s i = (s.1.set i (X s i), s.2.1.set i (Y s i), s.2.2.set i (Z s i)))
    (keys : List Nat) (s : List β × List γ × List δ) (j : Nat) (hj : j ∉ keys) :
    (keys.foldl body s).1[j]? = s.1[j]? ∧ (keys.foldl body s).2.1[j]? = s.2.1[j]? ∧
    (keys.foldl body s).2.2[j]? = s.2.2[j]? := by
  have h := foldl_keys_other body
    (fun i (s : List β × List γ × List δ) => (s.1[i]?, s.2.1[i]?, s.2.2[i]?))
    (by intro s k j hjk; simp [hb, getElem?_set_other _ _ _ _ hjk])
    keys s j hj
  simpa [Prod.ext_iff] using h

/-- The loop over `p->grads` with the counter `li`: when the cells of `vlgrd_norm` from
`li` on hold the squared norms of the gradients of the entries, in the order of the
entries, the loop is the loop that takes for each row the squared norm of its own
gradient, and it advances `li` by the number of entries. -/
theorem RmsPropWithMomentumTrainer.rows_counter (sqrt : α → α)
    (eta lambda epsilon rho momentum scale gscale : α) (vl : List α)
    (p : LookupParameters α) :
    ∀ (es : List (Nat × Tensor α)) (s : List (Tensor α) × List α × List (Tensor α) × Nat),
      (∀ (k : Nat) (e : Nat × Tensor α), es[k]? = some e →
        vl.getD (s.2.2.2 + k) 0 = squaredNorm (p.grad e.1)) →
      es.foldl (fun st g => RmsPropWithMomentumTrainer.row_body sqrt eta lambda epsilon rho
          momentum scale gscale vl p st g.1) s
        = ((es.foldl (fun st g => RmsPropWithMomentumTrainer.row_body_own sqrt eta lambda
              epsilon rho momentum scale gscale p st g.1) (s.1, s.2.1, s.2.2.1)).1,
           (es.foldl (fun st g => RmsPropWithMomentumTrainer.row_body_own sqrt eta lambda
              epsilon rho momentum scale gscale p st g.1) (s.1, s.2.1, s.2.2.1)).2.1,
           (es.foldl (fun st g => RmsPropWithMomentumTrainer.row_body_own sqrt eta lambda
              epsilon rho momentum scale gscale p st g.1) (s.1, s.2.1, s.2.2.1)).2.2,
           s.2.2.2 + es.length) := by
  intro es
  induction es with
  | nil => intro s _; simp
  | cons e es ih =>
    intro s hvl
    have h0 : vl.getD s.2.2.2 0 = squaredNorm (p.grad e.1) := by
      simpa using hvl 0 e (by simp)
    simp only [List.foldl_cons]
    rw [ih]
    · simp only [RmsPropWithMomentumTrainer.row_body, RmsPropWithMomentumTrainer.row_body_own,
        h0, List.length_cons]
      simp only [Prod.mk.injEq, true_and]
      omega
    · intro k e' hk
      have := hvl (k + 1) e' (by simpa using hk)
      simp only [RmsPropWithMomentumTrainer.row_body]
      rw [← this]
      congr 1
      omega

/-- The loop over the lookup tables with the counter `li`: when `vlgrd_norm` is the
list of the squared norms of all entries, table after table, the loop is the loop in
which every row takes the squared norm of its own gradient. -/
theorem RmsPropWithMomentumTrainer.tables_counter (sqrt : α → α)
    (eta lambda epsilon rho momentum scale gscale : α) (vl : List α) :
    ∀ (xs : List (LookupParameters α)) (pre : List α) (pi : Nat)
      (s : Nat × List (List α) × List (ShadowLookupParameters α)),
      vl = pre ++ (xs.map (fun p => p.grads.map (fun g => squaredNorm (p.grad g.1)))).flatten →
      s.1 = pre.length →
      forEachIdx (RmsPropWithMomentumTrainer.lookup_body sqrt eta lambda epsilon rho momentum
          scale gscale vl) xs pi s
        = ((forEachIdx (RmsPropWithMomentumTrainer.lookup_body_own sqrt eta lambda epsilon
              rho momentum scale gscale) xs pi (s.2.1, s.2.2)).1,
           pre.length + (xs.map (fun p => p.grads.length)).sum,
           (forEachIdx (RmsPropWithMomentumTrainer.lookup_body_own sqrt eta lambda epsilon
              rho momentum scale gscale) xs pi (s.2.1, s.2.2)).2.1,
           (forEachIdx (RmsPropWithMomentumTrainer.lookup_body_own sqrt eta lambda epsilon
              rho momentum scale gscale) xs pi (s.2.1, s.2.2)).2.2) := by
  intro xs
  induction xs with
  | nil =>
    intro pre pi s _ hs
    obtain ⟨a, b, c⟩ := s
    simp only at hs
    simp [forEachIdx, hs]
  | cons y ys ih =>
    intro pre pi s hvl hs
    have hrows := RmsPropWithMomentumTrainer.rows_counter sqrt eta lambda epsilon rho
      momentum scale gscale vl y y.grads
      (y.values, s.2.1.getD pi [], (s.2.2.getD pi default).h, s.1)
      (by
        intro k e hk
        have hk' : k < y.grads.length := by
          rcases Nat.lt_or_ge k y.grads.length with h | h
          · exact h
          · rw [List.getElem?_eq_none h] at hk; simp at hk
        have hkn : k < (y.grads.map (fun g => squaredNorm (y.grad g.1))).length := by
          simpa using hk'
        simp only [hs, hvl, List.map_cons, List.flatten_cons]
        rw [List.getD_append_right _ _ _ _ (Nat.le_add_right _ _), Nat.add_sub_cancel_left,
          List.getD_append _ _ _ _ hkn, List.getD_eq_getElem?_getD, List.getElem?_map, hk]
        rfl)
    have hbody : RmsPropWithMomentumTrainer.lookup_body sqrt eta lambda epsilon rho momentum
        scale gscale vl pi y s
        = ((RmsPropWithMomentumTrainer.lookup_body_own sqrt eta lambda epsilon rho momentum
              scale gscale pi y (s.2.1, s.2.2)).1,
           s.1 + y.grads.length,
           (RmsPropWithMomentumTrainer.lookup_body_own sqrt eta lambda epsilon rho momentum
              scale gscale pi y (s.2.1, s.2.2)).2.1,
           (RmsPropWithMomentumTrainer.lookup_body_own sqrt eta lambda epsilon rho momentum
              scale gscale pi y (s.2.1, s.2.2)).2.2) := by
      simp only [RmsPropWithMomentumTrainer.lookup_body, hrows,
        RmsPropWithMomentumTrainer.lookup_body_own]
    simp only [forEachIdx, hbody]
    rw [ih (pre ++ y.grads.map (fun g => squaredNorm (y.grad g.1))) (pi + 1) _
      (by simp [hvl]) (by simp [hs])]
    simp only [List.length_append, List.length_map, List.map_cons, List.sum_cons,
      Nat.add_assoc]

end RmsMomRows
section RmsMomRowClaim
variable {α : Type} [LinearOrderedField α]

/-- C12: with a scratch buffer and within `GPU_ALLOC_HOST_MEM_SIZE` the call
`RmsPropWithMomentumTrainer::update` returns. For the `vlgrd_norm` that
`compute_gradient_norm` returns, the loop over the lookup tables that reads
`vlgrd_norm[li]` is, for any number of tables and any touched rows, the loop in which
each row takes the squared norm of its own gradient `p->grads[i]`. Hence, whenever the
call returns, every touched row `i` of every table `p` has been updated from its own
gradient `G` and from slot `i` of the scalars and the velocity of `p`:
`d2' = rho*d2 + (1-rho)*|G|^2`, `v' = momentum*v - (eta*scale*gscale/sqrt(d2'+epsilon))*G`,
`θ' = θ + v' - lambda*θ`, stored in those slots; and the rows and slots of all other
indices of the table are untouched. The `grads` maps have distinct keys. -/
theorem RmsPropWithMomentumTrainer.update_row_rule (sqrt : α → α)
    (GPU_ALLOC_HOST_MEM_SIZE : Nat) (tr : RmsPropWithMomentumTrainer α) (m : Model α)
    (nutt scale : α) (hnd : ∀ p ∈ m.lookup_params, p.touched.Nodup) :
    (m.params.length + (m.lookup_params.map (fun p => p.grads.length)).sum
        ≤ GPU_ALLOC_HOST_MEM_SIZE →
      ∃ r, RmsPropWithMomentumTrainer.update sqrt true GPU_ALLOC_HOST_MEM_SIZE tr m nutt
        scale = Outcome.returned r) ∧
    (∀ (v_norm_allocated : Bool) (vpgrd_norm vlgrd_norm : List α) (gscale : α)
        (hlg : List (List α)) (vlp : List (ShadowLookupParameters α)),
      RmsPropTrainer.compute_gradient_norm v_norm_allocated GPU_ALLOC_HOST_MEM_SIZE m.params
        m.lookup_params = Outcome.returned (vpgrd_norm, vlgrd_norm) →
      forEachIdx (RmsPropWithMomentumTrainer.lookup_body sqrt tr.eta tr.lambda tr.epsilon
          tr.rho tr.momentum scale gscale vlgrd_norm) m.lookup_params 0 (0, hlg, vlp)
        = ((forEachIdx (RmsPropWithMomentumTrainer.lookup_body_own sqrt tr.eta tr.lambda
              tr.epsilon tr.rho tr.momentum scale gscale) m.lookup_params 0 (hlg, vlp)).1,
           vlgrd_norm.length,
           (forEachIdx (RmsPropWithMomentumTrainer.lookup_body_own sqrt tr.eta tr.lambda
              tr.epsilon tr.rho tr.momentum scale gscale) m.lookup_params 0 (hlg, vlp)).2.1,
           (forEachIdx (RmsPropWithMomentumTrainer.lookup_body_own sqrt tr.eta tr.lambda
              tr.epsilon tr.rho tr.momentum scale gscale) m.lookup_params 0 (hlg, vlp)).2.2)) ∧
    ∀ (v_norm_allocated : Bool) (r : RmsPropWithMomentumTrainer α × Model α),
      RmsPropWithMomentumTrainer.update sqrt v_norm_allocated GPU_ALLOC_HOST_MEM_SIZE tr m
        nutt scale = Outcome.returned r →
      ∀ (li : Nat) (p : LookupParameters α) (hlgx : List α) (vx : ShadowLookupParameters α),
        m.lookup_params[li]? = some p → (tr.allocate m).hlg[li]? = some hlgx →
        (tr.allocate m).vlp[li]? = some vx →
        (∀ (i : Nat) (G θ : Tensor α) (d2 : α) (v : Tensor α), (i, G) ∈ p.grads →
          p.values[i]? = some θ → hlgx[i]? = some d2 → vx.h[i]? = some v →
          let gscale := (tr.toTrainer.clip_gradients_pre nutt (m.gradient_l2_norm sqrt)).1
          let d2' := tr.rho * d2 + (1 - tr.rho) * squaredNorm G
          let v' := tsub (smul tr.momentum v)
            (smul (tr.eta * scale * gscale / sqrt (d2' + tr.epsilon)) G)
          (r.2.lookup_params[li]?).bind (fun q : LookupParameters α => q.values[i]?)
            = some (tsub (tadd θ v') (smul tr.lambda θ)) ∧
          (r.1.hlg[li]?).bind (fun q : List α => q[i]?) = some d2' ∧
          (r.1.vlp[li]?).bind (fun q : ShadowLookupParameters α => q.h[i]?) = some v') ∧
        (∀ j : Nat, j ∉ p.touched →
          (r.2.lookup_params[li]?).bind (fun q : LookupParameters α => q.values[j]?)
            = p.values[j]? ∧
          (r.1.hlg[li]?).bind (fun q : List α => q[j]?) = hlgx[j]? ∧
          (r.1.vlp[li]?).bind (fun q : ShadowLookupParameters α => q.h[j]?) = vx.h[j]?) := by
  have href : ∀ (a : Bool) (vp vl : List α) (gscale : α) (hlg : List (List α))
      (vlp : List (ShadowLookupParameters α)),
      RmsPropTrainer.compute_gradient_norm a GPU_ALLOC_HOST_MEM_SIZE m.params
        m.lookup_params = Outcome.returned (vp, vl) →
      forEachIdx (RmsPropWithMomentumTrainer.lookup_body sqrt tr.eta tr.lambda tr.epsilon
          tr.rho tr.momentum scale gscale vl) m.lookup_params 0 (0, hlg, vlp)
        = ((forEachIdx (RmsPropWithMomentumTrainer.lookup_body_own sqrt tr.eta tr.lambda
              tr.epsilon tr.rho tr.momentum scale gscale) m.lookup_params 0 (hlg, vlp)).1,
           vl.length,
           (forEachIdx (RmsPropWithMomentumTrainer.lookup_body_own sqrt tr.eta tr.lambda
              tr.epsilon tr.rho tr.momentum scale gscale) m.lookup_params 0 (hlg, vlp)).2.1,
           (forEachIdx (RmsPropWithMomentumTrainer.lookup_body_own sqrt tr.eta tr.lambda
              tr.epsilon tr.rho tr.momentum scale gscale) m.lookup_params 0 (hlg, vlp)).2.2) := by
    intro a vp vl gscale hlg vlp hcg
    have h2 := (RmsPropTrainer.compute_gradient_norm_eq a GPU_ALLOC_HOST_MEM_SIZE m.params
      m.lookup_params vp vl hcg).2
    have hlen : vl.length = (m.lookup_params.map (fun p => p.grads.length)).sum := by
      rw [h2, List.length_flatten, List.map_map]
      congr 1
      apply List.map_congr_left
      intro p _
      simp
    rw [RmsPropWithMomentumTrainer.tables_counter sqrt tr.eta tr.lambda tr.epsilon tr.rho
      tr.momentum scale gscale vl m.lookup_params [] 0 (0, hlg, vlp) (by simpa using h2) rfl]
    simp [hlen]
  refine ⟨RmsPropWithMomentumTrainer.rmsmom_update_returns sqrt GPU_ALLOC_HOST_MEM_SIZE tr m
    nutt scale, href, ?_⟩
  intro a r hr li p hlgx vx hp hx hvx
  obtain ⟨vp, vl, hcg, rfl⟩ := RmsPropWithMomentumTrainer.rmsmom_update_returned sqrt a
    GPU_ALLOC_HOST_MEM_SIZE tr m nutt scale r hr
  obtain ⟨hb1, hb2, hb3, hb4⟩ := RmsPropWithMomentumTrainer.rmsmom_allocate_base tr m
  have hsum := RmsPropTrainer.summed_norm_eq sqrt a GPU_ALLOC_HOST_MEM_SIZE m vp vl hnd hcg
  have hndp : p.touched.Nodup := hnd p (List.getElem?_mem hp)
  have h := forEachIdx_slot2
    (fun (p : LookupParameters α) (hlgx : List α) (vx : ShadowLookupParameters α) =>
      ({ p with values := (p.grads.foldl
        (fun st (g : Nat × Tensor α) => RmsPropWithMomentumTrainer.row_body_own sqrt tr.eta
          tr.lambda tr.epsilon tr.rho tr.momentum scale
          (tr.toTrainer.clip_gradients_pre nutt (m.gradient_l2_norm sqrt)).1 p st g.1)
        (p.values, hlgx, vx.h)).1 }).clear)
    (fun (p : LookupParameters α) (hlgx : List α) (vx : ShadowLookupParameters α) =>
      (p.grads.foldl
        (fun st (g : Nat × Tensor α) => RmsPropWithMomentumTrainer.row_body_own sqrt tr.eta
          tr.lambda tr.epsilon tr.rho tr.momentum scale
          (tr.toTrainer.clip_gradients_pre nutt (m.gradient_l2_norm sqrt)).1 p st g.1)
        (p.values, hlgx, vx.h)).2.1)
    (fun (p : LookupParameters α) (hlgx : List α) (vx : ShadowLookupParameters α) =>
      (⟨(p.grads.foldl
        (fun st (g : Nat × Tensor α) => RmsPropWithMomentumTrainer.row_body_own sqrt tr.eta
          tr.lambda tr.epsilon tr.rho tr.momentum scale
          (tr.toTrainer.clip_gradients_pre nutt (m.gradient_l2_norm sqrt)).1 p st g.1)
        (p.values, hlgx, vx.h)).2.2⟩ : ShadowLookupParameters α))
    [] default
    (RmsPropWithMomentumTrainer.lookup_body_own sqrt tr.eta tr.lambda tr.epsilon tr.rho
      tr.momentum scale (tr.toTrainer.clip_gradients_pre nutt (m.gradient_l2_norm sqrt)).1)
    (by intro k x s; rfl)
    m.lookup_params ((tr.allocate m).hlg, (tr.allocate m).vlp) li p hlgx vx hp hx hvx
  simp only [RmsPropWithMomentumTrainer.update_from, hb1, hb2, hb3, hb4, hsum,
    href a vp vl _ _ _ hcg]
  rw [h.1, h.2.1, h.2.2]
  simp only [Option.some_bind, LookupParameters.clear]
  constructor
  · intro i G θ d2 v hG hθ hd hv
    have hi : i ∈ p.touched := List.mem_map.2 ⟨(i, G), hG, rfl⟩
    have hg : p.grad i = G := by
      simp [LookupParameters.grad, lookup_of_mem p.grads hndp i G hG]
    have hrows := foldl_rows2
      (fun (i : Nat) (θ : Tensor α) (d2 : α) (v : Tensor α) =>
        (RmsPropWithMomentumTrainer.step sqrt tr.eta tr.lambda tr.epsilon tr.rho tr.momentum
          scale (tr.toTrainer.clip_gradients_pre nutt (m.gradient_l2_norm sqrt)).1
          (p.grad i) (squaredNorm (p.grad i)) θ d2 v).1)
      (fun (i : Nat) (θ : Tensor α) (d2 : α) (v : Tensor α) =>
        (RmsPropWithMomentumTrainer.step sqrt tr.eta tr.lambda tr.epsilon tr.rho tr.momentum
          scale (tr.toTrainer.clip_gradients_pre nutt (m.gradient_l2_norm sqrt)).1
          (p.grad i) (squaredNorm (p.grad i)) θ d2 v).2.1)
      (fun (i : Nat) (θ : Tensor α) (d2 : α) (v : Tensor α) =>
        (RmsPropWithMomentumTrainer.step sqrt tr.eta tr.lambda tr.epsilon tr.rho tr.momentum
          scale (tr.toTrainer.clip_gradients_pre nutt (m.gradient_l2_norm sqrt)).1
          (p.grad i) (squaredNorm (p.grad i)) θ d2 v).2.2)
      [] 0 []
      (fun st i => RmsPropWithMomentumTrainer.row_body_own sqrt tr.eta tr.lambda tr.epsilon
        tr.rho tr.momentum scale
        (tr.toTrainer.clip_gradients_pre nutt (m.gradient_l2_norm sqrt)).1 p st i)
      (by intro s i; rfl)
      p.touched hndp (p.values, hlgx, vx.h) i θ d2 v hi hθ hd hv
    simp only [LookupParameters.touched, List.foldl_map] at hrows
    rw [hrows.1, hrows.2.1, hrows.2.2]
    simp only [RmsPropWithMomentumTrainer.step, hg, tadd_tsub_smul]
    exact ⟨trivial, trivial, trivial⟩
  · intro j hj
    have hoth := foldl_rows2_other
      (fun st i => RmsPropWithMomentumTrainer.row_body_own sqrt tr.eta tr.lambda tr.epsilon
        tr.rho tr.momentum scale
        (tr.toTrainer.clip_gradients_pre nutt (m.gradient_l2_norm sqrt)).1 p st i)
      _ _ _ (by intro s i; rfl) p.touched (p.values, hlgx, vx.h) j hj
    simp only [LookupParameters.touched, List.foldl_map] at hoth
    exact hoth

end RmsMomRowClaim
/-- C11, witness: one update of `input_rmsmom_trainer` on the input model returns; the
dense scalar becomes `(16/25)*25 = 16`, the velocity `(1, 1)/2 - (3, 4)/4` and the value
`(0, 0)` moves by that velocity. -/
theorem RmsPropWithMomentumTrainer.update_dense_rule_witness :
    ∃ r : RmsPropWithMomentumTrainer ℝ × Model ℝ,
      RmsPropWithMomentumTrainer.update Real.sqrt true 1024 (input_rmsmom_trainer ℝ)
        (input_model ℝ) 2 1 = Outcome.returned r ∧
      (r.2.params[0]?).map (@Parameters.values ℝ)
        = (some [-(1 / 4), -(1 / 2)] : Option (Tensor ℝ)) ∧
      r.1.hg[0]? = some 16 ∧
      (r.1.vp[0]?).map (@ShadowParameters.h ℝ)
        = (some [-(1 / 4), -(1 / 2)] : Option (Tensor ℝ)) := by
  have h := RmsPropWithMomentumTrainer.update_dense_rule Real.sqrt 1024
    (input_rmsmom_trainer ℝ) (input_model ℝ) 2 1
    (by simp [input_model, LookupParameters.touched])
  obtain ⟨r, hr⟩ := h.1 (by simp [input_model])
  have h1 := h.2 true r hr 0 ⟨[2], [0, 0], [3, 4]⟩ 0 ⟨[1, 1]⟩ rfl rfl rfl
  obtain ⟨s9, s16, s25⟩ := sqrt_values
  refine ⟨r, hr, h1.1.trans ?_, h1.2.1.trans ?_, h1.2.2.trans ?_⟩ <;>
  · simp [Trainer.clip_gradients_pre, input_rmsmom_trainer, input_trainer, squaredNorm,
      tsub, tadd, smul]
    norm_num [s16]

/-- C12, witness: one update of `input_rmsmom_trainer` on the input model returns; row 1
of the table (gradient `(2)`, velocity `(1)`) gets `d2' = (16/25)*4`, the velocity
`1/2 - 2/(8/5)` and moves from `(6)` by that velocity; row 2 keeps its value `(7)`. -/
theorem RmsPropWithMomentumTrainer.update_row_rule_witness :
    ∃ r : RmsPropWithMomentumTrainer ℝ × Model ℝ,
      RmsPropWithMomentumTrainer.update Real.sqrt true 1024 (input_rmsmom_trainer ℝ)
        (input_model ℝ) 2 1 = Outcome.returned r ∧
      (r.2.lookup_params[0]?).bind (fun q : LookupParameters ℝ => q.values[1]?)
        = (some [21 / 4] : Option (Tensor ℝ)) ∧
      (r.1.hlg[0]?).bind (fun q : List ℝ => q[1]?) = some (64 / 25) ∧
      (r.1.vlp[0]?).bind (fun q : ShadowLookupParameters ℝ => q.h[1]?)
        = (some [-(3 / 4)] : Option (Tensor ℝ)) ∧
      (r.2.lookup_params[0]?).bind (fun q : LookupParameters ℝ => q.values[2]?)
        = (some [7] : Option (Tensor ℝ)) := by
  have h := RmsPropWithMomentumTrainer.update_row_rule Real.sqrt 1024
    (input_rmsmom_trainer ℝ) (input_model ℝ) 2 1
    (by simp [input_model, LookupParameters.touched])
  obtain ⟨r, hr⟩ := h.1 (by simp [input_model])
  have h0 := h.2.2 true r hr 0 ⟨[1], [[5], [6], [7]], [(1, [2])]⟩ [0, 0, 0]
    ⟨[[0], [1], [0]]⟩ rfl rfl rfl
  have h1 := h0.1 1 [2] [6] 0 [1] (by simp) rfl rfl rfl
  have h2 := h0.2 2 (by simp [LookupParameters.touched])
  obtain ⟨s9, s16, s25⟩ := sqrt_values
  refine ⟨r, hr, h1.1.trans ?_, h1.2.1.trans ?_, h1.2.2.trans ?_, h2.1.trans rfl⟩ <;>
  · simp [Trainer.clip_gradients_pre, input_rmsmom_trainer, input_trainer, squaredNorm,
      tsub, tadd, smul]
    norm_num [sqrt_64_25, s16, s25]

/-! ## Every update clears every gradient and counts itself -/

section Cleared
variable {α : Type} [LinearOrderedField α]

/-- A loop whose body leaves `c q` in place of each element leaves a list of such images,
of the length of the list it ran over. -/
theorem forEachIdx_image {β σ : Type} (body : Nat → β → σ → β × σ) (c : β → β)
    (hb : ∀ k x s, ∃ q, (body k x s).1 = c q) :
    ∀ (xs : List β) (pi : Nat) (s : σ),
      ∃ qs : List β, qs.length = xs.length ∧ (forEachIdx body xs pi s).1 = qs.map c := by
  intro xs
  induction xs with
  | nil => intro pi s; exact ⟨[], rfl, rfl⟩
  | cons x xs ih =>
    intro pi s
    obtain ⟨q, hq⟩ := hb pi x s
    obtain ⟨qs, hl, hqs⟩ := ih (pi + 1) (body pi x s).2
    exact ⟨q :: qs, by simp [hl], by simp [forEachIdx, hq, hqs]⟩

/-- A projection of the elements that a loop leaves, when the body fixes that projection
from the element alone. -/
theorem forEachIdx_map_fst {β σ γ : Type} (body : Nat → β → σ → β × σ) (f g : β → γ)
    (hb : ∀ k x s, f (body k x s).1 = g x) :
    ∀ (xs : List β) (pi : Nat) (s : σ), (forEachIdx body xs pi s).1.map f = xs.map g := by
  intro xs
  induction xs with
  | nil => intro pi s; rfl
  | cons x xs ih =>
    intro pi s
    simp [forEachIdx, hb, ih]

/-- Two loops whose bodies end in `clear()` leave every gradient of the model cleared. -/
theorem gradients_cleared_loops {σ τ : Type} (c : Model α)
    (db : Nat → Parameters α → σ → Parameters α × σ)
    (lb : Nat → LookupParameters α → τ → LookupParameters α × τ)
    (hd : ∀ k x s, ∃ v, (db k x s).1 = ({ x with values := v } : Parameters α).clear)
    (hl : ∀ k x s, ∃ v, (lb k x s).1 = ({ x with values := v } : LookupParameters α).clear)
    (s0 : σ) (t0 : τ) :
    Model.gradients_cleared c
      { params := (forEachIdx db c.params 0 s0).1,
        lookup_params := (forEachIdx lb c.lookup_params 0 t0).1 } := by
  refine ⟨?_, ?_, ?_, ?_⟩
  · exact forEachIdx_image db Parameters.clear
      (fun k x s => by obtain ⟨v, hv⟩ := hd k x s; exact ⟨_, hv⟩) c.params 0 s0
  · exact forEachIdx_image lb LookupParameters.clear
      (fun k x s => by obtain ⟨v, hv⟩ := hl k x s; exact ⟨_, hv⟩) c.lookup_params 0 t0
  · exact forEachIdx_map_fst db Parameters.g (fun p => p.clear.g)
      (fun k x s => by obtain ⟨v, hv⟩ := hd k x s; rw [hv]; rfl) c.params 0 s0
  · exact forEachIdx_map_fst lb LookupParameters.grads (fun p => p.clear.grads)
      (fun k x s => by obtain ⟨v, hv⟩ := hl k x s; rw [hv]; rfl) c.lookup_params 0 t0

/-- The two loops of `SimpleSGDTrainer::update` leave every gradient of the model cleared. -/
theorem gradients_cleared_maps (c : Model α) (eta lambda scale gscale nutt_scale : α) :
    Model.gradients_cleared c
      { params := c.params.map
          (SimpleSGDTrainer.dense_body eta lambda scale gscale nutt_scale),
        lookup_params := c.lookup_params.map
          (SimpleSGDTrainer.lookup_body eta lambda scale gscale nutt_scale) } := by
  have himg : ∀ {β : Type} (f c : β → β) (_ : ∀ x, ∃ q, f x = c q) (xs : List β),
      ∃ qs : List β, qs.length = xs.length ∧ xs.map f = qs.map c := by
    intro β f c hf xs
    induction xs with
    | nil => exact ⟨[], rfl, rfl⟩
    | cons x xs ih =>
      obtain ⟨q, hq⟩ := hf x
      obtain ⟨qs, hl, hqs⟩ := ih
      exact ⟨q :: qs, by simp [hl], by simp [hq, hqs]⟩
  refine ⟨himg (SimpleSGDTrainer.dense_body eta lambda scale gscale nutt_scale)
      Parameters.clear (fun x => ⟨_, rfl⟩) c.params,
    himg (SimpleSGDTrainer.lookup_body eta lambda scale gscale nutt_scale)
      LookupParameters.clear (fun x => ⟨_, rfl⟩) c.lookup_params, ?_, ?_⟩
  · simp only [List.map_map]; rfl
  · simp only [List.map_map]; rfl

/-- What `clear()` leaves does not depend on the clipping pre-step: cleared gradients of
the model after `clip_gradients(samples)` are cleared gradients of the model before. -/
theorem gradients_cleared_clip (sqrt : α → α) (tr : Trainer α) (m r : Model α) (samples : α)
    (h : Model.gradients_cleared (tr.clip_gradients sqrt m samples).2.2 r) :
    Model.gradients_cleared m r := by
  rw [Trainer.clip_gradients_model] at h
  obtain ⟨⟨qs, hq, hqs⟩, ⟨ls, hls, hlss⟩, hg, hgr⟩ := h
  refine ⟨⟨qs, by simpa using hq, hqs⟩, ⟨ls, by simpa using hls, hlss⟩, ?_, ?_⟩
  · rw [hg]
    simp only [List.map_map]
    apply List.map_congr_left
    intro p _
    by_cases hc : tr.clipping_enabled = true ∧ tr.clipping_type = ClippingType.simple_clipping
    · simp [Parameters.clear, Trainer.clipped, hc, g_simple_clipping]
    · simp [Parameters.clear, Trainer.clipped, hc]
  · rw [hgr]
    simp only [List.map_map]
    apply List.map_congr_left
    intro p _
    rfl

/-- The call `clip_gradients(samples)` does not touch `updates`. -/
theorem Trainer.clip_gradients_updates (sqrt : α → α) (tr : Trainer α) (m : Model α)
    (samples : α) : (tr.clip_gradients sqrt m samples).2.1.updates = tr.updates := by
  rw [Trainer.clip_gradients_trainer]

/-- The call `clip_gradients(samples, norm)` does not touch `updates`. -/
theorem Trainer.clip_gradients_pre_updates (tr : Trainer α) (samples norm : α) :
    (tr.clip_gradients_pre samples norm).2.updates = tr.updates := by
  unfold Trainer.clip_gradients_pre
  dsimp only
  split_ifs <;> rfl

end Cleared
section UpdateContract
variable {α : Type} [LinearOrderedField α]

/-- A call of `RmsPropTrainer::update` that returns has run lines 378-427 on the norms
that `compute_gradient_norm` returned. -/
theorem RmsPropTrainer.rmsprop_update_returned (sqrt : α → α)
    (v_norm_allocated : Bool) (GPU_ALLOC_HOST_MEM_SIZE : Nat)
    (tr : RmsPropTrainer α) (m : Model α) (nutt scale : α)
    (r : RmsPropTrainer α × Model α)
    (h : RmsPropTrainer.update sqrt v_norm_allocated GPU_ALLOC_HOST_MEM_SIZE
      tr m nutt scale = Outcome.returned r) :
    ∃ vp vl, r = RmsPropTrainer.update_from sqrt (tr.allocate m) m nutt scale vp vl := by
  unfold RmsPropTrainer.update at h
  cases hc : RmsPropTrainer.compute_gradient_norm v_norm_allocated GPU_ALLOC_HOST_MEM_SIZE
      m.params m.lookup_params with
  | null_store => rw [hc] at h; simp at h
  | thrown w => rw [hc] at h; simp at h
  | returned b =>
    obtain ⟨vp, vl⟩ := b
    rw [hc] at h
    simp only [Outcome.returned.injEq] at h
    exact ⟨vp, vl, h.symm⟩

/-- With a buffer and within `GPU_ALLOC_HOST_MEM_SIZE`, `RmsPropTrainer::update` returns. -/
theorem RmsPropTrainer.rmsprop_update_returns (sqrt : α → α) (GPU_ALLOC_HOST_MEM_SIZE : Nat)
    (tr : RmsPropTrainer α) (m : Model α) (nutt scale : α)
    (hsize : m.params.length + (m.lookup_params.map (fun p => p.grads.length)).sum
      ≤ GPU_ALLOC_HOST_MEM_SIZE) :
    ∃ r, RmsPropTrainer.update sqrt true GPU_ALLOC_HOST_MEM_SIZE tr m nutt scale
      = Outcome.returned r := by
  obtain ⟨⟨vp, vl⟩, hcg⟩ := RmsPropTrainer.compute_gradient_norm_returns
    GPU_ALLOC_HOST_MEM_SIZE m.params m.lookup_params hsize
  exact ⟨RmsPropTrainer.update_from sqrt (tr.allocate m) m nutt scale vp vl, by
    simp only [RmsPropTrainer.update, hcg]⟩

/-- C14: one call of `update` of each of the seven trainers (SGD, Momentum, Adagrad,
Adadelta, RmsProp, RmsPropWithMomentum, Adam) leaves `updates` one higher and leaves
every dense parameter and every lookup table of the model as a result of `clear()`, with
the gradient that `clear()` leaves on it, for every trainer state (clipping enabled or
not, of either type), every model and all gradients. Each loop visits each parameter once
and calls `clear()` once in its body. For RmsProp and RmsPropWithMomentum this is every
call that returns, and the call returns with a scratch buffer and a gradient count within
`GPU_ALLOC_HOST_MEM_SIZE`. -/
theorem Trainer.update_counts_and_clears (sqrt : α → α) (m : Model α) (nutt scale : α) :
    (∀ tr : Trainer α,
      (SimpleSGDTrainer.update sqrt tr m nutt scale).1.updates = tr.updates + 1 ∧
      Model.gradients_cleared m (SimpleSGDTrainer.update sqrt tr m nutt scale).2) ∧
    (∀ tr : MomentumSGDTrainer α,
      (MomentumSGDTrainer.update sqrt tr m nutt scale).1.updates = tr.updates + 1 ∧
      Model.gradients_cleared m (MomentumSGDTrainer.update sqrt tr m nutt scale).2) ∧
    (∀ tr : AdagradTrainer α,
      (AdagradTrainer.update sqrt tr m nutt scale).1.updates = tr.updates + 1 ∧
      Model.gradients_cleared m (AdagradTrainer.update sqrt tr m nutt scale).2) ∧
    (∀ tr : AdadeltaTrainer α,
      (AdadeltaTrainer.update sqrt tr m nutt scale).1.updates = tr.updates + 1 ∧
      Model.gradients_cleared m (AdadeltaTrainer.update sqrt tr m nutt scale).2) ∧
    (∀ (tr : RmsPropTrainer α) (GPU_ALLOC_HOST_MEM_SIZE : Nat),
      (m.params.length + (m.lookup_params.map (fun p => p.grads.length)).sum
          ≤ GPU_ALLOC_HOST_MEM_SIZE →
        ∃ r, RmsPropTrainer.update sqrt true GPU_ALLOC_HOST_MEM_SIZE tr m nutt scale
          = Outcome.returned r) ∧
      ∀ (v_norm_allocated : Bool) (r : RmsPropTrainer α × Model α),
        RmsPropTrainer.update sqrt v_norm_allocated GPU_ALLOC_HOST_MEM_SIZE tr m nutt scale
          = Outcome.returned r →
        r.1.updates = tr.updates + 1 ∧ Model.gradients_cleared m r.2) ∧
    (∀ (tr : RmsPropWithMomentumTrainer α) (GPU_ALLOC_HOST_MEM_SIZE : Nat),
      (m.params.length + (m.lookup_params.map (fun p => p.grads.length)).sum
          ≤ GPU_ALLOC_HOST_MEM_SIZE →
        ∃ r, RmsPropWithMomentumTrainer.update sqrt true GPU_ALLOC_HOST_MEM_SIZE tr m nutt
          scale = Outcome.returned r) ∧
      ∀ (v_norm_allocated : Bool) (r : RmsPropWithMomentumTrainer α × Model α),
        RmsPropWithMomentumTrainer.update sqrt v_norm_allocated GPU_ALLOC_HOST_MEM_SIZE tr m
          nutt scale = Outcome.returned r →
        r.1.updates = tr.updates + 1 ∧ Model.gradients_cleared m r.2) ∧
    (∀ (tr : AdamTrainer α) (clip_samples : α) (t : Nat),
      (AdamTrainer.update sqrt clip_samples tr t m nutt scale).1.updates = tr.updates + 1 ∧
      Model.gradients_cleared m (AdamTrainer.update sqrt clip_samples tr t m nutt scale).2.2) := by
  refine ⟨?_, ?_, ?_, ?_, ?_, ?_, ?_⟩
  · intro tr
    refine ⟨?_, gradients_cleared_clip sqrt tr m _ nutt (gradients_cleared_maps _ _ _ _ _ _)⟩
    simp only [SimpleSGDTrainer.update, Trainer.clip_gradients_updates]
  · intro tr
    refine ⟨?_, gradients_cleared_clip sqrt (tr.allocate m).toTrainer m _ nutt
      (gradients_cleared_loops _ _ _ (fun k x s => ⟨_, rfl⟩) (fun k x s => ⟨_, rfl⟩) _ _)⟩
    simp only [MomentumSGDTrainer.update, Trainer.clip_gradients_updates,
      (MomentumSGDTrainer.momentum_allocate_base tr m).1]
  · intro tr
    refine ⟨?_, gradients_cleared_clip sqrt (tr.allocate m).toTrainer m _ nutt
      (gradients_cleared_loops _ _ _ (fun k x s => ⟨_, rfl⟩) (fun k x s => ⟨_, rfl⟩) _ _)⟩
    simp only [AdagradTrainer.update, Trainer.clip_gradients_updates,
      (AdagradTrainer.adagrad_allocate_base tr m).1]
  · intro tr
    have hb : (tr.allocate m).toTrainer = tr.toTrainer := by
      unfold AdadeltaTrainer.allocate
      split <;> simp
    refine ⟨?_, gradients_cleared_clip sqrt (tr.allocate m).toTrainer m _ nutt
      (gradients_cleared_loops _ _ _ (fun k x s => ⟨_, rfl⟩) (fun k x s => ⟨_, rfl⟩) _ _)⟩
    simp only [AdadeltaTrainer.update, Trainer.clip_gradients_updates, hb]
  · intro tr GPU
    refine ⟨RmsPropTrainer.rmsprop_update_returns sqrt GPU tr m nutt scale, ?_⟩
    intro a r hr
    obtain ⟨vp, vl, rfl⟩ := RmsPropTrainer.rmsprop_update_returned sqrt a GPU tr m nutt scale
      r hr
    refine ⟨?_, gradients_cleared_loops m _ _ (fun k x s => ⟨_, rfl⟩)
      (fun k x s => ⟨_, rfl⟩) _ _⟩
    simp only [RmsPropTrainer.update_from, Trainer.clip_gradients_pre_updates,
      (RmsPropTrainer.rmsprop_allocate_base tr m).1]
  · intro tr GPU
    refine ⟨RmsPropWithMomentumTrainer.rmsmom_update_returns sqrt GPU tr m nutt scale, ?_⟩
    intro a r hr
    obtain ⟨vp, vl, _, rfl⟩ := RmsPropWithMomentumTrainer.rmsmom_update_returned sqrt a GPU
      tr m nutt scale r hr
    refine ⟨?_, gradients_cleared_loops m _ _ (fun k x s => ⟨_, rfl⟩)
      (fun k x s => ⟨_, rfl⟩) _ _⟩
    simp only [RmsPropWithMomentumTrainer.update_from, Trainer.clip_gradients_pre_updates,
      (RmsPropWithMomentumTrainer.rmsmom_allocate_base tr m).1]
  · intro tr clip_samples t
    refine ⟨?_, gradients_cleared_clip sqrt (tr.allocate m).toTrainer m _ clip_samples
      (gradients_cleared_loops _ _ _ (fun k x s => ⟨_, rfl⟩) (fun k x s => ⟨_, rfl⟩) _ _)⟩
    simp only [AdamTrainer.update, Trainer.clip_gradients_updates,
      (AdamTrainer.adam_allocate_base tr m).1]

end UpdateContract

/-- C14, witness: on the input model (dense gradient `(3, 4)`, one touched row) the SGD
update with norm clipping that fires and the first RmsProp update both count one update
and leave the dense gradient `(0, 0)` and an empty `grads` map. -/
theorem Trainer.update_counts_and_clears_witness :
    ((SimpleSGDTrainer.update Real.sqrt (input_trainer ℝ true ClippingType.norm_clipping)
        (input_model ℝ) 2 1).1.updates = 1 ∧
      (SimpleSGDTrainer.update Real.sqrt (input_trainer ℝ true ClippingType.norm_clipping)
        (input_model ℝ) 2 1).2.params.map (@Parameters.g ℝ) = [[0, 0]] ∧
      (SimpleSGDTrainer.update Real.sqrt (input_trainer ℝ true ClippingType.norm_clipping)
        (input_model ℝ) 2 1).2.lookup_params.map (@LookupParameters.grads ℝ) = [[]]) ∧
    ∃ r : RmsPropTrainer ℝ × Model ℝ,
      RmsPropTrainer.update Real.sqrt true 1024 (input_rmsprop_trainer ℝ) (input_model ℝ)
        2 1 = Outcome.returned r ∧
      r.1.updates = 1 ∧ r.2.params.map (@Parameters.g ℝ) = [[0, 0]] ∧
      r.2.lookup_params.map (@LookupParameters.grads ℝ) = [[]] := by
  have h := Trainer.update_counts_and_clears Real.sqrt (input_model ℝ) 2 1
  have h1 := h.1 (input_trainer ℝ true ClippingType.norm_clipping)
  have h5 := h.2.2.2.2.1 (input_rmsprop_trainer ℝ) 1024
  obtain ⟨r, hr⟩ := h5.1 (by simp [input_model])
  have h6 := h5.2 true r hr
  refine ⟨⟨h1.1, h1.2.2.2.1.trans ?_, h1.2.2.2.2.trans ?_⟩,
    r, hr, h6.1, h6.2.2.2.1.trans ?_, h6.2.2.2.2.trans ?_⟩ <;>
  simp [input_model, Parameters.clear, LookupParameters.clear]

section ShadowStateMachine
variable {α : Type} [LinearOrderedField α]

/-- C15: the velocity of `MomentumSGDTrainer` is a two-state machine. A new trainer has
`velocity_allocated = false`; the head of `update` then allocates `vp` and `vlp` and sets
the flag; the flag is true after every `update`, from whatever state, so it never
returns to false; with the flag true the head of `update` changes nothing, so after an
update `k` the loops of update `k+1` start from the `vp` and `vlp` that update `k`
wrote. -/
theorem MomentumSGDTrainer.velocity_allocated_once (sqrt : α → α) :
    (∀ (base : Trainer α) (momentum : α),
      (MomentumSGDTrainer.init base momentum).velocity_allocated = false) ∧
    (∀ (tr : MomentumSGDTrainer α) (m : Model α) (nutt scale : α),
      (MomentumSGDTrainer.update sqrt tr m nutt scale).1.velocity_allocated = true) ∧
    (∀ (tr : MomentumSGDTrainer α) (m : Model α), tr.velocity_allocated = false →
      (tr.allocate m).velocity_allocated = true ∧
      (tr.allocate m).vp = AllocateShadowParameters m ∧
      (tr.allocate m).vlp = AllocateShadowLookupParameters m) ∧
    (∀ (tr : MomentumSGDTrainer α) (m : Model α), tr.velocity_allocated = true →
      tr.allocate m = tr) ∧
    (∀ (tr : MomentumSGDTrainer α) (m1 m2 : Model α) (nutt1 scale1 nutt2 scale2 : α),
      ((MomentumSGDTrainer.update sqrt tr m1 nutt1 scale1).1.allocate m2
        = (MomentumSGDTrainer.update sqrt tr m1 nutt1 scale1).1) ∧
      (MomentumSGDTrainer.update sqrt (MomentumSGDTrainer.update sqrt tr m1 nutt1 scale1).1
          m2 nutt2 scale2).1.vp
        = (forEachIdx
            (MomentumSGDTrainer.dense_body tr.eta tr.lambda tr.momentum scale2
              ((MomentumSGDTrainer.update sqrt tr m1 nutt1 scale1).1.toTrainer.clip_gradients
                sqrt m2 nutt2).1 (1 / nutt2))
            ((MomentumSGDTrainer.update sqrt tr m1 nutt1 scale1).1.toTrainer.clip_gradients
              sqrt m2 nutt2).2.2.params 0
            (MomentumSGDTrainer.update sqrt tr m1 nutt1 scale1).1.vp).2 ∧
      (MomentumSGDTrainer.update sqrt (MomentumSGDTrainer.update sqrt tr m1 nutt1 scale1).1
          m2 nutt2 scale2).1.vlp
        = (forEachIdx
            (MomentumSGDTrainer.lookup_body tr.eta tr.lambda tr.momentum scale2
              ((MomentumSGDTrainer.update sqrt tr m1 nutt1 scale1).1.toTrainer.clip_gradients
                sqrt m2 nutt2).1 (1 / nutt2))
            ((MomentumSGDTrainer.update sqrt tr m1 nutt1 scale1).1.toTrainer.clip_gradients
              sqrt m2 nutt2).2.2.lookup_params 0
            (MomentumSGDTrainer.update sqrt tr m1 nutt1 scale1).1.vlp).2) := by
  have hflag : ∀ (tr : MomentumSGDTrainer α) (m : Model α),
      (tr.allocate m).velocity_allocated = true := by
    intro tr m
    unfold MomentumSGDTrainer.allocate
    cases h : tr.velocity_allocated <;> simp [h]
  have hupd : ∀ (tr : MomentumSGDTrainer α) (m : Model α) (nutt scale : α),
      (MomentumSGDTrainer.update sqrt tr m nutt scale).1.velocity_allocated = true := by
    intro tr m nutt scale
    simp only [MomentumSGDTrainer.update]
    exact hflag tr m
  have hkeep : ∀ (tr : MomentumSGDTrainer α) (m : Model α), tr.velocity_allocated = true →
      tr.allocate m = tr := by
    intro tr m h
    simp [MomentumSGDTrainer.allocate, h]
  refine ⟨fun _ _ => rfl, hupd, ?_, hkeep, ?_⟩
  · intro tr m h
    simp [MomentumSGDTrainer.allocate, h]
  · intro tr m1 m2 nutt1 scale1 nutt2 scale2
    have hk := hkeep _ m2 (hupd tr m1 nutt1 scale1)
    have hbase : (MomentumSGDTrainer.update sqrt tr m1 nutt1 scale1).1.eta = tr.eta ∧
        (MomentumSGDTrainer.update sqrt tr m1 nutt1 scale1).1.lambda = tr.lambda ∧
        (MomentumSGDTrainer.update sqrt tr m1 nutt1 scale1).1.momentum = tr.momentum := by
      obtain ⟨hb1, hb2⟩ := MomentumSGDTrainer.momentum_allocate_base tr m1
      have ht := Trainer.clip_gradients_trainer sqrt tr.toTrainer m1 nutt1
      simp only [MomentumSGDTrainer.update, hb1, hb2]
      rw [ht]
      exact ⟨rfl, rfl, trivial⟩
    obtain ⟨he, hl, hm⟩ := hbase
    refine ⟨hk, ?_, ?_⟩
    · conv_lhs => rw [MomentumSGDTrainer.update]
      simp only [hk, he, hl, hm]
    · conv_lhs => rw [MomentumSGDTrainer.update]
      simp only [hk, he, hl, hm]

end ShadowStateMachine

/-- C15, witness: a new trainer is unallocated; its first update on the input model
allocates the velocity (a zero velocity, moved by the step), sets the flag, and the head
of the second update finds the flag set and keeps that velocity. -/
theorem MomentumSGDTrainer.velocity_allocated_once_witness :
    (MomentumSGDTrainer.init (input_trainer ℝ false ClippingType.norm_clipping)
        (1 / 2)).velocity_allocated = false ∧
    ((MomentumSGDTrainer.init (input_trainer ℝ false ClippingType.norm_clipping)
        (1 / 2)).allocate (input_model ℝ)).vp = [⟨[0, 0]⟩] ∧
    (MomentumSGDTrainer.update Real.sqrt
      (MomentumSGDTrainer.init (input_trainer ℝ false ClippingType.norm_clipping) (1 / 2))
      (input_model ℝ) 2 1).1.velocity_allocated = true ∧
    (MomentumSGDTrainer.update Real.sqrt
      (MomentumSGDTrainer.init (input_trainer ℝ false ClippingType.norm_clipping) (1 / 2))
      (input_model ℝ) 2 1).1.allocate (input_model ℝ)
      = (MomentumSGDTrainer.update Real.sqrt
          (MomentumSGDTrainer.init (input_trainer ℝ false ClippingType.norm_clipping) (1 / 2))
          (input_model ℝ) 2 1).1 := by
  have h := @MomentumSGDTrainer.velocity_allocated_once ℝ _ Real.sqrt
  have h3 := h.2.2.1
    (MomentumSGDTrainer.init (input_trainer ℝ false ClippingType.norm_clipping) (1 / 2))
    (input_model ℝ) (h.1 _ _)
  refine ⟨h.1 _ _, h3.2.1.trans ?_, h.2.1 _ _ _ _, h.2.2.2.1 _ (input_model ℝ) (h.2.1 _ _ _ _)⟩
  simp [AllocateShadowParameters, input_model]

/-! ## SGD on the quadratic loss -/

section QuadraticLemmas
variable {α : Type} [LinearOrderedField α]

/-- The distance to the optimum after the SGD assignment with `G = θ - θ*` and no
regularisation is `(1 - c)` times the distance before. -/
theorem tsub_sgd_quadratic (c : α) : ∀ θ θs : Tensor α,
    tsub (tsub θ (tadd (smul c (tsub θ θs)) (smul 0 θ))) θs = smul (1 - c) (tsub θ θs) := by
  intro θ
  induction θ with
  | nil => intro θs; simp [tsub, tadd, smul]
  | cons x xs ih =>
    intro θs
    cases θs with
    | nil => simp [tsub, tadd, smul]
    | cons y ys =>
      have := ih ys
      simp only [tsub, tadd, smul, List.map_cons, List.zipWith_cons_cons] at this ⊢
      rw [this]
      congr 1
      ring

/-- The squared norm is homogeneous of degree two. -/
theorem squaredNorm_smul (a : α) (x : Tensor α) :
    squaredNorm (smul a x) = a ^ 2 * squaredNorm x := by
  induction x with
  | nil => simp [squaredNorm, smul]
  | cons y ys ih =>
    simp only [squaredNorm, smul, List.map_cons, List.sum_cons] at ih ⊢
    rw [ih]
    ring

/-- A squared norm is not negative. -/
theorem squaredNorm_nonneg (x : Tensor α) : 0 ≤ squaredNorm x := by
  induction x with
  | nil => simp [squaredNorm]
  | cons y ys ih =>
    simp only [squaredNorm, List.map_cons, List.sum_cons] at ih ⊢
    exact add_nonneg (mul_self_nonneg y) ih

/-- Every coefficient is bounded by the squared norm. -/
theorem mul_self_le_squaredNorm (x : Tensor α) (a : α) (ha : a ∈ x) :
    a * a ≤ squaredNorm x := by
  induction x with
  | nil => simp at ha
  | cons y ys ih =>
    have hn := squaredNorm_nonneg ys
    simp only [squaredNorm, List.map_cons, List.sum_cons] at ih hn ⊢
    rcases List.mem_cons.1 ha with h | h
    · subst h; linarith
    · have := ih h
      have := mul_self_nonneg y
      linarith

/-- Two different points of the same shape are at a positive distance. -/
theorem squaredNorm_tsub_pos : ∀ (θ θs : Tensor α), θ.length = θs.length → θ ≠ θs →
    0 < squaredNorm (tsub θ θs) := by
  intro θ
  induction θ with
  | nil =>
    intro θs hl hne
    cases θs with
    | nil => exact absurd rfl hne
    | cons y ys => simp at hl
  | cons x xs ih =>
    intro θs hl hne
    cases θs with
    | nil => simp at hl
    | cons y ys =>
      have hn := squaredNorm_nonneg (tsub xs ys)
      simp only [squaredNorm, tsub, List.zipWith_cons_cons, List.map_cons,
        List.sum_cons] at hn ⊢
      by_cases hxy : x = y
      · subst hxy
        have hne2 : xs ≠ ys := fun h => hne (by rw [h])
        have := ih ys (by simpa using hl) hne2
        simp only [squaredNorm, tsub] at this
        have := mul_self_nonneg (x - x)
        linarith
      · have : 0 < (x - y) * (x - y) := mul_self_pos.2 (sub_ne_zero.2 hxy)
        linarith

/-- One step of the scenario without regularisation and clipping: the trainer has
counted one update and the distance to the optimum is scaled by `1 - eta`. -/
theorem quadratic_step_spec (sqrt : α → α) (tr : Trainer α) (θs θ : Tensor α)
    (hl : tr.lambda = 0) (hc : tr.clipping_enabled = false) :
    (quadratic_step sqrt θs (tr, θ)).1 = { tr with updates := tr.updates + 1 } ∧
    (SimpleSGDTrainer.update sqrt tr (quadratic_model θs θ) 1 1).2.params.map
      Parameters.values = [(quadratic_step sqrt θs (tr, θ)).2] ∧
    tsub (quadratic_step sqrt θs (tr, θ)).2 θs = smul (1 - tr.eta) (tsub θ θs) := by
  have h := tsub_sgd_quadratic (1 / 1 * (tr.eta * 1 * 1)) θ θs
  have he : (1 : α) / 1 * (tr.eta * 1 * 1) = tr.eta := by ring
  rw [he] at h
  refine ⟨?_, ?_, ?_⟩
  · simp [quadratic_step, SimpleSGDTrainer.update, Trainer.clip_gradients, hc]
  · simp [quadratic_step, SimpleSGDTrainer.update, Trainer.clip_gradients, hc,
      quadratic_model, SimpleSGDTrainer.dense_body, Parameters.clear]
  · simp only [quadratic_step, SimpleSGDTrainer.update, Trainer.clip_gradients, hc,
      quadratic_model, SimpleSGDTrainer.dense_body, Parameters.clear, hl, List.map_cons,
      List.getD_cons_zero, Bool.false_eq_true, if_false, he]
    exact h

end QuadraticLemmas
section QuadraticClaims
variable {α : Type} [LinearOrderedField α]

/-- C16: on the quadratic loss `L(θ) = 1/2*|θ - θ*|^2` (the parameter holds `θ` and the
gradient `G = θ - θ*`; batch size 1, scale 1, `lambda = 0`, clipping disabled), one
`SimpleSGDTrainer::update` with `0 < eta < 2` from a point `θ ≠ θ*` of the shape of `θ*`
leaves a value `θ'` with `L(θ') = (1-eta)^2 * L(θ) < L(θ)`. -/
theorem SimpleSGDTrainer.update_decreases_quadratic_loss (sqrt : α → α) (tr : Trainer α)
    (θs θ : Tensor α) (hl : tr.lambda = 0) (hc : tr.clipping_enabled = false)
    (h0 : 0 < tr.eta) (h2 : tr.eta < 2) (hlen : θ.length = θs.length) (hne : θ ≠ θs) :
    ∃ θ' : Tensor α,
      (SimpleSGDTrainer.update sqrt tr (quadratic_model θs θ) 1 1).2.params.map
        Parameters.values = [θ'] ∧
      quadratic_loss θs θ' = (1 - tr.eta) ^ 2 * quadratic_loss θs θ ∧
      quadratic_loss θs θ' < quadratic_loss θs θ := by
  obtain ⟨_, hv, hd⟩ := quadratic_step_spec sqrt tr θs θ hl hc
  have hpos := squaredNorm_tsub_pos θ θs hlen hne
  have hq : (1 - tr.eta) ^ 2 < 1 := by nlinarith
  have heq : quadratic_loss θs (quadratic_step sqrt θs (tr, θ)).2
      = (1 - tr.eta) ^ 2 * quadratic_loss θs θ := by
    simp only [quadratic_loss, hd, squaredNorm_smul]
    ring
  refine ⟨_, hv, heq, ?_⟩
  rw [heq]
  have hL : 0 < quadratic_loss θs θ := by
    simp only [quadratic_loss]
    linarith
  nlinarith

/-- C17: in the same scenario (`G = θ - θ*` recomputed before each step, batch size 1,
scale 1, `lambda = 0`, clipping disabled, `0 < eta < 2`), after `K` updates the trainer
has counted `K` updates and `θ_K - θ* = (1-eta)^K * (θ_0 - θ*)`; so `θ_K` converges to
`θ*`: for every `tol > 0` there is a `K0` such that for all `K ≥ K0` the distance
`|θ_K - θ*|` is below `tol`, as a Euclidean norm and in every coordinate. -/
theorem SimpleSGDTrainer.updates_converge_on_quadratic [Archimedean α] (sqrt : α → α)
    (tr : Trainer α) (θs θ0 : Tensor α) (hl : tr.lambda = 0)
    (hc : tr.clipping_enabled = false) (h0 : 0 < tr.eta) (h2 : tr.eta < 2) :
    (∀ K : Nat, (quadratic_run sqrt θs K (tr, θ0)).1.updates = tr.updates + K ∧
      tsub (quadratic_run sqrt θs K (tr, θ0)).2 θs
        = smul ((1 - tr.eta) ^ K) (tsub θ0 θs)) ∧
    ∀ tol : α, 0 < tol → ∃ K0 : Nat, ∀ K : Nat, K0 ≤ K →
      squaredNorm (tsub (quadratic_run sqrt θs K (tr, θ0)).2 θs) < tol ^ 2 ∧
      ∀ x ∈ tsub (quadratic_run sqrt θs K (tr, θ0)).2 θs, |x| < tol := by
  have hrun : ∀ K : Nat,
      (quadratic_run sqrt θs K (tr, θ0)).1 = { tr with updates := tr.updates + K } ∧
      tsub (quadratic_run sqrt θs K (tr, θ0)).2 θs
        = smul ((1 - tr.eta) ^ K) (tsub θ0 θs) := by
    intro K
    induction K with
    | zero =>
      refine ⟨rfl, ?_⟩
      simp only [quadratic_run, pow_zero, smul]
      simp
    | succ K ih =>
      obtain ⟨h1, h2'⟩ := ih
      have hs := quadratic_step_spec sqrt (quadratic_run sqrt θs K (tr, θ0)).1 θs
        (quadratic_run sqrt θs K (tr, θ0)).2 (by rw [h1]; exact hl) (by rw [h1]; exact hc)
      simp only [Prod.mk.eta] at hs
      refine ⟨?_, ?_⟩
      · simp only [quadratic_run]
        rw [hs.1, h1]
        simp [Nat.add_assoc]
      · simp only [quadratic_run]
        rw [hs.2.2, h2', h1]
        simp only [smul, List.map_map]
        apply List.map_congr_left
        intro x _
        simp only [Function.comp]
        ring
  have hnorm : ∀ K : Nat, squaredNorm (tsub (quadratic_run sqrt θs K (tr, θ0)).2 θs)
      = ((1 - tr.eta) ^ 2) ^ K * squaredNorm (tsub θ0 θs) := by
    intro K
    rw [(hrun K).2, squaredNorm_smul]
    congr 1
    rw [← pow_mul, ← pow_mul, Nat.mul_comm]
  refine ⟨fun K => ⟨by rw [(hrun K).1], (hrun K).2⟩, ?_⟩
  intro tol htol
  have hq0 : 0 ≤ (1 - tr.eta) ^ 2 := sq_nonneg _
  have hq1 : (1 - tr.eta) ^ 2 < 1 := by nlinarith
  have hS := squaredNorm_nonneg (tsub θ0 θs)
  have hbound : ∃ K0 : Nat, ∀ K : Nat, K0 ≤ K →
      squaredNorm (tsub (quadratic_run sqrt θs K (tr, θ0)).2 θs) < tol ^ 2 := by
    have ht2 : 0 < tol ^ 2 := pow_pos htol 2
    obtain ⟨K0, hK0⟩ := exists_pow_lt_of_lt_one
      (div_pos ht2 (by linarith : 0 < squaredNorm (tsub θ0 θs) + 1)) hq1
    refine ⟨K0, fun K hK => ?_⟩
    rw [hnorm K]
    have hle : ((1 - tr.eta) ^ 2) ^ K ≤ ((1 - tr.eta) ^ 2) ^ K0 :=
      pow_le_pow_of_le_one hq0 hq1.le hK
    have hlt : ((1 - tr.eta) ^ 2) ^ K < tol ^ 2 / (squaredNorm (tsub θ0 θs) + 1) :=
      lt_of_le_of_lt hle hK0
    have hmul := (lt_div_iff₀ (by linarith : 0 < squaredNorm (tsub θ0 θs) + 1)).1 hlt
    have hqK : 0 ≤ ((1 - tr.eta) ^ 2) ^ K := pow_nonneg hq0 K
    nlinarith
  obtain ⟨K0, hK0⟩ := hbound
  refine ⟨K0, fun K hK => ⟨hK0 K hK, fun x hx => ?_⟩⟩
  have hle := mul_self_le_squaredNorm _ x hx
  have hlt := hK0 K hK
  apply abs_lt_of_sq_lt_sq _ htol.le
  nlinarith

end QuadraticClaims

/-- C16, witness: `eta = 1/2`, `θ* = (1, 2)`, `θ = (3, 0)`: the loss goes from 4 to
`(1/2)^2 * 4`. -/
theorem SimpleSGDTrainer.update_decreases_quadratic_loss_witness :
    ∃ θ' : Tensor ℝ,
      (SimpleSGDTrainer.update Real.sqrt
        { input_trainer ℝ false ClippingType.norm_clipping with eta := 1 / 2 }
        (quadratic_model [1, 2] [3, 0]) 1 1).2.params.map (@Parameters.values ℝ) = [θ'] ∧
      quadratic_loss [1, 2] θ' = (1 - 1 / 2) ^ 2 * quadratic_loss [1, 2] [3, 0] ∧
      quadratic_loss [1, 2] θ' < quadratic_loss [1, 2] [3, 0] :=
  SimpleSGDTrainer.update_decreases_quadratic_loss Real.sqrt
    { input_trainer ℝ false ClippingType.norm_clipping with eta := 1 / 2 }
    [1, 2] [3, 0] (by simp [input_trainer]) (by simp [input_trainer])
    (by norm_num) (by norm_num) (by simp) (by simp)

/-- C17, witness: `eta = 1/2`, `θ* = (1, 2)`, `θ_0 = (3, 0)`: after three updates the
distance is `(1/2)^3 * (2, -2)`, and for the tolerance `1/100` the points stay within it
from some `K0` on. -/
theorem SimpleSGDTrainer.updates_converge_on_quadratic_witness :
    tsub (quadratic_run Real.sqrt [1, 2] 3
        ({ input_trainer ℝ false ClippingType.norm_clipping with eta := 1 / 2 }, [3, 0])).2
      [1, 2] = smul ((1 - 1 / 2) ^ 3) (tsub [3, 0] [1, 2]) ∧
    ∃ K0 : Nat, ∀ K : Nat, K0 ≤ K →
      squaredNorm (tsub (quadratic_run Real.sqrt [1, 2] K
        ({ input_trainer ℝ false ClippingType.norm_clipping with eta := 1 / 2 }, [3, 0])).2
        [1, 2]) < (1 / 100 : ℝ) ^ 2 ∧
      ∀ x ∈ tsub (quadratic_run Real.sqrt [1, 2] K
        ({ input_trainer ℝ false ClippingType.norm_clipping with eta := 1 / 2 }, [3, 0])).2
        [1, 2], |x| < (1 / 100 : ℝ) := by
  have h := SimpleSGDTrainer.updates_converge_on_quadratic Real.sqrt
    { input_trainer ℝ false ClippingType.norm_clipping with eta := 1 / 2 }
    [1, 2] [3, 0] (by simp [input_trainer]) (by simp [input_trainer])
    (by norm_num) (by norm_num)
  exact ⟨(h.1 3).2, h.2 (1 / 100) (by norm_num)⟩

/-! ## Persistence -/

section PersistLemmas
variable {α : Type}

/-- A size that fits an `int` is converted to itself. -/
theorem int_of_size_eq (n : Nat) (h : n < 2147483648) : int_of_size n = (n : Int) := by
  unfold int_of_size
  omega

/-- Reading back, element by element, what was written element by element: when every
pair of a written and a target element loads, the loop returns the loaded elements and
the rest of the archive. -/
theorem load_each_saved {β γ : Type}
    (f : β → List (ArchiveItem α) → Except LoadError (β × List (ArchiveItem α)))
    (save : γ → List (ArchiveItem α)) (g : γ → β → β) (R : γ → β → Prop)
    (hR : ∀ a b, R a b → ∀ rest, f b (save a ++ rest) = Except.ok (g a b, rest)) :
    ∀ (as : List γ) (bs : List β), List.Forall₂ R as bs → ∀ rest,
      load_each f bs (as.flatMap save ++ rest) = Except.ok (List.zipWith g as bs, rest) := by
  intro as bs h
  induction h with
  | nil => intro rest; rfl
  | cons hab _ ih =>
    intro rest
    simp only [List.flatMap_cons, List.append_assoc, load_each, hR _ _ hab, ih,
      List.zipWith_cons_cons]

/-- The first pair whose load fails an assertion ends the loop with that failure. -/
theorem load_each_rejects {β γ : Type}
    (f : β → List (ArchiveItem α) → Except LoadError (β × List (ArchiveItem α)))
    (save : γ → List (ArchiveItem α)) (g : γ → β → β) (R F : γ → β → Prop)
    (hR : ∀ a b, R a b → ∀ rest, f b (save a ++ rest) = Except.ok (g a b, rest))
    (hF : ∀ a b, F a b → ∀ rest,
      f b (save a ++ rest) = Except.error LoadError.assertion_failed) :
    ∀ (as : List γ) (bs : List β), List.Forall₂ (fun a b => R a b ∨ F a b) as bs →
      ¬ List.Forall₂ R as bs → ∀ rest,
      load_each f bs (as.flatMap save ++ rest)
        = Except.error LoadError.assertion_failed := by
  intro as bs h
  induction h with
  | nil => intro hn; exact absurd List.Forall₂.nil hn
  | cons hab htl ih =>
    intro hn rest
    rcases hab with hr | hf
    · have hn2 := ih (fun hall => hn (List.Forall₂.cons hr hall))
      simp only [List.flatMap_cons, List.append_assoc, load_each, hR _ _ hr, hn2]
    · simp only [List.flatMap_cons, List.append_assoc, load_each, hF _ _ hf]

/-- The loop returns as many elements as it ran over. -/
theorem load_each_length {β : Type}
    (f : β → List (ArchiveItem α) → Except LoadError (β × List (ArchiveItem α))) :
    ∀ (xs : List β) (ar : List (ArchiveItem α)) (ys : List β) (rest : List (ArchiveItem α)),
      load_each f xs ar = Except.ok (ys, rest) → ys.length = xs.length := by
  intro xs
  induction xs with
  | nil =>
    intro ar ys rest h
    simp only [load_each, Except.ok.injEq, Prod.mk.injEq] at h
    rw [← h.1]
  | cons x xs ih =>
    intro ar ys rest h
    simp only [load_each] at h
    cases hf : f x ar with
    | error e => rw [hf] at h; simp at h
    | ok r =>
      obtain ⟨y, ar1⟩ := r
      rw [hf] at h
      simp only at h
      cases hl : load_each f xs ar1 with
      | error e => rw [hl] at h; simp at h
      | ok r2 =>
        obtain ⟨zs, ar2⟩ := r2
        rw [hl] at h
        simp only [Except.ok.injEq, Prod.mk.injEq] at h
        rw [← h.1, List.length_cons, ih ar1 zs ar2 hl, List.length_cons]

/-- Equal images under two maps pair the elements off. -/
theorem forall₂_of_map_eq {β γ δ : Type} (f : γ → δ) (g : β → δ) :
    ∀ (as : List γ) (bs : List β), as.map f = bs.map g →
      List.Forall₂ (fun a b => f a = g b) as bs := by
  intro as
  induction as with
  | nil =>
    intro bs h
    cases bs with
    | nil => exact List.Forall₂.nil
    | cons b bs => simp at h
  | cons a as ih =>
    intro bs h
    cases bs with
    | nil => simp at h
    | cons b bs =>
      simp only [List.map_cons, List.cons.injEq] at h
      exact List.Forall₂.cons h.1 (ih bs h.2)

/-- The converse: elements paired off have equal images. -/
theorem map_eq_of_forall₂ {β γ δ : Type} (f : γ → δ) (g : β → δ) (as : List γ) (bs : List β)
    (h : List.Forall₂ (fun a b => f a = g b) as bs) : as.map f = bs.map g := by
  induction h with
  | nil => rfl
  | cons hab _ ih => simp [hab, ih]

/-- A projection of a `zipWith` that only depends on the left element. -/
theorem map_zipWith_left {β γ δ : Type} (g : γ → β → β) (f : β → δ) (f1 : γ → δ)
    (h : ∀ a b, f (g a b) = f1 a) :
    ∀ (as : List γ) (bs : List β), as.length = bs.length →
      (List.zipWith g as bs).map f = as.map f1 := by
  intro as
  induction as with
  | nil => intro bs _; simp
  | cons a as ih =>
    intro bs hl
    cases bs with
    | nil => simp at hl
    | cons b bs =>
      simp only [List.zipWith_cons_cons, List.map_cons, h, ih bs (by simpa using hl)]

/-- A projection of a `zipWith` that only depends on the right element. -/
theorem map_zipWith_right {β γ δ : Type} (g : γ → β → β) (f : β → δ)
    (h : ∀ a b, f (g a b) = f b) :
    ∀ (as : List γ) (bs : List β), as.length = bs.length →
      (List.zipWith g as bs).map f = bs.map f := by
  intro as
  induction as with
  | nil => intro bs hl; cases bs with
    | nil => rfl
    | cons b bs => simp at hl
  | cons a as ih =>
    intro bs hl
    cases bs with
    | nil => simp at hl
    | cons b bs =>
      simp only [List.zipWith_cons_cons, List.map_cons, h, ih bs (by simpa using hl)]

/-- The read of a tensor that is next in the archive. -/
theorem read_tensor_cons (t : Tensor α) (rest : List (ArchiveItem α)) :
    read_tensor (ArchiveItem.tensor t :: rest) = Except.ok (t, rest) := rfl

/-- The rows of a table read back into as many rows. -/
theorem load_rows_saved : ∀ (as bs : List (Tensor α)), as.length = bs.length →
    ∀ rest, load_each (fun _ a => read_tensor a) bs (as.map ArchiveItem.tensor ++ rest)
      = Except.ok (as, rest) := by
  intro as
  induction as with
  | nil =>
    intro bs hl rest
    cases bs with
    | nil => rfl
    | cons b bs => simp at hl
  | cons a as ih =>
    intro bs hl rest
    cases bs with
    | nil => simp at hl
    | cons b bs =>
      simp only [List.map_cons, List.cons_append, load_each, read_tensor_cons,
        ih bs (by simpa using hl)]

/-- What `Parameters::serialize` wrote, it reads back into any dense parameter. -/
theorem Parameters.serialize_load_saved (a b : Parameters α) (rest : List (ArchiveItem α)) :
    Parameters.serialize_load b (Parameters.serialize_save a ++ rest)
      = Except.ok ({ b with dim := a.dim, values := a.values }, rest) := rfl

/-- What `LookupParameters::save` wrote, `load` reads back into a table of as many rows. -/
theorem LookupParameters.table_load_saved (a b : LookupParameters α)
    (hl : a.values.length = b.values.length) (rest : List (ArchiveItem α)) :
    LookupParameters.load b (LookupParameters.save a ++ rest)
      = Except.ok ({ b with dim := a.dim, values := a.values }, rest) := by
  simp only [LookupParameters.load, LookupParameters.save, List.cons_append, read_dim,
    read_int, hl, if_true, load_rows_saved a.values b.values hl]

/-- A table of another number of rows fails the assertion of `LookupParameters::load`. -/
theorem LookupParameters.table_load_rejects (a b : LookupParameters α)
    (ha : a.values.length < 2147483648) (hb : b.values.length < 2147483648)
    (hl : a.values.length ≠ b.values.length) (rest : List (ArchiveItem α)) :
    LookupParameters.load b (LookupParameters.save a ++ rest)
      = Except.error LoadError.assertion_failed := by
  have hne : int_of_size a.values.length ≠ int_of_size b.values.length := by
    rw [int_of_size_eq _ ha, int_of_size_eq _ hb]
    exact_mod_cast hl
  simp only [LookupParameters.load, LookupParameters.save, List.cons_append, read_dim,
    read_int, hne, if_false]

end PersistLemmas
section ModelLoadLemmas
variable {α : Type}

/-- Two lists of equal length pair off, each element keeping what holds of all of its
list. -/
theorem forall₂_of_length_eq {β γ : Type} (P : γ → Prop) (Q : β → Prop) :
    ∀ (as : List γ) (bs : List β), as.length = bs.length → (∀ a ∈ as, P a) →
      (∀ b ∈ bs, Q b) → List.Forall₂ (fun a b => P a ∧ Q b) as bs := by
  intro as
  induction as with
  | nil =>
    intro bs hl _ _
    cases bs with
    | nil => exact List.Forall₂.nil
    | cons b bs => simp at hl
  | cons a as ih =>
    intro bs hl hP hQ
    cases bs with
    | nil => simp at hl
    | cons b bs =>
      exact List.Forall₂.cons ⟨hP a (List.mem_cons_self a as), hQ b (List.mem_cons_self b bs)⟩
        (ih bs (by simpa using hl) (fun x hx => hP x (List.mem_cons_of_mem a hx))
          (fun x hx => hQ x (List.mem_cons_of_mem b hx)))

/-- The head of `Model::load` on an archive that starts with the two counts of the
target: the two assertions pass and the two loops run. -/
theorem Model.load_counts_pass (B : Model α) (ar : List (ArchiveItem α)) :
    Model.load B (ArchiveItem.int (int_of_size B.params.length) ::
        ArchiveItem.int (int_of_size B.lookup_params.length) :: ar)
      = match load_each Parameters.serialize_load B.params ar with
        | Except.error e => Except.error e
        | Except.ok (params, ar3) =>
          match load_each LookupParameters.load B.lookup_params ar3 with
          | Except.error e => Except.error e
          | Except.ok (lookup_params, ar4) =>
            Except.ok ({ params := params, lookup_params := lookup_params }, ar4) := by
  simp only [Model.load, read_int, if_true]

/-- What `Model::save` wrote, `Model::load` reads back into a model with as many dense
parameters, as many tables and as many rows in each table: every `dim` and value tensor
is overwritten by the saved one, whatever the shapes were. -/
theorem Model.load_saved (A B : Model α) (hp : A.params.length = B.params.length)
    (hl : A.lookup_params.map (fun p => p.values.length)
      = B.lookup_params.map (fun p => p.values.length))
    (rest : List (ArchiveItem α)) :
    Model.load B (Model.save A ++ rest)
      = Except.ok
          ({ params := List.zipWith
               (fun (a b : Parameters α) => { b with dim := a.dim, values := a.values })
               A.params B.params,
             lookup_params := List.zipWith
               (fun (a b : LookupParameters α) => { b with dim := a.dim, values := a.values })
               A.lookup_params B.lookup_params }, rest) := by
  have hll : A.lookup_params.length = B.lookup_params.length := by
    simpa using congrArg List.length hl
  have h1 := load_each_saved Parameters.serialize_load Parameters.serialize_save
    (fun (a b : Parameters α) => { b with dim := a.dim, values := a.values })
    (fun _ _ => True) (fun a b _ rest => Parameters.serialize_load_saved a b rest)
    A.params B.params
    ((forall₂_of_length_eq (fun _ => True) (fun _ => True) A.params B.params hp
      (fun _ _ => trivial) (fun _ _ => trivial)).imp (fun _ _ _ => trivial))
  have h2 := load_each_saved LookupParameters.load LookupParameters.save
    (fun (a b : LookupParameters α) => { b with dim := a.dim, values := a.values })
    (fun a b => a.values.length = b.values.length)
    (fun a b h rest => LookupParameters.table_load_saved a b h rest)
    A.lookup_params B.lookup_params (forall₂_of_map_eq _ _ _ _ hl)
  simp only [Model.save, List.cons_append, List.append_assoc, hp, hll,
    Model.load_counts_pass, h1, h2]

/-- A saved table of another number of rows makes `Model::load` fail an assertion. -/
theorem Model.load_rejects_rows (A B : Model α) (hp : A.params.length = B.params.length)
    (hll : A.lookup_params.length = B.lookup_params.length)
    (hA : ∀ p ∈ A.lookup_params, p.values.length < 2147483648)
    (hB : ∀ p ∈ B.lookup_params, p.values.length < 2147483648)
    (hl : A.lookup_params.map (fun p => p.values.length)
      ≠ B.lookup_params.map (fun p => p.values.length))
    (rest : List (ArchiveItem α)) :
    Model.load B (Model.save A ++ rest) = Except.error LoadError.assertion_failed := by
  have h1 := load_each_saved Parameters.serialize_load Parameters.serialize_save
    (fun (a b : Parameters α) => { b with dim := a.dim, values := a.values })
    (fun _ _ => True) (fun a b _ rest => Parameters.serialize_load_saved a b rest)
    A.params B.params
    ((forall₂_of_length_eq (fun _ => True) (fun _ => True) A.params B.params hp
      (fun _ _ => trivial) (fun _ _ => trivial)).imp (fun _ _ _ => trivial))
  have h2 := load_each_rejects LookupParameters.load LookupParameters.save
    (fun (a b : LookupParameters α) => { b with dim := a.dim, values := a.values })
    (fun a b => a.values.length = b.values.length)
    (fun a b => a.values.length < 2147483648 ∧ b.values.length < 2147483648 ∧
      a.values.length ≠ b.values.length)
    (fun a b h rest => LookupParameters.table_load_saved a b h rest)
    (fun a b h rest => LookupParameters.table_load_rejects a b h.1 h.2.1 h.2.2 rest)
    A.lookup_params B.lookup_params
    ((forall₂_of_length_eq (fun p : LookupParameters α => p.values.length < 2147483648)
      (fun p : LookupParameters α => p.values.length < 2147483648) A.lookup_params
      B.lookup_params hll hA hB).imp (fun a b h => by
        by_cases he : a.values.length = b.values.length
        · exact Or.inl he
        · exact Or.inr ⟨h.1, h.2, he⟩))
    (fun hall => hl (map_eq_of_forall₂ _ _ _ _ hall))
  simp only [Model.save, List.cons_append, List.append_assoc, hp, hll,
    Model.load_counts_pass, h1, h2]

/-- A load that returns has kept the number of dense parameters and of tables. -/
theorem Model.load_keeps_sizes (B B' : Model α) (ar rest : List (ArchiveItem α))
    (h : Model.load B ar = Except.ok (B', rest)) :
    B'.params.length = B.params.length ∧
    B'.lookup_params.length = B.lookup_params.length := by
  unfold Model.load at h
  cases h1 : read_int ar with
  | error e => rw [h1] at h; simp at h
  | ok r1 =>
    obtain ⟨np, ar1⟩ := r1
    rw [h1] at h
    simp only at h
    cases h2 : read_int ar1 with
    | error e => rw [h2] at h; simp at h
    | ok r2 =>
      obtain ⟨nlp, ar2⟩ := r2
      rw [h2] at h
      simp only at h
      split_ifs at h
      cases h3 : load_each Parameters.serialize_load B.params ar2 with
      | error e => rw [h3] at h; simp at h
      | ok r3 =>
        obtain ⟨ps, ar3⟩ := r3
        rw [h3] at h
        simp only at h
        cases h4 : load_each LookupParameters.load B.lookup_params ar3 with
        | error e => rw [h4] at h; simp at h
        | ok r4 =>
          obtain ⟨ls, ar4⟩ := r4
          rw [h4] at h
          simp only [Except.ok.injEq, Prod.mk.injEq] at h
          rw [← h.1]
          exact ⟨load_each_length _ _ _ _ _ h3, load_each_length _ _ _ _ _ h4⟩

/-- The fields of the model that a load of a saved model returns: shapes and values of
the saved model, gradients of the target. -/
theorem Model.load_saved_fields (A B : Model α) (hp : A.params.length = B.params.length)
    (hll : A.lookup_params.length = B.lookup_params.length) :
    (List.zipWith (fun (a b : Parameters α) => { b with dim := a.dim, values := a.values })
      A.params B.params).map Parameters.dim = A.params.map Parameters.dim ∧
    (List.zipWith (fun (a b : Parameters α) => { b with dim := a.dim, values := a.values })
      A.params B.params).map Parameters.values = A.params.map Parameters.values ∧
    (List.zipWith
      (fun (a b : LookupParameters α) => { b with dim := a.dim, values := a.values })
      A.lookup_params B.lookup_params).map LookupParameters.dim
      = A.lookup_params.map LookupParameters.dim ∧
    (List.zipWith
      (fun (a b : LookupParameters α) => { b with dim := a.dim, values := a.values })
      A.lookup_params B.lookup_params).map LookupParameters.values
      = A.lookup_params.map LookupParameters.values ∧
    (List.zipWith (fun (a b : Parameters α) => { b with dim := a.dim, values := a.values })
      A.params B.params).map Parameters.g = B.params.map Parameters.g ∧
    (List.zipWith
      (fun (a b : LookupParameters α) => { b with dim := a.dim, values := a.values })
      A.lookup_params B.lookup_params).map LookupParameters.grads
      = B.lookup_params.map LookupParameters.grads :=
  ⟨map_zipWith_left (fun (a b : Parameters α) => { b with dim := a.dim, values := a.values })
     Parameters.dim Parameters.dim (fun _ _ => rfl) _ _ hp,
   map_zipWith_left (fun (a b : Parameters α) => { b with dim := a.dim, values := a.values })
     Parameters.values Parameters.values (fun _ _ => rfl) _ _ hp,
   map_zipWith_left (fun (a b : LookupParameters α) => { b with dim := a.dim, values := a.values })
     LookupParameters.dim LookupParameters.dim (fun _ _ => rfl) _ _ hll,
   map_zipWith_left (fun (a b : LookupParameters α) => { b with dim := a.dim, values := a.values })
     LookupParameters.values LookupParameters.values (fun _ _ => rfl) _ _ hll,
   map_zipWith_right (fun (a b : Parameters α) => { b with dim := a.dim, values := a.values })
     Parameters.g (fun _ _ => rfl) _ _ hp,
   map_zipWith_right (fun (a b : LookupParameters α) => { b with dim := a.dim, values := a.values })
     LookupParameters.grads (fun _ _ => rfl) _ _ hll⟩

end ModelLoadLemmas
section PersistClaims
variable {α : Type}

/-- C18: serialization round trip. For models `A` and `B` with the same number of dense
parameters and tables, the same number of rows in each table and the same shapes (`dim`
and buffer lengths), position for position, `Model::load` into `B` of the archive that
`Model::save` produced from `A` (followed by anything) returns, has consumed exactly
what `save` wrote, and has made every `dim`, every dense value tensor and every row of
every table equal to the one of `A`, in creation order; the gradients of `B` stay. -/
theorem Model.load_save_round_trip (A B : Model α) (rest : List (ArchiveItem α))
    (hp : A.params.map (fun p => (p.dim, p.values.length))
      = B.params.map (fun p => (p.dim, p.values.length)))
    (hl : A.lookup_params.map (fun p => (p.dim, p.values.map List.length))
      = B.lookup_params.map (fun p => (p.dim, p.values.map List.length))) :
    ∃ B' : Model α, Model.load B (Model.save A ++ rest) = Except.ok (B', rest) ∧
      B'.params.map Parameters.dim = A.params.map Parameters.dim ∧
      B'.params.map Parameters.values = A.params.map Parameters.values ∧
      B'.lookup_params.map LookupParameters.dim = A.lookup_params.map LookupParameters.dim ∧
      B'.lookup_params.map LookupParameters.values
        = A.lookup_params.map LookupParameters.values ∧
      B'.params.map Parameters.g = B.params.map Parameters.g ∧
      B'.lookup_params.map LookupParameters.grads
        = B.lookup_params.map LookupParameters.grads := by
  have hpl : A.params.length = B.params.length := by
    simpa using congrArg List.length hp
  have hll : A.lookup_params.length = B.lookup_params.length := by
    simpa using congrArg List.length hl
  have hrows : A.lookup_params.map (fun p => p.values.length)
      = B.lookup_params.map (fun p => p.values.length) := by
    have := congrArg (List.map (fun x : List Nat × List Nat => x.2.length)) hl
    simp only [List.map_map] at this
    have hf : ((fun x : List Nat × List Nat => x.2.length) ∘
        fun p : LookupParameters α => (p.dim, p.values.map List.length))
        = fun p => p.values.length := by
      funext p
      simp
    rw [hf] at this
    exact this
  exact ⟨_, Model.load_saved A B hpl hrows rest, Model.load_saved_fields A B hpl hll⟩

/-- C19: `Model::load` fails an assertion whenever the stored count of dense parameters
differs from `params.size()`, or the stored count of tables differs from
`lookup_params.size()`; `LookupParameters::load` fails an assertion whenever the stored
row count differs from `values.size()`, and so does `Model::load` of a saved model one of
whose tables has another number of rows than the target's; and a load that returns has
left `params` and `lookup_params` at their sizes. Sizes are those that fit an `int`. -/
theorem Model.load_rejects_count_mismatch (B : Model α) :
    (∀ (np nlp : Int) (rest : List (ArchiveItem α)), B.params.length < 2147483648 →
      np ≠ (B.params.length : Int) →
      Model.load B (ArchiveItem.int np :: ArchiveItem.int nlp :: rest)
        = Except.error LoadError.assertion_failed) ∧
    (∀ (np nlp : Int) (rest : List (ArchiveItem α)), B.lookup_params.length < 2147483648 →
      nlp ≠ (B.lookup_params.length : Int) →
      Model.load B (ArchiveItem.int np :: ArchiveItem.int nlp :: rest)
        = Except.error LoadError.assertion_failed) ∧
    (∀ (p : LookupParameters α) (d : List Nat) (nv : Int) (rest : List (ArchiveItem α)),
      p.values.length < 2147483648 → nv ≠ (p.values.length : Int) →
      LookupParameters.load p (ArchiveItem.dim d :: ArchiveItem.int nv :: rest)
        = Except.error LoadError.assertion_failed) ∧
    (∀ (A : Model α) (rest : List (ArchiveItem α)),
      A.params.length = B.params.length →
      A.lookup_params.length = B.lookup_params.length →
      (∀ p ∈ A.lookup_params, p.values.length < 2147483648) →
      (∀ p ∈ B.lookup_params, p.values.length < 2147483648) →
      A.lookup_params.map (fun p => p.values.length)
        ≠ B.lookup_params.map (fun p => p.values.length) →
      Model.load B (Model.save A ++ rest) = Except.error LoadError.assertion_failed) ∧
    (∀ (ar rest : List (ArchiveItem α)) (B' : Model α),
      Model.load B ar = Except.ok (B', rest) →
      B'.params.length = B.params.length ∧
      B'.lookup_params.length = B.lookup_params.length) := by
  refine ⟨?_, ?_, ?_, ?_, ?_⟩
  · intro np nlp rest hfit hne
    have h : np ≠ int_of_size B.params.length := by
      rw [int_of_size_eq _ hfit]; exact hne
    simp only [Model.load, read_int, h, if_false]
  · intro np nlp rest hfit hne
    have h : nlp ≠ int_of_size B.lookup_params.length := by
      rw [int_of_size_eq _ hfit]; exact hne
    simp only [Model.load, read_int, h, if_false]
    split_ifs <;> rfl
  · intro p d nv rest hfit hne
    have h : nv ≠ int_of_size p.values.length := by
      rw [int_of_size_eq _ hfit]; exact hne
    simp only [LookupParameters.load, read_dim, read_int, h, if_false]
  · intro A rest hp hll hA hB hl
    exact Model.load_rejects_rows A B hp hll hA hB hl rest
  · intro ar rest B' h
    exact Model.load_keeps_sizes B B' ar rest h

/-- C20, amended: when the counts of dense parameters and tables and the row count of
every table match, `Model::load` of a saved model returns whatever the shapes are: no
`dim` is compared, and every `dim` and value tensor of the target is overwritten by the
saved one. -/
theorem Model.load_overwrites_shapes (A B : Model α) (rest : List (ArchiveItem α))
    (hp : A.params.length = B.params.length)
    (hl : A.lookup_params.map (fun p => p.values.length)
      = B.lookup_params.map (fun p => p.values.length)) :
    ∃ B' : Model α, Model.load B (Model.save A ++ rest) = Except.ok (B', rest) ∧
      B'.params.map Parameters.dim = A.params.map Parameters.dim ∧
      B'.params.map Parameters.values = A.params.map Parameters.values ∧
      B'.lookup_params.map LookupParameters.dim = A.lookup_params.map LookupParameters.dim ∧
      B'.lookup_params.map LookupParameters.values
        = A.lookup_params.map LookupParameters.values := by
  have hll : A.lookup_params.length = B.lookup_params.length := by
    simpa using congrArg List.length hl
  obtain ⟨h1, h2, h3, h4, _, _⟩ := Model.load_saved_fields A B hp hll
  exact ⟨_, Model.load_saved A B hp hl rest, h1, h2, h3, h4⟩

end PersistClaims
/-- C18, witness: the archive of `input_saved_model` loads into `input_model` (same counts,
row count and shapes): the values become those saved, the gradient `(3, 4)` stays. -/
theorem Model.load_save_round_trip_witness :
    ∃ B' : Model ℝ,
      Model.load (input_model ℝ) (Model.save (input_saved_model ℝ) ++ []) = Except.ok (B', []) ∧
      B'.params.map (@Parameters.values ℝ) = [[8, 9]] ∧
      B'.lookup_params.map (@LookupParameters.values ℝ) = [[[1], [2], [3]]] ∧
      B'.params.map (@Parameters.g ℝ) = [[3, 4]] := by
  obtain ⟨B', h, _, h2, _, h4, h5, _⟩ := Model.load_save_round_trip (input_saved_model ℝ)
    (input_model ℝ) [] (by simp [input_model, input_saved_model])
    (by simp [input_model, input_saved_model])
  exact ⟨B', h, h2.trans (by simp [input_saved_model]), h4.trans (by simp [input_saved_model]),
    h5.trans (by simp [input_model])⟩

/-- C19, witness: `input_model` has one dense parameter and one table of three rows; an
archive that announces two dense parameters fails an assertion, and so does the archive
of `input_saved_model_two_rows`, whose table has two rows. -/
theorem Model.load_rejects_count_mismatch_witness :
    Model.load (input_model ℝ) [ArchiveItem.int 2, ArchiveItem.int 1]
      = Except.error LoadError.assertion_failed ∧
    Model.load (input_model ℝ) (Model.save (input_saved_model_two_rows ℝ) ++ [])
      = Except.error LoadError.assertion_failed := by
  have h := Model.load_rejects_count_mismatch (input_model ℝ)
  exact ⟨h.1 2 1 [] (by simp [input_model]) (by simp [input_model]),
    h.2.2.2.1 (input_saved_model_two_rows ℝ) [] (by simp [input_model, input_saved_model_two_rows])
      (by simp [input_model, input_saved_model_two_rows])
      (by simp [input_saved_model_two_rows]) (by simp [input_model])
      (by simp [input_model, input_saved_model_two_rows])⟩

/-- C20, witness: the archive of `input_saved_model_other_shape` (a dense parameter of
shape `{3}`, rows of shape `{2}`) loads into `input_model` (shapes `{2}` and `{1}`), whose
shapes and values it overwrites. -/
theorem Model.load_overwrites_shapes_witness :
    ∃ B' : Model ℝ,
      Model.load (input_model ℝ) (Model.save (input_saved_model_other_shape ℝ) ++ [])
        = Except.ok (B', []) ∧
      B'.params.map (@Parameters.dim ℝ) = [[3]] ∧
      B'.params.map (@Parameters.values ℝ) = [[1, 2, 3]] ∧
      B'.lookup_params.map (@LookupParameters.dim ℝ) = [[2]] := by
  obtain ⟨B', h, h1, h2, h3, _⟩ := Model.load_overwrites_shapes
    (input_saved_model_other_shape ℝ) (input_model ℝ) []
    (by simp [input_model, input_saved_model_other_shape])
    (by simp [input_model, input_saved_model_other_shape])
  exact ⟨B', h, h1.trans (by simp [input_saved_model_other_shape]),
    h2.trans (by simp [input_saved_model_other_shape]),
    h3.trans (by simp [input_saved_model_other_shape])⟩

/-- C20, counterexample: `input_model` has a dense parameter of shape `{2}` and a table of
rows of shape `{1}`; the archive saved from a model with the same counts and row count but
shapes `{3}` and `{2}` is not rejected: the load returns and has overwritten `dim` and
`values` of both (the old gradients stay). -/
theorem Model.load_accepts_other_shape :
    (input_saved_model_other_shape ℝ).params.map (@Parameters.dim ℝ)
      ≠ (input_model ℝ).params.map (@Parameters.dim ℝ) ∧
    Model.load (input_model ℝ) (Model.save (input_saved_model_other_shape ℝ))
      = Except.ok
          (({ params := [⟨[3], [1, 2, 3], [3, 4]⟩]
              lookup_params := [⟨[2], [[1, 1], [2, 2], [3, 3]], [(1, [2])]⟩] } : Model ℝ),
           []) := by
  refine ⟨by simp [input_model, input_saved_model_other_shape], ?_⟩
  have h := Model.load_saved (input_saved_model_other_shape ℝ) (input_model ℝ)
    (by simp [input_model, input_saved_model_other_shape])
    (by simp [input_model, input_saved_model_other_shape]) []
  rw [List.append_nil] at h
  rw [h]
  simp [input_model, input_saved_model_other_shape]

/-! ## Allocation failure in compute_gradient_norm -/

/-- C21: on the input model (one dense gradient, one touched row), when `malloc` returns
null `RmsPropTrainer::compute_gradient_norm` neither throws nor returns early: it goes on
to the store `*(v_norm + pi) = g2` through the null buffer, and so does every
`RmsPropTrainer::update` and `RmsPropWithMomentumTrainer::update` that calls it. -/
theorem RmsPropTrainer.compute_gradient_norm_stores_through_null :
    RmsPropTrainer.compute_gradient_norm false 1024 (input_model ℝ).params
      (input_model ℝ).lookup_params = Outcome.null_store ∧
    (∀ what : String, RmsPropTrainer.compute_gradient_norm false 1024 (input_model ℝ).params
      (input_model ℝ).lookup_params ≠ Outcome.thrown what) ∧
    RmsPropTrainer.update Real.sqrt false 1024 (input_rmsprop_trainer ℝ) (input_model ℝ) 2 1
      = Outcome.null_store ∧
    RmsPropWithMomentumTrainer.update Real.sqrt false 1024 (input_rmsmom_trainer ℝ)
      (input_model ℝ) 2 1 = Outcome.null_store := by
  have h : RmsPropTrainer.compute_gradient_norm false 1024 (input_model ℝ).params
      (input_model ℝ).lookup_params = Outcome.null_store := by
    simp [RmsPropTrainer.compute_gradient_norm, input_model]
  refine ⟨h, ?_, ?_, ?_⟩
  · intro what
    rw [h]
    exact fun hc => Outcome.noConfusion hc
  · simp only [RmsPropTrainer.update, h]
  · simp only [RmsPropWithMomentumTrainer.update, h]

/-! ## Adam's bias correction on a model without dense parameters -/

/-- C23, at the failing input: a model with one lookup table and no dense parameter, first
call of `AdamTrainer::update` of the program (static `t = 0`), `beta_1 = beta_2 = 1/2`.
No `++t` runs, the static `t` is still 0 after the call, and the touched row 1 is updated
by the step with `t = 0`, whose denominators `s1 = 1 - beta_1^0` and `s2 = 1 - beta_2^0`
are both zero. -/
theorem AdamTrainer.update_lookup_only_zero_denominators :
    (AdamTrainer.update Real.sqrt 1 (input_adam_trainer ℝ) 0 (input_model_lookup_only ℝ)
      1 1).2.1 = 0 ∧
    ((AdamTrainer.update Real.sqrt 1 (input_adam_trainer ℝ) 0 (input_model_lookup_only ℝ)
      1 1).2.2.lookup_params[0]?).bind (fun q : LookupParameters ℝ => q.values[1]?)
      = some (AdamTrainer.step Real.sqrt 1 0 (1 / 2) (1 / 2) 1 0 [2] [6] [0] [0]).1 ∧
    (1 : ℝ) - (input_adam_trainer ℝ).beta_1 ^ (AdamTrainer.update Real.sqrt 1
      (input_adam_trainer ℝ) 0 (input_model_lookup_only ℝ) 1 1).2.1 = 0 ∧
    (1 : ℝ) - (input_adam_trainer ℝ).beta_2 ^ (AdamTrainer.update Real.sqrt 1
      (input_adam_trainer ℝ) 0 (input_model_lookup_only ℝ) 1 1).2.1 = 0 := by
  have ht : (AdamTrainer.update Real.sqrt 1 (input_adam_trainer ℝ) 0
      (input_model_lookup_only ℝ) 1 1).2.1 = 0 := by
    simp [AdamTrainer.update, Trainer.clip_gradients, input_adam_trainer, input_trainer,
      input_model_lookup_only, forEachIdx]
  refine ⟨ht, ?_, ?_, ?_⟩
  · simp [AdamTrainer.update, AdamTrainer.allocate, AllocateShadowLookupParameters,
      AllocateShadowParameters, Trainer.clip_gradients, input_adam_trainer, input_trainer,
      input_model_lookup_only, forEachIdx, AdamTrainer.lookup_body, AdamTrainer.row_body,
      LookupParameters.grad, LookupParameters.clear, smul]
  · rw [ht]; simp
  · rw [ht]; simp

/-! ## The range of the clip factor -/

section ClipRange
variable {α : Type} [LinearOrderedField α]

/-- C24, amended: for `clip_threshold*samples > 0` both overloads of
`Trainer::clip_gradients` return a factor `gscale` with `0 < gscale <= 1`; the factor is
either 1 or the quotient `(clip_threshold*samples)/gg`, and the quotient is only formed
for a norm `gg > clip_threshold*samples > 0`. For `clip_gradients(samples)`, `gscale < 1`
exactly when clipping is enabled in norm mode and the global norm exceeds
`clip_threshold*samples`; for `clip_gradients(samples, gg)`, which does not read
`clipping_type`, exactly when clipping is enabled and `gg > clip_threshold*samples`. -/
theorem Trainer.clip_gradients_factor_range (sqrt : α → α) (tr : Trainer α) (m : Model α)
    (samples gg : α) (hpos : 0 < tr.clip_threshold * samples) :
    (0 < (tr.clip_gradients sqrt m samples).1 ∧ (tr.clip_gradients sqrt m samples).1 ≤ 1 ∧
      ((tr.clip_gradients sqrt m samples).1 < 1 ↔
        tr.clipping_enabled = true ∧ tr.clipping_type = ClippingType.norm_clipping ∧
        m.gradient_l2_norm sqrt > tr.clip_threshold * samples) ∧
      ((tr.clip_gradients sqrt m samples).1 = 1 ∨
        (0 < m.gradient_l2_norm sqrt ∧ (tr.clip_gradients sqrt m samples).1
          = (tr.clip_threshold * samples) / m.gradient_l2_norm sqrt))) ∧
    (0 < (tr.clip_gradients_pre samples gg).1 ∧ (tr.clip_gradients_pre samples gg).1 ≤ 1 ∧
      ((tr.clip_gradients_pre samples gg).1 < 1 ↔
        tr.clipping_enabled = true ∧ gg > tr.clip_threshold * samples) ∧
      ((tr.clip_gradients_pre samples gg).1 = 1 ∨
        (0 < gg ∧ (tr.clip_gradients_pre samples gg).1
          = (tr.clip_threshold * samples) / gg))) := by
  have hq : ∀ x : α, x > tr.clip_threshold * samples →
      0 < x ∧ 0 < tr.clip_threshold * samples / x ∧ tr.clip_threshold * samples / x < 1 := by
    intro x hx
    have hx0 : 0 < x := lt_trans hpos hx
    exact ⟨hx0, div_pos hpos hx0, (div_lt_one hx0).2 hx⟩
  constructor
  · unfold Trainer.clip_gradients
    by_cases hen : tr.clipping_enabled = true
    · cases hty : tr.clipping_type with
      | simple_clipping => simp [hen]
      | norm_clipping =>
        by_cases hgg : m.gradient_l2_norm sqrt > tr.clip_threshold * samples
        · obtain ⟨h0, h1, h2⟩ := hq _ hgg
          simp only [hen, hgg, if_true, reduceCtorEq, if_false]
          exact ⟨h1, h2.le, ⟨fun _ => ⟨trivial, trivial, trivial⟩, fun _ => h2⟩,
            Or.inr ⟨h0, trivial⟩⟩
        · simp [hen, hgg]
    · simp [hen]
  · unfold Trainer.clip_gradients_pre
    by_cases hen : tr.clipping_enabled = true
    · by_cases hgg : gg > tr.clip_threshold * samples
      · obtain ⟨h0, h1, h2⟩ := hq _ hgg
        simp only [hen, hgg, if_true]
        exact ⟨h1, h2.le, ⟨fun _ => ⟨trivial, trivial⟩, fun _ => h2⟩, Or.inr ⟨h0, trivial⟩⟩
      · simp [hen, hgg]
    · simp [hen]

end ClipRange

/-- C24, witness: `clip_threshold = 1`, `samples = 1`, norm clipping enabled. On the input
model (global norm `sqrt 29 > 1`) the factor of `clip_gradients(samples)` is below 1, and
for the norm `gg = 4` the factor of `clip_gradients(samples, gg)` is `1/4`. -/
theorem Trainer.clip_gradients_factor_range_witness :
    (Trainer.clip_gradients Real.sqrt (input_trainer ℝ true ClippingType.norm_clipping)
      (input_model ℝ) 1).1 < 1 ∧
    (Trainer.clip_gradients_pre (input_trainer ℝ true ClippingType.norm_clipping) 1 4).1
      = 1 * 1 / 4 := by
  have h := Trainer.clip_gradients_factor_range Real.sqrt
    (input_trainer ℝ true ClippingType.norm_clipping) (input_model ℝ) 1 4
    (by simp [input_trainer])
  refine ⟨h.1.2.2.1.2 ⟨rfl, rfl, ?_⟩, ?_⟩
  · have := input_model_norm_gt
    simpa [input_trainer] using this
  · rcases h.2.2.2.2 with h1 | h1
    · have hlt := h.2.2.2.1.2 ⟨rfl, by simp [input_trainer]⟩
      rw [h1] at hlt
      exact absurd hlt (lt_irrefl 1)
    · simpa [input_trainer] using h1.2

/-- C24, counterexample: clipping enabled in the simple mode, `clip_threshold = 1`,
`samples = 1` and the pre-computed norm `gg = 2`: `clip_gradients(samples, gg)` returns
`1/2 < 1` although the clipping is not in norm mode. -/
theorem Trainer.clip_gradients_pre_ignores_clipping_type :
    (input_trainer ℝ true ClippingType.simple_clipping).clip_threshold * 1 > 0 ∧
    (2 : ℝ) ≥ 0 ∧
    (Trainer.clip_gradients_pre (input_trainer ℝ true ClippingType.simple_clipping) 1 2).1
      = 1 / 2 ∧
    (Trainer.clip_gradients_pre (input_trainer ℝ true ClippingType.simple_clipping) 1 2).1
      < 1 ∧
    ¬ ((input_trainer ℝ true ClippingType.simple_clipping).clipping_enabled = true ∧
      (input_trainer ℝ true ClippingType.simple_clipping).clipping_type
        = ClippingType.norm_clipping ∧
      (2 : ℝ) > (input_trainer ℝ true ClippingType.simple_clipping).clip_threshold * 1) := by
  refine ⟨by simp [input_trainer], by norm_num, ?_, ?_, ?_⟩
  · simp [Trainer.clip_gradients_pre, input_trainer]
  · simp [Trainer.clip_gradients_pre, input_trainer]
    norm_num
  · simp [input_trainer]

/-! ## The list builders append one node -/

/-- What `detail::f<F>` does on a non-empty sequence of expressions of the graph at `pg`:
it returns when the operator accepts the shapes, and when it returns it has appended
one node to that graph alone. -/
theorem detail.f_spec (dim_forward : NodeType → List (List Nat) → Option (List Nat))
    (F : NodeType) (xs : List Expression) (heap : Nat → ComputationGraph) (pg n : Nat)
    (hne : xs ≠ []) (hxs : ∀ x ∈ xs, x.pg = pg ∧ x.i < n)
    (hn : (heap pg).nodes.length = n) :
    (dim_forward F ((xs.map (fun xi => xi.i)).map
        (fun i => ((heap pg).nodes.getD i default).dim)) ≠ none →
      ∃ r, detail.f dim_forward F xs heap = Except.ok r) ∧
    ∀ (e : Expression) (heap' : Nat → ComputationGraph),
      detail.f dim_forward F xs heap = Except.ok (e, heap') →
      e.pg = pg ∧ e.i = n ∧
      (∃ d, (heap' pg).nodes = (heap pg).nodes ++ [⟨F, xs.map (fun xi => xi.i), d⟩]) ∧
      (heap' pg).nodes.length = n + 1 ∧
      (∀ q, q ≠ pg → heap' q = heap q) ∧
      ∀ j ∈ xs.map (fun xi => xi.i), j < e.i := by
  cases xs with
  | nil => exact absurd rfl hne
  | cons x rest =>
    have hx : x.pg = pg := (hxs x (List.mem_cons_self x rest)).1
    simp only [detail.f, ComputationGraph.add_function, hx]
    cases hd : dim_forward F (((x :: rest).map (fun xi => xi.i)).map
        (fun i => ((heap pg).nodes.getD i default).dim)) with
    | none =>
      refine ⟨fun h => absurd rfl h, ?_⟩
      intro e heap' h
      simp at h
    | some d =>
      refine ⟨fun _ => ⟨_, rfl⟩, ?_⟩
      intro e heap' h
      simp only [Except.ok.injEq, Prod.mk.injEq] at h
      obtain ⟨he, hh⟩ := h
      subst he
      subst hh
      refine ⟨rfl, hn, ⟨d, by simp⟩, by simp [hn], ?_, ?_⟩
      · intro q hq
        simp [Function.update, hq]
      · intro j hj
        obtain ⟨y, hy, rfl⟩ := List.mem_map.1 hj
        simpa [hn] using (hxs y hy).2

/-- C22: for every non-empty sequence `xs` of expressions that all refer to nodes of the
graph at `pg`, which has `n` nodes, each of the list builders `logsumexp`, `sum`, `max`,
`average`, `concatenate_cols`, `concatenate` and `affine_transform` returns whenever its
operator accepts the shapes of the inputs, and when it returns it has appended exactly
one node to that graph and changed no other graph; the node is of the builder's operator,
its inputs are the indices of `xs` in the given order, duplicates kept; the expression
returned is on that graph at the index `n` of the new node, so every input index of the
new node is strictly smaller than the node's own index. -/
theorem detail.f_appends_one_node
    (dim_forward : NodeType → List (List Nat) → Option (List Nat))
    (xs : List Expression) (heap : Nat → ComputationGraph) (pg n : Nat)
    (hne : xs ≠ []) (hxs : ∀ x ∈ xs, x.pg = pg ∧ x.i < n)
    (hn : (heap pg).nodes.length = n) :
    ∀ b ∈ [(NodeType.LogSumExp, logsumexp dim_forward), (NodeType.Sum, sum dim_forward),
        (NodeType.Max, max dim_forward), (NodeType.Average, average dim_forward),
        (NodeType.ConcatenateColumns, concatenate_cols dim_forward),
        (NodeType.Concatenate, concatenate dim_forward),
        (NodeType.AffineTransform, affine_transform dim_forward)],
      (dim_forward b.1 ((xs.map (fun xi => xi.i)).map
          (fun i => ((heap pg).nodes.getD i default).dim)) ≠ none →
        ∃ r, b.2 xs heap = Except.ok r) ∧
      ∀ (e : Expression) (heap' : Nat → ComputationGraph),
        b.2 xs heap = Except.ok (e, heap') →
        e.pg = pg ∧ e.i = n ∧
        (∃ d, (heap' pg).nodes = (heap pg).nodes ++ [⟨b.1, xs.map (fun xi => xi.i), d⟩]) ∧
        (heap' pg).nodes.length = n + 1 ∧
        (∀ q, q ≠ pg → heap' q = heap q) ∧
        ∀ j ∈ xs.map (fun xi => xi.i), j < e.i := by
  intro b hb
  simp only [List.mem_cons, List.mem_singleton, List.not_mem_nil, or_false] at hb
  rcases hb with rfl | rfl | rfl | rfl | rfl | rfl | rfl <;>
  exact detail.f_spec dim_forward _ xs heap pg n hne hxs hn

/-- C22, witness: on a graph of three nodes at address 7, `sum` of the expressions of the
nodes 2, 0, 2 (an operator that accepts every input) returns the expression of node 3 and
the new node has the inputs 2, 0, 2. -/
theorem detail.f_appends_one_node_witness :
    ∃ (e : Expression) (heap' : Nat → ComputationGraph),
      sum (fun _ _ => some [1]) [⟨7, 2⟩, ⟨7, 0⟩, ⟨7, 2⟩]
        (fun _ => ⟨[⟨NodeType.Sum, [], [1]⟩, ⟨NodeType.Sum, [], [1]⟩, ⟨NodeType.Max, [0, 1], [1]⟩]⟩)
        = Except.ok (e, heap') ∧
      e = ⟨7, 3⟩ ∧ (heap' 7).nodes.length = 4 ∧ ∀ j ∈ [2, 0, 2], j < e.i := by
  have h := detail.f_appends_one_node (fun _ _ => some [1]) [⟨7, 2⟩, ⟨7, 0⟩, ⟨7, 2⟩]
    (fun _ => ⟨[⟨NodeType.Sum, [], [1]⟩, ⟨NodeType.Sum, [], [1]⟩, ⟨NodeType.Max, [0, 1], [1]⟩]⟩)
    7 3 (by simp) (by simp) rfl
    (NodeType.Sum, sum (fun _ _ => some [1])) (by simp)
  obtain ⟨⟨e, heap'⟩, hr⟩ := h.1 (by simp)
  obtain ⟨h1, h2, _, h4, _, h6⟩ := h.2 e heap' hr
  refine ⟨e, heap', hr, ?_, h4, by simpa using h6⟩
  cases e
  simp only at h1 h2
  simp [h1, h2]

/-! ## Momentum zero -/

section MomentumZeroLemmas
variable {α : Type} [LinearOrderedField α]

/-- With `momentum = 0` and a velocity of the shape of the gradient, the momentum
assignments move the value as the SGD assignment does. -/
theorem tadd_tsub_zero_momentum (c c1 lam : α) (hc : c = c1) : ∀ (θ v G : Tensor α),
    v.length = G.length →
    tadd θ (tsub (tsub (smul 0 v) (smul c G)) (smul lam θ))
      = tsub θ (tadd (smul c1 G) (smul lam θ)) := by
  subst hc
  intro θ
  induction θ with
  | nil => intro v G _; simp [tsub, tadd, smul]
  | cons x xs ih =>
    intro v G hl
    cases G with
    | nil =>
      cases v with
      | nil => simp [tsub, tadd, smul]
      | cons w ws => simp at hl
    | cons y ys =>
      cases v with
      | nil => simp at hl
      | cons w ws =>
        have := ih ws ys (by simpa using hl)
        simp only [tsub, tadd, smul, List.map_cons, List.zipWith_cons_cons] at this ⊢
        rw [this]
        congr 1
        ring

/-- The velocity that a step with a velocity of the shape of the gradient stores has
that shape again. -/
theorem length_velocity (mu c : α) (v G : Tensor α) (hl : v.length = G.length) :
    (tsub (smul mu v) (smul c G)).length = G.length := by
  simp [tsub, smul, hl]

/-- The clipping pre-step keeps the shape of a gradient. -/
theorem Trainer.clipped_length (tr : Trainer α) (samples : α) (g : Tensor α) :
    (tr.clipped samples g).length = g.length := by
  unfold Trainer.clipped
  split <;> simp [g_simple_clipping]

/-- The dense parameters that `SimpleSGDTrainer::update` leaves. -/
theorem SimpleSGDTrainer.update_params (sqrt : α → α) (tr : Trainer α) (m : Model α)
    (samples scale : α) (pi : Nat) (p : Parameters α) (hp : m.params[pi]? = some p) :
    (SimpleSGDTrainer.update sqrt tr m samples scale).2.params[pi]?
      = some (SimpleSGDTrainer.dense_body tr.eta tr.lambda scale
          (tr.clip_gradients sqrt m samples).1 (1 / samples)
          { p with g := tr.clipped samples p.g }) := by
  simp [SimpleSGDTrainer.update, Trainer.clip_gradients_model, hp]

/-- The tables that `SimpleSGDTrainer::update` leaves. -/
theorem SimpleSGDTrainer.update_lookup_params (sqrt : α → α) (tr : Trainer α) (m : Model α)
    (samples scale : α) (li : Nat) (p : LookupParameters α)
    (hp : m.lookup_params[li]? = some p) :
    (SimpleSGDTrainer.update sqrt tr m samples scale).2.lookup_params[li]?
      = some (SimpleSGDTrainer.lookup_body tr.eta tr.lambda scale
          (tr.clip_gradients sqrt m samples).1 (1 / samples)
          { p with grads := p.grads.map (fun g => (g.1, tr.clipped samples g.2)) }) := by
  simp [SimpleSGDTrainer.update, Trainer.clip_gradients_model, hp]

end MomentumZeroLemmas
section MomentumZeroClaim
variable {α : Type} [LinearOrderedField α]

/-- C28: with `momentum = 0`, `MomentumSGDTrainer::update` leaves every dense parameter
and every touched lookup row exactly as `SimpleSGDTrainer::update` does from the same
model, `eta`, `lambda`, `scale`, batch size and clipping settings, and counts clips and
updates alike. This holds for every state of the velocity that has the shape of the
gradients, not only the zero velocity of the first update: the velocity that the update
stores has that shape again, and so has the velocity that the lazy allocation gives for
gradients of the shape of their values. The `grads` maps have distinct keys. -/
theorem MomentumSGDTrainer.update_without_momentum_is_sgd (sqrt : α → α)
    (tr : MomentumSGDTrainer α) (m : Model α) (nutt scale : α) (h0 : tr.momentum = 0) :
    (∀ (pi : Nat) (p : Parameters α) (v : ShadowParameters α),
      m.params[pi]? = some p → (tr.allocate m).vp[pi]? = some v →
      v.h.length = p.g.length →
      (MomentumSGDTrainer.update sqrt tr m nutt scale).2.params[pi]?
        = (SimpleSGDTrainer.update sqrt tr.toTrainer m nutt scale).2.params[pi]? ∧
      ((MomentumSGDTrainer.update sqrt tr m nutt scale).1.vp[pi]?).map
        (fun w => w.h.length) = some p.g.length) ∧
    (∀ (li : Nat) (p : LookupParameters α) (vx : ShadowLookupParameters α),
      m.lookup_params[li]? = some p → (tr.allocate m).vlp[li]? = some vx →
      p.touched.Nodup →
      ∀ (i : Nat) (G θ v : Tensor α), (i, G) ∈ p.grads → p.values[i]? = some θ →
        vx.h[i]? = some v → v.length = G.length →
      ((MomentumSGDTrainer.update sqrt tr m nutt scale).2.lookup_params[li]?).bind
          (fun q : LookupParameters α => q.values[i]?)
        = ((SimpleSGDTrainer.update sqrt tr.toTrainer m nutt scale).2.lookup_params[li]?).bind
          (fun q : LookupParameters α => q.values[i]?) ∧
      (((MomentumSGDTrainer.update sqrt tr m nutt scale).1.vlp[li]?).bind
          (fun q : ShadowLookupParameters α => q.h[i]?)).map List.length = some G.length) ∧
    (MomentumSGDTrainer.update sqrt tr m nutt scale).1.toTrainer
      = (SimpleSGDTrainer.update sqrt tr.toTrainer m nutt scale).1 ∧
    (tr.velocity_allocated = false →
      (∀ (pi : Nat) (p : Parameters α), m.params[pi]? = some p →
        ∃ v : ShadowParameters α, (tr.allocate m).vp[pi]? = some v ∧
          v.h.length = p.values.length) ∧
      (∀ (li : Nat) (p : LookupParameters α), m.lookup_params[li]? = some p →
        ∃ vx : ShadowLookupParameters α, (tr.allocate m).vlp[li]? = some vx ∧
          ∀ (i : Nat) (θ : Tensor α), p.values[i]? = some θ →
            ∃ v : Tensor α, vx.h[i]? = some v ∧ v.length = θ.length)) := by
  obtain ⟨hb1, hb2⟩ := MomentumSGDTrainer.momentum_allocate_base tr m
  have hcoef : tr.eta * scale * (tr.toTrainer.clip_gradients sqrt m nutt).1 * (1 / nutt)
      = 1 / nutt * (tr.eta * scale * (tr.toTrainer.clip_gradients sqrt m nutt).1) := by
    ring
  refine ⟨?_, ?_, ?_, ?_⟩
  · intro pi p v hp hv hlen
    have hp' : (tr.toTrainer.clip_gradients sqrt m nutt).2.2.params[pi]?
        = some { p with g := tr.clipped nutt p.g } := by
      simp [Trainer.clip_gradients_model, hp]
    have h := (forEachIdx_slot
      (fun (p : Parameters α) (v : ShadowParameters α) =>
        ({ p with values := tadd p.values (tsub (tsub (smul tr.momentum v.h)
          (smul (tr.eta * scale * (tr.toTrainer.clip_gradients sqrt m nutt).1 * (1 / nutt)) p.g))
          (smul tr.lambda p.values)) }).clear)
      (fun (p : Parameters α) (v : ShadowParameters α) =>
        (⟨tsub (smul tr.momentum v.h)
          (smul (tr.eta * scale * (tr.toTrainer.clip_gradients sqrt m nutt).1 * (1 / nutt)) p.g)⟩ :
          ShadowParameters α))
      default
      (MomentumSGDTrainer.dense_body tr.eta tr.lambda tr.momentum scale
        (tr.toTrainer.clip_gradients sqrt m nutt).1 (1 / nutt))
      (by intro k x s; rfl)
      (tr.toTrainer.clip_gradients sqrt m nutt).2.2.params (tr.allocate m).vp).1
      pi _ v hp' hv
    have hlen' : v.h.length = (tr.clipped nutt p.g).length := by
      rw [Trainer.clipped_length]; exact hlen
    rw [SimpleSGDTrainer.update_params sqrt tr.toTrainer m nutt scale pi p hp]
    simp only [MomentumSGDTrainer.update, hb1, hb2]
    rw [h.1, h.2]
    refine ⟨?_, ?_⟩
    · simp only [SimpleSGDTrainer.dense_body, h0]
      rw [tadd_tsub_zero_momentum _ _ _ hcoef _ _ _ hlen']
    · simp only [Option.map_some', h0]
      rw [length_velocity _ _ _ _ hlen', Trainer.clipped_length]
  · intro li p vx hp hvx hnd i G θ v hG hθ hv hlen
    obtain ⟨hq1, hq2, hq3, hq4⟩ := clipped_table tr.toTrainer nutt p hnd i G hG
    have hp' : (tr.toTrainer.clip_gradients sqrt m nutt).2.2.lookup_params[li]?
        = some { p with grads := p.grads.map (fun g => (g.1, tr.clipped nutt g.2)) } := by
      simp [Trainer.clip_gradients_model, hp]
    have h := (forEachIdx_slot
      (fun (p : LookupParameters α) (vx : ShadowLookupParameters α) =>
        ({ p with values := (p.grads.foldl
          (fun s (g : Nat × Tensor α) =>
            MomentumSGDTrainer.row_body tr.eta tr.lambda tr.momentum scale
              (tr.toTrainer.clip_gradients sqrt m nutt).1 (1 / nutt) p s g.1)
          (p.values, vx.h)).1 }).clear)
      (fun (p : LookupParameters α) (vx : ShadowLookupParameters α) =>
        (⟨(p.grads.foldl
          (fun s (g : Nat × Tensor α) =>
            MomentumSGDTrainer.row_body tr.eta tr.lambda tr.momentum scale
              (tr.toTrainer.clip_gradients sqrt m nutt).1 (1 / nutt) p s g.1)
          (p.values, vx.h)).2⟩ : ShadowLookupParameters α))
      default
      (MomentumSGDTrainer.lookup_body tr.eta tr.lambda tr.momentum scale
        (tr.toTrainer.clip_gradients sqrt m nutt).1 (1 / nutt))
      (by intro k x s; rfl)
      (tr.toTrainer.clip_gradients sqrt m nutt).2.2.lookup_params (tr.allocate m).vlp).1
      li _ vx hp' hvx
    have hr := MomentumSGDTrainer.momentum_rows_after tr.eta tr.lambda tr.momentum scale
      (tr.toTrainer.clip_gradients sqrt m nutt).1 (1 / nutt) _ hq1 vx.h i θ v hq2 hθ hv
    have hs := SimpleSGDTrainer.sgd_rows_after tr.eta tr.lambda scale
      (tr.toTrainer.clip_gradients sqrt m nutt).1 (1 / nutt) _ hq1 i
    have hlen' : v.length = (tr.clipped nutt G).length := by
      rw [Trainer.clipped_length]; exact hlen
    rw [SimpleSGDTrainer.update_lookup_params sqrt tr.toTrainer m nutt scale li p hp]
    simp only [MomentumSGDTrainer.update, hb1, hb2]
    rw [h.1, h.2]
    refine ⟨?_, ?_⟩
    · simp only [Option.some_bind, LookupParameters.clear, SimpleSGDTrainer.lookup_body]
      rw [hr.1, hs, if_pos hq2, hq3, hθ, hq4, h0]
      simp only [Option.map_some']
      rw [tadd_tsub_zero_momentum _ _ _ rfl _ _ _ hlen']
    · simp only [Option.some_bind]
      rw [hr.2, hq4, h0]
      simp only [Option.map_some']
      rw [length_velocity _ _ _ _ hlen', Trainer.clipped_length]
  · simp only [MomentumSGDTrainer.update, SimpleSGDTrainer.update, hb1]
  · intro hf
    have hvp : (tr.allocate m).vp = AllocateShadowParameters m := by
      simp [MomentumSGDTrainer.allocate, hf]
    have hvlp : (tr.allocate m).vlp = AllocateShadowLookupParameters m := by
      simp [MomentumSGDTrainer.allocate, hf]
    refine ⟨?_, ?_⟩
    · intro pi p hp
      refine ⟨⟨p.values.map (fun _ => 0)⟩, ?_, by simp⟩
      rw [hvp]
      simp [AllocateShadowParameters, hp]
    · intro li p hp
      refine ⟨⟨p.values.map (fun r => r.map (fun _ => 0))⟩, ?_, ?_⟩
      · rw [hvlp]
        simp [AllocateShadowLookupParameters, hp]
      · intro i θ hθ
        exact ⟨θ.map (fun _ => 0), by simp [hθ], by simp⟩

end MomentumZeroClaim
/-- C28, witness: `momentum = 0` and an allocated velocity `(1, 1)`, `(1)` that is not
zero: the update of the input model leaves the dense parameter and row 1 of the table as
the SGD update does. -/
theorem MomentumSGDTrainer.update_without_momentum_is_sgd_witness :
    (MomentumSGDTrainer.update Real.sqrt (input_momentum_trainer_zero ℝ) (input_model ℝ)
        2 1).2.params[0]?
      = (SimpleSGDTrainer.update Real.sqrt (input_momentum_trainer_zero ℝ).toTrainer
          (input_model ℝ) 2 1).2.params[0]? ∧
    ((MomentumSGDTrainer.update Real.sqrt (input_momentum_trainer_zero ℝ) (input_model ℝ)
        2 1).2.lookup_params[0]?).bind (fun q : LookupParameters ℝ => q.values[1]?)
      = ((SimpleSGDTrainer.update Real.sqrt (input_momentum_trainer_zero ℝ).toTrainer
          (input_model ℝ) 2 1).2.lookup_params[0]?).bind
          (fun q : LookupParameters ℝ => q.values[1]?) := by
  have h := MomentumSGDTrainer.update_without_momentum_is_sgd Real.sqrt
    (input_momentum_trainer_zero ℝ) (input_model ℝ) 2 1 rfl
  exact ⟨(h.1 0 ⟨[2], [0, 0], [3, 4]⟩ ⟨[1, 1]⟩ rfl rfl rfl).1,
    (h.2.1 0 ⟨[1], [[5], [6], [7]], [(1, [2])]⟩ ⟨[[0], [1], [0]]⟩ rfl rfl
      (by simp [LookupParameters.touched]) 1 [2] [6] [1] (by simp) rfl rfl rfl).1⟩

/-! ## The two RMSProp-with-momentum trainers on the host path -/

section RmsMomGPU
variable {α : Type} [LinearOrderedField α]

/-- The index loop `for (kk = 0; kk < n; kk++) gg += a[kk]` over a whole array is the
range-for loop over it. -/
theorem foldl_range_getD (l : List α) (a : α) :
    (List.range l.length).foldl (fun gg kk => gg + l.getD kk 0) a
      = l.foldl (fun gg p => gg + p) a := by
  have h : (List.range l.length).map (fun i => l.getD i 0) = l := by
    simpa using range_map_getD_left l []
  conv_rhs => rw [← h]
  rw [List.foldl_map]

/-- The dense loop bodies of the two trainers are the same function. -/
theorem RmsPropWithMomentumTrainerGPU.dense_body_eq (sqrt : α → α)
    (eta lambda epsilon rho momentum scale gscale : α) (norms : List α) :
    RmsPropWithMomentumTrainerGPU.dense_body sqrt eta lambda epsilon rho momentum scale gscale
        norms
      = RmsPropWithMomentumTrainer.dense_body sqrt eta lambda epsilon rho momentum scale
          gscale norms := by
  funext pi p s
  rfl

/-- The lookup loop bodies of the two trainers are the same function. -/
theorem RmsPropWithMomentumTrainerGPU.lookup_body_eq (sqrt : α → α)
    (eta lambda epsilon rho momentum scale gscale : α) (norms : List α) :
    RmsPropWithMomentumTrainerGPU.lookup_body sqrt eta lambda epsilon rho momentum scale
        gscale norms
      = RmsPropWithMomentumTrainer.lookup_body sqrt eta lambda epsilon rho momentum scale
          gscale norms := by
  funext pi p s
  rfl

/-- The clip step of the GPU trainer on the norms that `compute_gradient_norm` of the
plain trainer returned. -/
theorem RmsPropWithMomentumTrainerGPU.clip_eq (sqrt : α → α) (a : Bool) (GPU : Nat)
    (tr : RmsPropWithMomentumTrainerGPU α) (m : Model α) (nutt : α) (vp vl : List α)
    (hcg : RmsPropTrainer.compute_gradient_norm a GPU m.params m.lookup_params
      = Outcome.returned (vp, vl)) :
    RmsPropWithMomentumTrainerGPU.clip sqrt tr m nutt
      = ((tr.toTrainer.clip_gradients_pre nutt
            (sqrt (vl.foldl (fun gg p => gg + p) (vp.foldl (fun gg p => gg + p) 0)))).1,
         (tr.toTrainer.clip_gradients_pre nutt
            (sqrt (vl.foldl (fun gg p => gg + p) (vp.foldl (fun gg p => gg + p) 0)))).2,
         vp, vl) := by
  obtain ⟨h1, h2⟩ := RmsPropTrainer.compute_gradient_norm_eq a GPU m.params m.lookup_params
    vp vl hcg
  have hl1 : m.params.length = vp.length := by rw [h1]; simp
  have hl2 : (m.lookup_params.map (fun p => p.grads.length)).sum = vl.length := by
    rw [h2, List.length_flatten, List.map_map]
    congr 1
    apply List.map_congr_left
    intro p _
    simp
  have hn : RmsPropWithMomentumTrainerGPU.compute_gradient_norm m.params m.lookup_params
      = (vp, vl) := by
    rw [h1, h2]
    rfl
  simp only [RmsPropWithMomentumTrainerGPU.clip, hn, hl1, hl2, foldl_range_getD]

end RmsMomGPU
section RmsMomGPUClaim
variable {α : Type} [LinearOrderedField α]

/-- C25: on the host path, started from the same model, the same base members and
hyper-parameters and the same shadow state (allocated or not; the lazy allocation of both
gives zero `d2` and zero velocities), `RmsPropWithMomentumTrainerGPU::update` computes the
clip factor that `RmsPropWithMomentumTrainer::update` computes and leaves the same model
(values of every dense parameter and of every lookup row, cleared gradients), the same
`d2` slots `hg`, `hlg`, the same velocities `vp`, `vlp` and the same base members as every
call of `RmsPropWithMomentumTrainer::update` that returns; that call returns with a
scratch buffer and a gradient count within `GPU_ALLOC_HOST_MEM_SIZE`. Equal states go to
equal states, so this holds after every update. -/
theorem RmsPropWithMomentumTrainerGPU.update_host_equivalent (sqrt : α → α)
    (GPU_ALLOC_HOST_MEM_SIZE : Nat) (base : Trainer α) (epsilon rho momentum : α)
    (shadow_params_allocated : Bool) (hg : List α) (hlg : List (List α))
    (vp : List (ShadowParameters α)) (vlp : List (ShadowLookupParameters α))
    (m : Model α) (nutt scale : α) :
    (m.params.length + (m.lookup_params.map (fun p => p.grads.length)).sum
        ≤ GPU_ALLOC_HOST_MEM_SIZE →
      ∃ r, RmsPropWithMomentumTrainer.update sqrt true GPU_ALLOC_HOST_MEM_SIZE
        (RmsPropWithMomentumTrainer.mk base epsilon rho momentum shadow_params_allocated
          hg hlg vp vlp) m nutt scale = Outcome.returned r) ∧
    ∀ (v_norm_allocated : Bool) (r : RmsPropWithMomentumTrainer α × Model α),
      RmsPropWithMomentumTrainer.update sqrt v_norm_allocated GPU_ALLOC_HOST_MEM_SIZE
        (RmsPropWithMomentumTrainer.mk base epsilon rho momentum shadow_params_allocated
          hg hlg vp vlp) m nutt scale = Outcome.returned r →
      (∃ vpgrd_norm vlgrd_norm : List α,
        RmsPropTrainer.compute_gradient_norm v_norm_allocated GPU_ALLOC_HOST_MEM_SIZE
          m.params m.lookup_params = Outcome.returned (vpgrd_norm, vlgrd_norm) ∧
        (RmsPropWithMomentumTrainerGPU.clip sqrt
          ((RmsPropWithMomentumTrainerGPU.mk base epsilon rho momentum
            shadow_params_allocated hg hlg vp vlp).allocate m) m nutt).1
          = (base.clip_gradients_pre nutt
              (sqrt (vlgrd_norm.foldl (fun gg p => gg + p)
                (vpgrd_norm.foldl (fun gg p => gg + p) 0)))).1) ∧
      (RmsPropWithMomentumTrainerGPU.update sqrt
        (RmsPropWithMomentumTrainerGPU.mk base epsilon rho momentum shadow_params_allocated
          hg hlg vp vlp) m nutt scale).2 = r.2 ∧
      (RmsPropWithMomentumTrainerGPU.update sqrt
        (RmsPropWithMomentumTrainerGPU.mk base epsilon rho momentum shadow_params_allocated
          hg hlg vp vlp) m nutt scale).1.hg = r.1.hg ∧
      (RmsPropWithMomentumTrainerGPU.update sqrt
        (RmsPropWithMomentumTrainerGPU.mk base epsilon rho momentum shadow_params_allocated
          hg hlg vp vlp) m nutt scale).1.hlg = r.1.hlg ∧
      (RmsPropWithMomentumTrainerGPU.update sqrt
        (RmsPropWithMomentumTrainerGPU.mk base epsilon rho momentum shadow_params_allocated
          hg hlg vp vlp) m nutt scale).1.vp = r.1.vp ∧
      (RmsPropWithMomentumTrainerGPU.update sqrt
        (RmsPropWithMomentumTrainerGPU.mk base epsilon rho momentum shadow_params_allocated
          hg hlg vp vlp) m nutt scale).1.vlp = r.1.vlp ∧
      (RmsPropWithMomentumTrainerGPU.update sqrt
        (RmsPropWithMomentumTrainerGPU.mk base epsilon rho momentum shadow_params_allocated
          hg hlg vp vlp) m nutt scale).1.toTrainer = r.1.toTrainer ∧
      (RmsPropWithMomentumTrainerGPU.update sqrt
        (RmsPropWithMomentumTrainerGPU.mk base epsilon rho momentum shadow_params_allocated
          hg hlg vp vlp) m nutt scale).1.shadow_params_allocated
        = r.1.shadow_params_allocated := by
  refine ⟨RmsPropWithMomentumTrainer.rmsmom_update_returns sqrt GPU_ALLOC_HOST_MEM_SIZE _ m
    nutt scale, ?_⟩
  intro a r hr
  obtain ⟨vpn, vln, hcg, rfl⟩ := RmsPropWithMomentumTrainer.rmsmom_update_returned sqrt a
    GPU_ALLOC_HOST_MEM_SIZE _ m nutt scale r hr
  have hclip : ∀ trg : RmsPropWithMomentumTrainerGPU α,
      RmsPropWithMomentumTrainerGPU.clip sqrt trg m nutt
        = ((trg.toTrainer.clip_gradients_pre nutt
              (sqrt (vln.foldl (fun gg p => gg + p) (vpn.foldl (fun gg p => gg + p) 0)))).1,
           (trg.toTrainer.clip_gradients_pre nutt
              (sqrt (vln.foldl (fun gg p => gg + p) (vpn.foldl (fun gg p => gg + p) 0)))).2,
           vpn, vln) :=
    fun trg => RmsPropWithMomentumTrainerGPU.clip_eq sqrt a GPU_ALLOC_HOST_MEM_SIZE trg m nutt
      vpn vln hcg
  cases shadow_params_allocated <;>
  · refine ⟨⟨vpn, vln, hcg, ?_⟩, ?_, ?_, ?_, ?_, ?_, ?_, ?_⟩ <;>
    simp only [RmsPropWithMomentumTrainerGPU.update, RmsPropWithMomentumTrainer.update_from,
      RmsPropWithMomentumTrainerGPU.allocate, RmsPropWithMomentumTrainer.allocate, hclip,
      RmsPropWithMomentumTrainerGPU.dense_body_eq,
      RmsPropWithMomentumTrainerGPU.lookup_body_eq, Bool.not_false, Bool.not_true,
      if_true, Bool.false_eq_true, if_false]

end RmsMomGPUClaim
/-- C25, witness: from the state of `input_rmsmom_trainer` on the input model, the update of
the plain trainer returns, and the update of the GPU trainer leaves the same model, the
same `d2` slots and the same velocities. -/
theorem RmsPropWithMomentumTrainerGPU.update_host_equivalent_witness :
    ∃ r : RmsPropWithMomentumTrainer ℝ × Model ℝ,
      RmsPropWithMomentumTrainer.update Real.sqrt true 1024 (input_rmsmom_trainer ℝ)
        (input_model ℝ) 2 1 = Outcome.returned r ∧
      (RmsPropWithMomentumTrainerGPU.update Real.sqrt (input_rmsmom_trainer_gpu ℝ)
        (input_model ℝ) 2 1).2 = r.2 ∧
      (RmsPropWithMomentumTrainerGPU.update Real.sqrt (input_rmsmom_trainer_gpu ℝ)
        (input_model ℝ) 2 1).1.hg = r.1.hg ∧
      (RmsPropWithMomentumTrainerGPU.update Real.sqrt (input_rmsmom_trainer_gpu ℝ)
        (input_model ℝ) 2 1).1.hlg = r.1.hlg ∧
      (RmsPropWithMomentumTrainerGPU.update Real.sqrt (input_rmsmom_trainer_gpu ℝ)
        (input_model ℝ) 2 1).1.vp = r.1.vp ∧
      (RmsPropWithMomentumTrainerGPU.update Real.sqrt (input_rmsmom_trainer_gpu ℝ)
        (input_model ℝ) 2 1).1.vlp = r.1.vlp := by
  have h := RmsPropWithMomentumTrainerGPU.update_host_equivalent Real.sqrt 1024
    (input_trainer ℝ false ClippingType.norm_clipping) 0 (9 / 25) (1 / 2) true [0]
    [[0, 0, 0]] [⟨[1, 1]⟩] [⟨[[0], [1], [0]]⟩] (input_model ℝ) 2 1
  obtain ⟨r, hr⟩ := h.1 (by simp [input_model])
  obtain ⟨_, h2, h3, h4, h5, h6, _, _⟩ := h.2 true r hr
  exact ⟨r, hr, h2, h3, h4, h5, h6⟩

/-! ## Bounds on the RMSProp step -/

section StepBound
variable {α : Type} [LinearOrderedField α]

/-- The squared norm of the change `θ' - θ` that the assignment `θ -= c·G + 0·θ` makes is
at most `c^2 |G|^2`. -/
theorem squaredNorm_step_le (c : α) : ∀ (θ G : Tensor α),
    squaredNorm (tsub (tsub (tsub θ (smul c G)) (smul 0 θ)) θ) ≤ c ^ 2 * squaredNorm G := by
  intro θ
  induction θ with
  | nil =>
    intro G
    have := squaredNorm_nonneg G
    have hc : 0 ≤ c ^ 2 := sq_nonneg c
    simp only [tsub, smul, List.zipWith_nil_left, squaredNorm, List.map_nil, List.sum_nil]
    exact mul_nonneg hc this
  | cons x xs ih =>
    intro G
    cases G with
    | nil => simp [tsub, smul, squaredNorm]
    | cons y ys =>
      have h := ih ys
      simp only [tsub, smul, squaredNorm, List.map_cons, List.zipWith_cons_cons,
        List.sum_cons] at h ⊢
      nlinarith [h]

end StepBound

/-- The numbers of one RMSProp step: the new `d2` is not negative, the denominator is
positive, and the norm of the change is bounded by `|k| / sqrt (1 - rho)`. -/
theorem rmsprop_step_bound (k rho d2 eps : ℝ) (θ G : Tensor ℝ) (h0 : 0 ≤ rho) (h1 : rho < 1)
    (heps : 0 < eps) (hd : 0 ≤ d2) :
    0 ≤ rho * d2 + (1 - rho) * squaredNorm G ∧
    0 < Real.sqrt (rho * d2 + (1 - rho) * squaredNorm G + eps) ∧
    Real.sqrt (squaredNorm (tsub (tsub (tsub θ
        (smul (k / Real.sqrt (rho * d2 + (1 - rho) * squaredNorm G + eps)) G))
        (smul 0 θ)) θ)) ≤ |k| / Real.sqrt (1 - rho) := by
  have hG := squaredNorm_nonneg G
  have hr : 0 < 1 - rho := by linarith
  have hd2 : 0 ≤ rho * d2 + (1 - rho) * squaredNorm G :=
    add_nonneg (mul_nonneg h0 hd) (mul_nonneg hr.le hG)
  have hden : 0 < rho * d2 + (1 - rho) * squaredNorm G + eps := by linarith
  have hs : 0 < Real.sqrt (rho * d2 + (1 - rho) * squaredNorm G + eps) := Real.sqrt_pos.2 hden
  refine ⟨hd2, hs, ?_⟩
  have hle := squaredNorm_step_le
    (k / Real.sqrt (rho * d2 + (1 - rho) * squaredNorm G + eps)) θ G
  have hsq : (k / Real.sqrt (rho * d2 + (1 - rho) * squaredNorm G + eps)) ^ 2
      = k ^ 2 / (rho * d2 + (1 - rho) * squaredNorm G + eps) := by
    rw [div_pow, Real.sq_sqrt hden.le]
  have hbound : k ^ 2 / (rho * d2 + (1 - rho) * squaredNorm G + eps) * squaredNorm G
      ≤ k ^ 2 / (1 - rho) := by
    rw [div_mul_eq_mul_div, div_le_div_iff₀ hden hr]
    have hk : 0 ≤ k ^ 2 := sq_nonneg k
    have hrd : 0 ≤ rho * d2 := mul_nonneg h0 hd
    nlinarith [mul_nonneg hk hrd, mul_nonneg hk heps.le]
  have hfin : squaredNorm (tsub (tsub (tsub θ
      (smul (k / Real.sqrt (rho * d2 + (1 - rho) * squaredNorm G + eps)) G))
      (smul 0 θ)) θ) ≤ k ^ 2 / (1 - rho) := by
    rw [hsq] at hle
    exact le_trans hle hbound
  calc Real.sqrt _ ≤ Real.sqrt (k ^ 2 / (1 - rho)) := Real.sqrt_le_sqrt hfin
    _ = |k| / Real.sqrt (1 - rho) := by
      rw [Real.sqrt_div (sq_nonneg k), Real.sqrt_sq_eq_abs]

/-- A call of `RmsPropTrainer::update` that returns has run lines 378-427 on the norms
that `compute_gradient_norm` returned. -/
theorem RmsPropTrainer.rmsprop_update_returned_norms {α : Type} [LinearOrderedField α]
    (sqrt : α → α) (v_norm_allocated : Bool) (GPU_ALLOC_HOST_MEM_SIZE : Nat)
    (tr : RmsPropTrainer α) (m : Model α) (nutt scale : α)
    (r : RmsPropTrainer α × Model α)
    (h : RmsPropTrainer.update sqrt v_norm_allocated GPU_ALLOC_HOST_MEM_SIZE
      tr m nutt scale = Outcome.returned r) :
    ∃ vp vl, RmsPropTrainer.compute_gradient_norm v_norm_allocated GPU_ALLOC_HOST_MEM_SIZE
        m.params m.lookup_params = Outcome.returned (vp, vl) ∧
      r = RmsPropTrainer.update_from sqrt (tr.allocate m) m nutt scale vp vl := by
  unfold RmsPropTrainer.update at h
  cases hc : RmsPropTrainer.compute_gradient_norm v_norm_allocated GPU_ALLOC_HOST_MEM_SIZE
      m.params m.lookup_params with
  | null_store => rw [hc] at h; simp at h
  | thrown w => rw [hc] at h; simp at h
  | returned b =>
    obtain ⟨vp, vl⟩ := b
    rw [hc] at h
    simp only [Outcome.returned.injEq] at h
    exact ⟨vp, vl, rfl, h.symm⟩

/-- C26, amended: if `0 <= rho < 1`, `epsilon > 0` and the slot `d2 >= 0` before
`RmsPropTrainer::update` (the lazy sizing gives `d2 = 0`), then for every dense parameter
and every touched lookup row the stored `d2'` is not negative, `sqrt(d2' + epsilon)` is
positive, and with `lambda = 0` the L2 norm of the change of the value is at most
`|eta*scale*gscale| / sqrt(1 - rho)`, whatever the gradient and the batch size; `gscale`
is the clip factor for the global gradient norm. This is every call that returns, and
the call returns with a scratch buffer and a gradient count within
`GPU_ALLOC_HOST_MEM_SIZE`. The `grads` maps have distinct keys. -/
theorem RmsPropTrainer.update_step_bounded (GPU_ALLOC_HOST_MEM_SIZE : Nat)
    (tr : RmsPropTrainer ℝ) (m : Model ℝ) (nutt scale : ℝ) (h0 : 0 ≤ tr.rho)
    (h1 : tr.rho < 1) (heps : 0 < tr.epsilon)
    (hnd : ∀ p ∈ m.lookup_params, p.touched.Nodup) :
    (m.params.length + (m.lookup_params.map (fun p => p.grads.length)).sum
        ≤ GPU_ALLOC_HOST_MEM_SIZE →
      ∃ r, RmsPropTrainer.update Real.sqrt true GPU_ALLOC_HOST_MEM_SIZE tr m nutt scale
        = Outcome.returned r) ∧
    (∀ (v_norm_allocated : Bool) (r : RmsPropTrainer ℝ × Model ℝ),
      RmsPropTrainer.update Real.sqrt v_norm_allocated GPU_ALLOC_HOST_MEM_SIZE tr m nutt
        scale = Outcome.returned r →
      (∀ (pi : Nat) (p : Parameters ℝ) (d2 : ℝ),
        m.params[pi]? = some p → (tr.allocate m).hg[pi]? = some d2 → 0 ≤ d2 →
        ∃ (d2' : ℝ) (θ' : Tensor ℝ), r.1.hg[pi]? = some d2' ∧
          (r.2.params[pi]?).map (@Parameters.values ℝ) = some θ' ∧
          0 ≤ d2' ∧ 0 < Real.sqrt (d2' + tr.epsilon) ∧
          (tr.lambda = 0 → Real.sqrt (squaredNorm (tsub θ' p.values))
            ≤ |tr.eta * scale * (tr.toTrainer.clip_gradients_pre nutt
                (m.gradient_l2_norm Real.sqrt)).1| / Real.sqrt (1 - tr.rho))) ∧
      (∀ (li : Nat) (p : LookupParameters ℝ) (hlgx : List ℝ),
        m.lookup_params[li]? = some p → (tr.allocate m).hlg[li]? = some hlgx →
        ∀ (i : Nat) (G θ : Tensor ℝ) (d2 : ℝ), (i, G) ∈ p.grads → p.values[i]? = some θ →
          hlgx[i]? = some d2 → 0 ≤ d2 →
          ∃ (d2' : ℝ) (θ' : Tensor ℝ),
            (r.1.hlg[li]?).bind (fun q : List ℝ => q[i]?) = some d2' ∧
            (r.2.lookup_params[li]?).bind (fun q : LookupParameters ℝ => q.values[i]?)
              = some θ' ∧
            0 ≤ d2' ∧ 0 < Real.sqrt (d2' + tr.epsilon) ∧
            (tr.lambda = 0 → Real.sqrt (squaredNorm (tsub θ' θ))
              ≤ |tr.eta * scale * (tr.toTrainer.clip_gradients_pre nutt
                  (m.gradient_l2_norm Real.sqrt)).1| / Real.sqrt (1 - tr.rho)))) ∧
    (tr.shadow_params_allocated = false →
      (∀ d2 ∈ (tr.allocate m).hg, d2 = 0) ∧
      ∀ hlgx ∈ (tr.allocate m).hlg, ∀ d2 ∈ hlgx, d2 = 0) := by
  refine ⟨RmsPropTrainer.rmsprop_update_returns Real.sqrt GPU_ALLOC_HOST_MEM_SIZE tr m nutt
    scale, ?_, ?_⟩
  · intro a r hr
    obtain ⟨vp, vl, hcg, rfl⟩ := RmsPropTrainer.rmsprop_update_returned_norms Real.sqrt a
      GPU_ALLOC_HOST_MEM_SIZE tr m nutt scale r hr
    have hsum := RmsPropTrainer.summed_norm_eq Real.sqrt a GPU_ALLOC_HOST_MEM_SIZE m vp vl
      hnd hcg
    have hrule := RmsPropTrainer.rmsprop_update_from_rule Real.sqrt tr m nutt scale vp vl
    rw [hsum] at hrule
    refine ⟨?_, ?_⟩
    · intro pi p d2 hp hd hd0
      obtain ⟨hv, hg⟩ := hrule.1 pi p d2 hp hd
      obtain ⟨b1, b2, b3⟩ := rmsprop_step_bound
        (tr.eta * scale * (tr.toTrainer.clip_gradients_pre nutt
          (m.gradient_l2_norm Real.sqrt)).1) tr.rho d2 tr.epsilon p.values p.g h0 h1 heps hd0
      refine ⟨_, _, hg, hv, b1, b2, ?_⟩
      intro hl
      rw [hl]
      exact b3
    · intro li p hlgx hp hx i G θ d2 hG hθ hd hd0
      obtain ⟨hv, hg⟩ := hrule.2 li p hlgx hp hx (hnd p (List.getElem?_mem hp)) i G θ d2 hG
        hθ hd
      obtain ⟨b1, b2, b3⟩ := rmsprop_step_bound
        (tr.eta * scale * (tr.toTrainer.clip_gradients_pre nutt
          (m.gradient_l2_norm Real.sqrt)).1) tr.rho d2 tr.epsilon θ G h0 h1 heps hd0
      refine ⟨_, _, hg, hv, b1, b2, ?_⟩
      intro hl
      rw [hl]
      exact b3
  · intro hf
    have hhg : (tr.allocate m).hg = m.params.map (fun _ => 0) := by
      simp [RmsPropTrainer.allocate, hf]
    have hhlg : (tr.allocate m).hlg
        = m.lookup_params.map (fun p => p.values.map (fun _ => 0)) := by
      simp [RmsPropTrainer.allocate, hf]
    rw [hhg, hhlg]
    refine ⟨?_, ?_⟩
    · intro d2 hd
      obtain ⟨_, _, rfl⟩ := List.mem_map.1 hd
      rfl
    · intro hlgx hx d2 hd
      obtain ⟨p, _, rfl⟩ := List.mem_map.1 hx
      obtain ⟨_, _, rfl⟩ := List.mem_map.1 hd
      rfl

/-- C26, witness: `rho = 1/2`, `epsilon = 1/4`, `d2 = 8`, gradient `(4)`: the update
returns, the stored `d2'` is not negative and the change of the value is within the
bound. -/
theorem RmsPropTrainer.update_step_bounded_witness :
    ∃ (r : RmsPropTrainer ℝ × Model ℝ) (d2' : ℝ) (θ' : Tensor ℝ),
      RmsPropTrainer.update Real.sqrt true 1024 (input_rmsprop_trainer_one_dense ℝ)
        (input_model_one_dense ℝ 4) 2 1 = Outcome.returned r ∧
      r.1.hg[0]? = some d2' ∧
      (r.2.params[0]?).map (@Parameters.values ℝ) = some θ' ∧
      0 ≤ d2' ∧
      Real.sqrt (squaredNorm (tsub θ' [0]))
        ≤ |(input_rmsprop_trainer_one_dense ℝ).eta * 1
            * ((input_rmsprop_trainer_one_dense ℝ).toTrainer.clip_gradients_pre 2
                ((input_model_one_dense ℝ 4).gradient_l2_norm Real.sqrt)).1|
          / Real.sqrt (1 - (input_rmsprop_trainer_one_dense ℝ).rho) := by
  have h := RmsPropTrainer.update_step_bounded 1024 (input_rmsprop_trainer_one_dense ℝ)
    (input_model_one_dense ℝ 4) 2 1 (by simp [input_rmsprop_trainer_one_dense])
    (by simp [input_rmsprop_trainer_one_dense]; norm_num)
    (by simp [input_rmsprop_trainer_one_dense])
    (by simp [input_model_one_dense])
  obtain ⟨r, hr⟩ := h.1 (by simp [input_model_one_dense])
  obtain ⟨d2', θ', a1, a2, a3, _, a5⟩ := (h.2.1 true r hr).1 0 ⟨[1], [0], [4]⟩ 8 rfl rfl
    (by norm_num)
  exact ⟨r, d2', θ', hr, a1, a2, a3, a5 rfl⟩

/-- C26, counterexample: `eta = -1`, `scale = 1`, no clipping (`gscale = 1`), `rho = 0`,
`epsilon = 9`, `lambda = 0`, `d2 = 0` and the gradient `(4)`: the update moves the value
from `(0)` to `(4/5)`, a change of norm `4/5`, which is not at most
`eta*scale*gscale/sqrt(1-rho) = -1`. -/
theorem RmsPropTrainer.step_bound_fails_for_negative_eta :
    ∃ r : RmsPropTrainer ℝ × Model ℝ,
      RmsPropTrainer.update Real.sqrt true 1024 (input_rmsprop_trainer_negative_eta ℝ)
        (input_model_one_dense ℝ 4) 1 1 = Outcome.returned r ∧
      (r.2.params[0]?).map (@Parameters.values ℝ) = (some [4 / 5] : Option (Tensor ℝ)) ∧
      ¬ (Real.sqrt (squaredNorm (tsub [4 / 5] ([0] : Tensor ℝ)))
        ≤ (input_rmsprop_trainer_negative_eta ℝ).eta * 1
            * ((input_rmsprop_trainer_negative_eta ℝ).toTrainer.clip_gradients_pre 1
                ((input_model_one_dense ℝ 4).gradient_l2_norm Real.sqrt)).1
          / Real.sqrt (1 - (input_rmsprop_trainer_negative_eta ℝ).rho)) := by
  obtain ⟨_, _, s25⟩ := sqrt_values
  obtain ⟨⟨vp, vl⟩, hcg⟩ := @RmsPropTrainer.compute_gradient_norm_returns ℝ _ 1024
    (input_model_one_dense ℝ 4).params (input_model_one_dense ℝ 4).lookup_params
    (by simp [input_model_one_dense])
  have hrule := (RmsPropTrainer.rmsprop_update_from_rule Real.sqrt
    (input_rmsprop_trainer_negative_eta ℝ) (input_model_one_dense ℝ 4) 1 1 vp vl).1 0
    ⟨[1], [0], [4]⟩ 0 rfl rfl
  refine ⟨RmsPropTrainer.update_from Real.sqrt
    ((input_rmsprop_trainer_negative_eta ℝ).allocate (input_model_one_dense ℝ 4))
    (input_model_one_dense ℝ 4) 1 1 vp vl, by simp only [RmsPropTrainer.update, hcg], ?_, ?_⟩
  · rw [hrule.1]
    have e1 : ((4 : ℝ) * 4 + 9) = 25 := by norm_num
    simp [Trainer.clip_gradients_pre, input_rmsprop_trainer_negative_eta, tsub, smul,
      squaredNorm, e1, s25]
    norm_num
  · intro hle
    have hnn := Real.sqrt_nonneg (squaredNorm (tsub [4 / 5] ([0] : Tensor ℝ)))
    have hneg : (input_rmsprop_trainer_negative_eta ℝ).eta * 1
        * ((input_rmsprop_trainer_negative_eta ℝ).toTrainer.clip_gradients_pre 1
            ((input_model_one_dense ℝ 4).gradient_l2_norm Real.sqrt)).1
        / Real.sqrt (1 - (input_rmsprop_trainer_negative_eta ℝ).rho) = -1 := by
      simp [Trainer.clip_gradients_pre, input_rmsprop_trainer_negative_eta]
    rw [hneg] at hle
    linarith

/-! ## Adagrad: monotone accumulator and bounded step -/

section AdagradAux
variable {α : Type} [LinearOrderedField α]

/-- What one `AdagradTrainer::update` leaves in every dense parameter and accumulator and
in every touched lookup row and its accumulator, for the gradient `G` that
`clip_gradients` leaves: `v' = v + G^2` and
`θ' = θ - eta*scale*gscale*G/sqrt(v' + epsilon) - lambda*θ`. -/
theorem AdagradTrainer.adagrad_update_rule_aux (sqrt : α → α) (tr : AdagradTrainer α)
    (m : Model α) (nsamples scale : α) :
    (∀ (pi : Nat) (p : Parameters α) (v : ShadowParameters α),
      m.params[pi]? = some p → (tr.allocate m).vp[pi]? = some v →
      ((AdagradTrainer.update sqrt tr m nsamples scale).2.params[pi]?).map Parameters.values
        = some (tsub (tsub p.values
            (smul (tr.eta * scale * (tr.toTrainer.clip_gradients sqrt m nsamples).1)
              (cwiseQuotient (tr.clipped nsamples p.g)
                (cwiseSqrt sqrt (arrayAdd
                  (tadd v.h (cwiseProduct (tr.clipped nsamples p.g) (tr.clipped nsamples p.g)))
                  tr.epsilon)))))
            (smul tr.lambda p.values)) ∧
      ((AdagradTrainer.update sqrt tr m nsamples scale).1.vp[pi]?).map ShadowParameters.h
        = some (tadd v.h
            (cwiseProduct (tr.clipped nsamples p.g) (tr.clipped nsamples p.g)))) ∧
    (∀ (li : Nat) (p : LookupParameters α) (vx : ShadowLookupParameters α),
      m.lookup_params[li]? = some p → (tr.allocate m).vlp[li]? = some vx →
      p.touched.Nodup →
      ∀ (i : Nat) (G θ v : Tensor α), (i, G) ∈ p.grads → p.values[i]? = some θ →
        vx.h[i]? = some v →
      ((AdagradTrainer.update sqrt tr m nsamples scale).2.lookup_params[li]?).bind
          (fun q : LookupParameters α => q.values[i]?)
        = some (tsub (tsub θ
            (smul (tr.eta * scale * (tr.toTrainer.clip_gradients sqrt m nsamples).1)
              (cwiseQuotient (tr.clipped nsamples G)
                (cwiseSqrt sqrt (arrayAdd
                  (tadd v (cwiseProduct (tr.clipped nsamples G) (tr.clipped nsamples G)))
                  tr.epsilon)))))
            (smul tr.lambda θ)) ∧
      ((AdagradTrainer.update sqrt tr m nsamples scale).1.vlp[li]?).bind
          (fun q : ShadowLookupParameters α => q.h[i]?)
        = some (tadd v (cwiseProduct (tr.clipped nsamples G) (tr.clipped nsamples G)))) ∧
    (¬ (tr.clipping_enabled = true ∧ tr.clipping_type = ClippingType.simple_clipping) →
      ∀ g : Tensor α, tr.clipped nsamples g = g) := by
  obtain ⟨hb1, hb2⟩ := AdagradTrainer.adagrad_allocate_base tr m
  refine ⟨?_, ?_, fun h g => Trainer.clipped_eq_self tr.toTrainer nsamples g h⟩
  · intro pi p v hp hv
    have hp' : (tr.toTrainer.clip_gradients sqrt m nsamples).2.2.params[pi]?
        = some { p with g := tr.clipped nsamples p.g } := by
      simp [Trainer.clip_gradients_model, hp]
    have h := (forEachIdx_slot
      (fun (p : Parameters α) (v : ShadowParameters α) =>
        ({ p with values := tadd p.values (tsub
          (smul (-(tr.eta * scale * (tr.toTrainer.clip_gradients sqrt m nsamples).1))
            (cwiseQuotient p.g
              (cwiseSqrt sqrt (arrayAdd (tadd v.h (cwiseProduct p.g p.g)) tr.epsilon))))
          (smul tr.lambda p.values)) }).clear)
      (fun (p : Parameters α) (v : ShadowParameters α) =>
        (⟨tadd v.h (cwiseProduct p.g p.g)⟩ : ShadowParameters α))
      default
      (AdagradTrainer.dense_body sqrt tr.eta tr.lambda tr.epsilon scale
        (tr.toTrainer.clip_gradients sqrt m nsamples).1)
      (by intro k x s; rfl)
      (tr.toTrainer.clip_gradients sqrt m nsamples).2.2.params (tr.allocate m).vp).1
      pi _ v hp' hv
    simp only [AdagradTrainer.update, hb1, hb2]
    rw [h.1, h.2]
    simp only [Option.map_some', Parameters.clear, tadd_tsub_smul_neg]
    exact ⟨trivial, trivial⟩
  · intro li p vx hp hvx hnd i G θ v hG hθ hv
    obtain ⟨hq1, hq2, hq3, hq4⟩ := clipped_table tr.toTrainer nsamples p hnd i G hG
    have hp' : (tr.toTrainer.clip_gradients sqrt m nsamples).2.2.lookup_params[li]?
        = some { p with grads := p.grads.map (fun g => (g.1, tr.clipped nsamples g.2)) } := by
      simp [Trainer.clip_gradients_model, hp]
    have h := (forEachIdx_slot
      (fun (p : LookupParameters α) (vx : ShadowLookupParameters α) =>
        ({ p with values := (p.grads.foldl
          (fun s (g : Nat × Tensor α) =>
            AdagradTrainer.row_body sqrt tr.eta tr.lambda tr.epsilon scale
              (tr.toTrainer.clip_gradients sqrt m nsamples).1 p s g.1)
          (p.values, vx.h)).1 }).clear)
      (fun (p : LookupParameters α) (vx : ShadowLookupParameters α) =>
        (⟨(p.grads.foldl
          (fun s (g : Nat × Tensor α) =>
            AdagradTrainer.row_body sqrt tr.eta tr.lambda tr.epsilon scale
              (tr.toTrainer.clip_gradients sqrt m nsamples).1 p s g.1)
          (p.values, vx.h)).2⟩ : ShadowLookupParameters α))
      default
      (AdagradTrainer.lookup_body sqrt tr.eta tr.lambda tr.epsilon scale
        (tr.toTrainer.clip_gradients sqrt m nsamples).1)
      (by intro k x s; rfl)
      (tr.toTrainer.clip_gradients sqrt m nsamples).2.2.lookup_params (tr.allocate m).vlp).1
      li _ vx hp' hvx
    have hr := AdagradTrainer.adagrad_rows_after sqrt tr.eta tr.lambda tr.epsilon scale
      (tr.toTrainer.clip_gradients sqrt m nsamples).1 _ hq1 vx.h i θ v hq2 hθ hv
    simp only [AdagradTrainer.update, hb1, hb2]
    rw [h.1, h.2]
    refine ⟨hr.1.trans ?_, hr.2.trans ?_⟩
    · rw [hq4, tadd_tsub_smul_neg]
    · rw [hq4]


end AdagradAux
section AdagradComponents
variable {α : Type} [LinearOrderedField α]

/-- Component `j` of the accumulator and of the value that one Adagrad step leaves. -/
theorem adagrad_component (sqrt : α → α) (k lam eps : α) (θ G v : Tensor α) (j : Nat)
    (x g w : α) (hx : θ[j]? = some x) (hg : G[j]? = some g) (hw : v[j]? = some w) :
    (tadd v (cwiseProduct G G))[j]? = some (w + g * g) ∧
    (tsub (tsub θ (smul k (cwiseQuotient G
        (cwiseSqrt sqrt (arrayAdd (tadd v (cwiseProduct G G)) eps))))) (smul lam θ))[j]?
      = some (x - k * (g / sqrt (w + g * g + eps)) - lam * x) := by
  constructor
  · simp [tadd, cwiseProduct, List.getElem?_zipWith, hg, hw]
  · simp [tsub, tadd, smul, cwiseQuotient, cwiseProduct, cwiseSqrt, arrayAdd,
      List.getElem?_zipWith, hx, hg, hw]

end AdagradComponents

/-- The numbers of one component of an Adagrad step without regularisation: the
accumulator does not decrease, the change is at most `|k|` in absolute value, strictly
less when `k` is not zero, and zero for a zero gradient component. -/
theorem adagrad_step_bound (k eps x g w : ℝ) (heps : 0 < eps) (hw : 0 ≤ w) :
    w ≤ w + g * g ∧
    |(x - k * (g / Real.sqrt (w + g * g + eps)) - 0 * x) - x| ≤ |k| ∧
    (k ≠ 0 → |(x - k * (g / Real.sqrt (w + g * g + eps)) - 0 * x) - x| < |k|) ∧
    (g = 0 → (x - k * (g / Real.sqrt (w + g * g + eps)) - 0 * x) - x = 0) := by
  have hgg : 0 ≤ g * g := mul_self_nonneg g
  have hden : 0 < w + g * g + eps := by linarith
  have hs : 0 < Real.sqrt (w + g * g + eps) := Real.sqrt_pos.2 hden
  have hlt : |g| < Real.sqrt (w + g * g + eps) := by
    rw [Real.lt_sqrt (abs_nonneg g), sq_abs]
    nlinarith
  have hratio : |g / Real.sqrt (w + g * g + eps)| < 1 := by
    rw [abs_div, abs_of_pos hs, div_lt_one hs]
    exact hlt
  have hchange : (x - k * (g / Real.sqrt (w + g * g + eps)) - 0 * x) - x
      = -(k * (g / Real.sqrt (w + g * g + eps))) := by ring
  rw [hchange, abs_neg, abs_mul]
  refine ⟨by linarith, ?_, ?_, ?_⟩
  · have := abs_nonneg k
    nlinarith [abs_nonneg (g / Real.sqrt (w + g * g + eps))]
  · intro hk
    have hkpos : 0 < |k| := abs_pos.2 hk
    nlinarith
  · intro hg0
    simp [hg0]

/-- C27, amended: if `epsilon > 0` and a component `w` of the accumulator is not negative
before `AdagradTrainer::update` (the lazy allocation gives zero), then the component of
the stored accumulator is `w + g^2 >= w`, where `g` is the component of the gradient that
the loop reads, and with `lambda = 0` the change of the component of the value has
absolute value at most `|eta*scale*gscale|`, strictly less when `eta*scale*gscale` is not
zero, and is zero when `g` is zero; for every dense parameter and every touched lookup
row with distinct `grads` keys. Without simple clipping the gradient read is the
accumulated gradient itself. -/
theorem AdagradTrainer.update_accumulator_grows_step_bounded (tr : AdagradTrainer ℝ)
    (m : Model ℝ) (nsamples scale : ℝ) (heps : 0 < tr.epsilon) :
    (∀ (pi : Nat) (p : Parameters ℝ) (v : ShadowParameters ℝ),
      m.params[pi]? = some p → (tr.allocate m).vp[pi]? = some v →
      ∀ (j : Nat) (x g w : ℝ), p.values[j]? = some x →
        (tr.clipped nsamples p.g)[j]? = some g → v.h[j]? = some w → 0 ≤ w →
      ∃ w' x' : ℝ,
        (((AdagradTrainer.update Real.sqrt tr m nsamples scale).1.vp[pi]?).map
          (@ShadowParameters.h ℝ)).bind (fun t : Tensor ℝ => t[j]?) = some w' ∧
        w ≤ w' ∧
        (((AdagradTrainer.update Real.sqrt tr m nsamples scale).2.params[pi]?).map
          (@Parameters.values ℝ)).bind (fun t : Tensor ℝ => t[j]?) = some x' ∧
        (tr.lambda = 0 →
          |x' - x| ≤ |tr.eta * scale * (tr.toTrainer.clip_gradients Real.sqrt m nsamples).1| ∧
          (tr.eta * scale * (tr.toTrainer.clip_gradients Real.sqrt m nsamples).1 ≠ 0 →
            |x' - x|
              < |tr.eta * scale * (tr.toTrainer.clip_gradients Real.sqrt m nsamples).1|) ∧
          (g = 0 → x' - x = 0))) ∧
    (∀ (li : Nat) (p : LookupParameters ℝ) (vx : ShadowLookupParameters ℝ),
      m.lookup_params[li]? = some p → (tr.allocate m).vlp[li]? = some vx →
      p.touched.Nodup →
      ∀ (i : Nat) (G θ v : Tensor ℝ), (i, G) ∈ p.grads → p.values[i]? = some θ →
        vx.h[i]? = some v →
      ∀ (j : Nat) (x g w : ℝ), θ[j]? = some x → (tr.clipped nsamples G)[j]? = some g →
        v[j]? = some w → 0 ≤ w →
      ∃ w' x' : ℝ,
        (((AdagradTrainer.update Real.sqrt tr m nsamples scale).1.vlp[li]?).bind
          (fun q : ShadowLookupParameters ℝ => q.h[i]?)).bind (fun t : Tensor ℝ => t[j]?)
          = some w' ∧
        w ≤ w' ∧
        (((AdagradTrainer.update Real.sqrt tr m nsamples scale).2.lookup_params[li]?).bind
          (fun q : LookupParameters ℝ => q.values[i]?)).bind (fun t : Tensor ℝ => t[j]?)
          = some x' ∧
        (tr.lambda = 0 →
          |x' - x| ≤ |tr.eta * scale * (tr.toTrainer.clip_gradients Real.sqrt m nsamples).1| ∧
          (tr.eta * scale * (tr.toTrainer.clip_gradients Real.sqrt m nsamples).1 ≠ 0 →
            |x' - x|
              < |tr.eta * scale * (tr.toTrainer.clip_gradients Real.sqrt m nsamples).1|) ∧
          (g = 0 → x' - x = 0))) ∧
    (¬ (tr.clipping_enabled = true ∧ tr.clipping_type = ClippingType.simple_clipping) →
      ∀ g : Tensor ℝ, tr.clipped nsamples g = g) ∧
    (tr.shadow_params_allocated = false →
      (∀ v ∈ (tr.allocate m).vp, ∀ w ∈ v.h, w = 0) ∧
      ∀ vx ∈ (tr.allocate m).vlp, ∀ v ∈ vx.h, ∀ w ∈ v, w = 0) := by
  have hrule := AdagradTrainer.adagrad_update_rule_aux Real.sqrt tr m nsamples scale
  refine ⟨?_, ?_, hrule.2.2, ?_⟩
  · intro pi p v hp hv j x g w hx hg hw hw0
    obtain ⟨hval, hacc⟩ := hrule.1 pi p v hp hv
    obtain ⟨c1, c2⟩ := adagrad_component Real.sqrt
      (tr.eta * scale * (tr.toTrainer.clip_gradients Real.sqrt m nsamples).1) tr.lambda
      tr.epsilon p.values (tr.clipped nsamples p.g) v.h j x g w hx hg hw
    obtain ⟨b1, b2, b3, b4⟩ := adagrad_step_bound
      (tr.eta * scale * (tr.toTrainer.clip_gradients Real.sqrt m nsamples).1) tr.epsilon
      x g w heps hw0
    refine ⟨_, _, by rw [hacc]; exact c1, b1, by rw [hval]; exact c2, ?_⟩
    intro hl
    rw [hl]
    exact ⟨b2, b3, b4⟩
  · intro li p vx hp hvx hnd i G θ v hG hθ hv j x g w hx hg hw hw0
    obtain ⟨hval, hacc⟩ := hrule.2.1 li p vx hp hvx hnd i G θ v hG hθ hv
    obtain ⟨c1, c2⟩ := adagrad_component Real.sqrt
      (tr.eta * scale * (tr.toTrainer.clip_gradients Real.sqrt m nsamples).1) tr.lambda
      tr.epsilon θ (tr.clipped nsamples G) v j x g w hx hg hw
    obtain ⟨b1, b2, b3, b4⟩ := adagrad_step_bound
      (tr.eta * scale * (tr.toTrainer.clip_gradients Real.sqrt m nsamples).1) tr.epsilon
      x g w heps hw0
    refine ⟨_, _, by rw [hacc]; exact c1, b1, by rw [hval]; exact c2, ?_⟩
    intro hl
    rw [hl]
    exact ⟨b2, b3, b4⟩
  · intro hf
    have hvp : (tr.allocate m).vp = AllocateShadowParameters m := by
      simp [AdagradTrainer.allocate, hf]
    have hvlp : (tr.allocate m).vlp = AllocateShadowLookupParameters m := by
      simp [AdagradTrainer.allocate, hf]
    rw [hvp, hvlp]
    refine ⟨?_, ?_⟩
    · intro v hv w hw
      obtain ⟨p, _, rfl⟩ := List.mem_map.1 hv
      obtain ⟨_, _, rfl⟩ := List.mem_map.1 hw
      rfl
    · intro vx hvx v hv w hw
      obtain ⟨p, _, rfl⟩ := List.mem_map.1 hvx
      obtain ⟨row, _, rfl⟩ := List.mem_map.1 hv
      obtain ⟨_, _, rfl⟩ := List.mem_map.1 hw
      rfl

/-- C27, witness: `epsilon = 1`, accumulator `(6, 8)`, gradient `(3, 4)`, `eta = 1`: the
first component of the accumulator does not decrease and the first component of the
value changes by less than `|eta*scale*gscale|`. -/
theorem AdagradTrainer.update_accumulator_grows_step_bounded_witness :
    ∃ w' x' : ℝ,
      (((AdagradTrainer.update Real.sqrt (input_adagrad_trainer ℝ) (input_model ℝ) 2
        1).1.vp[0]?).map (@ShadowParameters.h ℝ)).bind (fun t : Tensor ℝ => t[0]?)
        = some w' ∧
      6 ≤ w' ∧
      (((AdagradTrainer.update Real.sqrt (input_adagrad_trainer ℝ) (input_model ℝ) 2
        1).2.params[0]?).map (@Parameters.values ℝ)).bind (fun t : Tensor ℝ => t[0]?)
        = some x' ∧
      |x' - 0| < |(input_adagrad_trainer ℝ).eta * 1
        * ((input_adagrad_trainer ℝ).toTrainer.clip_gradients Real.sqrt (input_model ℝ) 2).1| := by
  have h := AdagradTrainer.update_accumulator_grows_step_bounded (input_adagrad_trainer ℝ)
    (input_model ℝ) 2 1 (by simp [input_adagrad_trainer])
  obtain ⟨w', x', a1, a2, a3, a4⟩ := h.1 0 ⟨[2], [0, 0], [3, 4]⟩ ⟨[6, 8]⟩ rfl rfl 0 0 3 6 rfl
    (by simp [Trainer.clipped, input_adagrad_trainer, input_trainer]) rfl (by norm_num)
  refine ⟨w', x', a1, a2, a3, (a4 rfl).2.1 ?_⟩
  simp [Trainer.clip_gradients, input_adagrad_trainer, input_trainer]

/-- C27, counterexample: `eta = 0` (so `eta*scale*gscale = 0`), `epsilon = 1`, accumulator
`(6, 8)`, `lambda = 0` and the gradient `(3, 4)`: the value `(0, 0)` does not change, and
the change `0` of the first component, whose gradient component `3` is not zero, is not
strictly less than `|eta*scale*gscale| = 0`. -/
theorem AdagradTrainer.step_bound_not_strict_for_zero_eta :
    (((AdagradTrainer.update Real.sqrt (input_adagrad_trainer_eta_zero ℝ) (input_model ℝ) 2
      1).2.params[0]?).map (@Parameters.values ℝ)).bind (fun t : Tensor ℝ => t[0]?)
      = some 0 ∧
    (3 : ℝ) ≠ 0 ∧
    ¬ (|(0 : ℝ) - 0| < |(input_adagrad_trainer_eta_zero ℝ).eta * 1
        * ((input_adagrad_trainer_eta_zero ℝ).toTrainer.clip_gradients Real.sqrt
            (input_model ℝ) 2).1|) := by
  have hrule := (AdagradTrainer.adagrad_update_rule_aux Real.sqrt
    (input_adagrad_trainer_eta_zero ℝ) (input_model ℝ) 2 1).1 0 ⟨[2], [0, 0], [3, 4]⟩
    ⟨[6, 8]⟩ rfl rfl
  refine ⟨?_, by norm_num, ?_⟩
  · rw [hrule.1]
    simp [input_adagrad_trainer_eta_zero, tsub, tadd, smul, cwiseQuotient, cwiseProduct,
      cwiseSqrt, arrayAdd, Trainer.clipped]
  · simp [input_adagrad_trainer_eta_zero]

/-! ## AWI::decode -/

section DecodeLemmas
variable {α : Type} [LinearOrderedField α]

/-- The argmax loop keeps in `(w, pr_w)` the first index of the largest cell seen so far
and that cell. -/
theorem AWI.decode_argmax_loop_spec : ∀ (ds pre : List α) (s : Nat × α),
    s.1 < pre.length → pre[s.1]? = some s.2 →
    (∀ (i : Nat) (d : α), pre[i]? = some d → d ≤ s.2) →
    (∀ (i : Nat) (d : α), i < s.1 → pre[i]? = some d → d < s.2) →
    (AWI.decode_argmax_loop ds pre.length s).1 < (pre ++ ds).length ∧
    (pre ++ ds)[(AWI.decode_argmax_loop ds pre.length s).1]?
      = some (AWI.decode_argmax_loop ds pre.length s).2 ∧
    (∀ (i : Nat) (d : α), (pre ++ ds)[i]? = some d →
      d ≤ (AWI.decode_argmax_loop ds pre.length s).2) ∧
    (∀ (i : Nat) (d : α), i < (AWI.decode_argmax_loop ds pre.length s).1 →
      (pre ++ ds)[i]? = some d → d < (AWI.decode_argmax_loop ds pre.length s).2) := by
  intro ds
  induction ds with
  | nil =>
    intro pre s h1 h2 h3 h4
    simp only [AWI.decode_argmax_loop, List.append_nil]
    exact ⟨h1, h2, h3, h4⟩
  | cons d ds ih =>
    intro pre s h1 h2 h3 h4
    have hlen : (pre ++ [d]).length = pre.length + 1 := by simp
    have happ : pre ++ d :: ds = (pre ++ [d]) ++ ds := by simp
    simp only [AWI.decode_argmax_loop]
    rw [happ, ← hlen]
    have hget : ∀ (i : Nat) (e : α), (pre ++ [d])[i]? = some e →
        (i < pre.length ∧ pre[i]? = some e) ∨ (i = pre.length ∧ e = d) := by
      intro i e he
      by_cases hi : i < pre.length
      · rw [List.getElem?_append_left hi] at he
        exact Or.inl ⟨hi, he⟩
      · have hi2 : pre.length ≤ i := Nat.le_of_not_lt hi
        rw [List.getElem?_append_right hi2] at he
        have hz : i - pre.length = 0 := by
          by_contra hne
          have : 1 ≤ i - pre.length := Nat.one_le_iff_ne_zero.2 hne
          rw [List.getElem?_eq_none (by simpa using this)] at he
          exact absurd he (by simp)
        rw [hz] at he
        simp only [List.getElem?_cons_zero, Option.some.injEq] at he
        exact Or.inr ⟨by omega, he.symm⟩
    by_cases hd : d > s.2
    · simp only [hd, if_true]
      apply ih (pre ++ [d]) (pre.length, d)
      · simp
      · simp
      · intro i e he
        rcases hget i e he with ⟨_, hp⟩ | ⟨_, rfl⟩
        · exact le_of_lt (lt_of_le_of_lt (h3 i e hp) hd)
        · exact le_refl _
      · intro i e hi he
        rcases hget i e he with ⟨_, hp⟩ | ⟨hi2, _⟩
        · exact lt_of_le_of_lt (h3 i e hp) hd
        · simp only at hi
          omega
    · simp only [hd, if_false]
      apply ih (pre ++ [d]) s
      · simp only [hlen]
        omega
      · rw [List.getElem?_append_left h1]
        exact h2
      · intro i e he
        rcases hget i e he with ⟨_, hp⟩ | ⟨_, rfl⟩
        · exact h3 i e hp
        · exact le_of_not_lt hd
      · intro i e hi he
        rcases hget i e he with ⟨_, hp⟩ | ⟨hi2, _⟩
        · exact h4 i e hi hp
        · omega

/-- On a non-empty distribution, the greedy choice of lines 656-664 is the smallest index
that attains the maximum. -/
theorem AWI.decode_argmax_spec (dist : List α) (hne : dist ≠ []) :
    AWI.decode_argmax dist < dist.length ∧
    ∃ pr : α, dist[AWI.decode_argmax dist]? = some pr ∧
      (∀ (i : Nat) (d : α), dist[i]? = some d → d ≤ pr) ∧
      (∀ (i : Nat) (d : α), i < AWI.decode_argmax dist → dist[i]? = some d → d < pr) := by
  cases dist with
  | nil => exact absurd rfl hne
  | cons a as =>
    have h := AWI.decode_argmax_loop_spec as [a] (0, a) (by simp) (by simp)
      (by
        intro i d hd
        cases i with
        | zero => simp at hd; exact le_of_eq hd.symm
        | succ n => simp at hd)
      (by intro i d hi; simp at hi)
    simp only [List.length_singleton, List.singleton_append] at h
    exact ⟨h.1, _, h.2.1, h.2.2.1, h.2.2.2⟩

/-- A loop that has returned within a bound returns the same within any larger bound. -/
theorem AWI.decode_loop_mono (eos_sym : Int) (ydist : List Int → List α) :
    ∀ (fuel : Nat) (target : List Int) (t : Nat) (r : List Int × Nat),
      AWI.decode_loop eos_sym ydist fuel target t = some r →
      ∀ fuel1 : Nat, fuel ≤ fuel1 → AWI.decode_loop eos_sym ydist fuel1 target t = some r := by
  intro fuel
  induction fuel with
  | zero => intro target t r h; simp [AWI.decode_loop] at h
  | succ n ih =>
    intro target t r h fuel1 hle
    obtain ⟨f, rfl⟩ : ∃ f, fuel1 = f + 1 := ⟨fuel1 - 1, by omega⟩
    simp only [AWI.decode_loop] at h ⊢
    by_cases hc : target.getLastD 0 = eos_sym
    · simp only [hc, if_true] at h ⊢
      exact h
    · simp only [hc, if_false] at h ⊢
      exact ih _ _ r h f (by omega)

end DecodeLemmas
section DecodeInvariant
variable {α : Type} [LinearOrderedField α]

/-- The forced token `w = eos_sym` is pushed back as `eos_sym`. -/
theorem int_of_unsigned_of_int (x : Int) (h1 : -2147483648 ≤ x) (h2 : x < 2147483648) :
    int_of_unsigned (unsigned_of_int x) = x := by
  unfold int_of_unsigned unsigned_of_int
  omega

/-- An index of a vector of at most `2^31` cells is pushed back as itself. -/
theorem int_of_unsigned_small (w : Nat) (h : w < 2147483648) : int_of_unsigned w = (w : Int) := by
  unfold int_of_unsigned
  omega

/-- The last cell of a list of `t + 1` cells. -/
theorem getElem?_last (l : List Int) (t : Nat) (h : l.length = t + 1) :
    l[t]? = some (l.getLastD 0) := by
  have hne : l ≠ [] := by
    intro he
    rw [he] at h
    simp at h
  have h1 : l.getLast? = l[t]? := by
    rw [List.getLast?_eq_getElem?, h]
    simp
  rw [← h1, List.getLastD_eq_getLast?]
  cases hl : l.getLast? with
  | none => exact absurd (List.getLast?_eq_none_iff.1 hl) hne
  | some a => simp

/-- The loop of `AWI::decode` from a state `(target, t)` that its iterations can reach:
within `103 - t` tests of its condition it returns, and the state it returns satisfies
what the reached states satisfy and ends in `eos_sym`. -/
theorem AWI.decode_loop_spec (sos_sym eos_sym : Int) (ydist : List Int → List α)
    (h1 : -2147483648 ≤ eos_sym) (h2 : eos_sym < 2147483648) :
    ∀ (n : Nat) (target : List Int) (t : Nat),
      target.length = t + 1 → target.head? = some sos_sym →
      (∀ k : Nat, 0 < k → k + 1 < target.length → target[k]? ≠ some eos_sym) →
      t ≤ 102 → (t ≤ 101 ∨ target.getLastD 0 = eos_sym) →
      (∀ k : Nat, k < t → k ≤ 100 → target[k + 1]?
        = some (int_of_unsigned (AWI.decode_argmax (ydist (target.take (k + 1)))))) →
      102 ≤ t + n →
      ∃ (target1 : List Int) (t1 : Nat),
        AWI.decode_loop eos_sym ydist (n + 1) target t = some (target1, t1) ∧
        target1.length = t1 + 1 ∧ target1.head? = some sos_sym ∧
        (∀ k : Nat, 0 < k → k + 1 < target1.length → target1[k]? ≠ some eos_sym) ∧
        t1 ≤ 102 ∧ target1.getLastD 0 = eos_sym ∧
        (∀ k : Nat, k < t1 → k ≤ 100 → target1[k + 1]?
          = some (int_of_unsigned (AWI.decode_argmax (ydist (target1.take (k + 1)))))) := by
  intro n
  induction n with
  | zero =>
    intro target t ha hb hc hd he hf hn
    have hlast : target.getLastD 0 = eos_sym := by
      rcases he with he | he
      · omega
      · exact he
    exact ⟨target, t, by simp only [AWI.decode_loop, hlast, if_true], ha, hb, hc, hd, hlast, hf⟩
  | succ n ih =>
    intro target t ha hb hc hd he hf hn
    by_cases hlast : target.getLastD 0 = eos_sym
    · exact ⟨target, t, by simp only [AWI.decode_loop, hlast, if_true], ha, hb, hc, hd, hlast,
        hf⟩
    · have ht : t ≤ 101 := by
        rcases he with he | he
        · exact he
        · exact absurd he hlast
      have hne : target ≠ [] := by
        intro h0
        rw [h0] at ha
        simp at ha
      have hstep : AWI.decode_loop eos_sym ydist (n + 1 + 1) target t
          = AWI.decode_loop eos_sym ydist (n + 1)
              (target ++ [int_of_unsigned (if t > 100 then unsigned_of_int eos_sym
                else AWI.decode_argmax (ydist target))]) (t + 1) := by
        simp only [AWI.decode_loop, hlast, if_false]
      rw [hstep]
      apply ih
      · simp [ha]
      · rw [List.head?_append_of_ne_nil _ hne]
        exact hb
      · intro k hk0 hk
        simp only [List.length_append, List.length_singleton, ha] at hk
        have hkl : k < target.length := by omega
        rw [List.getElem?_append_left hkl]
        by_cases hkt : k + 1 < target.length
        · exact hc k hk0 hkt
        · have hkeq : k = t := by omega
          rw [hkeq, getElem?_last target t ha]
          intro hcon
          exact hlast (Option.some.inj hcon)
      · omega
      · by_cases h100 : t > 100
        · right
          simp only [h100, if_true, List.getLastD_concat]
          exact int_of_unsigned_of_int eos_sym h1 h2
        · left
          omega
      · intro k hk hk100
        by_cases hkt : k < t
        · have hkl : k + 1 < target.length := by omega
          rw [List.getElem?_append_left hkl,
            List.take_append_of_le_length (by omega : k + 1 ≤ target.length)]
          exact hf k hkt hk100
        · have hkeq : k = t := by omega
          subst hkeq
          have h100 : ¬ k > 100 := by omega
          have htake : (target ++ [int_of_unsigned (if k > 100 then unsigned_of_int eos_sym
              else AWI.decode_argmax (ydist target))]).take (k + 1) = target := by
            rw [← ha, List.take_left']
            rfl
          rw [htake, ← ha]
          simp [h100]
      · omega

end DecodeInvariant
section DecodeClaim
variable {α : Type} [LinearOrderedField α]

/-- C29: for every start and end symbol (`int` values) and every way `ydist` in which the
output distributions depend on the tokens fed so far, `AWI::decode` terminates: there is
one result `(target, t)` that the loop returns within any bound of at least 103 tests of
its condition. It takes `t <= 102` decoder steps; `target` has `t + 1 <= 103` tokens, its
first is `<s>`, its last is `</s>`, and `</s>` is at no position strictly between the
first and the last. At each unforced step (`t <= 100` before the step), if the
distribution is not empty and has at most `2^31` cells, the token chosen is the smallest
index that attains the maximum of the distribution. -/
theorem AWI.decode_terminates (sos_sym eos_sym : Int) (ydist : List Int → List α)
    (h1 : -2147483648 ≤ eos_sym) (h2 : eos_sym < 2147483648) :
    ∃ (target : List Int) (t : Nat),
      (∀ fuel : Nat, 103 ≤ fuel → AWI.decode sos_sym eos_sym ydist fuel = some (target, t)) ∧
      t ≤ 102 ∧ target.length = t + 1 ∧ target.length ≤ 103 ∧
      target.head? = some sos_sym ∧ target.getLast? = some eos_sym ∧
      (∀ k : Nat, 0 < k → k + 1 < target.length → target[k]? ≠ some eos_sym) ∧
      (∀ k : Nat, k < t → k ≤ 100 → ydist (target.take (k + 1)) ≠ [] →
        (ydist (target.take (k + 1))).length ≤ 2147483648 →
        ∃ (w : Nat) (pr : α), target[k + 1]? = some (w : Int) ∧
          (ydist (target.take (k + 1)))[w]? = some pr ∧
          (∀ (i : Nat) (d : α), (ydist (target.take (k + 1)))[i]? = some d → d ≤ pr) ∧
          (∀ (i : Nat) (d : α), i < w → (ydist (target.take (k + 1)))[i]? = some d →
            d < pr)) := by
  obtain ⟨target, t, hrun, ha, hb, hc, hd, hlast, hf⟩ :=
    AWI.decode_loop_spec sos_sym eos_sym ydist h1 h2 102 [sos_sym] 0 rfl rfl
      (by intro k hk0 hk; simp at hk) (by omega) (Or.inl (by omega))
      (by intro k hk; omega) (by omega)
  have hne : target ≠ [] := by
    intro h0
    rw [h0] at ha
    simp at ha
  refine ⟨target, t, ?_, hd, ha, by omega, hb, ?_, hc, ?_⟩
  · intro fuel hfuel
    exact AWI.decode_loop_mono eos_sym ydist 103 [sos_sym] 0 (target, t) hrun fuel hfuel
  · rw [← hlast, List.getLastD_eq_getLast?]
    cases hl : target.getLast? with
    | none => exact absurd (List.getLast?_eq_none_iff.1 hl) hne
    | some a => simp
  · intro k hk hk100 hdne hdlen
    obtain ⟨hw, pr, hp1, hp2, hp3⟩ := AWI.decode_argmax_spec (ydist (target.take (k + 1))) hdne
    refine ⟨AWI.decode_argmax (ydist (target.take (k + 1))), pr, ?_, hp1, hp2, hp3⟩
    rw [hf k hk hk100, int_of_unsigned_small _ (by omega)]

end DecodeClaim

/-- C29, witness: `<s> = 0`, `</s> = 1` and the distribution `(1, 3, 3)` at every step:
the decoding returns within 103 tests with a list that starts with 0 and ends with 1. -/
theorem AWI.decode_terminates_witness :
    ∃ (target : List Int) (t : Nat),
      AWI.decode 0 1 (fun _ => ([1, 3, 3] : List ℝ)) 103 = some (target, t) ∧
      t ≤ 102 ∧ target.length ≤ 103 ∧ target.head? = some 0 ∧ target.getLast? = some 1 := by
  obtain ⟨target, t, a1, a2, _, a4, a5, a6, _, _⟩ :=
    AWI.decode_terminates 0 1 (fun _ => ([1, 3, 3] : List ℝ)) (by norm_num) (by norm_num)
  exact ⟨target, t, a1 103 (le_refl 103), a2, a4, a5, a6⟩

/-! ## AWI::build_graph -/

section BuildGraphLemmas

/-- A loop whose body appends to a list a block that depends on the element only has
appended the blocks of all elements, in order. -/
theorem foldl_append_proj {σ β γ : Type} (step : σ → β → σ) (proj : σ → List γ)
    (f : β → List γ) (h : ∀ s x, proj (step s x) = proj s ++ f x) :
    ∀ (xs : List β) (s : σ), proj (xs.foldl step s) = proj s ++ xs.flatMap f := by
  intro xs
  induction xs with
  | nil => intro s; simp
  | cons x xs ih =>
    intro s
    simp only [List.foldl_cons, ih, h, List.flatMap_cons, List.append_assoc]

/-- A loop whose body adds to a counter a number that depends on the element only has
added the sum of those numbers. -/
theorem foldl_add_proj {σ β : Type} (step : σ → β → σ) (cnt : σ → Nat) (g : β → Nat)
    (h : ∀ s x, cnt (step s x) = cnt s + g x) :
    ∀ (xs : List β) (s : σ), cnt (xs.foldl step s) = cnt s + (xs.map g).sum := by
  intro xs
  induction xs with
  | nil => intro s; simp
  | cons x xs ih =>
    intro s
    simp only [List.foldl_cons, ih, h, List.map_cons, List.sum_cons, Nat.add_assoc]

/-- What one step `t` of the target loop of `AWI::build_graph` appends and adds. -/
theorem AWI.build_graph_step_closed (osent : List (List Int)) (s : AWI.BuildState) (t : Nat) :
    (AWI.build_graph_step osent s t).errs = s.errs ++ (List.range osent.length).flatMap
      (fun i => if t < size_minus_one (osent.getD i []).length
        then [(i, t, (osent.getD i [])[t + 1]?)] else []) ∧
    (AWI.build_graph_step osent s t).tgt_words = s.tgt_words + ((List.range osent.length).map
      (fun i => if t < size_minus_one (osent.getD i []).length then 1 else 0)).sum ∧
    (AWI.build_graph_step osent s t).context_writes = s.context_writes
      ++ (List.range osent.length).flatMap
        (fun i => if t < size_minus_one (osent.getD i []).length then []
          else if t = size_minus_one (osent.getD i []).length then [(i, t)] else []) ∧
    (AWI.build_graph_step osent s t).decoder_inputs = s.decoder_inputs
      ++ [osent.map (fun p => if t < p.length then p.getD t 0 else -1)] := by
  refine ⟨?_, ?_, ?_, ?_⟩
  · exact foldl_append_proj (AWI.build_graph_sentence osent t) AWI.BuildState.errs _
      (by intro s i; unfold AWI.build_graph_sentence; split_ifs <;> simp) _ _
  · exact foldl_add_proj (AWI.build_graph_sentence osent t) AWI.BuildState.tgt_words _
      (by intro s i; unfold AWI.build_graph_sentence; split_ifs <;> simp) _ _
  · exact foldl_append_proj (AWI.build_graph_sentence osent t) AWI.BuildState.context_writes _
      (by intro s i; unfold AWI.build_graph_sentence; split_ifs <;> simp) _ _
  · have h := foldl_append_proj (AWI.build_graph_sentence osent t)
      AWI.BuildState.decoder_inputs (fun _ => [])
      (by intro s i; unfold AWI.build_graph_sentence; split_ifs <;> simp)
      (List.range osent.length)
      { s with decoder_inputs := s.decoder_inputs
          ++ [osent.map (fun p => if t < p.length then p.getD t 0 else -1)] }
    have hnil : (List.range osent.length).flatMap (fun _ => ([] : List (List Int))) = [] := by
      simp
    rw [hnil, List.append_nil] at h
    exact h

/-- What the target loops of `AWI::build_graph` leave: the entries of `errs`, the counter,
the assignments of contexts and the decoder inputs, step by step and sentence by
sentence. -/
theorem AWI.build_graph_closed (osent : List (List Int)) (tgt_words : Nat) :
    (AWI.build_graph osent tgt_words).errs
      = (List.range (osent.foldl (fun oslen p => if oslen < p.length then p.length else oslen)
          0)).flatMap (fun t => (List.range osent.length).flatMap
            (fun i => if t < size_minus_one (osent.getD i []).length
              then [(i, t, (osent.getD i [])[t + 1]?)] else [])) ∧
    (AWI.build_graph osent tgt_words).tgt_words
      = tgt_words + ((List.range (osent.foldl
          (fun oslen p => if oslen < p.length then p.length else oslen) 0)).map
          (fun t => ((List.range osent.length).map
            (fun i => if t < size_minus_one (osent.getD i []).length then 1 else 0)).sum)).sum ∧
    (AWI.build_graph osent tgt_words).context_writes
      = (List.range (osent.foldl (fun oslen p => if oslen < p.length then p.length else oslen)
          0)).flatMap (fun t => (List.range osent.length).flatMap
            (fun i => if t < size_minus_one (osent.getD i []).length then []
              else if t = size_minus_one (osent.getD i []).length then [(i, t)] else [])) ∧
    (AWI.build_graph osent tgt_words).decoder_inputs
      = (List.range (osent.foldl (fun oslen p => if oslen < p.length then p.length else oslen)
          0)).flatMap
          (fun t => [osent.map (fun p => if t < p.length then p.getD t 0 else -1)]) := by
  refine ⟨?_, ?_, ?_, ?_⟩
  · have h := foldl_append_proj (AWI.build_graph_step osent) AWI.BuildState.errs _
      (fun s t => (AWI.build_graph_step_closed osent s t).1)
      (List.range (osent.foldl (fun oslen p => if oslen < p.length then p.length else oslen) 0))
      ⟨[], tgt_words, List.replicate osent.length none, [], []⟩
    simpa [AWI.build_graph] using h
  · have h := foldl_add_proj (AWI.build_graph_step osent) AWI.BuildState.tgt_words _
      (fun s t => (AWI.build_graph_step_closed osent s t).2.1)
      (List.range (osent.foldl (fun oslen p => if oslen < p.length then p.length else oslen) 0))
      ⟨[], tgt_words, List.replicate osent.length none, [], []⟩
    simpa [AWI.build_graph] using h
  · have h := foldl_append_proj (AWI.build_graph_step osent) AWI.BuildState.context_writes _
      (fun s t => (AWI.build_graph_step_closed osent s t).2.2.1)
      (List.range (osent.foldl (fun oslen p => if oslen < p.length then p.length else oslen) 0))
      ⟨[], tgt_words, List.replicate osent.length none, [], []⟩
    simpa [AWI.build_graph] using h
  · have h := foldl_append_proj (AWI.build_graph_step osent) AWI.BuildState.decoder_inputs _
      (fun s t => (AWI.build_graph_step_closed osent s t).2.2.2)
      (List.range (osent.foldl (fun oslen p => if oslen < p.length then p.length else oslen) 0))
      ⟨[], tgt_words, List.replicate osent.length none, [], []⟩
    simpa [AWI.build_graph] using h

end BuildGraphLemmas
section BuildGraphCount

/-- The longest length found by the first loop of `AWI::build_graph` is at least the
starting value and at least the length of every sentence. -/
theorem oslen_ge (l : List (List Int)) :
    ∀ a : Nat, a ≤ l.foldl (fun oslen p => if oslen < p.length then p.length else oslen) a ∧
      ∀ p ∈ l, p.length ≤ l.foldl (fun oslen p => if oslen < p.length then p.length else oslen) a := by
  induction l with
  | nil => intro a; simp
  | cons q l ih =>
    intro a
    simp only [List.foldl_cons, List.mem_cons]
    have h := ih (if a < q.length then q.length else a)
    refine ⟨le_trans ?_ h.1, ?_⟩
    · split_ifs <;> omega
    · intro p hp
      rcases hp with rfl | hp
      · refine le_trans ?_ h.1
        split_ifs <;> omega
      · exact h.2 p hp

/-- On a length between 1 and 2^64 - 1, the unsigned `size() - 1` is the length less one. -/
theorem size_minus_one_eq (n : Nat) (h1 : 1 ≤ n) (h2 : n < 18446744073709551616) :
    size_minus_one n = n - 1 := by
  unfold size_minus_one
  omega

/-- Summing over the steps below `L` the number of sentences still open at the step
counts, per sentence, the steps below `L` at which it is open. -/
theorem sum_open_steps (m : Nat → Nat) (N : Nat) : ∀ L : Nat,
    ((List.range L).map (fun t => ((List.range N).map
        (fun i => if t < m i then 1 else 0)).sum)).sum
      = ((List.range N).map (fun i => min L (m i))).sum := by
  intro L
  induction L with
  | zero => simp
  | succ L ih =>
    rw [List.range_succ, List.map_append, List.sum_append, ih]
    simp only [List.map_cons, List.map_nil, List.sum_cons, List.sum_nil, Nat.add_zero]
    rw [← List.sum_map_add]
    congr 1
    apply List.map_congr_left
    intro i _
    split_ifs <;> omega

/-- Mapping a function of the i-th sentence over the indices is mapping it over the
sentences. -/
theorem map_range_getD {β : Type} (l : List (List Int)) (g : List Int → β) :
    (List.range l.length).map (fun i => g (l.getD i [])) = l.map g := by
  apply List.ext_getElem?
  intro i
  by_cases h : i < l.length
  · simp [List.getElem?_range, h, List.getD, List.getElem?_eq_getElem]
  · simp [h, List.getElem?_eq_none, Nat.le_of_not_lt]

/-- A loop over the indices below `n` that contributes at one index only. -/
theorem flatMap_range_single {γ : Type} (a : Nat) (g : Nat → List γ) : ∀ n : Nat,
    (List.range n).flatMap (fun k => if k = a then g k else []) = if a < n then g a else [] := by
  intro n
  induction n with
  | zero => simp
  | succ n ih =>
    rw [List.range_succ, List.flatMap_append, ih]
    simp only [List.flatMap_cons, List.flatMap_nil, List.append_nil]
    by_cases h1 : a < n
    · have h2 : ¬ n = a := by omega
      have h3 : a < n + 1 := by omega
      simp [h1, h2, h3]
    · by_cases h2 : n = a
      · subst h2
        simp
      · have h3 : ¬ a < n + 1 := by omega
        simp [h1, h2, h3]

end BuildGraphCount
section BuildGraphFields

/-- The i-th sentence of a batch whose sentences all have between 1 and 2^31 - 1 tokens
has such a length, and the first loop's longest length covers it. -/
theorem AWI.sentence_bounds (osent : List (List Int))
    (h : ∀ p ∈ osent, 1 ≤ p.length ∧ p.length < 2147483648) (i : Nat) (hi : i < osent.length) :
    1 ≤ (osent.getD i []).length ∧ (osent.getD i []).length < 2147483648 ∧
    size_minus_one (osent.getD i []).length = (osent.getD i []).length - 1 ∧
    (osent.getD i []).length
      ≤ osent.foldl (fun oslen p => if oslen < p.length then p.length else oslen) 0 := by
  have hmem : osent.getD i [] ∈ osent := by
    have : osent.getD i [] = osent[i] := by
      simp [List.getD, List.getElem?_eq_getElem hi]
    rw [this]
    exact List.getElem_mem hi
  have hb := h _ hmem
  exact ⟨hb.1, hb.2, size_minus_one_eq _ hb.1 (by omega), (oslen_ge osent 0).2 _ hmem⟩

/-- The number of (step, sentence) pairs at which `AWI::build_graph` takes the first
branch is the sum over the sentences of their lengths less one. -/
theorem AWI.open_steps_sum (osent : List (List Int))
    (h : ∀ p ∈ osent, 1 ≤ p.length ∧ p.length < 2147483648) :
    ((List.range (osent.foldl (fun oslen p => if oslen < p.length then p.length else oslen)
        0)).map (fun t => ((List.range osent.length).map
          (fun i => if t < size_minus_one (osent.getD i []).length then 1 else 0)).sum)).sum
      = (osent.map (fun p => p.length - 1)).sum := by
  have h1 : ∀ t : Nat, (List.range osent.length).map
        (fun i => if t < size_minus_one (osent.getD i []).length then 1 else 0)
      = (List.range osent.length).map
        (fun i => if t < (osent.getD i []).length - 1 then 1 else 0) := by
    intro t
    apply List.map_congr_left
    intro i hi
    rw [(AWI.sentence_bounds osent h i (List.mem_range.mp hi)).2.2.1]
  simp only [h1]
  rw [sum_open_steps (fun i => (osent.getD i []).length - 1)]
  have h2 : (List.range osent.length).map
        (fun i => min (osent.foldl (fun oslen p => if oslen < p.length then p.length else oslen)
          0) ((osent.getD i []).length - 1))
      = (List.range osent.length).map (fun i => (osent.getD i []).length - 1) := by
    apply List.map_congr_left
    intro i hi
    have := (AWI.sentence_bounds osent h i (List.mem_range.mp hi)).2.2.2
    omega
  rw [h2]
  exact congrArg List.sum (map_range_getD osent (fun p => p.length - 1))

/-- The length of a concatenation of blocks is the sum of the lengths of the blocks. -/
theorem length_flatMap_sum {β γ : Type} (F : β → List γ) : ∀ l : List β,
    (l.flatMap F).length = (l.map (fun t => (F t).length)).sum := by
  intro l
  induction l with
  | nil => rfl
  | cons x l ih => rw [List.flatMap_cons, List.length_append, ih, List.map_cons, List.sum_cons]

/-- The number of terms `AWI::build_graph` pushes on `errs`. -/
theorem AWI.build_graph_errs_length (osent : List (List Int)) (tgt_words : Nat)
    (h : ∀ p ∈ osent, 1 ≤ p.length ∧ p.length < 2147483648) :
    (AWI.build_graph osent tgt_words).errs.length = (osent.map (fun p => p.length - 1)).sum := by
  have hE : ∀ t : Nat, ((List.range osent.length).flatMap
        (fun i => if t < size_minus_one (osent.getD i []).length
          then [(i, t, (osent.getD i [])[t + 1]?)] else [])).length
      = ((List.range osent.length).map
        (fun i => if t < size_minus_one (osent.getD i []).length then 1 else 0)).sum := by
    intro t
    rw [length_flatMap_sum]
    refine congrArg List.sum (List.map_congr_left ?_)
    intro i _
    split_ifs <;> rfl
  rw [(AWI.build_graph_closed osent tgt_words).1, length_flatMap_sum]
  simp only [hE]
  exact AWI.open_steps_sum osent h

/-- The entries of `errs` after `AWI::build_graph`: one for each sentence and each step
that has a next token, taken at that next token. -/
theorem AWI.build_graph_errs_mem (osent : List (List Int)) (tgt_words : Nat)
    (h : ∀ p ∈ osent, 1 ≤ p.length ∧ p.length < 2147483648) (i t : Nat) (idx : Option Int) :
    (i, t, idx) ∈ (AWI.build_graph osent tgt_words).errs ↔
      i < osent.length ∧ t + 1 < (osent.getD i []).length ∧
        idx = (osent.getD i [])[t + 1]? := by
  rw [(AWI.build_graph_closed osent tgt_words).1]
  simp only [List.mem_flatMap, List.mem_range]
  constructor
  · rintro ⟨t1, _, i1, hi1, hmem⟩
    have hb := AWI.sentence_bounds osent h i1 hi1
    split_ifs at hmem with hc
    · simp only [List.mem_singleton, Prod.mk.injEq] at hmem
      obtain ⟨rfl, rfl, rfl⟩ := hmem
      rw [hb.2.2.1] at hc
      exact ⟨hi1, by omega, rfl⟩
    · simp at hmem
  · rintro ⟨hi, ht, hidx⟩
    have hb := AWI.sentence_bounds osent h i hi
    refine ⟨t, by omega, i, hi, ?_⟩
    rw [if_pos (by rw [hb.2.2.1]; omega), hidx]
    exact List.mem_singleton.mpr rfl

/-- The assignments of `v_decoder_context[i]` made by `AWI::build_graph`: one, at the last
step of sentence i. -/
theorem AWI.build_graph_context_once (osent : List (List Int)) (tgt_words : Nat)
    (h : ∀ p ∈ osent, 1 ≤ p.length ∧ p.length < 2147483648) (i : Nat) (hi : i < osent.length) :
    (AWI.build_graph osent tgt_words).context_writes.filter (fun w => decide (w.1 = i))
      = [(i, (osent.getD i []).length - 1)] := by
  have hb := AWI.sentence_bounds osent h i hi
  rw [(AWI.build_graph_closed osent tgt_words).2.2.1, List.filter_flatMap]
  have hin : ∀ t : Nat, List.filter (fun w => decide (w.1 = i))
        ((List.range osent.length).flatMap
          (fun k => if t < size_minus_one (osent.getD k []).length then []
            else if t = size_minus_one (osent.getD k []).length then [(k, t)] else []))
      = if t = (osent.getD i []).length - 1 then [(i, t)] else [] := by
    intro t
    rw [List.filter_flatMap]
    have hk : ∀ k : Nat, List.filter (fun w => decide (w.1 = i))
          (if t < size_minus_one (osent.getD k []).length then []
            else if t = size_minus_one (osent.getD k []).length then [(k, t)] else [])
        = if k = i then (if t = (osent.getD i []).length - 1 then [(i, t)] else []) else [] := by
      intro k
      by_cases hki : k = i
      · subst hki
        rw [hb.2.2.1]
        rw [if_pos rfl]
        by_cases h1 : t < (osent.getD k []).length - 1
        · have h2 : ¬ t = (osent.getD k []).length - 1 := by omega
          rw [if_pos h1, if_neg h2]
          rfl
        · by_cases h2 : t = (osent.getD k []).length - 1
          · rw [if_neg h1, if_pos h2]
            simp
          · rw [if_neg h1, if_neg h2]
            rfl
      · split_ifs <;> simp [hki]
    simp only [hk]
    rw [flatMap_range_single i
      (fun _ => if t = (osent.getD i []).length - 1 then [(i, t)] else []), if_pos hi]
  simp only [hin]
  rw [flatMap_range_single ((osent.getD i []).length - 1) (fun t => [(i, t)]),
    if_pos (by have := hb.2.2.2; omega)]

end BuildGraphFields
section BuildGraphContext

/-- A loop whose body assigns to cells of a vector the assignments of a block that depends
on the element only has made the assignments of all the blocks, in order. -/
theorem foldl_assign_proj {σ β γ : Type} (step : σ → β → σ) (proj : σ → List (Option γ))
    (f : β → List (Nat × γ))
    (h : ∀ s x, proj (step s x) = (f x).foldl (fun v w => v.set w.1 (some w.2)) (proj s)) :
    ∀ (xs : List β) (s : σ), proj (xs.foldl step s)
      = (xs.flatMap f).foldl (fun v w => v.set w.1 (some w.2)) (proj s) := by
  intro xs
  induction xs with
  | nil => intro s; simp
  | cons x xs ih =>
    intro s
    simp only [List.foldl_cons, ih, h, List.flatMap_cons, List.foldl_append]

/-- Assignments to other cells leave cell i as it was. -/
theorem assign_other {γ : Type} (i : Nat) : ∀ (ws : List (Nat × γ)) (v : List (Option γ)),
    ws.filter (fun w => decide (w.1 = i)) = [] →
    (ws.foldl (fun v w => v.set w.1 (some w.2)) v)[i]? = v[i]? := by
  intro ws
  induction ws with
  | nil => intro v _; rfl
  | cons w ws ih =>
    intro v hf
    by_cases hw : w.1 = i
    · simp [List.filter_cons, hw] at hf
    · have hf2 : ws.filter (fun w => decide (w.1 = i)) = [] := by
        simpa [List.filter_cons, hw] using hf
      rw [List.foldl_cons, ih _ hf2, List.getElem?_set_ne hw]

/-- A single assignment to cell i among the assignments leaves its value in cell i. -/
theorem assign_once {γ : Type} (i : Nat) (x : γ) :
    ∀ (ws : List (Nat × γ)) (v : List (Option γ)), i < v.length →
    ws.filter (fun w => decide (w.1 = i)) = [(i, x)] →
    (ws.foldl (fun v w => v.set w.1 (some w.2)) v)[i]? = some (some x) := by
  intro ws
  induction ws with
  | nil => intro v _ hf; simp at hf
  | cons w ws ih =>
    intro v hi hf
    by_cases hw : w.1 = i
    · have hf2 : w = (i, x) ∧ ws.filter (fun w => decide (w.1 = i)) = [] := by
        simpa [List.filter_cons, hw] using hf
      rw [List.foldl_cons, assign_other i ws _ hf2.2, hf2.1]
      simp [hi]
    · have hf2 : ws.filter (fun w => decide (w.1 = i)) = [(i, x)] := by
        simpa [List.filter_cons, hw] using hf
      rw [List.foldl_cons]
      exact ih _ (by simpa using hi) hf2

/-- The vector `v_decoder_context` after `AWI::build_graph` is the cleared vector with the
recorded assignments made in order. -/
theorem AWI.build_graph_context_replay (osent : List (List Int)) (tgt_words : Nat) :
    (AWI.build_graph osent tgt_words).v_decoder_context
      = (AWI.build_graph osent tgt_words).context_writes.foldl
          (fun v w => v.set w.1 (some w.2)) (List.replicate osent.length none) := by
  rw [(AWI.build_graph_closed osent tgt_words).2.2.1]
  have hstep : ∀ (s : AWI.BuildState) (t : Nat),
      (AWI.build_graph_step osent s t).v_decoder_context
        = ((List.range osent.length).flatMap
            (fun i => if t < size_minus_one (osent.getD i []).length then []
              else if t = size_minus_one (osent.getD i []).length then [(i, t)] else [])).foldl
            (fun v w => v.set w.1 (some w.2)) s.v_decoder_context := by
    intro s t
    exact foldl_assign_proj (AWI.build_graph_sentence osent t)
      AWI.BuildState.v_decoder_context _
      (by intro s i; unfold AWI.build_graph_sentence; split_ifs <;> simp) _ _
  have h := foldl_assign_proj (AWI.build_graph_step osent) AWI.BuildState.v_decoder_context _
    hstep
    (List.range (osent.foldl (fun oslen p => if oslen < p.length then p.length else oslen) 0))
    ⟨[], tgt_words, List.replicate osent.length none, [], []⟩
  simpa [AWI.build_graph] using h

end BuildGraphContext
/-- C30: for every batch `osent` in which each sentence has at least one token (and fewer
than `2^31`, so that its length is an `int`), `AWI::build_graph` pushes exactly
`sum_i (|osent_i| - 1)` terms on `errs` and increases `tgt_words` by the same amount; the
terms are exactly those of a sentence `i` and a step `t` with `t + 1 < |osent_i|`, each
taken at index `osent[i][t + 1]`; the decoder input of step `t` holds `osent[i][t]` for the
sentences that reach step `t` and `-1` for the shorter ones; and `v_decoder_context[i]` is
assigned exactly once, at step `|osent_i| - 1`, which is what the vector holds at the
end. -/
theorem AWI.build_graph_terms_and_contexts (osent : List (List Int)) (tgt_words : Nat)
    (h : ∀ p ∈ osent, 1 ≤ p.length ∧ p.length < 2147483648) :
    (AWI.build_graph osent tgt_words).errs.length = (osent.map (fun p => p.length - 1)).sum ∧
    (AWI.build_graph osent tgt_words).tgt_words
      = tgt_words + (osent.map (fun p => p.length - 1)).sum ∧
    (∀ (i t : Nat) (idx : Option Int),
      (i, t, idx) ∈ (AWI.build_graph osent tgt_words).errs ↔
        i < osent.length ∧ t + 1 < (osent.getD i []).length ∧
          idx = (osent.getD i [])[t + 1]?) ∧
    (AWI.build_graph osent tgt_words).decoder_inputs
      = (List.range (osent.foldl (fun oslen p => if oslen < p.length then p.length else oslen)
          0)).map (fun t => osent.map (fun p => if t < p.length then p.getD t 0 else -1)) ∧
    (∀ i : Nat, i < osent.length →
      (AWI.build_graph osent tgt_words).context_writes.filter (fun w => decide (w.1 = i))
        = [(i, (osent.getD i []).length - 1)] ∧
      (AWI.build_graph osent tgt_words).v_decoder_context[i]?
        = some (some ((osent.getD i []).length - 1))) := by
  refine ⟨AWI.build_graph_errs_length osent tgt_words h, ?_,
    AWI.build_graph_errs_mem osent tgt_words h, ?_, ?_⟩
  · rw [(AWI.build_graph_closed osent tgt_words).2.1, AWI.open_steps_sum osent h]
  · rw [(AWI.build_graph_closed osent tgt_words).2.2.2]
    generalize List.range (osent.foldl
      (fun oslen p => if oslen < p.length then p.length else oslen) 0) = ts
    induction ts with
    | nil => rfl
    | cons t ts ih => rw [List.flatMap_cons, ih]; rfl
  · intro i hi
    have hw := AWI.build_graph_context_once osent tgt_words h i hi
    refine ⟨hw, ?_⟩
    rw [AWI.build_graph_context_replay]
    exact assign_once i _ _ _ (by simpa using hi) hw

/-- C30, witness: the batch `((1, 2, 3), (4))` with the counter at 5: two terms, the
counter at 7, decoder inputs `(1, 4)`, `(2, -1)`, `(3, -1)`, and the contexts taken at
steps 2 and 0. -/
theorem AWI.build_graph_terms_and_contexts_witness :
    (∀ p ∈ ([[1, 2, 3], [4]] : List (List Int)), 1 ≤ p.length ∧ p.length < 2147483648) ∧
    (AWI.build_graph [[1, 2, 3], [4]] 5).errs.length = 2 ∧
    (AWI.build_graph [[1, 2, 3], [4]] 5).tgt_words = 7 ∧
    (AWI.build_graph [[1, 2, 3], [4]] 5).decoder_inputs = [[1, 4], [2, -1], [3, -1]] ∧
    (AWI.build_graph [[1, 2, 3], [4]] 5).v_decoder_context[0]? = some (some 2) ∧
    (AWI.build_graph [[1, 2, 3], [4]] 5).v_decoder_context[1]? = some (some 0) := by
  have hb : ∀ p ∈ ([[1, 2, 3], [4]] : List (List Int)),
      1 ≤ p.length ∧ p.length < 2147483648 := by
    intro p hp
    simp only [List.mem_cons, List.mem_singleton, List.not_mem_nil, or_false] at hp
    rcases hp with rfl | rfl <;> exact ⟨by decide, by decide⟩
  obtain ⟨a1, a2, _, a4, a5⟩ := AWI.build_graph_terms_and_contexts [[1, 2, 3], [4]] 5 hb
  refine ⟨hb, a1, a2, ?_, (a5 0 (by decide)).2, (a5 1 (by decide)).2⟩
  rw [a4]
  decide
end cnn
